import Mathlib

/-!
# Verification development for the JoeScan Pinchot client library

A shallow embedding of the phase-table scheduler (`PhaseTable.cpp`), the scan-system
coordinator (`ScanManager.cpp`) and the per-head profile reassembly (`ScanHead.cpp`,
`DataPacket.cpp`, `ProfileBuilder.hpp`), with theorems about them.

Conventions of the embedding:
* `uint32_t` / `int32_t` values are `Nat` / `Int`; every arithmetic operation of the
  source that can wrap is followed by an explicit reduction (`u32`, `i32`);
* a `ScanHead *` is a natural number (the address), and the objects it points to live in
  a heap `Nat → ScanHead`;
* `std::map` is an association list;
* results of socket operations are parameters of the functions that perform them.
-/

set_option autoImplicit false

namespace joescan

/-! ## Machine integers -/

/-- Conversion of an integer value to `uint32_t` (reduction modulo 2^32). -/
def u32 (x : Int) : Nat := (x % 4294967296).toNat

/-- Conversion of a `uint32_t` bit pattern to `int32_t` (twos complement). -/
def i32 (n : Nat) : Int :=
  if n % 4294967296 < 2147483648 then ((n % 4294967296 : Nat) : Int)
  else ((n % 4294967296 : Nat) : Int) - 4294967296

/-! ## Public enumerations and error codes (`joescan_pinchot.h`) -/

def JS_ERROR_NONE : Int := 0
def JS_ERROR_INTERNAL : Int := -1
def JS_ERROR_NULL_ARGUMENT : Int := -2
def JS_ERROR_INVALID_ARGUMENT : Int := -3
def JS_ERROR_NOT_CONNECTED : Int := -4
def JS_ERROR_CONNECTED : Int := -5
def JS_ERROR_NOT_SCANNING : Int := -6
def JS_ERROR_SCANNING : Int := -7
def JS_ERROR_VERSION_COMPATIBILITY : Int := -8
def JS_ERROR_ALREADY_EXISTS : Int := -9
def JS_ERROR_NO_MORE_ROOM : Int := -10
def JS_ERROR_NETWORK : Int := -11
def JS_ERROR_NOT_DISCOVERED : Int := -12
def JS_ERROR_UNKNOWN : Int := -13

/-- The enumeration `jsCamera`; values are cast from and to `uint32_t` by the source. -/
abbrev jsCamera := Nat
def JS_CAMERA_INVALID : jsCamera := 0
def JS_CAMERA_A : jsCamera := 1
def JS_CAMERA_B : jsCamera := 2
def JS_CAMERA_MAX : jsCamera := 3

/-- The enumeration `jsLaser`. -/
abbrev jsLaser := Nat
def JS_LASER_INVALID : jsLaser := 0
def JS_LASER_1 : jsLaser := 1
def JS_LASER_2 : jsLaser := 2
def JS_LASER_3 : jsLaser := 3
def JS_LASER_4 : jsLaser := 4
def JS_LASER_5 : jsLaser := 5
def JS_LASER_6 : jsLaser := 6
def JS_LASER_MAX : jsLaser := 7

inductive jsUnits where
  | JS_UNITS_INVALID
  | JS_UNITS_INCHES
  | JS_UNITS_MILLIMETER
  deriving DecidableEq, Repr

inductive jsCableOrientation where
  | JS_CABLE_ORIENTATION_INVALID
  | JS_CABLE_ORIENTATION_DOWNSTREAM
  | JS_CABLE_ORIENTATION_UPSTREAM
  deriving DecidableEq, Repr

inductive jsDataFormat where
  | JS_DATA_FORMAT_INVALID
  | JS_DATA_FORMAT_XY_BRIGHTNESS_FULL
  | JS_DATA_FORMAT_XY_BRIGHTNESS_HALF
  | JS_DATA_FORMAT_XY_BRIGHTNESS_QUARTER
  | JS_DATA_FORMAT_XY_FULL
  | JS_DATA_FORMAT_XY_HALF
  | JS_DATA_FORMAT_XY_QUARTER
  deriving DecidableEq, Repr

/-- The structure `jsScanHeadConfiguration`: nine `uint32_t` fields. -/
structure jsScanHeadConfiguration where
  camera_exposure_time_min_us : Nat
  camera_exposure_time_max_us : Nat
  camera_exposure_time_def_us : Nat
  laser_on_time_min_us : Nat
  laser_on_time_max_us : Nat
  laser_on_time_def_us : Nat
  laser_detection_threshold : Nat
  saturation_threshold : Nat
  saturation_percentage : Nat
  deriving DecidableEq, Repr, Inhabited

/-! ## Scan head (`ScanHead.hpp`, `ScanHead.cpp`) -/

inductive ConfigurationGroupPrimary where
  | ConfigurationGroupPrimary_INVALID
  | ConfigurationGroupPrimary_CAMERA
  | ConfigurationGroupPrimary_LASER
  deriving DecidableEq, Repr, Inhabited

/-- Modelled from the spec: the generated `ScanHeadSpecificationT` (the Head Type
Specification decoded from the embedded blob) is not part of the sources; its fields are
the ones the code reads from `m_spec`, a configuration group being a
`(camera_port, laser_port)` pair. -/
structure ScanHeadSpec where
  min_scan_period_us : Nat
  max_scan_period_us : Nat
  min_camera_exposure_us : Nat
  max_camera_exposure_us : Nat
  min_laser_on_time_us : Nat
  max_laser_on_time_us : Nat
  max_camera_rows : Nat
  max_camera_columns : Nat
  number_of_cameras : Nat
  number_of_lasers : Nat
  camera_port_cable_upstream : Nat
  configuration_group_primary : ConfigurationGroupPrimary
  configuration_groups : List (Nat × Nat)
  camera_port_to_id : List Nat
  laser_port_to_id : List Nat
  max_configuration_groups : Nat
  deriving DecidableEq, Repr, Inhabited

/-- The private structure `ScanHead::ScanPair`. -/
structure ScanPair where
  camera : jsCamera
  laser : jsLaser
  config : jsScanHeadConfiguration
  end_offset_us : Nat
  deriving DecidableEq, Repr

/-- The members of `ScanHead` that the scheduler and the coordinator read or write.
`m_status_min_scan_period_us` is `m_status.min_scan_period_us`. -/
structure ScanHead where
  m_spec : ScanHeadSpec
  m_status_min_scan_period_us : Nat
  m_config_default : jsScanHeadConfiguration
  m_config : jsScanHeadConfiguration
  m_format : jsDataFormat
  m_units : jsUnits
  m_cable : jsCableOrientation
  m_scan_pairs : List ScanPair
  m_serial_number : Nat
  m_id : Nat
  m_control_tcp_fd : Int
  m_scan_period_us : Nat
  m_data_type_mask : Nat
  m_data_stride : Nat
  m_is_scanning : Bool
  deriving DecidableEq, Repr

def kMaxSaturationPercentage : Nat := 100
def kMaxSaturationThreshold : Nat := 1023
def kMaxLaserDetectionThreshold : Nat := 1023

namespace ScanHead

def GetConfiguration (h : ScanHead) : jsScanHeadConfiguration := h.m_config

def GetMinScanPeriod (h : ScanHead) : Nat :=
  if h.m_status_min_scan_period_us < h.m_spec.min_scan_period_us then
    h.m_spec.min_scan_period_us
  else h.m_status_min_scan_period_us

def GetMaxScanPairs (h : ScanHead) : Nat := h.m_spec.max_configuration_groups

def IsConnected (h : ScanHead) : Bool := decide (0 < h.m_control_tcp_fd)

def IsCameraValid (h : ScanHead) (camera : jsCamera) : Bool :=
  if JS_CAMERA_INVALID ≥ camera then false
  else decide (camera - 1 < h.m_spec.number_of_cameras)

def IsLaserValid (h : ScanHead) (laser : jsLaser) : Bool :=
  if JS_LASER_INVALID ≥ laser then false
  else decide (laser - 1 < h.m_spec.number_of_lasers)

def CameraPortToId (h : ScanHead) (port : Nat) : jsCamera :=
  if port ≥ h.m_spec.camera_port_to_id.length then JS_CAMERA_INVALID
  else h.m_spec.camera_port_to_id.getD port 0

/-- `std::find` over the port table: the position of the first entry equal to the id,
`-1` when there is none. -/
def CameraIdToPort (h : ScanHead) (camera : jsCamera) : Int :=
  if h.m_spec.camera_port_to_id.indexOf camera = h.m_spec.camera_port_to_id.length then -1
  else (h.m_spec.camera_port_to_id.indexOf camera : Int)

def LaserPortToId (h : ScanHead) (port : Nat) : jsLaser :=
  if port ≥ h.m_spec.laser_port_to_id.length then JS_LASER_INVALID
  else h.m_spec.laser_port_to_id.getD port 0

def LaserIdToPort (h : ScanHead) (laser : jsLaser) : Int :=
  if h.m_spec.laser_port_to_id.indexOf laser = h.m_spec.laser_port_to_id.length then -1
  else (h.m_spec.laser_port_to_id.indexOf laser : Int)

/-- The loop of `GetPairedCamera`: the last group whose laser port matches wins. -/
def pairedCameraLoop (h : ScanHead) (laser_port : Nat) :
    List (Nat × Nat) → jsCamera → jsCamera
  | [], camera => camera
  | grp :: rest, camera =>
    pairedCameraLoop h laser_port rest
      (if grp.2 = laser_port then h.CameraPortToId grp.1 else camera)

def GetPairedCamera (h : ScanHead) (laser : jsLaser) : jsCamera :=
  if h.m_spec.configuration_group_primary =
      ConfigurationGroupPrimary.ConfigurationGroupPrimary_CAMERA then JS_CAMERA_INVALID
  else if h.IsLaserValid laser = false then JS_CAMERA_INVALID
  else pairedCameraLoop h (u32 (h.LaserIdToPort laser)) h.m_spec.configuration_groups
    JS_CAMERA_INVALID

/-- The loop of `GetPairedLaser`: the last group whose camera port matches wins. -/
def pairedLaserLoop (h : ScanHead) (camera_port : Nat) :
    List (Nat × Nat) → jsLaser → jsLaser
  | [], laser => laser
  | grp :: rest, laser =>
    pairedLaserLoop h camera_port rest
      (if grp.1 = camera_port then h.LaserPortToId grp.2 else laser)

def GetPairedLaser (h : ScanHead) (camera : jsCamera) : jsLaser :=
  if h.m_spec.configuration_group_primary =
      ConfigurationGroupPrimary.ConfigurationGroupPrimary_LASER then JS_LASER_INVALID
  else if h.IsCameraValid camera = false then JS_LASER_INVALID
  else pairedLaserLoop h (u32 (h.CameraIdToPort camera)) h.m_spec.configuration_groups
    JS_LASER_INVALID

def IsPairValid (h : ScanHead) (camera : jsCamera) (laser : jsLaser) : Bool :=
  if h.CameraIdToPort camera < 0 then false
  else if h.LaserIdToPort laser < 0 then false
  else h.m_spec.configuration_groups.any
    (fun grp => decide (u32 (h.CameraIdToPort camera) = grp.1 ∧
      u32 (h.LaserIdToPort laser) = grp.2))

def IsConfigurationValid (h : ScanHead) (cfg : jsScanHeadConfiguration) : Bool :=
  if cfg.camera_exposure_time_max_us > h.m_spec.max_camera_exposure_us ∨
      cfg.camera_exposure_time_min_us < h.m_spec.min_camera_exposure_us ∨
      cfg.camera_exposure_time_max_us < cfg.camera_exposure_time_def_us ∨
      cfg.camera_exposure_time_max_us < cfg.camera_exposure_time_min_us ∨
      cfg.camera_exposure_time_def_us < cfg.camera_exposure_time_min_us then false
  else if cfg.laser_on_time_max_us > h.m_spec.max_laser_on_time_us ∨
      cfg.laser_on_time_min_us < h.m_spec.min_laser_on_time_us ∨
      cfg.laser_on_time_max_us < cfg.laser_on_time_def_us ∨
      cfg.laser_on_time_max_us < cfg.laser_on_time_min_us ∨
      cfg.laser_on_time_def_us < cfg.laser_on_time_min_us then false
  else if cfg.laser_detection_threshold > kMaxLaserDetectionThreshold then false
  else if cfg.saturation_threshold > kMaxSaturationThreshold then false
  else if cfg.saturation_percentage > kMaxSaturationPercentage then false
  else true

def ResetScanPairs (h : ScanHead) : ScanHead := { h with m_scan_pairs := [] }

def AddScanPair (h : ScanHead) (camera : jsCamera) (laser : jsLaser)
    (cfg : jsScanHeadConfiguration) (end_offset_us : Nat) : ScanHead × Int :=
  if h.IsPairValid camera laser = false then (h, JS_ERROR_INVALID_ARGUMENT)
  else if h.IsConfigurationValid cfg = false then (h, JS_ERROR_INVALID_ARGUMENT)
  else if h.m_scan_pairs.length ≥ h.m_spec.max_configuration_groups then
    (h, JS_ERROR_INTERNAL)
  else
    ({ h with m_scan_pairs := h.m_scan_pairs ++
        [{ camera := camera, laser := laser, config := cfg,
           end_offset_us := end_offset_us }] }, 0)

def SetScanPeriod (h : ScanHead) (period_us : Nat) : ScanHead × Int :=
  if period_us > h.m_spec.max_scan_period_us ∨ period_us < h.m_spec.min_scan_period_us then
    (h, JS_ERROR_INVALID_ARGUMENT)
  else ({ h with m_scan_period_us := period_us }, 0)

def DataType_Brightness : Nat := 1
def DataType_XYData : Nat := 2

def SetDataFormat (h : ScanHead) (format : jsDataFormat) : ScanHead × Int :=
  match format with
  | jsDataFormat.JS_DATA_FORMAT_XY_BRIGHTNESS_FULL =>
    ({ h with m_data_type_mask := 3, m_data_stride := 1, m_format := format }, 0)
  | jsDataFormat.JS_DATA_FORMAT_XY_BRIGHTNESS_HALF =>
    ({ h with m_data_type_mask := 3, m_data_stride := 2, m_format := format }, 0)
  | jsDataFormat.JS_DATA_FORMAT_XY_BRIGHTNESS_QUARTER =>
    ({ h with m_data_type_mask := 3, m_data_stride := 4, m_format := format }, 0)
  | jsDataFormat.JS_DATA_FORMAT_XY_FULL =>
    ({ h with m_data_type_mask := 2, m_data_stride := 1, m_format := format }, 0)
  | jsDataFormat.JS_DATA_FORMAT_XY_HALF =>
    ({ h with m_data_type_mask := 2, m_data_stride := 2, m_format := format }, 0)
  | jsDataFormat.JS_DATA_FORMAT_XY_QUARTER =>
    ({ h with m_data_type_mask := 2, m_data_stride := 4, m_format := format }, 0)
  | jsDataFormat.JS_DATA_FORMAT_INVALID => (h, JS_ERROR_INVALID_ARGUMENT)

/-- `SendScanConfiguration`: nothing is sent for a head without scan pairs; otherwise the
result is that of the socket send, the parameter `tcp`. -/
def SendScanConfiguration (h : ScanHead) (tcp : Int) : Int :=
  if h.m_scan_pairs.length = 0 then 0 else tcp

/-- `ScanHead::StartScanning`: the scanning flag is set when the socket send (result
`tcp`) succeeds. -/
def StartScanning (h : ScanHead) (tcp : Int) : ScanHead × Int :=
  if tcp = 0 then ({ h with m_is_scanning := true }, tcp) else (h, tcp)

/-- `ScanHead::StopScanning`. -/
def StopScanning (h : ScanHead) (tcp : Int) : ScanHead × Int :=
  if tcp = 0 then ({ h with m_is_scanning := false }, tcp) else (h, tcp)

end ScanHead

/-- The heap of `ScanHead` objects: what a `ScanHead *` points to. -/
abbrev Heap := Nat → ScanHead

/-! ## Phase table (`PhaseTable.hpp`, `PhaseTable.cpp`) -/

structure PhasedElement where
  scan_head : Nat
  camera : jsCamera
  laser : jsLaser
  cfg : jsScanHeadConfiguration
  is_cfg_unique : Bool
  deriving DecidableEq, Repr

structure PhaseTableEntry where
  duration_us : Nat
  elements : List PhasedElement
  deriving DecidableEq, Repr

structure PhaseTableCalculated where
  total_duration_us : Nat
  phases : List PhaseTableEntry
  deriving DecidableEq, Repr

/-- The class `PhaseTable`: the authored phases and the per-head element counter
(`std::map<ScanHead*, uint32_t>` as an association list). -/
structure PhaseTable where
  m_table : List (List PhasedElement)
  m_scan_head_count : List (Nat × Nat)
  deriving DecidableEq, Repr

/-- Lookup in a `std::map` held as an association list (`find`). -/
def mapFind {κ : Type} [DecidableEq κ] : List (κ × Nat) → κ → Option Nat
  | [], _ => none
  | kv :: rest, k => if kv.1 = k then some kv.2 else mapFind rest k

/-- Assignment `m[k] = v` on a `std::map` held as an association list. -/
def mapSet {κ : Type} [DecidableEq κ] : List (κ × Nat) → κ → Nat → List (κ × Nat)
  | [], k, v => [(k, v)]
  | kv :: rest, k, v => if kv.1 = k then (k, v) :: rest else kv :: mapSet rest k v

/-- The loop `for (auto &map : accum) map.second += d` in `uint32_t` arithmetic, `d`
being a `uint32_t` or a positive `int32_t`. -/
def mapAddAll {κ : Type} (m : List (κ × Nat)) (d : Int) : List (κ × Nat) :=
  m.map (fun kv => (kv.1, u32 ((kv.2 : Int) + d)))

/-- The constant `frame_overhead_time_us`: `ceil(3210.0 * (4 + 42 + 3) / 1000.0)`, the
ceiling taken here by integer division. -/
def frame_overhead_time_us : Nat := (3210 * (4 + 42 + 3) + 999) / 1000

namespace PhaseTable

def Reset (_t : PhaseTable) : PhaseTable := { m_table := [], m_scan_head_count := [] }

def CreatePhase (t : PhaseTable) : PhaseTable := { t with m_table := t.m_table ++ [[]] }

def GetNumberOfPhases (t : PhaseTable) : Nat := t.m_table.length

/-- `AddToPhaseEntryCommon`; `cfg` is `none` for a null pointer. The element counter is
incremented before the configuration is validated, as in the source. -/
def AddToPhaseEntryCommon (heap : Heap) (t : PhaseTable) (phase : Nat) (scan_head : Nat)
    (camera : jsCamera) (laser : jsLaser) (cfg : Option jsScanHeadConfiguration) :
    PhaseTable × Int :=
  if t.m_table.length ≤ phase then (t, JS_ERROR_INVALID_ARGUMENT)
  else
    match (match mapFind t.m_scan_head_count scan_head with
      | some c =>
        if c ≥ (heap scan_head).GetMaxScanPairs then none
        else some t.m_scan_head_count
      | none => some (mapSet t.m_scan_head_count scan_head 0)) with
    | none => (t, JS_ERROR_NO_MORE_ROOM)
    | some count0 =>
      if (t.m_table.getD phase []).any
          (fun el => decide (el.scan_head = scan_head ∧ el.camera = camera)) then
        ({ t with m_scan_head_count := count0 }, JS_ERROR_INVALID_ARGUMENT)
      else
        let count1 := mapSet count0 scan_head
          (u32 (((mapFind count0 scan_head).getD 0 : Nat) + 1))
        match cfg with
        | none =>
          ({ m_table := t.m_table.set phase (t.m_table.getD phase [] ++
              [{ scan_head := scan_head, camera := camera, laser := laser,
                 cfg := default, is_cfg_unique := false }]),
             m_scan_head_count := count1 }, 0)
        | some c =>
          if (heap scan_head).IsConfigurationValid c = false then
            ({ t with m_scan_head_count := count1 }, JS_ERROR_INVALID_ARGUMENT)
          else
            ({ m_table := t.m_table.set phase (t.m_table.getD phase [] ++
                [{ scan_head := scan_head, camera := camera, laser := laser,
                   cfg := c, is_cfg_unique := true }]),
               m_scan_head_count := count1 }, 0)

/-- The overload `AddToLastPhaseEntry(ScanHead *, jsCamera, jsScanHeadConfiguration *)`. -/
def AddToLastPhaseEntryCamera (heap : Heap) (t : PhaseTable) (scan_head : Nat)
    (camera : jsCamera) (cfg : Option jsScanHeadConfiguration) : PhaseTable × Int :=
  if 0 = t.m_table.length then (t, JS_ERROR_INVALID_ARGUMENT)
  else if JS_LASER_INVALID = (heap scan_head).GetPairedLaser camera then
    (t, JS_ERROR_INVALID_ARGUMENT)
  else AddToPhaseEntryCommon heap t (t.m_table.length - 1) scan_head camera
    ((heap scan_head).GetPairedLaser camera) cfg

/-- The overload `AddToLastPhaseEntry(ScanHead *, jsLaser, jsScanHeadConfiguration *)`. -/
def AddToLastPhaseEntryLaser (heap : Heap) (t : PhaseTable) (scan_head : Nat)
    (laser : jsLaser) (cfg : Option jsScanHeadConfiguration) : PhaseTable × Int :=
  if 0 = t.m_table.length then (t, JS_ERROR_INVALID_ARGUMENT)
  else if JS_CAMERA_INVALID = (heap scan_head).GetPairedCamera laser then
    (t, JS_ERROR_INVALID_ARGUMENT)
  else AddToPhaseEntryCommon heap t (t.m_table.length - 1) scan_head
    ((heap scan_head).GetPairedCamera laser) laser cfg

/-- First loop of `CalculatePhaseTable`, inner part: an element without its own
configuration is given the current configuration of its head. -/
def loadElement (heap : Heap) (element : PhasedElement) : PhasedElement :=
  if element.is_cfg_unique = false then
    { element with cfg := (heap element.scan_head).GetConfiguration }
  else element

/-- First loop of `CalculatePhaseTable`, one phase: the entry whose duration is the
longest `laser_on_time_max_us` of the phase. -/
def seedEntry (elements : List PhasedElement) : PhaseTableEntry :=
  elements.foldl
    (fun entry element =>
      { duration_us :=
          if element.cfg.laser_on_time_max_us > entry.duration_us then
            element.cfg.laser_on_time_max_us
          else entry.duration_us,
        elements := entry.elements ++ [element] })
    { duration_us := 0, elements := [] }

/-- Body of the loop over the elements of a phase; the state is the duration of the
phase and the accumulator map keyed by `(scan_head, camera)`. -/
def processElement (heap : Heap) (st : Nat × List ((Nat × jsCamera) × Nat))
    (element : PhasedElement) : Nat × List ((Nat × jsCamera) × Nat) :=
  let key : Nat × jsCamera := (element.scan_head, element.camera)
  let st1 : Nat × List ((Nat × jsCamera) × Nat) :=
    match mapFind st.2 key with
    | none => st
    | some seen =>
      let min_scan_period_us : Nat := (heap element.scan_head).GetMinScanPeriod
      let laser_on_max_us : Nat := element.cfg.laser_on_time_max_us
      let last_seen_us : Int := i32 seen
      let adj_min_period_us : Int := i32 (u32 ((min_scan_period_us : Int) - last_seen_us))
      let adj_fot_us : Int :=
        i32 (u32 ((frame_overhead_time_us : Int) -
          (u32 (last_seen_us - (laser_on_max_us : Int)) : Int)))
      let adj : Int := max adj_min_period_us adj_fot_us
      if 0 < adj then (u32 ((st.1 : Int) + adj), mapAddAll st.2 adj) else st
  (st1.1, mapSet st1.2 key 0)

/-- Body of the loop over the phases: extend every accumulator by the duration of the
phase, then handle its elements. -/
def processPhase (heap : Heap) (accum : List ((Nat × jsCamera) × Nat))
    (phase : PhaseTableEntry) : PhaseTableEntry × List ((Nat × jsCamera) × Nat) :=
  let r := phase.elements.foldl (processElement heap)
    (phase.duration_us, mapAddAll accum (phase.duration_us : Int))
  ({ phase with duration_us := r.1 }, r.2)

/-- One iteration of the calculation loop over the whole table. -/
def calculationIteration (heap : Heap) :
    List PhaseTableEntry → List ((Nat × jsCamera) × Nat) →
      List PhaseTableEntry × List ((Nat × jsCamera) × Nat)
  | [], accum => ([], accum)
  | phase :: rest, accum =>
    let r := processPhase heap accum phase
    let rs := calculationIteration heap rest r.2
    (r.1 :: rs.1, rs.2)

def num_calculation_iterations : Nat := 2

/-- The loop `for (n = 0; n < num_calculation_iterations; n++)`. -/
def calculationLoop (heap : Heap) :
    Nat → List PhaseTableEntry → List ((Nat × jsCamera) × Nat) → List PhaseTableEntry
  | 0, phases, _ => phases
  | n + 1, phases, accum =>
    let r := calculationIteration heap phases accum
    calculationLoop heap n r.1 r.2

/-- Last loop of `CalculatePhaseTable`: the total duration, in `uint32_t` arithmetic. -/
def totalDuration (phases : List PhaseTableEntry) : Nat :=
  phases.foldl (fun total phase => (total + phase.duration_us) % 4294967296) 0

/-- `PhaseTable::CalculatePhaseTable`. The first component is the phase table after the
call (the stored `cfg` of elements without their own configuration is rewritten), the
second the calculated table it returns. -/
def CalculatePhaseTable (heap : Heap) (t : PhaseTable) : PhaseTable × PhaseTableCalculated :=
  let table1 := t.m_table.map (fun v => v.map (loadElement heap))
  let phases := calculationLoop heap num_calculation_iterations (table1.map seedEntry) []
  ({ t with m_table := table1 },
   { total_duration_us := totalDuration phases, phases := phases })

end PhaseTable

/-! ## Scan-system coordinator (`ScanManager.hpp`, `ScanManager.cpp`) -/

inductive SystemState where
  | Disconnected
  | Connected
  | Scanning
  deriving DecidableEq, Repr

/-- The members of `ScanManager` used by connecting, scanning and the period query. The
two registries map a serial number, respectively an id, to a `ScanHead *`; they are kept
in ascending key order, the iteration order of `std::map`. -/
structure ScanManager where
  m_serial_to_scan_head : List (Nat × Nat)
  m_id_to_scan_head : List (Nat × Nat)
  m_phase_table : PhaseTable
  m_state : SystemState
  m_units : jsUnits
  deriving DecidableEq, Repr

/-- Results of the socket operations a coordinator call performs, per `ScanHead *`:
the return value of `TCPSend` for the scan configuration, the scan start and the scan stop
message, and the `min_scan_period_ns` of the status reply (`none` when the status
request fails). -/
structure Network where
  send_scan_configuration : Nat → Int
  send_scan_start : Nat → Int
  send_scan_stop : Nat → Int
  status_min_scan_period_ns : Nat → Option Nat

def kCameraStartEarlyOffsetNs : Nat := 9500

/-- The expression `std::ceil(((double)kCameraStartEarlyOffsetNs) / 1000.0)` converted to
`uint32_t`, the ceiling taken here by integer division. -/
def camera_offset_us : Nat := (kCameraStartEarlyOffsetNs + 999) / 1000

/-- `ScanHead::GetStatusMessage`, as far as the minimum scan period is concerned: a
successful reply stores `min_scan_period_ns / 1000`. -/
def ScanHead.GetStatusMessage (h : ScanHead) (reply : Option Nat) : ScanHead × Int :=
  if h.IsConnected = false then (h, JS_ERROR_NOT_CONNECTED)
  else
    match reply with
    | none => (h, JS_ERROR_INTERNAL)
    | some ns => ({ h with m_status_min_scan_period_us := ns / 1000 }, 0)

/-- Assignment through a `ScanHead *`. -/
def Heap.store (heap : Heap) (p : Nat) (h : ScanHead) : Heap :=
  fun q => if q = p then h else heap q

namespace ScanManager

def IsConnected (m : ScanManager) : Bool :=
  decide (m.m_state = SystemState.Connected ∨ m.m_state = SystemState.Scanning)

def IsScanning (m : ScanManager) : Bool := decide (m.m_state = SystemState.Scanning)

/-- The loop of `GetMinScanPeriod` that refreshes the status of every head. -/
def refreshStatus (net : Network) : List (Nat × Nat) → Heap → Heap
  | [], heap => heap
  | pair :: rest, heap =>
    refreshStatus net rest
      (heap.store pair.2
        ((heap pair.2).GetStatusMessage (net.status_min_scan_period_ns pair.2)).1)

/-- `ScanManager::GetMinScanPeriod`; returns the heap and the coordinator after the call
and the returned period. -/
def GetMinScanPeriod (net : Network) (heap : Heap) (m : ScanManager) :
    Heap × ScanManager × Nat :=
  let heap1 := if m.IsConnected then refreshStatus net m.m_serial_to_scan_head heap else heap
  let r := m.m_phase_table.CalculatePhaseTable heap1
  (heap1, { m with m_phase_table := r.1 },
    (camera_offset_us + r.2.total_duration_us) % 4294967296)

/-- The loop of `StartScanning` that clears the scan pairs of every head. -/
def resetScanPairs : List (Nat × Nat) → Heap → Heap
  | [], heap => heap
  | pair :: rest, heap =>
    resetScanPairs rest (heap.store pair.2 (heap pair.2).ResetScanPairs)

/-- The loop over the elements of one phase in `StartScanning`: one `AddScanPair` call per
element. The return values, which the source discards, are collected in call order. -/
def addScanPairsPhase (end_offset_us : Nat) :
    List PhasedElement → Heap × List Int → Heap × List Int
  | [], st => st
  | el :: rest, st =>
    let r := (st.1 el.scan_head).AddScanPair el.camera el.laser el.cfg end_offset_us
    addScanPairsPhase end_offset_us rest (st.1.store el.scan_head r.1, st.2 ++ [r.2])

/-- The loop over the phases in `StartScanning`. -/
def addScanPairs : List PhaseTableEntry → Nat → Heap × List Int → Heap × List Int
  | [], _, st => st
  | phase :: rest, end_offset_us, st =>
    addScanPairs rest ((end_offset_us + phase.duration_us) % 4294967296)
      (addScanPairsPhase ((end_offset_us + phase.duration_us) % 4294967296)
        phase.elements st)

/-- The loop of `StartScanning` that configures every head; it stops at the first
non-zero return value. -/
def configureHeads (net : Network) (period_us : Nat) (fmt : jsDataFormat) :
    List (Nat × Nat) → Heap → Heap × Int
  | [], heap => (heap, 0)
  | pair :: rest, heap =>
    let r1 := (heap pair.2).SetScanPeriod period_us
    if r1.2 ≠ 0 then (heap.store pair.2 r1.1, r1.2)
    else
      let r2 := r1.1.SetDataFormat fmt
      if r2.2 ≠ 0 then (heap.store pair.2 r2.1, r2.2)
      else
        let r3 := r2.1.SendScanConfiguration (net.send_scan_configuration pair.2)
        if r3 ≠ 0 then (heap.store pair.2 r2.1, r3)
        else configureHeads net period_us fmt rest (heap.store pair.2 r2.1)

/-- The loop of `StartScanning` that starts every head; it stops at the first non-zero
return value. -/
def startHeads (net : Network) : List (Nat × Nat) → Heap → Heap × Int
  | [], heap => (heap, 0)
  | pair :: rest, heap =>
    let r := (heap pair.2).StartScanning (net.send_scan_start pair.2)
    if r.2 ≠ 0 then (heap.store pair.2 r.1, r.2)
    else startHeads net rest (heap.store pair.2 r.1)

/-- The part of `StartScanning` between the guards and the per-head configuration: the
scan pairs are cleared and one `AddScanPair` call is made per element of the calculated
table. -/
def assignScanPairs (heap : Heap) (m : ScanManager) (table : PhaseTableCalculated) :
    Heap × List Int :=
  addScanPairs table.phases camera_offset_us
    (resetScanPairs m.m_serial_to_scan_head heap, [])

/-- `ScanManager::StartScanning`; returns the heap and the coordinator after the call and
the return value. -/
def StartScanning (net : Network) (heap : Heap) (m : ScanManager) (period_us : Nat)
    (fmt : jsDataFormat) : Heap × ScanManager × Int :=
  if m.IsConnected = false then (heap, m, JS_ERROR_NOT_CONNECTED)
  else if m.IsScanning then (heap, m, JS_ERROR_SCANNING)
  else
    let c := m.m_phase_table.CalculatePhaseTable heap
    let m1 := { m with m_phase_table := c.1 }
    if c.2.total_duration_us > period_us then (heap, m1, JS_ERROR_INVALID_ARGUMENT)
    else
      let heap1 := (assignScanPairs heap m c.2).1
      let r2 := configureHeads net period_us fmt m.m_serial_to_scan_head heap1
      if r2.2 ≠ 0 then (r2.1, m1, r2.2)
      else
        let r3 := startHeads net m.m_serial_to_scan_head r2.1
        if r3.2 ≠ 0 then (r3.1, m1, r3.2)
        else (r3.1, { m1 with m_state := SystemState.Scanning }, 0)

end ScanManager

/-! ## Example heads used by the concrete evaluations -/

/-- A two-camera, one-laser, camera-driven head specification. -/
def exampleSpec : ScanHeadSpec :=
  { min_scan_period_us := 250, max_scan_period_us := 1000000,
    min_camera_exposure_us := 15, max_camera_exposure_us := 2000000,
    min_laser_on_time_us := 15, max_laser_on_time_us := 650000,
    max_camera_rows := 1088, max_camera_columns := 1456,
    number_of_cameras := 2, number_of_lasers := 1,
    camera_port_cable_upstream := 0,
    configuration_group_primary := ConfigurationGroupPrimary.ConfigurationGroupPrimary_CAMERA,
    configuration_groups := [(0, 0), (1, 0)],
    camera_port_to_id := [2, 1], laser_port_to_id := [1],
    max_configuration_groups := 8 }

/-- The default configuration set by the `ScanHead` constructor. -/
def defaultConfiguration : jsScanHeadConfiguration :=
  { camera_exposure_time_min_us := 10000, camera_exposure_time_def_us := 500000,
    camera_exposure_time_max_us := 1000000,
    laser_on_time_min_us := 100, laser_on_time_def_us := 500, laser_on_time_max_us := 1000,
    laser_detection_threshold := 120, saturation_threshold := 800,
    saturation_percentage := 30 }

/-- A connected head of specification `exampleSpec` whose configuration has the given
`laser_on_time_max_us` and whose last status reported the given minimum scan period. -/
def exampleHead (serial laser_on_time_max_us min_scan_period_us : Nat) : ScanHead :=
  { m_spec := exampleSpec, m_status_min_scan_period_us := min_scan_period_us,
    m_config_default := defaultConfiguration,
    m_config := { defaultConfiguration with laser_on_time_max_us := laser_on_time_max_us },
    m_format := jsDataFormat.JS_DATA_FORMAT_XY_BRIGHTNESS_FULL,
    m_units := jsUnits.JS_UNITS_INCHES,
    m_cable := jsCableOrientation.JS_CABLE_ORIENTATION_UPSTREAM,
    m_scan_pairs := [], m_serial_number := serial, m_id := serial,
    m_control_tcp_fd := 3, m_scan_period_us := 0, m_data_type_mask := 0,
    m_data_stride := 0, m_is_scanning := false }

/-- Phase-table building calls, for tables given as a script. -/
inductive PhaseOp where
  | reset
  | createPhase
  | addCamera (scan_head : Nat) (camera : jsCamera) (cfg : Option jsScanHeadConfiguration)
  | addLaser (scan_head : Nat) (laser : jsLaser) (cfg : Option jsScanHeadConfiguration)

/-- Effect of one building call on the phase table (the return value is dropped). -/
def PhaseOp.apply (heap : Heap) (t : PhaseTable) : PhaseOp → PhaseTable
  | PhaseOp.reset => t.Reset
  | PhaseOp.createPhase => t.CreatePhase
  | PhaseOp.addCamera h c cfg => (t.AddToLastPhaseEntryCamera heap h c cfg).1
  | PhaseOp.addLaser h l cfg => (t.AddToLastPhaseEntryLaser heap h l cfg).1

/-- The phase table built from the empty one by a script of building calls. -/
def buildPhaseTable (heap : Heap) (ops : List PhaseOp) : PhaseTable :=
  ops.foldl (PhaseOp.apply heap) { m_table := [], m_scan_head_count := [] }

/-! ## Feasibility of a calculated phase table -/

/-- Whether a phase of the calculated table holds an element with the given
`(scan_head, camera)` key. -/
def phaseHasKey (phase : PhaseTableEntry) (key : Nat × jsCamera) : Bool :=
  phase.elements.any (fun el => decide (el.scan_head = key.1 ∧ el.camera = key.2))

/-- Time between two consecutive uses of a camera: the sum of the durations of phase `j`
and of the phases before it, going backwards cyclically, down to but excluding the
previous phase that holds the key; `fuel` bounds the number of phases summed, so that with
`fuel` the number of phases a key that occurs in phase `j` only gets the whole table. -/
def elapsedSinceLastUse (phases : List PhaseTableEntry) (key : Nat × jsCamera) :
    Nat → Nat → Nat
  | 0, _ => 0
  | fuel + 1, j =>
    (phases.getD j { duration_us := 0, elements := [] }).duration_us +
      (if phaseHasKey
          (phases.getD ((j + phases.length - 1) % phases.length)
            { duration_us := 0, elements := [] }) key then 0
       else elapsedSinceLastUse phases key fuel ((j + phases.length - 1) % phases.length))

/-- Feasibility of a calculated table: every element gets, since the previous use of its
camera, at least the minimum scan period of its head and at least the frame overhead time
plus its own `laser_on_time_max_us`. -/
def feasible (heap : Heap) (table : PhaseTableCalculated) : Bool :=
  (List.range table.phases.length).all (fun j =>
    (table.phases.getD j { duration_us := 0, elements := [] }).elements.all (fun e =>
      decide ((heap e.scan_head).GetMinScanPeriod ≤
          elapsedSinceLastUse table.phases (e.scan_head, e.camera) table.phases.length j ∧
        frame_overhead_time_us + e.cfg.laser_on_time_max_us ≤
          elapsedSinceLastUse table.phases (e.scan_head, e.camera) table.phases.length j)))

/-! ## Concrete inputs -/

/-- Heads for the infeasible table: head 1 needs 3000 us between two uses of a camera,
every other head 1100 us; every `laser_on_time_max_us` is 100. -/
def heapInfeasible : Heap := fun p => if p = 1 then exampleHead 1 100 3000 else exampleHead p 100 1100

/-- Phase 1 holds camera A of head 2; phase 2 holds camera A of head 1, then camera A of
head 2. -/
def tableInfeasible : PhaseTable :=
  buildPhaseTable heapInfeasible
    [PhaseOp.createPhase, PhaseOp.addCamera 2 JS_CAMERA_A none,
     PhaseOp.createPhase, PhaseOp.addCamera 1 JS_CAMERA_A none,
     PhaseOp.addCamera 2 JS_CAMERA_A none]

/-- Two heads with `laser_on_time_max_us = 500` and minimum scan period 1500. -/
def heapTwoHeads : Heap := fun p => exampleHead p 500 1500

/-- Phase 1 holds camera A of heads 1 and 2, phase 2 camera B of heads 1 and 2. -/
def tableTwoHeads : PhaseTable :=
  buildPhaseTable heapTwoHeads
    [PhaseOp.createPhase, PhaseOp.addCamera 1 JS_CAMERA_A none,
     PhaseOp.addCamera 2 JS_CAMERA_A none,
     PhaseOp.createPhase, PhaseOp.addCamera 1 JS_CAMERA_B none,
     PhaseOp.addCamera 2 JS_CAMERA_B none]

/-- One connected head (default configuration, minimum scan period 1500). -/
def heapOneHead : Heap := fun p => exampleHead p 1000 1500

/-- A connected coordinator with head 1 and a one-phase table holding its camera A. -/
def managerOneHead : ScanManager :=
  { m_serial_to_scan_head := [(1, 1)], m_id_to_scan_head := [(1, 1)],
    m_phase_table :=
      buildPhaseTable heapOneHead [PhaseOp.createPhase, PhaseOp.addCamera 1 JS_CAMERA_A none],
    m_state := SystemState.Connected, m_units := jsUnits.JS_UNITS_INCHES }

/-- A network on which every send succeeds and every head reports 1500000 ns. -/
def networkOk : Network :=
  { send_scan_configuration := fun _ => 0, send_scan_start := fun _ => 0,
    send_scan_stop := fun _ => 0, status_min_scan_period_ns := fun _ => some 1500000 }

/-! ## Closed form of the calculation for tables without repeated cameras -/

/-- The key of the accumulator map for an element. -/
def elementKey (e : PhasedElement) : Nat × jsCamera := (e.scan_head, e.camera)

/-- Sum of the durations of a list of phases. -/
def sumDurations (phases : List PhaseTableEntry) : Nat :=
  (phases.map (fun phase => phase.duration_us)).sum

/-- Time an element needs between two uses of its camera: the minimum scan period of its
head and the frame overhead time plus its `laser_on_time_max_us`, whichever is larger. -/
def needOf (heap : Heap) (e : PhasedElement) : Nat :=
  max (heap e.scan_head).GetMinScanPeriod (frame_overhead_time_us + e.cfg.laser_on_time_max_us)

/-- Largest of `g` and the needs of the elements of a phase. -/
def foldNeed (heap : Heap) (elements : List PhasedElement) (g : Nat) : Nat :=
  elements.foldl (fun g e => max g (needOf heap e)) g

/-- Largest of `g` and the needs of the elements of a list of phases. -/
def foldNeedPhases (heap : Heap) (phases : List PhaseTableEntry) (g : Nat) : Nat :=
  phases.foldl (fun g phase => foldNeed heap phase.elements g) g

/-- The remaining keys of a list of phases, each with the sum of the durations of the
phases after its own. -/
def keySuffix : List PhaseTableEntry → List ((Nat × jsCamera) × Nat)
  | [] => []
  | phase :: rest =>
    phase.elements.map (fun e => (elementKey e, sumDurations rest)) ++ keySuffix rest

/-- All keys of an authored table, in table order. -/
def tableKeys (table : List (List PhasedElement)) : List (Nat × jsCamera) :=
  (table.map (fun v => v.map elementKey)).flatten

/-- A bound on every quantity of the calculation: the sum, over all elements, of the
minimum scan period of the head, the frame overhead time and the loaded
`laser_on_time_max_us`. -/
def noWrapBound (heap : Heap) (table : List (List PhasedElement)) : Nat :=
  ((table.map (fun v => (v.map (fun e =>
    (heap e.scan_head).GetMinScanPeriod + frame_overhead_time_us +
      (PhaseTable.loadElement heap e).cfg.laser_on_time_max_us)).sum))).sum

/-- Two authored tables of the same shape, with the same heads and cameras, the loaded
`laser_on_time_max_us` of every element of the second being at least that of the first. -/
def laserOnRaised (heap heap' : Heap) (table table' : List (List PhasedElement)) : Prop :=
  List.Forall₂ (List.Forall₂ (fun e e' =>
    e.scan_head = e'.scan_head ∧ e.camera = e'.camera ∧
      (PhaseTable.loadElement heap e).cfg.laser_on_time_max_us ≤
        (PhaseTable.loadElement heap' e').cfg.laser_on_time_max_us)) table table'
/-- The longest `laser_on_time_max_us` of a phase, starting from `d`. -/
def seedDuration (elements : List PhasedElement) (d : Nat) : Nat :=
  elements.foldl (fun d e => max d e.cfg.laser_on_time_max_us) d

/-- The calculated table before the calculation loop: every element loaded, every phase
with its seed duration. -/
def seedPhases (heap : Heap) (table : List (List PhasedElement)) : List PhaseTableEntry :=
  (table.map (fun v => v.map (PhaseTable.loadElement heap))).map PhaseTable.seedEntry

/-- A valid per-element configuration with the given `laser_on_time_max_us` (at least
100). -/
def laserConfiguration (laser_on_time_max_us : Nat) : jsScanHeadConfiguration :=
  { defaultConfiguration with
    laser_on_time_min_us := 100, laser_on_time_def_us := 100,
    laser_on_time_max_us := laser_on_time_max_us }

/-- Heads with minimum scan period 500. -/
def heapPeriod500 : Heap := fun p => exampleHead p 1000 500

/-- Four phases of head 1, cameras A, B, A, B, each element with its own configuration:
`laser_on_time_max_us` 100, `x`, 100 and 200. -/
def tableAlternating (x : Nat) : PhaseTable :=
  buildPhaseTable heapPeriod500
    [PhaseOp.createPhase, PhaseOp.addCamera 1 JS_CAMERA_A (some (laserConfiguration 100)),
     PhaseOp.createPhase, PhaseOp.addCamera 1 JS_CAMERA_B (some (laserConfiguration x)),
     PhaseOp.createPhase, PhaseOp.addCamera 1 JS_CAMERA_A (some (laserConfiguration 100)),
     PhaseOp.createPhase, PhaseOp.addCamera 1 JS_CAMERA_B (some (laserConfiguration 200))]

/-- Two phases, camera A of head 1 with `laser_on_time_max_us = x`, then camera B of
head 1 with 300. -/
def tableOnce (x : Nat) : PhaseTable :=
  buildPhaseTable heapPeriod500
    [PhaseOp.createPhase, PhaseOp.addCamera 1 JS_CAMERA_A (some (laserConfiguration x)),
     PhaseOp.createPhase, PhaseOp.addCamera 1 JS_CAMERA_B (some (laserConfiguration 300))]

/-! ## Scan pairs handed to the heads by `StartScanning` -/

/-- Well-formedness of a head specification: the port-to-id tables are injective, no
configuration group uses the port number 2^32 - 1 (the value a failed id-to-port lookup
converts to), and `max_configuration_groups` is a positive `uint32_t`. -/
def ScanHeadSpec.WellFormed (s : ScanHeadSpec) : Prop :=
  s.camera_port_to_id.Nodup ∧ s.laser_port_to_id.Nodup ∧
  (∀ grp ∈ s.configuration_groups, grp.1 < 4294967295 ∧ grp.2 < 4294967295) ∧
  0 < s.max_configuration_groups ∧ s.max_configuration_groups < 4294967296

/-- An element of an authored table pairs a camera and a laser that form a valid pair on
its head, and its own configuration, when it has one, is valid for its head. -/
def ElementOK (heap : Heap) (e : PhasedElement) : Prop :=
  (heap e.scan_head).IsPairValid e.camera e.laser = true ∧
  (e.is_cfg_unique = true → (heap e.scan_head).IsConfigurationValid e.cfg = true)

/-- Number of elements of a head over an authored table. -/
def headCount (table : List (List PhasedElement)) (p : Nat) : Nat :=
  (table.map (fun v => (v.filter (fun e => decide (e.scan_head = p))).length)).sum

/-- Invariant of the phase tables built by `Reset`, `CreatePhase` and
`AddToLastPhaseEntry`. -/
def TableOK (heap : Heap) (t : PhaseTable) : Prop :=
  (∀ v ∈ t.m_table, ∀ e ∈ v, ElementOK heap e) ∧
  (∀ p, headCount t.m_table p ≤ (mapFind t.m_scan_head_count p).getD 0) ∧
  (∀ p c, mapFind t.m_scan_head_count p = some c →
    c ≤ (heap p).m_spec.max_configuration_groups)

/-- The scan pairs of head `p` as the specification describes them: the elements of the
head in phase-table order, each with the end offset of its phase, the camera start early
offset plus the durations of the phases up to and including its own (`elapsed` is the sum
of the durations of the phases before), as a `uint32_t`. -/
def expectedScanPairsFrom (p : Nat) : Nat → List PhaseTableEntry → List ScanPair
  | _, [] => []
  | elapsed, phase :: rest =>
    ((phase.elements.filter (fun e => decide (e.scan_head = p))).map (fun e =>
      ({ camera := e.camera, laser := e.laser, config := e.cfg,
         end_offset_us := (camera_offset_us + (elapsed + phase.duration_us)) % 4294967296 } :
        ScanPair))) ++
    expectedScanPairsFrom p (elapsed + phase.duration_us) rest

/-- The scan pairs of head `p` for a calculated table. -/
def expectedScanPairs (phases : List PhaseTableEntry) (p : Nat) : List ScanPair :=
  expectedScanPairsFrom p 0 phases

/-- `ScanHead::SetConfiguration`. -/
def ScanHead.SetConfiguration (h : ScanHead) (cfg : jsScanHeadConfiguration) : ScanHead × Int :=
  if h.m_is_scanning then (h, JS_ERROR_SCANNING)
  else if h.IsConfigurationValid cfg = false then (h, JS_ERROR_INVALID_ARGUMENT)
  else ({ h with m_config := cfg }, 0)
/-- The head a building call refers to, if any. -/
def PhaseOp.head : PhaseOp → Option Nat
  | PhaseOp.reset => none
  | PhaseOp.createPhase => none
  | PhaseOp.addCamera h _ _ => some h
  | PhaseOp.addLaser h _ _ => some h

/-! ## Datagrams (`DatagramHeader.hpp`, `DataPacket.cpp`, `NetworkTypes.hpp`) -/

/-- Byte `i` of a buffer (0 beyond its end). -/
def byteAt (bytes : List Nat) (i : Nat) : Nat := bytes.getD i 0 % 256

/-- The 16-bit value stored at offset `i` in network byte order (`ntohs` of the word). -/
def be16 (bytes : List Nat) (i : Nat) : Nat := byteAt bytes i * 256 + byteAt bytes (i + 1)

/-- The 32-bit value stored at offset `i` in network byte order (`ntohl` of the word). -/
def be32 (bytes : List Nat) (i : Nat) : Nat := be16 bytes i * 65536 + be16 bytes (i + 2)

/-- Modelled from the spec: `TcpSerializationHelpers.hpp`, which defines `hostToNetwork`,
is not part of the sources; the 64-bit value stored at offset `i` is read in network byte
order, as the spec says of every multi-byte field of the datagram header. -/
def be64 (bytes : List Nat) (i : Nat) : Nat := be32 bytes i * 4294967296 + be32 bytes (i + 4)

/-- Conversion of a 16-bit pattern to `int16_t`. -/
def i16 (n : Nat) : Int :=
  if n % 65536 < 32768 then ((n % 65536 : Nat) : Int) else ((n % 65536 : Nat) : Int) - 65536

/-- Conversion of a 64-bit pattern to `int64_t`. -/
def i64 (n : Nat) : Int :=
  if n % 18446744073709551616 < 9223372036854775808 then
    ((n % 18446744073709551616 : Nat) : Int)
  else ((n % 18446744073709551616 : Nat) : Int) - 18446744073709551616

/-- The structure `DatagramHeader`. -/
structure DatagramHeader where
  magic : Nat
  exposure_time_us : Nat
  scan_head_id : Nat
  camera_port : Nat
  laser_port : Nat
  flags : Nat
  timestamp_ns : Nat
  laser_on_time_us : Nat
  data_type : Nat
  data_length : Nat
  number_encoders : Nat
  datagram_position : Nat
  number_datagrams : Nat
  start_column : Nat
  end_column : Nat
  sequence_number : Nat
  DEPRECATED_DO_NOT_USE : Nat
  deriving DecidableEq, Repr

/-- Modelled from the spec: `DataPacket.hpp`, which declares `FragmentLayout`, is not
part of the sources; the fragment layout of one content type has the four fields the
constructor of `DataPacket` fills, taken to be `uint32_t`. -/
structure FragmentLayout where
  step : Nat
  num_vals : Nat
  offset : Nat
  payload_size : Nat
  deriving DecidableEq, Repr

/-- The function `GetSizeFor` of `NetworkTypes.hpp`. -/
def GetSizeFor (data_type : Nat) : Nat :=
  if data_type = 2 then 4
  else if data_type = 4 ∨ data_type = 8 ∨ data_type = 16 then 2
  else 1

/-- The members of `DataPacket`: header, encoder values, the layout stored for each
content type (`std::map` as an association list, in the order of insertion) and the raw
bytes. -/
structure DataPacket where
  m_hdr : DatagramHeader
  m_encoders : List Int
  m_num_content_types : Nat
  fragment_layouts : List (Nat × FragmentLayout)
  m_raw : List Nat
  deriving DecidableEq, Repr

/-- The header fields as the constructor of `DataPacket` reads them. -/
def parseHeader (bytes : List Nat) : DatagramHeader :=
  { magic := be16 bytes 0, exposure_time_us := be16 bytes 2,
    scan_head_id := byteAt bytes 4, camera_port := byteAt bytes 5,
    laser_port := byteAt bytes 6, flags := byteAt bytes 7,
    timestamp_ns := be64 bytes 8, laser_on_time_us := be16 bytes 16,
    data_type := be16 bytes 18, data_length := be16 bytes 20,
    number_encoders := byteAt bytes 22, datagram_position := be32 bytes 24,
    number_datagrams := be32 bytes 28, start_column := be16 bytes 32,
    end_column := be16 bytes 34, sequence_number := be32 bytes 36,
    DEPRECATED_DO_NOT_USE := 0 }

/-- Number of bits set in a 16-bit content mask. -/
def popCount16 (mask : Nat) : Nat :=
  ((List.range 16).filter (fun b => mask.testBit b)).length

/-- One round of the loop over the content types in the constructor of `DataPacket`, for
the type `2 ^ b` when its bit is set; the state is `offset`, `data_offset` and the layouts
stored so far. The result is `none` when the source divides by zero. `num_cols` is an
`int`: it is converted to `unsigned` for the division by `number_datagrams * step`, while
`num_cols / layout.step` is a division of `int`, converted afterwards. -/
def layoutStep (bytes : List Nat) (hdr : DatagramHeader)
    (st : Nat × Nat × List (Nat × FragmentLayout)) (b : Nat) :
    Option (Nat × Nat × List (Nat × FragmentLayout)) :=
  if hdr.data_type.testBit b then
    let step := be16 bytes st.1
    let num_cols := u32 ((hdr.end_column : Int) - (hdr.start_column : Int) + 1)
    if (hdr.number_datagrams * step) % 4294967296 = 0 ∨ step = 0 ∨ hdr.number_datagrams = 0 then
      none
    else
      let num_vals0 := num_cols / ((hdr.number_datagrams * step) % 4294967296)
      let num_vals :=
        if u32 (Int.tdiv ((hdr.end_column : Int) - (hdr.start_column : Int) + 1) (step : Int)) %
            hdr.number_datagrams > hdr.datagram_position then
          (num_vals0 + 1) % 4294967296
        else num_vals0
      let payload_size := (GetSizeFor (2 ^ b) * num_vals) % 4294967296
      some (st.1 + 2, (st.2.1 + payload_size) % 4294967296,
        st.2.2 ++ [(2 ^ b, { step := step, num_vals := num_vals, offset := st.2.1,
                             payload_size := payload_size })])
  else some st

/-- The loop `for (int i = 1; i <= m_hdr.data_type; i <<= 1)` over the content types:
the bits of the 16-bit mask in ascending order (a bit above the mask is not set). -/
def layoutLoop (bytes : List Nat) (hdr : DatagramHeader) :
    List Nat → Nat × Nat × List (Nat × FragmentLayout) →
      Option (Nat × Nat × List (Nat × FragmentLayout))
  | [], st => some st
  | b :: rest, st =>
    match layoutStep bytes hdr st b with
    | none => none
    | some st1 => layoutLoop bytes hdr rest st1

/-- The constructor `DataPacket::DataPacket(bytes, num_bytes, received_timestamp)`;
`bytes` is the content of the receive buffer from the start of the datagram. -/
def DataPacket.parse (bytes : List Nat) : Option DataPacket :=
  let hdr := parseHeader bytes
  let n := popCount16 hdr.data_type
  let encoder_offset := 40 + n * 2
  let data_offset := encoder_offset + hdr.number_encoders * 8
  match layoutLoop bytes hdr (List.range 16) (40, data_offset, []) with
  | none => none
  | some st =>
    some { m_hdr := hdr,
           m_encoders := (List.range hdr.number_encoders).map
             (fun i => i64 (be64 bytes (encoder_offset + 8 * i))),
           m_num_content_types := n, fragment_layouts := st.2.2, m_raw := bytes }

namespace DataPacket

def GetSourceId (p : DataPacket) : Nat :=
  p.m_hdr.scan_head_id * 65536 + p.m_hdr.camera_port * 256 + p.m_hdr.laser_port

/-- Modelled from the spec: `DataPacket.hpp`, which defines `GetFragmentLayout`, is not
part of the sources; the accessor returns the layout the constructor stored for the
content type, and a zero layout when the type is absent from the datagram. -/
def GetFragmentLayout (p : DataPacket) (data_type : Nat) : FragmentLayout :=
  match p.fragment_layouts.find? (fun kv => kv.1 = data_type) with
  | some kv => kv.2
  | none => { step := 0, num_vals := 0, offset := 0, payload_size := 0 }

end DataPacket

/-! ## Profile assembly (`ProfileBuilder.hpp`, `ScanHead::ProcessProfile`) -/

def JS_RAW_PROFILE_DATA_LEN : Nat := 1456
def JS_PROFILE_DATA_INVALID_XY : Int := -2147483648
def JS_PROFILE_DATA_INVALID_BRIGHTNESS : Int := 0
def JS_SCAN_HEAD_PROFILES_MAX : Nat := 1000
def JS_ENCODER_MAX : Nat := 3

structure jsProfileData where
  x : Int
  y : Int
  brightness : Int
  deriving DecidableEq, Repr

/-- The structure `jsRawProfile`; `data` has `JS_RAW_PROFILE_DATA_LEN` slots. -/
structure jsRawProfile where
  scan_head_id : Nat
  camera : jsCamera
  laser : jsLaser
  timestamp_ns : Nat
  flags : Nat
  sequence_number : Nat
  encoder_values : List Int
  num_encoder_values : Nat
  laser_on_time_us : Nat
  format : jsDataFormat
  packets_received : Nat
  packets_expected : Nat
  data_len : Nat
  data_valid_brightness : Nat
  data_valid_xy : Nat
  data : List jsProfileData
  deriving DecidableEq, Repr

/-- The slot content of an invalid point. -/
def invalidPoint : jsProfileData :=
  { x := JS_PROFILE_DATA_INVALID_XY, y := JS_PROFILE_DATA_INVALID_XY,
    brightness := JS_PROFILE_DATA_INVALID_BRIGHTNESS }

/-- The constructor `ProfileBuilder(camera, laser, packet, format)`; `none` when the
encoder values do not fit the array of `JS_ENCODER_MAX` entries. -/
def ProfileBuilder.create (camera : jsCamera) (laser : jsLaser) (packet : DataPacket)
    (format : jsDataFormat) : Option jsRawProfile :=
  if packet.m_encoders.length > JS_ENCODER_MAX then none
  else
    some { scan_head_id := packet.m_hdr.scan_head_id, camera := camera, laser := laser,
           timestamp_ns := packet.m_hdr.timestamp_ns, flags := packet.m_hdr.flags,
           sequence_number := packet.m_hdr.sequence_number,
           encoder_values := packet.m_encoders,
           num_encoder_values := packet.m_encoders.length,
           laser_on_time_us := packet.m_hdr.laser_on_time_us, format := format,
           packets_received := 0, packets_expected := 0,
           data_len := JS_RAW_PROFILE_DATA_LEN, data_valid_brightness := 0,
           data_valid_xy := 0,
           data := List.replicate JS_RAW_PROFILE_DATA_LEN invalidPoint }

namespace jsRawProfile

def SetPacketInfo (p : jsRawProfile) (received expected : Nat) : jsRawProfile :=
  { p with packets_received := received, packets_expected := expected }

/-- `InsertPointAndBrightness`; `none` for a slot outside the array. -/
def InsertPointAndBrightness (p : jsRawProfile) (idx : Nat) (point : Int × Int)
    (brightness : Nat) : Option jsRawProfile :=
  if idx < JS_RAW_PROFILE_DATA_LEN then
    some { p with
      data := p.data.set idx { x := point.1, y := point.2, brightness := (brightness : Int) },
      data_valid_xy := (p.data_valid_xy + 1) % 4294967296,
      data_valid_brightness := (p.data_valid_brightness + 1) % 4294967296 }
  else none

/-- `InsertPoint`; `none` for a slot outside the array. -/
def InsertPoint (p : jsRawProfile) (idx : Nat) (point : Int × Int) : Option jsRawProfile :=
  if idx < JS_RAW_PROFILE_DATA_LEN then
    some { p with
      data := p.data.set idx
        { x := point.1, y := point.2, brightness := (p.data.getD idx invalidPoint).brightness },
      data_valid_xy := (p.data_valid_xy + 1) % 4294967296 }
  else none

end jsRawProfile

/-- The members of `ScanHead` used by the receiver: the builder (`none` for a null `raw`),
the counters, the key of the profile in assembly and the ring of received profiles, oldest
first. -/
structure Receiver where
  m_profile : Option jsRawProfile
  m_packets_received : Nat
  m_packets_received_for_profile : Nat
  m_complete_profiles_received : Nat
  m_last_profile_source : Nat
  m_last_profile_timestamp : Nat
  m_circ_buffer : List jsRawProfile
  deriving DecidableEq, Repr

/-- `push_back` on the `boost::circular_buffer` of capacity `JS_SCAN_HEAD_PROFILES_MAX`:
a push onto a full ring overwrites the oldest entry. -/
def circPush (ring : List jsRawProfile) (p : jsRawProfile) : List jsRawProfile :=
  if ring.length ≥ JS_SCAN_HEAD_PROFILES_MAX then ring.drop 1 ++ [p] else ring ++ [p]

def INVALID_XY : Int := -32768

/-- The loop over the values of a brightness-and-XY datagram in `ProcessProfile`: `n`
counts the values read, `idx` is the slot of the next value. -/
def placeXYBrightness (cameraToMill : Int → Int → Int × Int) (raw : List Nat)
    (xy_offset b_offset inc : Nat) : Nat → Nat → Nat → jsRawProfile → Option jsRawProfile
  | 0, _, _, p => some p
  | remaining + 1, n, idx, p =>
    let x_raw := i16 (be16 raw (xy_offset + 4 * n))
    let y_raw := i16 (be16 raw (xy_offset + 4 * n + 2))
    let brightness := byteAt raw (b_offset + n)
    if INVALID_XY ≠ x_raw ∧ INVALID_XY ≠ y_raw then
      match p.InsertPointAndBrightness idx (cameraToMill x_raw y_raw) brightness with
      | none => none
      | some p1 =>
        placeXYBrightness cameraToMill raw xy_offset b_offset inc remaining (n + 1)
          ((idx + inc) % 4294967296) p1
    else
      placeXYBrightness cameraToMill raw xy_offset b_offset inc remaining (n + 1)
        ((idx + inc) % 4294967296) p

/-- The loop over the values of an XY-only datagram in `ProcessProfile`. -/
def placeXY (cameraToMill : Int → Int → Int × Int) (raw : List Nat)
    (xy_offset inc : Nat) : Nat → Nat → Nat → jsRawProfile → Option jsRawProfile
  | 0, _, _, p => some p
  | remaining + 1, n, idx, p =>
    let x_raw := i16 (be16 raw (xy_offset + 4 * n))
    let y_raw := i16 (be16 raw (xy_offset + 4 * n + 2))
    if INVALID_XY ≠ x_raw ∧ INVALID_XY ≠ y_raw then
      match p.InsertPoint idx (cameraToMill x_raw y_raw) with
      | none => none
      | some p1 =>
        placeXY cameraToMill raw xy_offset inc remaining (n + 1)
          ((idx + inc) % 4294967296) p1
    else
      placeXY cameraToMill raw xy_offset inc remaining (n + 1) ((idx + inc) % 4294967296) p

/-- The data placement of `ProcessProfile` for one datagram into the profile in
assembly. -/
def placeData (cameraToMill : Int → Int → Int × Int) (packet : DataPacket)
    (p : jsRawProfile) : Option jsRawProfile :=
  if packet.m_hdr.data_type.testBit 0 then
    placeXYBrightness cameraToMill packet.m_raw (packet.GetFragmentLayout 2).offset
      (packet.GetFragmentLayout 1).offset
      ((packet.m_hdr.number_datagrams * (packet.GetFragmentLayout 2).step) % 4294967296)
      (packet.GetFragmentLayout 2).num_vals 0
      ((packet.m_hdr.start_column +
        (packet.m_hdr.datagram_position * (packet.GetFragmentLayout 2).step) % 4294967296) %
          4294967296) p
  else if packet.m_hdr.data_type.testBit 1 then
    placeXY cameraToMill packet.m_raw (packet.GetFragmentLayout 2).offset
      ((packet.m_hdr.number_datagrams * (packet.GetFragmentLayout 2).step) % 4294967296)
      (packet.GetFragmentLayout 2).num_vals 0
      ((packet.m_hdr.start_column +
        (packet.m_hdr.datagram_position * (packet.GetFragmentLayout 2).step) % 4294967296) %
          4294967296) p
  else some p

/-- The first part of `ProcessProfile`: when the key of the datagram differs from the key
of the profile in assembly, a partial profile is pushed and a new builder is started. -/
def startProfile (h : ScanHead) (r : Receiver) (packet : DataPacket) : Option Receiver :=
  if packet.GetSourceId ≠ r.m_last_profile_source ∨
      packet.m_hdr.timestamp_ns ≠ r.m_last_profile_timestamp then
    match ProfileBuilder.create (h.CameraPortToId packet.m_hdr.camera_port)
        (h.LaserPortToId packet.m_hdr.laser_port) packet h.m_format with
    | none => none
    | some fresh =>
      some { r with
        m_circ_buffer :=
          match r.m_profile with
          | some partialProfile =>
            circPush r.m_circ_buffer
              (partialProfile.SetPacketInfo r.m_packets_received_for_profile
                packet.m_hdr.number_datagrams)
          | none => r.m_circ_buffer,
        m_last_profile_source := packet.GetSourceId,
        m_last_profile_timestamp := packet.m_hdr.timestamp_ns,
        m_packets_received_for_profile := 0,
        m_profile := some fresh }
  else some r

/-- `ScanHead::ProcessProfile(buf, len)`. `cameraToMill camera laser` stands for
`m_map_alignment[(camera, laser)].CameraToMill`. The result is `none` where the source has
undefined behaviour: a division by zero in the constructor of the datagram, more encoder
values than the profile holds, a null builder, a slot outside the profile. -/
def ProcessProfile (h : ScanHead) (cameraToMill : jsCamera → jsLaser → Int → Int → Int × Int)
    (r : Receiver) (buf : List Nat) : Option Receiver :=
  match DataPacket.parse buf with
  | none => none
  | some packet =>
    match startProfile h { r with m_packets_received :=
        (r.m_packets_received + 1) % 18446744073709551616 } packet with
    | none => none
    | some r1 =>
      match r1.m_profile with
      | none => none
      | some profile =>
        match placeData (cameraToMill profile.camera profile.laser) packet profile with
        | none => none
        | some placed =>
          if (r1.m_packets_received_for_profile + 1) % 4294967296 =
              packet.m_hdr.number_datagrams then
            some { r1 with
              m_packets_received_for_profile :=
                (r1.m_packets_received_for_profile + 1) % 4294967296,
              m_circ_buffer := circPush r1.m_circ_buffer
                (placed.SetPacketInfo packet.m_hdr.number_datagrams
                  packet.m_hdr.number_datagrams),
              m_profile := none, m_last_profile_source := 0, m_last_profile_timestamp := 0,
              m_complete_profiles_received :=
                (r1.m_complete_profiles_received + 1) % 18446744073709551616 }
          else
            some { r1 with
              m_packets_received_for_profile :=
                (r1.m_packets_received_for_profile + 1) % 4294967296,
              m_profile := some placed }

/-- The receiver feeding a sequence of profile datagrams to `ProcessProfile`. -/
def processDatagrams (h : ScanHead)
    (cameraToMill : jsCamera → jsLaser → Int → Int → Int × Int) :
    List (List Nat) → Receiver → Option Receiver
  | [], r => some r
  | buf :: rest, r =>
    match ProcessProfile h cameraToMill r buf with
    | none => none
    | some r1 => processDatagrams h cameraToMill rest r1

/-- The receiver state of a constructed head after `ScanHead::StartScanning`. -/
def receiverStart : Receiver :=
  { m_profile := none, m_packets_received := 0, m_packets_received_for_profile := 0,
    m_complete_profiles_received := 0, m_last_profile_source := 0,
    m_last_profile_timestamp := 0, m_circ_buffer := [] }

/-! ## Example datagrams used by the concrete evaluations -/

/-- The two bytes of a 16-bit value in network byte order. -/
def bytes16 (v : Nat) : List Nat := [v / 256 % 256, v % 256]

/-- The four bytes of a 32-bit value in network byte order. -/
def bytes32 (v : Nat) : List Nat := bytes16 (v / 65536 % 65536) ++ bytes16 (v % 65536)

/-- Modelled from the spec: `TcpSerializationHelpers.hpp`, which defines `hostToNetwork`,
is not part of the sources; the eight bytes of a 64-bit value in network byte order. -/
def bytes64 (v : Nat) : List Nat :=
  bytes32 (v / 4294967296 % 4294967296) ++ bytes32 (v % 4294967296)

/-- `DatagramHeader::SerializeToBytes`: the 40 bytes of the header. -/
def DatagramHeader.SerializeToBytes (h : DatagramHeader) : List Nat :=
  bytes16 h.magic ++ bytes16 h.exposure_time_us ++
  [h.scan_head_id % 256, h.camera_port % 256, h.laser_port % 256, h.flags % 256] ++
  bytes64 h.timestamp_ns ++ bytes16 h.laser_on_time_us ++ bytes16 h.data_type ++
  bytes16 h.data_length ++ [h.number_encoders % 256, h.DEPRECATED_DO_NOT_USE % 256] ++
  bytes32 h.datagram_position ++ bytes32 h.number_datagrams ++
  bytes16 h.start_column ++ bytes16 h.end_column ++ bytes32 h.sequence_number

def kDataMagic : Nat := 64205

/-- A brightness-and-XY profile datagram of the head with id `id` (camera port 0, laser
port 0, no encoder) for the columns 0 to 3 with step 1: header, the two steps, the
brightness bytes, then the `(x, y)` words, given as 16-bit patterns. -/
def exampleDatagram (id timestamp_ns position number_datagrams : Nat)
    (values : List (Nat × Nat × Nat)) : List Nat :=
  DatagramHeader.SerializeToBytes
    { magic := kDataMagic, exposure_time_us := 100, scan_head_id := id, camera_port := 0,
      laser_port := 0, flags := 0, timestamp_ns := timestamp_ns, laser_on_time_us := 100,
      data_type := 3, data_length := 5 * values.length, number_encoders := 0,
      datagram_position := position, number_datagrams := number_datagrams,
      start_column := 0, end_column := 3, sequence_number := 7,
      DEPRECATED_DO_NOT_USE := 0 } ++
  bytes16 1 ++ bytes16 1 ++ values.map (fun v => v.2.2) ++
  (values.map (fun v => bytes16 v.1 ++ bytes16 v.2.1)).flatten

/-- An alignment that leaves the points unchanged. -/
def identityAlignment : jsCamera → jsLaser → Int → Int → Int × Int := fun _ _ x y => (x, y)


/-! ## Payload entries of a profile datagram -/

namespace DataPacket

/-- The raw x of payload entry `n`, as the loop of `ProcessProfile` reads it. -/
def xRaw (p : DataPacket) (n : Nat) : Int :=
  i16 (be16 p.m_raw ((p.GetFragmentLayout 2).offset + 4 * n))

/-- The raw y of payload entry `n`. -/
def yRaw (p : DataPacket) (n : Nat) : Int :=
  i16 (be16 p.m_raw ((p.GetFragmentLayout 2).offset + 4 * n + 2))

/-- The brightness of payload entry `n`. -/
def brightnessRaw (p : DataPacket) (n : Nat) : Nat :=
  byteAt p.m_raw ((p.GetFragmentLayout 1).offset + n)

/-- Payload entry `n` is valid: neither raw coordinate is the sentinel. -/
def entryValid (p : DataPacket) (n : Nat) : Bool :=
  decide (INVALID_XY ≠ p.xRaw n ∧ INVALID_XY ≠ p.yRaw n)

/-- The placement index of payload entry `n`. -/
def slot (p : DataPacket) (n : Nat) : Nat :=
  p.m_hdr.start_column +
    (p.m_hdr.datagram_position + n * p.m_hdr.number_datagrams) * (p.GetFragmentLayout 2).step

/-- The slot content for payload entry `n` under the alignment `cameraToMill`. -/
def point (p : DataPacket) (cameraToMill : Int → Int → Int × Int) (n : Nat) : jsProfileData :=
  { x := (cameraToMill (p.xRaw n) (p.yRaw n)).1, y := (cameraToMill (p.xRaw n) (p.yRaw n)).2,
    brightness := (p.brightnessRaw n : Int) }

/-- The number of valid payload entries of a datagram. -/
def validCount (p : DataPacket) : Nat :=
  ((List.range (p.GetFragmentLayout 2).num_vals).filter p.entryValid).length

end DataPacket

/-- The number of values the constructor of `DataPacket` computes for a content type of
step `step`. -/
def numVals (hdr : DatagramHeader) (step : Nat) : Nat :=
  if u32 (Int.tdiv ((hdr.end_column : Int) - (hdr.start_column : Int) + 1) (step : Int)) %
      hdr.number_datagrams > hdr.datagram_position then
    (u32 ((hdr.end_column : Int) - (hdr.start_column : Int) + 1) /
      ((hdr.number_datagrams * step) % 4294967296) + 1) % 4294967296
  else
    u32 ((hdr.end_column : Int) - (hdr.start_column : Int) + 1) /
      ((hdr.number_datagrams * step) % 4294967296)


/-- A list of slot writes applied to the data array in order. -/
def applyWrites (ws : List (Nat × jsProfileData)) (d : List jsProfileData) :
    List jsProfileData :=
  ws.foldl (fun d w => d.set w.1 w.2) d

/-- The profile `p` after the slot writes `ws`, its counters of valid points having been
`cx` and `cb` (as `uint32_t`) before. -/
def jsRawProfile.withWrites (p : jsRawProfile) (ws : List (Nat × jsProfileData))
    (cx cb : Nat) : jsRawProfile :=
  { p with data := applyWrites ws p.data,
           data_valid_xy := (cx + ws.length) % 4294967296,
           data_valid_brightness := (cb + ws.length) % 4294967296 }

/-- The slot writes of `remaining` rounds of the placement loop of `ProcessProfile` that
start at entry `n` and slot `idx` and advance the slot by `inc`. -/
def loopWrites (valid : Nat → Bool) (pt : Nat → jsProfileData) (inc : Nat) :
    Nat → Nat → Nat → List (Nat × jsProfileData)
  | 0, _, _ => []
  | remaining + 1, n, idx =>
    (if valid n then [(idx, pt n)] else []) ++ loopWrites valid pt inc remaining (n + 1) (idx + inc)

/-- The slot writes of a datagram: its valid payload entries, each at its placement
index. -/
def DataPacket.writes (p : DataPacket) (cameraToMill : Int → Int → Int × Int) :
    List (Nat × jsProfileData) :=
  ((List.range (p.GetFragmentLayout 2).num_vals).filter p.entryValid).map
    (fun n => (p.slot n, p.point cameraToMill n))

/-- The two datagrams of a two-datagram profile of head 1 with timestamp 1000, the second
one first; entry 1 of the datagram of position 1 carries the sentinel as its raw x. -/
def exampleProfileDatagrams : List (List Nat) :=
  [exampleDatagram 1 1000 1 2 [(8, 9, 10), (32768, 1, 2)],
   exampleDatagram 1 1000 0 2 [(5, 6, 7), (1, 2, 3)]]

/-! ## Reading profiles (`ScanHead::GetProfiles`, `ScanHead::ClearProfiles`,
`joescan_pinchot.cpp`) -/

/-- The loop of `ScanHead::GetProfiles`: while the ring is not empty and `count` is
positive, the front of the ring is popped and appended to `profiles`. -/
def getProfilesLoop : List jsRawProfile → Nat → List jsRawProfile →
    List jsRawProfile × List jsRawProfile
  | ring, 0, profiles => (profiles, ring)
  | [], _ + 1, profiles => (profiles, [])
  | p :: ring, count + 1, profiles => getProfilesLoop ring count (profiles ++ [p])

/-- `ScanHead::GetProfiles(count)`: the profiles returned and the receiver afterwards. -/
def ScanHead.GetProfiles (r : Receiver) (count : Nat) : List jsRawProfile × Receiver :=
  ((getProfilesLoop r.m_circ_buffer count []).1,
    { r with m_circ_buffer := (getProfilesLoop r.m_circ_buffer count []).2 })

/-- `ScanHead::ClearProfiles`. -/
def ScanHead.ClearProfiles (r : Receiver) : Receiver := { r with m_circ_buffer := [] }

/-- `jsScanHeadGetRawProfiles(scan_head, profiles, max_profiles)`: `profiles_null` tells
whether `profiles` is null and `sh` is the head `_get_scan_head_object` finds, if any.
Returns the return value, the profiles copied to `profiles` and the head afterwards. -/
def jsScanHeadGetRawProfiles (profiles_null : Bool) (sh : Option Receiver)
    (max_profiles : Nat) : Int × List jsRawProfile × Option Receiver :=
  if profiles_null then (JS_ERROR_NULL_ARGUMENT, [], sh)
  else
    match sh with
    | none => (JS_ERROR_INVALID_ARGUMENT, [], none)
    | some r =>
      let p := ScanHead.GetProfiles r (u32 (i32 max_profiles))
      let total :=
        if max_profiles < p.1.length % 4294967296 then max_profiles
        else p.1.length % 4294967296
      (i32 total, p.1.take total, some p.2)

/-- The structure `jsProfile`; `data` holds the entries written by
`jsScanHeadGetProfiles`. -/
structure jsProfile where
  scan_head_id : Nat
  camera : jsCamera
  laser : jsLaser
  timestamp_ns : Nat
  flags : Nat
  sequence_number : Nat
  encoder_values : List Int
  num_encoder_values : Nat
  laser_on_time_us : Nat
  format : jsDataFormat
  packets_received : Nat
  packets_expected : Nat
  data_len : Nat
  data : List jsProfileData
  deriving DecidableEq, Repr

/-- The function `_data_format_to_stride` of `joescan_pinchot.cpp`. -/
def _data_format_to_stride (fmt : jsDataFormat) : Nat :=
  match fmt with
  | jsDataFormat.JS_DATA_FORMAT_INVALID => 0
  | jsDataFormat.JS_DATA_FORMAT_XY_BRIGHTNESS_FULL => 1
  | jsDataFormat.JS_DATA_FORMAT_XY_FULL => 1
  | jsDataFormat.JS_DATA_FORMAT_XY_BRIGHTNESS_HALF => 2
  | jsDataFormat.JS_DATA_FORMAT_XY_HALF => 2
  | jsDataFormat.JS_DATA_FORMAT_XY_BRIGHTNESS_QUARTER => 4
  | jsDataFormat.JS_DATA_FORMAT_XY_QUARTER => 4

/-- The loop `for (n = 0; n < p[m]->data_len; n += stride)` of `jsScanHeadGetProfiles`,
which copies the valid points; `out` is the part of `data` written so far. `fuel` bounds
the number of rounds: the result is `none` when the loop has not ended after `fuel`
rounds. -/
def copyValidPoints (raw : jsRawProfile) (stride : Nat) :
    Nat → Nat → List jsProfileData → Option (List jsProfileData)
  | 0, n, out => if n < raw.data_len then none else some out
  | fuel + 1, n, out =>
    if n < raw.data_len then
      copyValidPoints raw stride fuel ((n + stride) % 4294967296)
        (if JS_PROFILE_DATA_INVALID_XY ≠ (raw.data.getD n invalidPoint).x ∨
            JS_PROFILE_DATA_INVALID_XY ≠ (raw.data.getD n invalidPoint).y then
          out ++ [raw.data.getD n invalidPoint]
        else out)
    else some out

/-- The body of the loop over the profiles in `jsScanHeadGetProfiles`: the raw profile is
copied to a `jsProfile`, its valid points compacted; `data_len + 1` rounds are enough
for every positive stride. -/
def convertProfile (raw : jsRawProfile) : Option jsProfile :=
  match copyValidPoints raw (_data_format_to_stride raw.format) (raw.data_len + 1) 0 [] with
  | none => none
  | some out =>
    some { scan_head_id := raw.scan_head_id, camera := raw.camera, laser := raw.laser,
           timestamp_ns := raw.timestamp_ns, flags := raw.flags,
           sequence_number := raw.sequence_number,
           encoder_values := raw.encoder_values.take raw.num_encoder_values,
           num_encoder_values := raw.num_encoder_values,
           laser_on_time_us := raw.laser_on_time_us, format := raw.format,
           packets_received := raw.packets_received,
           packets_expected := raw.packets_expected,
           data_len := out.length, data := out }

/-- The loop over the profiles in `jsScanHeadGetProfiles`. -/
def convertProfiles : List jsRawProfile → Option (List jsProfile)
  | [] => some []
  | raw :: rest =>
    match convertProfile raw with
    | none => none
    | some p =>
      match convertProfiles rest with
      | none => none
      | some ps => some (p :: ps)

/-- `jsScanHeadGetProfiles(scan_head, profiles, max_profiles)`; the result is `none` when
the call does not return. -/
def jsScanHeadGetProfiles (profiles_null : Bool) (sh : Option Receiver)
    (max_profiles : Nat) : Option (Int × List jsProfile × Option Receiver) :=
  if profiles_null then some (JS_ERROR_NULL_ARGUMENT, [], sh)
  else
    match sh with
    | none => some (JS_ERROR_INVALID_ARGUMENT, [], none)
    | some r =>
      let p := ScanHead.GetProfiles r (u32 (i32 max_profiles))
      let total :=
        if max_profiles < p.1.length % 4294967296 then max_profiles
        else p.1.length % 4294967296
      match convertProfiles (p.1.take total) with
      | none => none
      | some out => some (i32 total, out, some p.2)

/-- The calls that act on the profile ring of a head: the receiver handing a datagram to
`ProcessProfile`, `GetProfiles` and `ClearProfiles`. -/
inductive ReceiverOp where
  | datagram (buf : List Nat)
  | getProfiles (count : Nat)
  | clearProfiles

/-- The receiver after one call (`none` where `ProcessProfile` has undefined
behaviour). -/
def ReceiverOp.apply (h : ScanHead)
    (cameraToMill : jsCamera → jsLaser → Int → Int → Int × Int) (r : Receiver) :
    ReceiverOp → Option Receiver
  | ReceiverOp.datagram buf => ProcessProfile h cameraToMill r buf
  | ReceiverOp.getProfiles count => some (ScanHead.GetProfiles r count).2
  | ReceiverOp.clearProfiles => some (ScanHead.ClearProfiles r)

/-- The receiver after a sequence of calls. -/
def runReceiverOps (h : ScanHead)
    (cameraToMill : jsCamera → jsLaser → Int → Int → Int × Int) :
    List ReceiverOp → Receiver → Option Receiver
  | [], r => some r
  | op :: rest, r =>
    match op.apply h cameraToMill r with
    | none => none
    | some r1 => runReceiverOps h cameraToMill rest r1

/-- The receiver of head 1 after the two datagrams of `exampleProfileDatagrams` and the
single datagram of the next profile: two complete profiles wait in the ring. -/
def exampleReceiver : Receiver :=
  (processDatagrams (exampleHead 1 1000 1500) identityAlignment
    (exampleProfileDatagrams ++
      [exampleDatagram 1 2000 0 1 [(1, 2, 3), (4, 5, 6), (7, 8, 9), (10, 11, 12)]])
    receiverStart).getD receiverStart

/-! ## Well-formed phase tables -/

/-- A configuration no head accepts: its `laser_on_time_max_us` is below its
`laser_on_time_def_us`. -/
def invalidConfiguration : jsScanHeadConfiguration :=
  { defaultConfiguration with laser_on_time_max_us := 0 }

/-- The counters bound the elements of every head, no counter exceeds the
`GetMaxScanPairs()` of its head, and no phase holds a (head, camera) twice. -/
def PhaseTable.WellFormed (heap : Heap) (t : PhaseTable) : Prop :=
  (∀ p, headCount t.m_table p ≤ (mapFind t.m_scan_head_count p).getD 0) ∧
  (∀ p c, mapFind t.m_scan_head_count p = some c → c ≤ (heap p).GetMaxScanPairs) ∧
  (∀ v ∈ t.m_table, (v.map elementKey).Nodup)

/-! ## Units and alignment scale (`ScanHead::ScanHead`, `ScanHead::SetAlignment`,
`jsScanSystemCreate`) -/

/-- How a call ends: it returns a value (0 for a `void` function) or an exception leaves
it. -/
inductive Outcome where
  | returned (r : Int)
  | thrown
  deriving DecidableEq, Repr

/-- The `alignment_scale` the constructor of `ScanHead` and `SetAlignment` compute from
`m_units`: 1.0 in the first branch, 25.4 in the second, and `none` in the last branch,
where the constructor throws and `SetAlignment` returns `JS_ERROR_INTERNAL`. -/
def alignmentScale (units : jsUnits) : Option ℚ :=
  if jsUnits.JS_UNITS_INCHES = units then some 1
  else if jsUnits.JS_UNITS_MILLIMETER ≠ units then some (254 / 10)
  else none

/-- The constructor `ScanHead(manager, discovered, id)`: `units` is
`manager.GetUnits()`, `spec` the result of `LoadScanHeadSpecification` (`none` when it
throws for an unknown type). The result is `none` when the constructor throws. Members
the constructor leaves without a value are taken as 0. -/
def ScanHead.construct (units : jsUnits) (spec : Option ScanHeadSpec)
    (serial_number id : Nat) : Option ScanHead :=
  match spec with
  | none => none
  | some s =>
    match alignmentScale units with
    | none => none
    | some _ =>
      some { m_spec := s, m_status_min_scan_period_us := 0,
             m_config_default :=
               { camera_exposure_time_min_us := 10000, camera_exposure_time_def_us := 500000,
                 camera_exposure_time_max_us := 1000000, laser_on_time_min_us := 100,
                 laser_on_time_def_us := 500, laser_on_time_max_us := 1000,
                 laser_detection_threshold := 120, saturation_threshold := 800,
                 saturation_percentage := 30 },
             m_config :=
               { camera_exposure_time_min_us := 10000, camera_exposure_time_def_us := 500000,
                 camera_exposure_time_max_us := 1000000, laser_on_time_min_us := 100,
                 laser_on_time_def_us := 500, laser_on_time_max_us := 1000,
                 laser_detection_threshold := 120, saturation_threshold := 800,
                 saturation_percentage := 30 },
             m_format := jsDataFormat.JS_DATA_FORMAT_XY_BRIGHTNESS_FULL,
             m_units := units,
             m_cable := jsCableOrientation.JS_CABLE_ORIENTATION_UPSTREAM,
             m_scan_pairs := [], m_serial_number := serial_number, m_id := id,
             m_control_tcp_fd := 0, m_scan_period_us := 0, m_data_type_mask := 0,
             m_data_stride := 0, m_is_scanning := false }

/-- `ScanHead::SetAlignment(camera, laser, roll_degrees, shift_x, shift_y)`: the return
value and the scale handed to `AlignmentParams` when an alignment is stored. -/
def ScanHead.SetAlignment (h : ScanHead) (camera : jsCamera) (laser : jsLaser) :
    Int × Option ℚ :=
  if h.IsCameraValid camera = false ∨ h.IsLaserValid laser = false then
    (JS_ERROR_INVALID_ARGUMENT, none)
  else if h.m_is_scanning then (JS_ERROR_SCANNING, none)
  else
    match alignmentScale h.m_units with
    | some scale => (0, some scale)
    | none => (JS_ERROR_INTERNAL, none)

/-- `jsScanSystemCreate(units)`, as far as the coordinator it creates is concerned: `none`
stands for the return value `JS_ERROR_INVALID_ARGUMENT`. -/
def jsScanSystemCreate (units : jsUnits) : Option ScanManager :=
  if jsUnits.JS_UNITS_INCHES ≠ units ∧ jsUnits.JS_UNITS_MILLIMETER ≠ units then none
  else
    some { m_serial_to_scan_head := [], m_id_to_scan_head := [],
           m_phase_table := { m_table := [], m_scan_head_count := [] },
           m_state := SystemState.Disconnected, m_units := units }
/-! ## Creating heads (`ScanManager::Discover`, `ScanManager::CreateScanHead`) -/

def API_VERSION_MAJOR : Nat := 16
def INT_MAX : Nat := 2147483647

/-- The fields of `jsDiscovered` that creating a head reads. -/
structure jsDiscovered where
  serial_number : Nat
  ip_addr : Nat
  type : Nat
  firmware_version_major : Nat
  firmware_version_minor : Nat
  firmware_version_patch : Nat
  deriving DecidableEq, Repr

/-- Lookup in the map `m_serial_to_discovered`, held as an association list. -/
def discoveredFind : List (Nat × jsDiscovered) → Nat → Option jsDiscovered
  | [], _ => none
  | kv :: rest, k => if kv.1 = k then some kv.2 else discoveredFind rest k

/-- Assignment `discovered[k] = v` on the map `m_serial_to_discovered`. -/
def discoveredSet : List (Nat × jsDiscovered) → Nat → jsDiscovered → List (Nat × jsDiscovered)
  | [], k, v => [(k, v)]
  | kv :: rest, k, v => if kv.1 = k then (k, v) :: rest else kv :: discoveredSet rest k v

/-- Insertion `m[k] = v` into a registry of heads, which is kept in ascending key
order. -/
def registryInsert : List (Nat × Nat) → Nat → Nat → List (Nat × Nat)
  | [], k, v => [(k, v)]
  | kv :: rest, k, v =>
    if k < kv.1 then (k, v) :: kv :: rest
    else if k = kv.1 then (k, v) :: rest
    else kv :: registryInsert rest k v

namespace ScanManager

/-- `ScanManager::Discover`: `replies` are the discovery replies `BroadcastDiscover`
receives, in order (`none` when it fails with `JS_ERROR_NETWORK` before receiving).
Returns the discovery map afterwards and the return value. -/
def Discover (m : ScanManager) (discovered : List (Nat × jsDiscovered))
    (replies : Option (List jsDiscovered)) : List (Nat × jsDiscovered) × Int :=
  if m.IsConnected then (discovered, JS_ERROR_CONNECTED)
  else
    match replies with
    | none => (discovered, JS_ERROR_NETWORK)
    | some rs =>
      ((rs.foldl (fun d reply => discoveredSet d reply.serial_number reply) discovered),
        i32 (rs.foldl (fun d reply => discoveredSet d reply.serial_number reply)
          discovered).length)

/-- `ScanManager::CreateScanHead(serial_number, id)`. `discovered` is the member
`m_serial_to_discovered`, `replies` what a repeated discovery would receive, `loadSpec`
the specification `LoadScanHeadSpecification` loads for a head type, and `fresh` the
address `new ScanHead` returns. The result is the heap, the coordinator and the discovery
map after the call and how the call ended. -/
def CreateScanHead (heap : Heap) (m : ScanManager) (discovered : List (Nat × jsDiscovered))
    (replies : Option (List jsDiscovered)) (loadSpec : Nat → Option ScanHeadSpec)
    (fresh : Nat) (serial_number id : Nat) :
    Heap × ScanManager × List (Nat × jsDiscovered) × Outcome :=
  if m.IsScanning then (heap, m, discovered, Outcome.returned JS_ERROR_SCANNING)
  else if INT_MAX < id then (heap, m, discovered, Outcome.returned JS_ERROR_INVALID_ARGUMENT)
  else if (mapFind m.m_serial_to_scan_head serial_number).isSome then
    (heap, m, discovered, Outcome.returned JS_ERROR_ALREADY_EXISTS)
  else if (mapFind m.m_id_to_scan_head id).isSome then
    (heap, m, discovered, Outcome.returned JS_ERROR_ALREADY_EXISTS)
  else
    let discovered1 :=
      if (discoveredFind discovered serial_number).isNone then
        (m.Discover discovered replies).1
      else discovered
    match discoveredFind discovered1 serial_number with
    | none => (heap, m, discovered1, Outcome.returned JS_ERROR_NOT_DISCOVERED)
    | some d =>
      if API_VERSION_MAJOR ≠ d.firmware_version_major then
        (heap, m, discovered1, Outcome.returned JS_ERROR_VERSION_COMPATIBILITY)
      else
        match ScanHead.construct m.m_units (loadSpec d.type) d.serial_number id with
        | none => (heap, m, discovered1, Outcome.thrown)
        | some sh =>
          (heap.store fresh sh,
            { m with
              m_serial_to_scan_head :=
                registryInsert m.m_serial_to_scan_head d.serial_number fresh,
              m_id_to_scan_head := registryInsert m.m_id_to_scan_head id fresh },
            discovered1, Outcome.returned 0)

end ScanManager

/-- A coordinator in inches without heads. -/
def managerEmpty : ScanManager :=
  { m_serial_to_scan_head := [], m_id_to_scan_head := [],
    m_phase_table := { m_table := [], m_scan_head_count := [] },
    m_state := SystemState.Disconnected, m_units := jsUnits.JS_UNITS_INCHES }

/-- The discovery reply of head 12345 with the given major firmware version. -/
def exampleDiscovered (firmware_version_major : Nat) : jsDiscovered :=
  { serial_number := 12345, ip_addr := 3232235530, type := 1,
    firmware_version_major := firmware_version_major, firmware_version_minor := 0,
    firmware_version_patch := 0 }

/-! ## Connecting and disconnecting (`ScanHead::Connect`, `ScanManager::Connect`,
`ScanManager::Disconnect`, `ScanManager::StopScanning`) -/

/-- Results of the socket operations of `ScanManager::Connect`, per `ScanHead *`: the
descriptor `InitTCPSocket` returns for the control and for the data stream (`none` when
it throws), the return value of `TCPSend` for the connect message, the
`min_scan_period_ns` of the status reply read by `ScanHead::Connect` and of the one read
after the windows were sent (`none` when the status request fails). -/
structure ConnectNetwork where
  control_socket : Nat → Option Int
  data_socket : Nat → Option Int
  send_connect : Nat → Int
  status_reply : Nat → Option Nat
  status_refresh : Nat → Option Nat

/-- `ScanHead::Connect`; the descriptor of the data stream is not kept in the model. -/
def ScanHead.Connect (h : ScanHead) (control data : Option Int) (tcp : Int)
    (reply : Option Nat) : ScanHead × Outcome :=
  match control with
  | none => (h, Outcome.thrown)
  | some fd =>
    match data with
    | none => ({ h with m_control_tcp_fd := fd }, Outcome.thrown)
    | some _ =>
      if tcp ≠ 0 then ({ h with m_control_tcp_fd := fd }, Outcome.returned tcp)
      else
        ((ScanHead.GetStatusMessage { h with m_control_tcp_fd := fd } reply).1,
          Outcome.returned (ScanHead.GetStatusMessage { h with m_control_tcp_fd := fd } reply).2)

/-- `ScanHead::Disconnect`; the sockets are closed whatever the send returns. -/
def ScanHead.Disconnect (h : ScanHead) : ScanHead := { h with m_control_tcp_fd := -1 }

/-- Removal `m.erase(k)` from a `std::map` held as an association list. -/
def mapErase : List (Nat × Nat) → Nat → List (Nat × Nat)
  | [], _ => []
  | kv :: rest, k => if kv.1 = k then rest else kv :: mapErase rest k

namespace ScanManager

/-- The first loop of `Connect`: every head is connected in turn and the heads whose
`Connect` returned 0 are entered into the map `connected`. The third component tells
whether an exception left the loop. -/
def connectHeads (cn : ConnectNetwork) :
    List (Nat × Nat) → Heap → List (Nat × Nat) → Heap × List (Nat × Nat) × Bool
  | [], heap, connected => (heap, connected, false)
  | pair :: rest, heap, connected =>
    match (heap pair.2).Connect (cn.control_socket pair.2) (cn.data_socket pair.2)
        (cn.send_connect pair.2) (cn.status_reply pair.2) with
    | (h1, Outcome.thrown) => (heap.store pair.2 h1, connected, true)
    | (h1, Outcome.returned r) =>
      if 0 ≠ r then connectHeads cn rest (heap.store pair.2 h1) connected
      else connectHeads cn rest (heap.store pair.2 h1) (mapSet connected pair.1 pair.2)

/-- The loop of `Connect` that requests a new status of every head and erases the heads
whose request fails from `connected`. -/
def refreshConnected (cn : ConnectNetwork) :
    List (Nat × Nat) → Heap → List (Nat × Nat) → Heap × List (Nat × Nat)
  | [], heap, connected => (heap, connected)
  | pair :: rest, heap, connected =>
    if 0 ≠ ((heap pair.2).GetStatusMessage (cn.status_refresh pair.2)).2 then
      refreshConnected cn rest
        (heap.store pair.2 ((heap pair.2).GetStatusMessage (cn.status_refresh pair.2)).1)
        (mapErase connected (heap pair.2).m_serial_number)
    else
      refreshConnected cn rest
        (heap.store pair.2 ((heap pair.2).GetStatusMessage (cn.status_refresh pair.2)).1)
        connected

/-- `ScanManager::Connect(timeout_s)`; `SendWindow`, whose return value is discarded,
changes no member of the model. -/
def Connect (cn : ConnectNetwork) (heap : Heap) (m : ScanManager) :
    Heap × ScanManager × Outcome :=
  if m.IsScanning then (heap, m, Outcome.returned JS_ERROR_SCANNING)
  else if m.IsConnected then (heap, m, Outcome.returned JS_ERROR_CONNECTED)
  else if m.m_serial_to_scan_head.isEmpty then (heap, m, Outcome.returned 0)
  else
    let c := connectHeads cn m.m_serial_to_scan_head heap []
    if c.2.2 then (c.1, m, Outcome.thrown)
    else if c.2.1.length = m.m_serial_to_scan_head.length then
      let r := refreshConnected cn m.m_serial_to_scan_head c.1 c.2.1
      if r.2.length = m.m_serial_to_scan_head.length then
        (r.1, { m with m_state := SystemState.Connected }, Outcome.returned (i32 r.2.length))
      else (r.1, m, Outcome.returned (i32 r.2.length))
    else (c.1, m, Outcome.returned (i32 c.2.1.length))

/-- The loop of `Disconnect` over the heads. -/
def disconnectHeads : List (Nat × Nat) → Heap → Heap
  | [], heap => heap
  | pair :: rest, heap => disconnectHeads rest (heap.store pair.2 (heap pair.2).Disconnect)

/-- `ScanManager::Disconnect`, a `void` function that throws when the coordinator is not
connected or is scanning. -/
def Disconnect (heap : Heap) (m : ScanManager) : Heap × ScanManager × Outcome :=
  if m.IsConnected = false then (heap, m, Outcome.thrown)
  else if m.IsScanning then (heap, m, Outcome.thrown)
  else
    (disconnectHeads m.m_serial_to_scan_head heap,
      { m with m_state := SystemState.Disconnected }, Outcome.returned 0)

/-- The loop of `StopScanning` over the heads; the return values are discarded. -/
def stopHeads (net : Network) : List (Nat × Nat) → Heap → Heap
  | [], heap => heap
  | pair :: rest, heap =>
    stopHeads net rest
      (heap.store pair.2 ((heap pair.2).StopScanning (net.send_scan_stop pair.2)).1)

/-- `ScanManager::StopScanning`. -/
def StopScanning (net : Network) (heap : Heap) (m : ScanManager) : Heap × ScanManager × Int :=
  if m.IsConnected = false then (heap, m, JS_ERROR_NOT_CONNECTED)
  else if m.IsScanning = false then (heap, m, JS_ERROR_NOT_SCANNING)
  else
    (stopHeads net m.m_serial_to_scan_head heap,
      { m with m_state := SystemState.Connected }, 0)

end ScanManager

/-- The calls that move the state of a coordinator. -/
inductive ManagerCall where
  | connect
  | disconnect
  | startScanning (period_us : Nat) (fmt : jsDataFormat)
  | stopScanning
  deriving DecidableEq, Repr

/-- The heap and the coordinator after a call, and how the call ended. -/
def ManagerCall.run (cn : ConnectNetwork) (net : Network) (heap : Heap) (m : ScanManager) :
    ManagerCall → Heap × ScanManager × Outcome
  | ManagerCall.connect => ScanManager.Connect cn heap m
  | ManagerCall.disconnect => ScanManager.Disconnect heap m
  | ManagerCall.startScanning period_us fmt =>
    ((ScanManager.StartScanning net heap m period_us fmt).1,
      (ScanManager.StartScanning net heap m period_us fmt).2.1,
      Outcome.returned (ScanManager.StartScanning net heap m period_us fmt).2.2)
  | ManagerCall.stopScanning =>
    ((ScanManager.StopScanning net heap m).1, (ScanManager.StopScanning net heap m).2.1,
      Outcome.returned (ScanManager.StopScanning net heap m).2.2)

/-- A call is rejected when an exception leaves it or it returns a negative value. -/
def Outcome.rejected : Outcome → Bool
  | Outcome.thrown => true
  | Outcome.returned r => decide (r < 0)

/-- The coordinators along a sequence of calls, each with its own socket results: the
states before every call and the final one. -/
def managerTrace : List (ConnectNetwork × Network × ManagerCall) → Heap → ScanManager →
    List ScanManager
  | [], _, m => [m]
  | step :: rest, heap, m =>
    m :: managerTrace rest (step.2.2.run step.1 step.2.1 heap m).1
      (step.2.2.run step.1 step.2.1 heap m).2.1

/-- A network on which every head connects and answers. -/
def connectNetworkOk : ConnectNetwork :=
  { control_socket := fun _ => some 3, data_socket := fun _ => some 4,
    send_connect := fun _ => 0, status_reply := fun _ => some 1500000,
    status_refresh := fun _ => some 1500000 }

/-- A coordinator with head 1 that is not yet connected. -/
def managerDisconnected : ScanManager :=
  { managerOneHead with m_state := SystemState.Disconnected }

/-- A network on which every head connects but no head answers the status request that
follows the windows. -/
def connectNetworkNoRefresh : ConnectNetwork :=
  { connectNetworkOk with status_refresh := fun _ => none }

/-! ## Partial failures of connecting and of stopping -/

/-- Heads as the constructor leaves them: no socket is open. -/
def heapUnconnected : Heap :=
  fun p => { exampleHead p 1000 1500 with m_control_tcp_fd := -1 }

/-- A Disconnected coordinator with the heads 1 and 2. -/
def managerTwoHeads : ScanManager :=
  { m_serial_to_scan_head := [(1, 1), (2, 2)], m_id_to_scan_head := [(1, 1), (2, 2)],
    m_phase_table := tableTwoHeads,
    m_state := SystemState.Disconnected, m_units := jsUnits.JS_UNITS_INCHES }

/-- A network on which both sockets of every head open, head 1 connects and answers, and
the connect message of head 2 cannot be sent (`TCPSend` returns `JS_ERROR_INTERNAL`). -/
def connectNetworkSecondFails : ConnectNetwork :=
  { connectNetworkOk with
    send_connect := fun p => if p = 2 then JS_ERROR_INTERNAL else 0 }

/-- A network on which every send succeeds except the scan stop message. -/
def networkStopFails : Network :=
  { networkOk with send_scan_stop := fun _ => JS_ERROR_INTERNAL }

/-- A network on which every send succeeds except the scan start message of head 2. -/
def networkSecondStartFails : Network :=
  { networkOk with send_scan_start := fun p => if p = 2 then JS_ERROR_INTERNAL else 0 }

/-- A header of four datagrams that together carry the columns 0 to 1455. -/
def fullWidthHeader (position : Nat) : DatagramHeader :=
  { magic := kDataMagic, exposure_time_us := 100, scan_head_id := 1, camera_port := 0,
    laser_port := 0, flags := 0, timestamp_ns := 1000, laser_on_time_us := 100,
    data_type := 3, data_length := 1820, number_encoders := 0,
    datagram_position := position, number_datagrams := 4,
    start_column := 0, end_column := 1455, sequence_number := 7,
    DEPRECATED_DO_NOT_USE := 0 }

/-! ## The slot index of the placement loop -/

/-- The value of `idx` at the start of round `j` of the placement loop of
`ProcessProfile`: `start_column + current_packet * step` before the first round,
increased by `inc = total_packets * step` after every round, all in `uint32_t`. -/
def placementIndex (hdr : DatagramHeader) (step : Nat) : Nat → Nat
  | 0 => (hdr.start_column + (hdr.datagram_position * step) % 4294967296) % 4294967296
  | j + 1 =>
    (placementIndex hdr step j + (hdr.number_datagrams * step) % 4294967296) % 4294967296

/-- The header of a datagram of head 1 that announces 2147483649 datagrams for the
columns 0 to 3. -/
def wrapHeader (position : Nat) : DatagramHeader :=
  { magic := kDataMagic, exposure_time_us := 100, scan_head_id := 1, camera_port := 0,
    laser_port := 0, flags := 0, timestamp_ns := 1000, laser_on_time_us := 100,
    data_type := 3, data_length := 15, number_encoders := 0,
    datagram_position := position, number_datagrams := 2147483649,
    start_column := 0, end_column := 3, sequence_number := 7,
    DEPRECATED_DO_NOT_USE := 0 }

/-- A brightness-and-XY datagram with the header `wrapHeader position` and step 2: header,
the two steps, the brightness bytes, then the `(x, y)` words. -/
def wrapDatagram (position : Nat) (values : List (Nat × Nat × Nat)) : List Nat :=
  DatagramHeader.SerializeToBytes (wrapHeader position) ++
  bytes16 2 ++ bytes16 2 ++ values.map (fun v => v.2.2) ++
  (values.map (fun v => bytes16 v.1 ++ bytes16 v.2.1)).flatten

/-! ## The data format of a head and of its profiles -/

/-- The calls that act on the data format of a head and on its profile ring. -/
inductive HeadOp where
  | setDataFormat (format : jsDataFormat)
  | receiver (op : ReceiverOp)

/-- The head and its receiver after one call (`none` where `ProcessProfile` has undefined
behaviour). -/
def HeadOp.apply (cameraToMill : jsCamera → jsLaser → Int → Int → Int × Int)
    (s : ScanHead × Receiver) : HeadOp → Option (ScanHead × Receiver)
  | HeadOp.setDataFormat format => some ((s.1.SetDataFormat format).1, s.2)
  | HeadOp.receiver op =>
    match op.apply s.1 cameraToMill s.2 with
    | none => none
    | some r => some (s.1, r)

/-- The head and its receiver after a sequence of calls. -/
def runHeadOps (cameraToMill : jsCamera → jsLaser → Int → Int → Int × Int) :
    List HeadOp → ScanHead × Receiver → Option (ScanHead × Receiver)
  | [], s => some s
  | op :: rest, s =>
    match op.apply cameraToMill s with
    | none => none
    | some s1 => runHeadOps cameraToMill rest s1

/-- The receiver holds only profiles whose format satisfies `A` and whose `data_len` is
`JS_RAW_PROFILE_DATA_LEN`, in the ring and in the builder. -/
def Receiver.FormatsIn (A : jsDataFormat → Prop) (r : Receiver) : Prop :=
  (∀ p ∈ r.m_circ_buffer, A p.format ∧ p.data_len = JS_RAW_PROFILE_DATA_LEN) ∧
  (∀ p, r.m_profile = some p → A p.format ∧ p.data_len = JS_RAW_PROFILE_DATA_LEN)

/-- A successful change to half resolution, the single datagram of a profile, and a
rejected change of the format. -/
def exampleHeadOps : List HeadOp :=
  [HeadOp.setDataFormat jsDataFormat.JS_DATA_FORMAT_XY_BRIGHTNESS_HALF,
   HeadOp.receiver (ReceiverOp.datagram
     (exampleDatagram 1 2000 0 1 [(1, 2, 3), (4, 5, 6), (7, 8, 9), (10, 11, 12)])),
   HeadOp.setDataFormat jsDataFormat.JS_DATA_FORMAT_INVALID]

/-! ## Valid slots of a raw profile -/

/-- The test of the point-copy loop of `jsScanHeadGetProfiles` on slot `n` of a raw
profile: the slot holds a measurement when its x or its y differs from
`JS_PROFILE_DATA_INVALID_XY`. -/
def jsRawProfile.slotValid (p : jsRawProfile) (n : Nat) : Bool :=
  decide (JS_PROFILE_DATA_INVALID_XY ≠ (p.data.getD n invalidPoint).x ∨
    JS_PROFILE_DATA_INVALID_XY ≠ (p.data.getD n invalidPoint).y)

/-- The single brightness-and-XY datagram of a profile of head 1 (camera port 0, laser
port 0, timestamp 1000) for the given columns and step: header, the two steps, the
brightness bytes, then the `(x, y)` words. -/
def steppedDatagram (start_column end_column step : Nat) (values : List (Nat × Nat × Nat)) :
    List Nat :=
  DatagramHeader.SerializeToBytes
    { magic := kDataMagic, exposure_time_us := 100, scan_head_id := 1, camera_port := 0,
      laser_port := 0, flags := 0, timestamp_ns := 1000, laser_on_time_us := 100,
      data_type := 3, data_length := 5 * values.length, number_encoders := 0,
      datagram_position := 0, number_datagrams := 1,
      start_column := start_column, end_column := end_column, sequence_number := 7,
      DEPRECATED_DO_NOT_USE := 0 } ++
  bytes16 step ++ bytes16 step ++ values.map (fun v => v.2.2) ++
  (values.map (fun v => bytes16 v.1 ++ bytes16 v.2.1)).flatten

/-- Head 1 after `SetDataFormat(JS_DATA_FORMAT_XY_BRIGHTNESS_HALF)`. -/
def headHalf : ScanHead :=
  ((exampleHead 1 1000 1500).SetDataFormat jsDataFormat.JS_DATA_FORMAT_XY_BRIGHTNESS_HALF).1

/-- The receiver of `headHalf` after the single datagram of a profile for the columns 1
to 4 with step 2, received just after the head started scanning. -/
def oddColumnReceiver : Receiver :=
  (processDatagrams headHalf identityAlignment
    [steppedDatagram 1 4 2 [(5, 6, 7), (8, 9, 10)]] receiverStart).getD receiverStart

/-! ## Alignment transform (`AlignmentParams.hpp`, `AlignmentParams.cpp`)

A `double` is held as a rational number and its arithmetic is exact. `std::sin` and
`std::cos` enter as the parameters `sinDeg` and `cosDeg`: `sinDeg d` stands for
`std::sin(d * rho)` with `rho = pi / 180`. -/

/-- The integer part of a `double`: the fractional part is discarded, as
`static_cast<int32_t>` rounds towards zero. -/
def truncate (q : ℚ) : Int := if 0 ≤ q then ⌊q⌋ else ⌈q⌉

/-- `static_cast<int32_t>` of a `double`; `none` when the integer part does not fit an
`int32_t`, where the behaviour of the cast is undefined. -/
def doubleToInt32 (q : ℚ) : Option Int :=
  if -2147483648 ≤ truncate q ∧ truncate q ≤ 2147483647 then some (truncate q) else none

/-- The members of `AlignmentParams`. -/
structure AlignmentParams where
  m_cable : jsCableOrientation
  m_roll : ℚ
  m_shift_x : ℚ
  m_shift_y : ℚ
  m_shift_x_1000 : ℚ
  m_shift_y_1000 : ℚ
  m_camera_to_mill_xx : ℚ
  m_camera_to_mill_xy : ℚ
  m_camera_to_mill_yx : ℚ
  m_camera_to_mill_yy : ℚ
  m_mill_to_camera_xx : ℚ
  m_mill_to_camera_xy : ℚ
  m_mill_to_camera_yx : ℚ
  m_mill_to_camera_yy : ℚ
  m_camera_to_mill_scale : ℚ

namespace AlignmentParams

/-- `AlignmentParams::CalculateTransform`. -/
def CalculateTransform (sinDeg cosDeg : ℚ → ℚ) (a : AlignmentParams) : AlignmentParams :=
  let yaw : ℚ :=
    if jsCableOrientation.JS_CABLE_ORIENTATION_DOWNSTREAM = a.m_cable then 0 else 180
  let sin_roll := sinDeg a.m_roll
  let cos_roll := cosDeg a.m_roll
  let cos_yaw := cosDeg yaw
  let sin_neg_roll := sinDeg (-1 * a.m_roll)
  let cos_neg_roll := cosDeg (-1 * a.m_roll)
  let cos_neg_yaw := cosDeg (-1 * yaw)
  { a with
    m_camera_to_mill_xx := cos_yaw * cos_roll * a.m_camera_to_mill_scale,
    m_camera_to_mill_xy := sin_roll * a.m_camera_to_mill_scale,
    m_camera_to_mill_yx := cos_yaw * sin_roll * a.m_camera_to_mill_scale,
    m_camera_to_mill_yy := cos_roll * a.m_camera_to_mill_scale,
    m_mill_to_camera_xx := cos_neg_yaw * cos_neg_roll / a.m_camera_to_mill_scale,
    m_mill_to_camera_xy := cos_neg_yaw * sin_neg_roll / a.m_camera_to_mill_scale,
    m_mill_to_camera_yx := sin_neg_roll / a.m_camera_to_mill_scale,
    m_mill_to_camera_yy := cos_neg_roll / a.m_camera_to_mill_scale }

/-- The constructor `AlignmentParams(camera_to_mill_scale, roll, shift_x, shift_y,
cable)`: the members are set, `SetShiftX` and `SetShiftY` store the shifts and their
thousandfold, and `CalculateTransform` fills the two matrices. -/
def create (sinDeg cosDeg : ℚ → ℚ) (camera_to_mill_scale roll shift_x shift_y : ℚ)
    (cable : jsCableOrientation) : AlignmentParams :=
  CalculateTransform sinDeg cosDeg
    { m_cable := cable, m_roll := roll, m_shift_x := shift_x, m_shift_y := shift_y,
      m_shift_x_1000 := shift_x * 1000, m_shift_y_1000 := shift_y * 1000,
      m_camera_to_mill_xx := 0, m_camera_to_mill_xy := 0, m_camera_to_mill_yx := 0,
      m_camera_to_mill_yy := 0, m_mill_to_camera_xx := 0, m_mill_to_camera_xy := 0,
      m_mill_to_camera_yx := 0, m_mill_to_camera_yy := 0,
      m_camera_to_mill_scale := camera_to_mill_scale }

/-- `AlignmentParams::CameraToMill(x, y)`. -/
def CameraToMill (a : AlignmentParams) (x y : Int) : Option (Int × Int) :=
  match doubleToInt32 ((x : ℚ) * a.m_camera_to_mill_xx - (y : ℚ) * a.m_camera_to_mill_xy +
      a.m_shift_x_1000),
    doubleToInt32 ((x : ℚ) * a.m_camera_to_mill_yx + (y : ℚ) * a.m_camera_to_mill_yy +
      a.m_shift_y_1000) with
  | some xi, some yi => some (xi, yi)
  | _, _ => none

/-- `AlignmentParams::MillToCamera(x, y)`. -/
def MillToCamera (a : AlignmentParams) (x y : Int) : Option (Int × Int) :=
  match doubleToInt32 (((x : ℚ) - a.m_shift_x_1000) * a.m_mill_to_camera_xx -
      ((y : ℚ) - a.m_shift_y_1000) * a.m_mill_to_camera_xy),
    doubleToInt32 (((x : ℚ) - a.m_shift_x_1000) * a.m_mill_to_camera_yx +
      ((y : ℚ) - a.m_shift_y_1000) * a.m_mill_to_camera_yy) with
  | some xi, some yi => some (xi, yi)
  | _, _ => none

end AlignmentParams

/-- The values of `std::sin` at the angles 0, 90 and -90 degrees; the examples use no
other angle, for which 0 is returned. -/
def sinQuarterTurns (d : ℚ) : ℚ := if d = 90 then 1 else if d = -90 then -1 else 0

/-- The values of `std::cos` at the angles 0, 180 and -180 degrees; the examples use no
other angle, for which 0 is returned. -/
def cosQuarterTurns (d : ℚ) : ℚ := if d = 0 then 1 else if d = 180 ∨ d = -180 then -1 else 0

/-- The values of `std::sin` at the angles 0, 45 and -45 degrees as IEEE doubles; the
examples use no other angle, for which 0 is returned. -/
def sinEighthTurns (d : ℚ) : ℚ :=
  if d = 45 then 1592262918131443 / 2251799813685248
  else if d = -45 then -1592262918131443 / 2251799813685248
  else 0

/-- The values of `std::cos` at the angles 0, 45 and -45 degrees as IEEE doubles; the
examples use no other angle, for which 0 is returned. -/
def cosEighthTurns (d : ℚ) : ℚ :=
  if d = 0 then 1
  else if d = 45 ∨ d = -45 then 6369051672525773 / 9007199254740992
  else 0

/-! ## Handles (`joescan_pinchot.cpp`) -/

/-- `ScanManager::GetScanHeadBySerial(serial_number)`: the `ScanHead *` registered under
the serial, `none` for `nullptr`. -/
def ScanManager.GetScanHeadBySerial (m : ScanManager) (serial_number : Nat) : Option Nat :=
  mapFind m.m_serial_to_scan_head serial_number

/-- Lookup in the map `_uid_to_scan_manager`, held as an association list from the uid to
the coordinator it points to. -/
def managerFind : List (Nat × ScanManager) → Nat → Option ScanManager
  | [], _ => none
  | kv :: rest, uid => if kv.1 = uid then some kv.2 else managerFind rest uid

/-- `_get_scan_manager_object(scan_system)`: the uid is `scan_system & 0xFFFFFFFF`. -/
def _get_scan_manager_object (uid_to_scan_manager : List (Nat × ScanManager))
    (scan_system : Int) : Option ScanManager :=
  managerFind uid_to_scan_manager (u32 scan_system)

/-- `_get_scan_head_object(scan_head)`: the coordinator is looked up under
`(scan_head >> 32) & 0xFFFFFFFF` and the head under `scan_head & 0xFFFFFFFF`. -/
def _get_scan_head_object (uid_to_scan_manager : List (Nat × ScanManager))
    (scan_head : Int) : Option Nat :=
  match _get_scan_manager_object uid_to_scan_manager
      ((scan_head / 4294967296) % 4294967296) with
  | none => none
  | some m => m.GetScanHeadBySerial (u32 scan_head)

/-- `_get_jsScanSystem(manager)`, where `uid` is `manager->GetUID()`, a `uint32_t`. -/
def _get_jsScanSystem (uid : Nat) : Int := ((uid % 4294967296 : Nat) : Int)

/-- `_get_jsScanHead(scan_head)`, where `uid` is the uid of the coordinator of the head
and `serial` its serial number: `(ss << 32) | serial` on `int64_t`, computed on the bit
patterns. -/
def _get_jsScanHead (uid serial : Nat) : Int :=
  i64 ((((_get_jsScanSystem uid).toNat * 4294967296) % 18446744073709551616) |||
    (serial % 4294967296))

/-! ## Theorems -/

/-- C1 (evaluation at the failing input): for the table built by CreatePhase, add camera A
of head 2, CreatePhase, add camera A of head 1, add camera A of head 2, with head 1
needing 3000 us and head 2 needing 1100 us, CalculatePhaseTable returns the durations
(1100, 1100) and the total 2200, although camera A of head 1, used in phase 2 only, needs
3000 us between two uses: the returned table is not feasible. -/
theorem C1_calculated_table_not_feasible :
    ((tableInfeasible.CalculatePhaseTable heapInfeasible).2.phases.map
        (fun phase => phase.duration_us) = [1100, 1100]) ∧
    (tableInfeasible.CalculatePhaseTable heapInfeasible).2.total_duration_us = 2200 ∧
    (heapInfeasible 1).GetMinScanPeriod = 3000 ∧
    elapsedSinceLastUse (tableInfeasible.CalculatePhaseTable heapInfeasible).2.phases
        (1, JS_CAMERA_A) 2 1 = 2200 ∧
    feasible heapInfeasible (tableInfeasible.CalculatePhaseTable heapInfeasible).2 = false := by
  decide

/-- C2: GetMinScanPeriod returns, in 32-bit unsigned arithmetic, the camera start early offset
plus the total duration of the phase table compiled in the state in which the period is
computed (after the status refresh of a connected coordinator); the offset
ceil(9500 / 1000) is 10; when the sum does not exceed the 32-bit range the result is
exactly 10 + total_duration_us; and for an empty phase table the result is 10. -/
theorem C2_getMinScanPeriod_eq (net : Network) (heap : Heap) (m : ScanManager) :
    camera_offset_us = 10 ∧
    (ScanManager.GetMinScanPeriod net heap m).2.2 =
      (camera_offset_us +
        (m.m_phase_table.CalculatePhaseTable
          (ScanManager.GetMinScanPeriod net heap m).1).2.total_duration_us) % 4294967296 ∧
    ((m.m_phase_table.CalculatePhaseTable
          (ScanManager.GetMinScanPeriod net heap m).1).2.total_duration_us + 10 < 4294967296 →
      (ScanManager.GetMinScanPeriod net heap m).2.2 =
        10 + (m.m_phase_table.CalculatePhaseTable
          (ScanManager.GetMinScanPeriod net heap m).1).2.total_duration_us) ∧
    (m.m_phase_table.m_table = [] → (ScanManager.GetMinScanPeriod net heap m).2.2 = 10) := by
  have h10 : camera_offset_us = 10 := by decide
  refine ⟨h10, rfl, ?_, ?_⟩
  · intro h
    have e : (ScanManager.GetMinScanPeriod net heap m).2.2 =
        (camera_offset_us + (m.m_phase_table.CalculatePhaseTable
          (ScanManager.GetMinScanPeriod net heap m).1).2.total_duration_us) % 4294967296 := rfl
    rw [e, h10]
    exact Nat.mod_eq_of_lt (by omega)
  · intro h
    show (camera_offset_us + _) % 4294967296 = _
    simp [PhaseTable.CalculatePhaseTable, h, PhaseTable.num_calculation_iterations,
      PhaseTable.calculationLoop, PhaseTable.calculationIteration, PhaseTable.totalDuration,
      h10]

/-- C2 (witness): for the connected one-head coordinator, whose compiled table lasts
1500 us, GetMinScanPeriod returns 1510. -/
theorem C2_getMinScanPeriod_eq_witness :
    (ScanManager.GetMinScanPeriod networkOk heapOneHead managerOneHead).2.2 = 1510 := by
  have h := (C2_getMinScanPeriod_eq networkOk heapOneHead managerOneHead).2.2.1 (by decide)
  rw [h]
  decide

/-- C3 (evaluation at the failing input): on the connected, non-scanning one-head
coordinator GetMinScanPeriod returns 1510, yet StartScanning with period 1500, which is
smaller, returns 0, the coordinator enters Scanning, and the scan pair sent to the head
has end_offset_us = 1510, beyond the scan period. -/
theorem C3_startScanning_accepts_period_below_minimum :
    (ScanManager.GetMinScanPeriod networkOk heapOneHead managerOneHead).2.2 = 1510 ∧
    managerOneHead.IsConnected = true ∧ managerOneHead.IsScanning = false ∧
    (ScanManager.StartScanning networkOk heapOneHead managerOneHead 1500
        jsDataFormat.JS_DATA_FORMAT_XY_BRIGHTNESS_FULL).2.2 = 0 ∧
    (ScanManager.StartScanning networkOk heapOneHead managerOneHead 1500
        jsDataFormat.JS_DATA_FORMAT_XY_BRIGHTNESS_FULL).2.1.m_state = SystemState.Scanning ∧
    (((ScanManager.StartScanning networkOk heapOneHead managerOneHead 1500
        jsDataFormat.JS_DATA_FORMAT_XY_BRIGHTNESS_FULL).1 1).m_scan_pairs.map
          (fun sp => sp.end_offset_us)) = [1510] := by
  decide

/-- C6 (counterexample): for the two-head table (phase 1 = camera A of both heads, phase
2 = camera B of both heads, laser_on_time_max_us = 500, minimum scan period 1500)
CalculatePhaseTable does not return the durations (500, 1500) with total 2000. -/
theorem C6_not_500_1500 :
    ¬ ((tableTwoHeads.CalculatePhaseTable heapTwoHeads).2.phases.map
          (fun phase => phase.duration_us) = [500, 1500] ∧
        (tableTwoHeads.CalculatePhaseTable heapTwoHeads).2.total_duration_us = 2000) := by
  decide

/-- C6 (amended): for the two-head table (phase 1 = camera A of both heads, phase 2 =
camera B of both heads, laser_on_time_max_us = 500, minimum scan period 1500)
CalculatePhaseTable returns the per-phase durations (1000, 500) and total_duration_us =
1500: in the second pass camera A of head 1 was last seen 1000 us ago, so phase 1 grows
by 500. -/
theorem C6_durations_1000_500 :
    (tableTwoHeads.CalculatePhaseTable heapTwoHeads).2.phases.map
        (fun phase => phase.duration_us) = [1000, 500] ∧
    (tableTwoHeads.CalculatePhaseTable heapTwoHeads).2.total_duration_us = 1500 ∧
    (heapTwoHeads 1).GetMinScanPeriod = 1500 ∧ (heapTwoHeads 2).GetMinScanPeriod = 1500 ∧
    (tableTwoHeads.CalculatePhaseTable heapTwoHeads).1.m_table.map
        (fun phase => phase.map (fun el => (el.scan_head, el.camera,
          el.cfg.laser_on_time_max_us))) =
      [[(1, JS_CAMERA_A, 500), (2, JS_CAMERA_A, 500)],
       [(1, JS_CAMERA_B, 500), (2, JS_CAMERA_B, 500)]] := by
  decide

/-- Loading the configuration of an element a second time changes nothing. -/
theorem loadElement_idem (heap : Heap) (element : PhasedElement) :
    PhaseTable.loadElement heap (PhaseTable.loadElement heap element) =
      PhaseTable.loadElement heap element := by
  unfold PhaseTable.loadElement
  by_cases h : element.is_cfg_unique = false <;> simp [h]

/-- The stored table after a compilation is a fixed point of the configuration loading. -/
theorem loadTable_idem (heap : Heap) (table : List (List PhasedElement)) :
    (table.map (fun v => v.map (PhaseTable.loadElement heap))).map
        (fun v => v.map (PhaseTable.loadElement heap)) =
      table.map (fun v => v.map (PhaseTable.loadElement heap)) := by
  rw [List.map_map]
  apply List.map_congr_left
  intro v _
  simp only [Function.comp, List.map_map]
  apply List.map_congr_left
  intro e _
  exact loadElement_idem heap e

/-- C5: phase-table compilation is idempotent given unchanged head state: a second call of
CalculatePhaseTable, made on the phase table as the first call left it (stored cfg of the
elements without their own configuration rewritten) and with the same heads, returns the
same total_duration_us and the same per-phase durations, indeed the same calculated table,
and leaves the stored table as the first call left it. -/
theorem C5_calculatePhaseTable_idempotent (heap : Heap) (t : PhaseTable) :
    ((t.CalculatePhaseTable heap).1.CalculatePhaseTable heap).2.total_duration_us =
        (t.CalculatePhaseTable heap).2.total_duration_us ∧
    ((t.CalculatePhaseTable heap).1.CalculatePhaseTable heap).2.phases.map
        (fun phase => phase.duration_us) =
      (t.CalculatePhaseTable heap).2.phases.map (fun phase => phase.duration_us) ∧
    ((t.CalculatePhaseTable heap).1.CalculatePhaseTable heap).2 =
      (t.CalculatePhaseTable heap).2 ∧
    ((t.CalculatePhaseTable heap).1.CalculatePhaseTable heap).1 =
      (t.CalculatePhaseTable heap).1 := by
  have h2 : ((t.CalculatePhaseTable heap).1.CalculatePhaseTable heap).2 =
      (t.CalculatePhaseTable heap).2 := by
    simp only [PhaseTable.CalculatePhaseTable, loadTable_idem]
  have h1 : ((t.CalculatePhaseTable heap).1.CalculatePhaseTable heap).1 =
      (t.CalculatePhaseTable heap).1 := by
    simp only [PhaseTable.CalculatePhaseTable, loadTable_idem]
  exact ⟨by rw [h2], by rw [h2], h2, h1⟩

/-! ### Machine arithmetic -/

theorem u32_cast (x : Int) : ((u32 x : Nat) : Int) = x % 4294967296 := by
  unfold u32; omega

theorem u32_natCast (n : Nat) (h : n < 4294967296) : u32 (n : Int) = n := by
  unfold u32; omega

theorem u32_add_u32 (x d : Int) : u32 (((u32 x : Nat) : Int) + d) = u32 (x + d) := by
  unfold u32; omega

theorem u32_sub_u32 (a y : Int) : u32 (a - ((u32 y : Nat) : Int)) = u32 (a - y) := by
  unfold u32; omega

theorem i32_u32 (x : Int) (h1 : -2147483648 ≤ x) (h2 : x < 2147483648) : i32 (u32 x) = x := by
  unfold i32 u32; split <;> omega

/-! ### Association lists -/

theorem mapFind_mapAddAll {κ : Type} [DecidableEq κ] (m : List (κ × Nat)) (d : Int) (k : κ) :
    mapFind (mapAddAll m d) k = (mapFind m k).map (fun v => u32 ((v : Int) + d)) := by
  induction m with
  | nil => rfl
  | cons kv rest ih =>
    simp only [mapAddAll, List.map_cons, mapFind]
    by_cases h : kv.1 = k
    · simp [h]
    · simp only [h, if_false]; exact ih

theorem mapFind_mapSet_self {κ : Type} [DecidableEq κ] (m : List (κ × Nat)) (k : κ) (v : Nat) :
    mapFind (mapSet m k v) k = some v := by
  induction m with
  | nil => simp [mapSet, mapFind]
  | cons kv rest ih =>
    simp only [mapSet]
    by_cases h : kv.1 = k
    · simp [h, mapFind]
    · simp [h, mapFind, ih]

theorem mapFind_mapSet_other {κ : Type} [DecidableEq κ] (m : List (κ × Nat)) (k k' : κ)
    (v : Nat) (hne : k' ≠ k) : mapFind (mapSet m k v) k' = mapFind m k' := by
  induction m with
  | nil => simp [mapSet, mapFind, Ne.symm hne]
  | cons kv rest ih =>
    simp only [mapSet]
    by_cases h : kv.1 = k
    · have h' : ¬ kv.1 = k' := by rw [h]; exact Ne.symm hne
      simp [h, mapFind, h', Ne.symm hne]
    · simp only [h, if_false, mapFind]
      by_cases h2 : kv.1 = k'
      · simp [h2]
      · simp [h2, ih]
theorem i32_natCast (n : Nat) (h : n < 2147483648) : i32 n = (n : Int) := by
  unfold i32; split <;> omega

/-- The adjustment computed for an element whose camera was last seen `G` us ago, when
nothing wraps: the need of the element minus `G`. -/
theorem adj_eq (P L G : Nat) (hG : G < 2147483648) (hP : P < 2147483648)
    (hL : frame_overhead_time_us + L < 2147483648) :
    max (i32 (u32 ((P : Int) - i32 G)))
        (i32 (u32 ((frame_overhead_time_us : Int) - ((u32 (i32 G - (L : Int)) : Nat) : Int)))) =
      ((max P (frame_overhead_time_us + L) : Nat) : Int) - (G : Int) := by
  have hF : frame_overhead_time_us = 158 := by decide
  rw [i32_natCast G hG, u32_sub_u32, i32_u32 _ (by omega) (by omega),
    i32_u32 _ (by omega) (by omega)]
  omega

theorem processElement_fresh (heap : Heap) (st : Nat × List ((Nat × jsCamera) × Nat))
    (e : PhasedElement) (h : mapFind st.2 (elementKey e) = none) :
    PhaseTable.processElement heap st e = (st.1, mapSet st.2 (elementKey e) 0) := by
  unfold elementKey at h
  simp only [PhaseTable.processElement, h, elementKey]

theorem processElement_seen (heap : Heap) (d : Nat) (acc : List ((Nat × jsCamera) × Nat))
    (e : PhasedElement) (G : Nat) (hfind : mapFind acc (elementKey e) = some G)
    (hG : max G (needOf heap e) < 2147483648) (hd : d ≤ G) :
    PhaseTable.processElement heap (d, acc) e =
      if G < needOf heap e then
        (d + (needOf heap e - G),
          mapSet (mapAddAll acc ((needOf heap e - G : Nat) : Int)) (elementKey e) 0)
      else (d, mapSet acc (elementKey e) 0) := by
  unfold elementKey at hfind
  have hF : frame_overhead_time_us = 158 := by decide
  have hadj := adj_eq (heap e.scan_head).GetMinScanPeriod e.cfg.laser_on_time_max_us G
    (by omega) (by unfold needOf at hG; omega) (by unfold needOf at hG; omega)
  simp only [PhaseTable.processElement, hfind, elementKey, hadj]
  unfold needOf
  by_cases hlt : G < max (heap e.scan_head).GetMinScanPeriod
      (frame_overhead_time_us + e.cfg.laser_on_time_max_us)
  · have h1 : (0 : Int) < ((max (heap e.scan_head).GetMinScanPeriod
        (frame_overhead_time_us + e.cfg.laser_on_time_max_us) : Nat) : Int) - (G : Int) := by
      omega
    have h2 : ((max (heap e.scan_head).GetMinScanPeriod
        (frame_overhead_time_us + e.cfg.laser_on_time_max_us) : Nat) : Int) - (G : Int) =
        ((max (heap e.scan_head).GetMinScanPeriod
          (frame_overhead_time_us + e.cfg.laser_on_time_max_us) - G : Nat) : Int) := by
      omega
    unfold needOf at hG
    simp only [h1, hlt, if_true]
    rw [h2]
    have h3 : u32 ((d : Int) + ((max (heap e.scan_head).GetMinScanPeriod
          (frame_overhead_time_us + e.cfg.laser_on_time_max_us) - G : Nat) : Int)) =
        d + (max (heap e.scan_head).GetMinScanPeriod
          (frame_overhead_time_us + e.cfg.laser_on_time_max_us) - G) := by
      unfold u32; omega
    rw [h3]
  · have h1 : ¬ (0 : Int) < ((max (heap e.scan_head).GetMinScanPeriod
        (frame_overhead_time_us + e.cfg.laser_on_time_max_us) : Nat) : Int) - (G : Int) := by
      omega
    simp only [h1, hlt, if_false]
theorem foldNeed_cons (heap : Heap) (e : PhasedElement) (els : List PhasedElement) (g : Nat) :
    foldNeed heap (e :: els) g = foldNeed heap els (max g (needOf heap e)) := rfl

theorem foldNeed_ge (heap : Heap) (els : List PhasedElement) (g : Nat) :
    g ≤ foldNeed heap els g := by
  induction els generalizing g with
  | nil => exact Nat.le_refl _
  | cons e els ih =>
    rw [foldNeed_cons]
    exact Nat.le_trans (Nat.le_max_left _ _) (ih _)

/-- Second pass over the elements of one phase, all of whose cameras were last seen
`R + Δ` us ago: the phase and every accumulator still to be read grow by the same amount,
up to the largest need. -/
theorem fold_processElement_seen (heap : Heap) (R : Nat) (ks : List ((Nat × jsCamera) × Nat)) :
    ∀ (els : List PhasedElement) (d : Nat) (acc : List ((Nat × jsCamera) × Nat)) (Δ : Nat),
      (els.map elementKey ++ ks.map Prod.fst).Nodup →
      (∀ e ∈ els, mapFind acc (elementKey e) = some (R + Δ)) →
      (∀ q ∈ ks, mapFind acc q.1 = some (u32 ((q.2 : Int) + (Δ : Int)))) →
      foldNeed heap els (R + Δ) < 2147483648 →
      d ≤ R + Δ →
      ∃ Δ' : Nat, R + Δ' = foldNeed heap els (R + Δ) ∧
        (els.foldl (PhaseTable.processElement heap) (d, acc)).1 + Δ = d + Δ' ∧
        ∀ q ∈ ks, mapFind (els.foldl (PhaseTable.processElement heap) (d, acc)).2 q.1 =
          some (u32 ((q.2 : Int) + (Δ' : Int))) := by
  intro els
  induction els with
  | nil =>
    intro d acc Δ _ _ hks _ _
    exact ⟨Δ, rfl, rfl, hks⟩
  | cons e els ih =>
    intro d acc Δ hnd hels hks hb hd
    have hfind := hels e (List.mem_cons_self _ _)
    rw [foldNeed_cons] at hb
    have hG : max (R + Δ) (needOf heap e) < 2147483648 :=
      Nat.lt_of_le_of_lt (foldNeed_ge heap els _) hb
    have hstep := processElement_seen heap d acc e (R + Δ) hfind hG hd
    simp only [List.map_cons, List.cons_append, List.nodup_cons] at hnd
    obtain ⟨hnotin, hnd'⟩ := hnd
    have hne_els : ∀ e' ∈ els, elementKey e' ≠ elementKey e := by
      intro e' he' heq
      apply hnotin
      rw [← heq]
      exact List.mem_append_left _ (List.mem_map_of_mem _ he')
    have hne_ks : ∀ q ∈ ks, q.1 ≠ elementKey e := by
      intro q hq heq
      apply hnotin
      rw [← heq]
      exact List.mem_append_right _ (List.mem_map_of_mem _ hq)
    rw [List.foldl_cons, hstep]
    by_cases hlt : R + Δ < needOf heap e
    · simp only [hlt, if_true]
      have hmax : max (R + Δ) (needOf heap e) = R + (Δ + (needOf heap e - (R + Δ))) := by
        omega
      rw [hmax] at hb
      obtain ⟨Δ', h1, h2, h3⟩ := ih (d + (needOf heap e - (R + Δ)))
        (mapSet (mapAddAll acc ((needOf heap e - (R + Δ) : Nat) : Int)) (elementKey e) 0)
        (Δ + (needOf heap e - (R + Δ))) hnd'
        (by
          intro e' he'
          rw [mapFind_mapSet_other _ _ _ _ (hne_els e' he'), mapFind_mapAddAll,
            hels e' (List.mem_cons_of_mem _ he')]
          show some (u32 (((R + Δ : Nat) : Int) + ((needOf heap e - (R + Δ) : Nat) : Int))) = _
          congr 1
          unfold u32; omega)
        (by
          intro q hq
          rw [mapFind_mapSet_other _ _ _ _ (hne_ks q hq), mapFind_mapAddAll, hks q hq]
          show some (u32 (((u32 ((q.2 : Int) + (Δ : Int)) : Nat) : Int) +
            ((needOf heap e - (R + Δ) : Nat) : Int))) = _
          rw [u32_add_u32]
          congr 2
          push_cast
          ring)
        hb (by omega)
      refine ⟨Δ', ?_, ?_, h3⟩
      · rw [h1, foldNeed_cons, hmax]
      · omega
    · simp only [hlt, if_false]
      have hmax : max (R + Δ) (needOf heap e) = R + Δ := by omega
      rw [hmax] at hb
      obtain ⟨Δ', h1, h2, h3⟩ := ih d (mapSet acc (elementKey e) 0) Δ hnd'
        (by
          intro e' he'
          rw [mapFind_mapSet_other _ _ _ _ (hne_els e' he')]
          exact hels e' (List.mem_cons_of_mem _ he'))
        (by
          intro q hq
          rw [mapFind_mapSet_other _ _ _ _ (hne_ks q hq)]
          exact hks q hq)
        hb hd
      exact ⟨Δ', by rw [h1, foldNeed_cons, hmax], h2, h3⟩
theorem foldNeedPhases_cons (heap : Heap) (p : PhaseTableEntry) (ps : List PhaseTableEntry)
    (g : Nat) :
    foldNeedPhases heap (p :: ps) g = foldNeedPhases heap ps (foldNeed heap p.elements g) := rfl

theorem foldNeedPhases_ge (heap : Heap) (ps : List PhaseTableEntry) (g : Nat) :
    g ≤ foldNeedPhases heap ps g := by
  induction ps generalizing g with
  | nil => exact Nat.le_refl _
  | cons p ps ih =>
    rw [foldNeedPhases_cons]
    exact Nat.le_trans (foldNeed_ge heap _ _) (ih _)

theorem sumDurations_cons (p : PhaseTableEntry) (ps : List PhaseTableEntry) :
    sumDurations (p :: ps) = p.duration_us + sumDurations ps := by
  simp [sumDurations]

theorem keySuffix_cons_fst (p : PhaseTableEntry) (ps : List PhaseTableEntry) :
    (keySuffix (p :: ps)).map Prod.fst =
      p.elements.map elementKey ++ (keySuffix ps).map Prod.fst := by
  simp [keySuffix, List.map_append, List.map_map, Function.comp]

theorem calculationIteration_cons (heap : Heap) (p : PhaseTableEntry)
    (ps : List PhaseTableEntry) (acc : List ((Nat × jsCamera) × Nat)) :
    PhaseTable.calculationIteration heap (p :: ps) acc =
      ((PhaseTable.processPhase heap acc p).1 ::
          (PhaseTable.calculationIteration heap ps (PhaseTable.processPhase heap acc p).2).1,
        (PhaseTable.calculationIteration heap ps (PhaseTable.processPhase heap acc p).2).2) :=
  rfl

/-- Second pass over a table without repeated cameras, every camera having been seen
before: the durations grow, in all, up to the largest need. -/
theorem calculationIteration_seen (heap : Heap) :
    ∀ (ps : List PhaseTableEntry) (acc : List ((Nat × jsCamera) × Nat)) (Δ : Nat),
      ((keySuffix ps).map Prod.fst).Nodup →
      (∀ q ∈ keySuffix ps, mapFind acc q.1 = some (u32 ((q.2 : Int) + (Δ : Int)))) →
      foldNeedPhases heap ps (Δ + sumDurations ps) < 2147483648 →
      sumDurations (PhaseTable.calculationIteration heap ps acc).1 + Δ =
        foldNeedPhases heap ps (Δ + sumDurations ps) := by
  intro ps
  induction ps with
  | nil =>
    intro acc Δ _ _ _
    simp [PhaseTable.calculationIteration, sumDurations, foldNeedPhases]
  | cons p rest ih =>
    intro acc Δ hnd hks hb
    rw [keySuffix_cons_fst] at hnd
    rw [foldNeedPhases_cons, sumDurations_cons] at hb
    have hb1 : foldNeed heap p.elements (Δ + (p.duration_us + sumDurations rest)) < 2147483648 :=
      Nat.lt_of_le_of_lt (foldNeedPhases_ge heap rest _) hb
    have hb0 : Δ + (p.duration_us + sumDurations rest) < 2147483648 :=
      Nat.lt_of_le_of_lt (foldNeed_ge heap _ _) hb1
    have hG : Δ + (p.duration_us + sumDurations rest) =
        sumDurations rest + (Δ + p.duration_us) := by omega
    rw [hG] at hb1 hb
    obtain ⟨Δ', h1, h2, h3⟩ := fold_processElement_seen heap (sumDurations rest)
      (keySuffix rest) p.elements p.duration_us (mapAddAll acc (p.duration_us : Int))
      (Δ + p.duration_us) hnd
      (by
        intro e he
        have hq := hks (elementKey e, sumDurations rest)
          (List.mem_append_left _ (List.mem_map_of_mem _ he))
        rw [mapFind_mapAddAll, hq]
        show some (u32 (((u32 (((sumDurations rest : Nat) : Int) + (Δ : Int)) : Nat) : Int) +
          (p.duration_us : Int))) = _
        congr 1
        rw [u32_add_u32]
        unfold u32; omega)
      (by
        intro q hq
        have hq' := hks q (List.mem_append_right _ hq)
        rw [mapFind_mapAddAll, hq']
        show some (u32 (((u32 ((q.2 : Int) + (Δ : Int)) : Nat) : Int) +
          (p.duration_us : Int))) = _
        rw [u32_add_u32]
        congr 2
        push_cast
        ring)
      hb1 (by omega)
    have hnd' : ((keySuffix rest).map Prod.fst).Nodup := (List.nodup_append.mp hnd).2.1
    have hih := ih (PhaseTable.processPhase heap acc p).2 Δ' hnd' h3
      (by rw [Nat.add_comm Δ', h1]; exact hb)
    rw [calculationIteration_cons, sumDurations_cons, foldNeedPhases_cons, sumDurations_cons,
      hG, ← h1, Nat.add_comm (sumDurations rest) Δ', ← hih]
    have h2' : (PhaseTable.processPhase heap acc p).1.duration_us + (Δ + p.duration_us) =
        p.duration_us + Δ' := h2
    omega
/-- First pass over the elements of one phase, none of whose cameras has been seen: the
duration is unchanged, the cameras of the phase are entered with 0 and no other accumulator
changes. -/
theorem fold_processElement_fresh (heap : Heap) :
    ∀ (els : List PhasedElement) (d : Nat) (acc : List ((Nat × jsCamera) × Nat)),
      (els.map elementKey).Nodup →
      (∀ e ∈ els, mapFind acc (elementKey e) = none) →
      (els.foldl (PhaseTable.processElement heap) (d, acc)).1 = d ∧
      (∀ e ∈ els, mapFind (els.foldl (PhaseTable.processElement heap) (d, acc)).2
          (elementKey e) = some 0) ∧
      (∀ k, k ∉ els.map elementKey →
        mapFind (els.foldl (PhaseTable.processElement heap) (d, acc)).2 k = mapFind acc k) := by
  intro els
  induction els with
  | nil =>
    intro d acc _ _
    exact ⟨rfl, fun e he => absurd he (List.not_mem_nil e), fun _ _ => rfl⟩
  | cons e els ih =>
    intro d acc hnd hfresh
    have hstep := processElement_fresh heap (d, acc) e (hfresh e (List.mem_cons_self _ _))
    simp only [List.map_cons, List.nodup_cons] at hnd
    obtain ⟨hnotin, hnd'⟩ := hnd
    have hne : ∀ e' ∈ els, elementKey e' ≠ elementKey e := by
      intro e' he' heq
      exact hnotin (heq ▸ List.mem_map_of_mem _ he')
    rw [List.foldl_cons, hstep]
    obtain ⟨h1, h2, h3⟩ := ih d (mapSet acc (elementKey e) 0) hnd'
      (by
        intro e' he'
        rw [mapFind_mapSet_other _ _ _ _ (hne e' he')]
        exact hfresh e' (List.mem_cons_of_mem _ he'))
    refine ⟨h1, ?_, ?_⟩
    · intro e' he'
      rcases List.mem_cons.mp he' with rfl | hin
      · rw [h3 _ hnotin]
        exact mapFind_mapSet_self _ _ _
      · exact h2 e' hin
    · intro k hk
      simp only [List.map_cons, List.mem_cons, not_or] at hk
      rw [h3 k hk.2]
      exact mapFind_mapSet_other _ _ _ _ hk.1

theorem processPhase_eq (heap : Heap) (acc : List ((Nat × jsCamera) × Nat))
    (p : PhaseTableEntry) :
    PhaseTable.processPhase heap acc p =
      ({ p with duration_us := (p.elements.foldl (PhaseTable.processElement heap)
          (p.duration_us, mapAddAll acc (p.duration_us : Int))).1 },
        (p.elements.foldl (PhaseTable.processElement heap)
          (p.duration_us, mapAddAll acc (p.duration_us : Int))).2) := rfl

/-- First pass over a table without repeated cameras: no duration changes, every camera
ends with the durations of the phases after its own, and an accumulator of another key
grows by the durations of all phases. -/
theorem calculationIteration_fresh (heap : Heap) :
    ∀ (ps : List PhaseTableEntry) (acc : List ((Nat × jsCamera) × Nat)),
      ((keySuffix ps).map Prod.fst).Nodup →
      (∀ q ∈ keySuffix ps, mapFind acc q.1 = none) →
      (PhaseTable.calculationIteration heap ps acc).1 = ps ∧
      (∀ q ∈ keySuffix ps,
        mapFind (PhaseTable.calculationIteration heap ps acc).2 q.1 = some (u32 (q.2 : Int))) ∧
      (∀ (k : Nat × jsCamera) (x : Int), k ∉ (keySuffix ps).map Prod.fst →
        mapFind acc k = some (u32 x) →
        mapFind (PhaseTable.calculationIteration heap ps acc).2 k =
          some (u32 (x + (sumDurations ps : Int)))) := by
  intro ps
  induction ps with
  | nil =>
    intro acc _ _
    refine ⟨rfl, fun q hq => absurd hq (List.not_mem_nil q), ?_⟩
    intro k x _ hk
    simpa [PhaseTable.calculationIteration, sumDurations] using hk
  | cons p rest ih =>
    intro acc hnd hfresh
    rw [keySuffix_cons_fst] at hnd
    obtain ⟨hndp, hndr, hdisj⟩ := List.nodup_append.mp hnd
    obtain ⟨f1, f2, f3⟩ := fold_processElement_fresh heap p.elements p.duration_us
      (mapAddAll acc (p.duration_us : Int)) hndp
      (by
        intro e he
        rw [mapFind_mapAddAll, hfresh (elementKey e, sumDurations rest)
          (List.mem_append_left _ (List.mem_map_of_mem _ he))]
        rfl)
    have hp : PhaseTable.processPhase heap acc p =
        (p, (p.elements.foldl (PhaseTable.processElement heap)
          (p.duration_us, mapAddAll acc (p.duration_us : Int))).2) := by
      rw [processPhase_eq, f1]
    have hrest_notin : ∀ q ∈ keySuffix rest, q.1 ∉ p.elements.map elementKey := by
      intro q hq hin
      exact hdisj hin (List.mem_map_of_mem _ hq)
    obtain ⟨i1, i2, i3⟩ := ih (p.elements.foldl (PhaseTable.processElement heap)
        (p.duration_us, mapAddAll acc (p.duration_us : Int))).2 hndr
      (by
        intro q hq
        rw [f3 q.1 (hrest_notin q hq), mapFind_mapAddAll, hfresh q (List.mem_append_right _ hq)]
        rfl)
    rw [calculationIteration_cons, hp]
    refine ⟨by rw [i1], ?_, ?_⟩
    · intro q hq
      rcases List.mem_append.mp hq with hin | hin
      · obtain ⟨e, he, rfl⟩ := List.mem_map.mp hin
        have hnot : elementKey e ∉ (keySuffix rest).map Prod.fst := by
          intro hin'
          exact hdisj (List.mem_map_of_mem _ he) hin'
        have := i3 (elementKey e) 0 hnot (by rw [f2 e he]; rfl)
        simpa using this
      · exact i2 q hin
    · intro k x hk hx
      rw [keySuffix_cons_fst, List.mem_append, not_or] at hk
      have := i3 k (x + (p.duration_us : Int)) hk.2
        (by
          rw [f3 k hk.1, mapFind_mapAddAll, hx]
          show some (u32 (((u32 x : Nat) : Int) + (p.duration_us : Int))) = _
          rw [u32_add_u32])
      rw [this, sumDurations_cons]
      congr 2
      push_cast
      ring
theorem totalDuration_foldl (ps : List PhaseTableEntry) (a : Nat) :
    ps.foldl (fun total phase => (total + phase.duration_us) % 4294967296) (a % 4294967296) =
      (a + sumDurations ps) % 4294967296 := by
  induction ps generalizing a with
  | nil => simp [sumDurations]
  | cons p ps ih =>
    rw [List.foldl_cons, sumDurations_cons]
    have h : (a % 4294967296 + p.duration_us) % 4294967296 =
        (a + p.duration_us) % 4294967296 := by omega
    rw [h, ih]
    congr 1
    omega

theorem totalDuration_eq (ps : List PhaseTableEntry) :
    PhaseTable.totalDuration ps = sumDurations ps % 4294967296 := by
  have h := totalDuration_foldl ps 0
  simpa [PhaseTable.totalDuration] using h

/-- Both passes over a table without repeated cameras, when nothing wraps: the total
duration is the larger of the sum of the seed durations and the largest need. -/
theorem calculationLoop_total (heap : Heap) (ps : List PhaseTableEntry)
    (hnd : ((keySuffix ps).map Prod.fst).Nodup)
    (hb : foldNeedPhases heap ps (sumDurations ps) < 2147483648) :
    PhaseTable.totalDuration
        (PhaseTable.calculationLoop heap PhaseTable.num_calculation_iterations ps []) =
      foldNeedPhases heap ps (sumDurations ps) := by
  obtain ⟨f1, f2, _⟩ := calculationIteration_fresh heap ps [] hnd (fun _ _ => rfl)
  have hloop : PhaseTable.calculationLoop heap PhaseTable.num_calculation_iterations ps [] =
      (PhaseTable.calculationIteration heap ps
        (PhaseTable.calculationIteration heap ps []).2).1 := by
    show (PhaseTable.calculationIteration heap
        (PhaseTable.calculationIteration heap ps []).1
        (PhaseTable.calculationIteration heap ps []).2).1 = _
    rw [f1]
  have hseen := calculationIteration_seen heap ps
    (PhaseTable.calculationIteration heap ps []).2 0 hnd
    (by
      intro q hq
      rw [f2 q hq]
      simp)
    (by simpa using hb)
  rw [hloop, totalDuration_eq]
  simp only [Nat.add_zero, Nat.zero_add] at hseen
  rw [hseen]
  exact Nat.mod_eq_of_lt (by omega)

theorem seedEntry_foldl (els : List PhasedElement) (entry : PhaseTableEntry) :
    els.foldl
        (fun entry element =>
          ({ duration_us :=
              if element.cfg.laser_on_time_max_us > entry.duration_us then
                element.cfg.laser_on_time_max_us
              else entry.duration_us,
             elements := entry.elements ++ [element] } : PhaseTableEntry))
        entry =
      ({ duration_us := seedDuration els entry.duration_us,
         elements := entry.elements ++ els } : PhaseTableEntry) := by
  induction els generalizing entry with
  | nil => simp [seedDuration]
  | cons e els ih =>
    rw [List.foldl_cons, ih]
    simp only [seedDuration, List.foldl_cons, List.append_assoc, List.singleton_append]
    congr 2
    by_cases h : e.cfg.laser_on_time_max_us > entry.duration_us
    · simp only [h, if_true]; omega
    · simp only [h, if_false]; omega

theorem seedEntry_eq (els : List PhasedElement) :
    PhaseTable.seedEntry els = { duration_us := seedDuration els 0, elements := els } := by
  unfold PhaseTable.seedEntry
  rw [seedEntry_foldl]
  simp

theorem elementKey_loadElement (heap : Heap) (e : PhasedElement) :
    elementKey (PhaseTable.loadElement heap e) = elementKey e := by
  unfold PhaseTable.loadElement elementKey
  by_cases h : e.is_cfg_unique = false <;> simp [h]

theorem keySuffix_seedPhases (heap : Heap) (table : List (List PhasedElement)) :
    (keySuffix (seedPhases heap table)).map Prod.fst = tableKeys table := by
  induction table with
  | nil => rfl
  | cons v table ih =>
    have hcons : seedPhases heap (v :: table) =
        PhaseTable.seedEntry (v.map (PhaseTable.loadElement heap)) :: seedPhases heap table := rfl
    rw [hcons, keySuffix_cons_fst, ih, seedEntry_eq]
    simp [tableKeys, List.map_map, Function.comp, elementKey_loadElement]

/-- Closed form of the total duration for tables without repeated cameras. -/
theorem calculatePhaseTable_total (heap : Heap) (t : PhaseTable)
    (hnd : (tableKeys t.m_table).Nodup)
    (hb : foldNeedPhases heap (seedPhases heap t.m_table)
      (sumDurations (seedPhases heap t.m_table)) < 2147483648) :
    (t.CalculatePhaseTable heap).2.total_duration_us =
      foldNeedPhases heap (seedPhases heap t.m_table)
        (sumDurations (seedPhases heap t.m_table)) := by
  rw [← keySuffix_seedPhases heap] at hnd
  exact calculationLoop_total heap (seedPhases heap t.m_table) hnd hb
theorem foldNeed_mono (heap heap' : Heap) (els els' : List PhasedElement)
    (h : List.Forall₂ (fun e e' => needOf heap e ≤ needOf heap' e') els els') :
    ∀ g g' : Nat, g ≤ g' → foldNeed heap els g ≤ foldNeed heap' els' g' := by
  induction h with
  | nil => intro g g' hg; exact hg
  | cons hee _ ih =>
    intro g g' hg
    rw [foldNeed_cons, foldNeed_cons]
    exact ih _ _ (by omega)

theorem foldNeedPhases_mono (heap heap' : Heap) (ps ps' : List PhaseTableEntry)
    (h : List.Forall₂ (fun p p' => List.Forall₂ (fun e e' => needOf heap e ≤ needOf heap' e')
      p.elements p'.elements) ps ps') :
    ∀ g g' : Nat, g ≤ g' → foldNeedPhases heap ps g ≤ foldNeedPhases heap' ps' g' := by
  induction h with
  | nil => intro g g' hg; exact hg
  | cons hpp _ ih =>
    intro g g' hg
    rw [foldNeedPhases_cons, foldNeedPhases_cons]
    exact ih _ _ (foldNeed_mono heap heap' _ _ hpp g g' hg)

theorem seedDuration_mono (els els' : List PhasedElement)
    (h : List.Forall₂ (fun e e' => e.cfg.laser_on_time_max_us ≤ e'.cfg.laser_on_time_max_us)
      els els') :
    ∀ d d' : Nat, d ≤ d' → seedDuration els d ≤ seedDuration els' d' := by
  induction h with
  | nil => intro d d' hd; exact hd
  | cons hee _ ih =>
    intro d d' hd
    simp only [seedDuration, List.foldl_cons]
    exact ih _ _ (by omega)

theorem sumDurations_mono (ps ps' : List PhaseTableEntry)
    (h : List.Forall₂ (fun p p' => p.duration_us ≤ p'.duration_us) ps ps') :
    sumDurations ps ≤ sumDurations ps' := by
  induction h with
  | nil => exact Nat.le_refl _
  | cons hpp _ ih =>
    rw [sumDurations_cons, sumDurations_cons]
    omega

theorem seedPhases_cons (heap : Heap) (v : List PhasedElement)
    (table : List (List PhasedElement)) :
    seedPhases heap (v :: table) =
      ({ duration_us := seedDuration (v.map (PhaseTable.loadElement heap)) 0,
         elements := v.map (PhaseTable.loadElement heap) } : PhaseTableEntry) ::
        seedPhases heap table := by
  show PhaseTable.seedEntry (v.map (PhaseTable.loadElement heap)) :: seedPhases heap table = _
  rw [seedEntry_eq]

theorem loadElement_scan_head (heap : Heap) (e : PhasedElement) :
    (PhaseTable.loadElement heap e).scan_head = e.scan_head := by
  unfold PhaseTable.loadElement
  by_cases h : e.is_cfg_unique = false <;> simp [h]

/-- Consequences of `laserOnRaised` for the seeded tables. -/
theorem laserOnRaised_seedPhases (heap heap' : Heap)
    (hper : ∀ p, (heap p).GetMinScanPeriod = (heap' p).GetMinScanPeriod)
    (table table' : List (List PhasedElement)) (h : laserOnRaised heap heap' table table') :
    List.Forall₂ (fun p p' => List.Forall₂ (fun e e' => needOf heap e ≤ needOf heap' e')
        p.elements p'.elements) (seedPhases heap table) (seedPhases heap' table') ∧
    List.Forall₂ (fun p p' => p.duration_us ≤ p'.duration_us)
        (seedPhases heap table) (seedPhases heap' table') ∧
    tableKeys table' = tableKeys table ∧
    noWrapBound heap table ≤ noWrapBound heap' table' := by
  unfold laserOnRaised at h
  induction h with
  | nil => exact ⟨List.Forall₂.nil, List.Forall₂.nil, rfl, Nat.le_refl _⟩
  | @cons v v' table table' hvv _ ih =>
    obtain ⟨i1, i2, i3, i4⟩ := ih
    have hv : List.Forall₂ (fun e e' => needOf heap e ≤ needOf heap' e')
          (v.map (PhaseTable.loadElement heap)) (v'.map (PhaseTable.loadElement heap')) ∧
        List.Forall₂ (fun e e' => e.cfg.laser_on_time_max_us ≤ e'.cfg.laser_on_time_max_us)
          (v.map (PhaseTable.loadElement heap)) (v'.map (PhaseTable.loadElement heap')) ∧
        v'.map elementKey = v.map elementKey ∧
        (v.map (fun e => (heap e.scan_head).GetMinScanPeriod + frame_overhead_time_us +
            (PhaseTable.loadElement heap e).cfg.laser_on_time_max_us)).sum ≤
          (v'.map (fun e => (heap' e.scan_head).GetMinScanPeriod + frame_overhead_time_us +
            (PhaseTable.loadElement heap' e).cfg.laser_on_time_max_us)).sum := by
      induction hvv with
      | nil => exact ⟨List.Forall₂.nil, List.Forall₂.nil, rfl, Nat.le_refl _⟩
      | @cons e e' w w' hee _ ihw =>
        obtain ⟨j1, j2, j3, j4⟩ := ihw
        obtain ⟨hh, hc, hl⟩ := hee
        refine ⟨List.Forall₂.cons ?_ j1, List.Forall₂.cons hl j2, ?_, ?_⟩
        · unfold needOf
          rw [loadElement_scan_head, loadElement_scan_head, hh, hper e'.scan_head]
          omega
        · simp only [List.map_cons, j3, elementKey, hh, hc]
        · simp only [List.map_cons, List.sum_cons]
          rw [hh, hper e'.scan_head]
          omega
    obtain ⟨k1, k2, k3, k4⟩ := hv
    rw [seedPhases_cons, seedPhases_cons]
    refine ⟨List.Forall₂.cons k1 i1,
      List.Forall₂.cons (seedDuration_mono _ _ k2 0 0 (Nat.le_refl _)) i2, ?_, ?_⟩
    · simp only [tableKeys, List.map_cons, List.flatten_cons] at i3 ⊢
      rw [k3, i3]
    · simp only [noWrapBound, List.map_cons, List.sum_cons] at i4 ⊢
      omega

theorem foldNeed_le_bound (heap : Heap) (els : List PhasedElement) (g : Nat) :
    foldNeed heap els g ≤ max g
      (els.map (fun e => (heap e.scan_head).GetMinScanPeriod + frame_overhead_time_us +
        e.cfg.laser_on_time_max_us)).sum := by
  induction els generalizing g with
  | nil => simp [foldNeed]
  | cons e els ih =>
    rw [foldNeed_cons]
    refine Nat.le_trans (ih _) ?_
    simp only [List.map_cons, List.sum_cons]
    unfold needOf
    omega

theorem seedDuration_le_bound (heap : Heap) (els : List PhasedElement) (d : Nat) :
    seedDuration els d ≤ d +
      (els.map (fun e => (heap e.scan_head).GetMinScanPeriod + frame_overhead_time_us +
        e.cfg.laser_on_time_max_us)).sum := by
  induction els generalizing d with
  | nil => simp [seedDuration]
  | cons e els ih =>
    simp only [seedDuration, List.foldl_cons, List.map_cons, List.sum_cons]
    have := ih (max d e.cfg.laser_on_time_max_us)
    simp only [seedDuration] at this
    omega

/-- The closed form stays below `noWrapBound`. -/
theorem closedForm_le_noWrapBound (heap : Heap) (table : List (List PhasedElement)) :
    (∀ g, foldNeedPhases heap (seedPhases heap table) g ≤ max g (noWrapBound heap table)) ∧
    sumDurations (seedPhases heap table) ≤ noWrapBound heap table := by
  induction table with
  | nil =>
    refine ⟨?_, Nat.le_refl _⟩
    intro g
    simp [seedPhases, foldNeedPhases]
  | cons v table ih =>
    obtain ⟨i1, i2⟩ := ih
    have hsum : (v.map (fun e => (heap e.scan_head).GetMinScanPeriod + frame_overhead_time_us +
          (PhaseTable.loadElement heap e).cfg.laser_on_time_max_us)).sum =
        ((v.map (PhaseTable.loadElement heap)).map
          (fun e => (heap e.scan_head).GetMinScanPeriod + frame_overhead_time_us +
            e.cfg.laser_on_time_max_us)).sum := by
      rw [List.map_map]
      congr 1
      apply List.map_congr_left
      intro e _
      simp only [Function.comp, loadElement_scan_head]
    rw [seedPhases_cons]
    constructor
    · intro g
      rw [foldNeedPhases_cons]
      refine Nat.le_trans (i1 _) ?_
      have h1 := foldNeed_le_bound heap (v.map (PhaseTable.loadElement heap)) g
      simp only [noWrapBound, List.map_cons, List.sum_cons] at *
      rw [hsum]
      omega
    · rw [sumDurations_cons]
      have h1 := seedDuration_le_bound heap (v.map (PhaseTable.loadElement heap)) 0
      simp only [noWrapBound, List.map_cons, List.sum_cons] at *
      rw [hsum]
      omega

/-- C4 (counterexample): for head 1 (minimum scan period 500) and the four phases camera
A, camera B, camera A, camera B with laser_on_time_max_us 100, 100, 100, 200, the total
duration is 1100; raising the laser_on_time_max_us of the element of the second phase
from 100 to 200, everything else unchanged, lowers it to 1000. -/
theorem C4_total_not_monotone :
    ((tableAlternating 100).m_table.map (fun v => v.map (fun e =>
        (e.scan_head, e.camera, e.is_cfg_unique, e.cfg.laser_on_time_max_us)))) =
      [[(1, JS_CAMERA_A, true, 100)], [(1, JS_CAMERA_B, true, 100)],
       [(1, JS_CAMERA_A, true, 100)], [(1, JS_CAMERA_B, true, 200)]] ∧
    ((tableAlternating 200).m_table.map (fun v => v.map (fun e =>
        (e.scan_head, e.camera, e.is_cfg_unique, e.cfg.laser_on_time_max_us)))) =
      [[(1, JS_CAMERA_A, true, 100)], [(1, JS_CAMERA_B, true, 200)],
       [(1, JS_CAMERA_A, true, 100)], [(1, JS_CAMERA_B, true, 200)]] ∧
    ((tableAlternating 100).CalculatePhaseTable heapPeriod500).2.total_duration_us = 1100 ∧
    ((tableAlternating 200).CalculatePhaseTable heapPeriod500).2.total_duration_us = 1000 ∧
    ¬ (((tableAlternating 100).CalculatePhaseTable heapPeriod500).2.total_duration_us ≤
        ((tableAlternating 200).CalculatePhaseTable heapPeriod500).2.total_duration_us) := by
  decide

/-- C4 (amended): for phase tables in which no (head, camera) occurs more than once, and
values small enough that no 32-bit arithmetic wraps (the sum over all elements of head
minimum scan period + frame overhead time + laser_on_time_max_us stays below 2^31),
total_duration_us is monotonically non-decreasing in the laser_on_time_max_us of the
elements: for two inputs of the same shape with the same heads, cameras and head minimum
scan periods, in which no element of the second has a smaller laser_on_time_max_us than
the corresponding element of the first, the total of the second is at least the total of
the first. -/
theorem C4_total_monotone_without_repeated_camera (heap heap' : Heap) (t t' : PhaseTable)
    (hper : ∀ p, (heap p).GetMinScanPeriod = (heap' p).GetMinScanPeriod)
    (hraised : laserOnRaised heap heap' t.m_table t'.m_table)
    (hkeys : (tableKeys t.m_table).Nodup)
    (hbound : noWrapBound heap' t'.m_table < 2147483648) :
    (t.CalculatePhaseTable heap).2.total_duration_us ≤
      (t'.CalculatePhaseTable heap').2.total_duration_us := by
  obtain ⟨r1, r2, r3, r4⟩ := laserOnRaised_seedPhases heap heap' hper _ _ hraised
  obtain ⟨b1, b2⟩ := closedForm_le_noWrapBound heap t.m_table
  obtain ⟨b1', b2'⟩ := closedForm_le_noWrapBound heap' t'.m_table
  have hb : foldNeedPhases heap (seedPhases heap t.m_table)
      (sumDurations (seedPhases heap t.m_table)) < 2147483648 := by
    have := b1 (sumDurations (seedPhases heap t.m_table))
    omega
  have hb' : foldNeedPhases heap' (seedPhases heap' t'.m_table)
      (sumDurations (seedPhases heap' t'.m_table)) < 2147483648 := by
    have := b1' (sumDurations (seedPhases heap' t'.m_table))
    omega
  rw [calculatePhaseTable_total heap t hkeys hb,
    calculatePhaseTable_total heap' t' (by rw [r3]; exact hkeys) hb']
  exact foldNeedPhases_mono heap heap' _ _ r1 _ _ (sumDurations_mono _ _ r2)

/-- C4 (witness): camera A of head 1 with laser_on_time_max_us 100, then raised to 900,
followed by camera B of head 1 with 300, minimum scan period 500: the total does not
decrease. -/
theorem C4_total_monotone_without_repeated_camera_witness :
    ((tableOnce 100).CalculatePhaseTable heapPeriod500).2.total_duration_us ≤
      ((tableOnce 900).CalculatePhaseTable heapPeriod500).2.total_duration_us :=
  C4_total_monotone_without_repeated_camera heapPeriod500 heapPeriod500
    (tableOnce 100) (tableOnce 900) (fun _ => rfl)
    (List.Forall₂.cons
      (List.Forall₂.cons ⟨rfl, rfl, by decide⟩ List.Forall₂.nil)
      (List.Forall₂.cons
        (List.Forall₂.cons ⟨rfl, rfl, by decide⟩ List.Forall₂.nil) List.Forall₂.nil))
    (by decide) (by decide)

/-! ### Functions of a head that depend on its specification only -/

theorem IsPairValid_congr (h h' : ScanHead) (hs : h.m_spec = h'.m_spec) (c : jsCamera)
    (l : jsLaser) : h.IsPairValid c l = h'.IsPairValid c l := by
  simp only [ScanHead.IsPairValid, ScanHead.CameraIdToPort, ScanHead.LaserIdToPort, hs]

theorem IsConfigurationValid_congr (h h' : ScanHead) (hs : h.m_spec = h'.m_spec)
    (cfg : jsScanHeadConfiguration) :
    h.IsConfigurationValid cfg = h'.IsConfigurationValid cfg := by
  simp only [ScanHead.IsConfigurationValid, hs]

theorem ElementOK_congr (heap heap' : Heap) (hs : ∀ p, (heap p).m_spec = (heap' p).m_spec)
    (e : PhasedElement) (h : ElementOK heap e) : ElementOK heap' e := by
  unfold ElementOK at *
  rw [← IsPairValid_congr _ _ (hs e.scan_head), ← IsConfigurationValid_congr _ _ (hs e.scan_head)]
  exact h

theorem TableOK_congr (heap heap' : Heap) (hs : ∀ p, (heap p).m_spec = (heap' p).m_spec)
    (t : PhaseTable) (h : TableOK heap t) : TableOK heap' t := by
  obtain ⟨h1, h2, h3⟩ := h
  refine ⟨fun v hv e he => ElementOK_congr heap heap' hs e (h1 v hv e he), h2, ?_⟩
  intro p c hc
  rw [← hs p]
  exact h3 p c hc

/-! ### The paired laser and the paired camera form a valid pair -/

theorem pairedLaserLoop_spec (h : ScanHead) (camera_port : Nat) :
    ∀ (groups : List (Nat × Nat)) (laser : jsLaser),
      h.pairedLaserLoop camera_port groups laser = laser ∨
      ∃ grp ∈ groups, grp.1 = camera_port ∧
        h.pairedLaserLoop camera_port groups laser = h.LaserPortToId grp.2 := by
  intro groups
  induction groups with
  | nil => intro laser; exact Or.inl rfl
  | cons g rest ih =>
    intro laser
    simp only [ScanHead.pairedLaserLoop]
    by_cases hg : g.1 = camera_port
    · simp only [hg, if_true]
      rcases ih (h.LaserPortToId g.2) with h1 | ⟨grp, hmem, h2, h3⟩
      · exact Or.inr ⟨g, List.mem_cons_self _ _, hg, h1⟩
      · exact Or.inr ⟨grp, List.mem_cons_of_mem _ hmem, h2, h3⟩
    · simp only [hg, if_false]
      rcases ih laser with h1 | ⟨grp, hmem, h2, h3⟩
      · exact Or.inl h1
      · exact Or.inr ⟨grp, List.mem_cons_of_mem _ hmem, h2, h3⟩

theorem pairedCameraLoop_spec (h : ScanHead) (laser_port : Nat) :
    ∀ (groups : List (Nat × Nat)) (camera : jsCamera),
      h.pairedCameraLoop laser_port groups camera = camera ∨
      ∃ grp ∈ groups, grp.2 = laser_port ∧
        h.pairedCameraLoop laser_port groups camera = h.CameraPortToId grp.1 := by
  intro groups
  induction groups with
  | nil => intro camera; exact Or.inl rfl
  | cons g rest ih =>
    intro camera
    simp only [ScanHead.pairedCameraLoop]
    by_cases hg : g.2 = laser_port
    · simp only [hg, if_true]
      rcases ih (h.CameraPortToId g.1) with h1 | ⟨grp, hmem, h2, h3⟩
      · exact Or.inr ⟨g, List.mem_cons_self _ _, hg, h1⟩
      · exact Or.inr ⟨grp, List.mem_cons_of_mem _ hmem, h2, h3⟩
    · simp only [hg, if_false]
      rcases ih camera with h1 | ⟨grp, hmem, h2, h3⟩
      · exact Or.inl h1
      · exact Or.inr ⟨grp, List.mem_cons_of_mem _ hmem, h2, h3⟩

/-- In an injective table the position of the entry at position `i` is `i`. -/
theorem indexOf_getD_of_nodup (l : List Nat) (hnd : l.Nodup) (i : Nat) (hi : i < l.length) :
    l.indexOf (l.getD i 0) = i := by
  rw [List.getD_eq_getElem _ _ hi]
  exact List.indexOf_getElem hnd i hi
theorem GetPairedLaser_group (h : ScanHead) (camera : jsCamera)
    (hne : JS_LASER_INVALID ≠ h.GetPairedLaser camera) :
    ∃ grp ∈ h.m_spec.configuration_groups, grp.1 = u32 (h.CameraIdToPort camera) ∧
      h.GetPairedLaser camera = h.LaserPortToId grp.2 := by
  unfold ScanHead.GetPairedLaser at hne ⊢
  split at hne
  · exact absurd rfl hne
  · split at hne
    · exact absurd rfl hne
    · rename_i hp hv
      simp only [hp, hv, if_false]
      rcases pairedLaserLoop_spec h (u32 (h.CameraIdToPort camera))
          h.m_spec.configuration_groups JS_LASER_INVALID with h0 | ⟨grp, hmem, hg1, hg2⟩
      · exact absurd h0.symm hne
      · exact ⟨grp, hmem, hg1, hg2⟩

theorem GetPairedCamera_group (h : ScanHead) (laser : jsLaser)
    (hne : JS_CAMERA_INVALID ≠ h.GetPairedCamera laser) :
    ∃ grp ∈ h.m_spec.configuration_groups, grp.2 = u32 (h.LaserIdToPort laser) ∧
      h.GetPairedCamera laser = h.CameraPortToId grp.1 := by
  unfold ScanHead.GetPairedCamera at hne ⊢
  split at hne
  · exact absurd rfl hne
  · split at hne
    · exact absurd rfl hne
    · rename_i hp hv
      simp only [hp, hv, if_false]
      rcases pairedCameraLoop_spec h (u32 (h.LaserIdToPort laser))
          h.m_spec.configuration_groups JS_CAMERA_INVALID with h0 | ⟨grp, hmem, hg1, hg2⟩
      · exact absurd h0.symm hne
      · exact ⟨grp, hmem, hg1, hg2⟩

theorem idToPort_not_neg (table : List Nat) (id port : Nat) (hport : port < 4294967295)
    (hg : port = u32 (if table.indexOf id = table.length then -1
      else (table.indexOf id : Int))) :
    ¬ (if table.indexOf id = table.length then (-1 : Int) else (table.indexOf id : Int)) < 0 := by
  split
  · rename_i heq
    rw [if_pos heq] at hg
    have hu : u32 (-1) = 4294967295 := by decide
    omega
  · omega

theorem idToPort_of_portToId (table : List Nat) (hnd : table.Nodup) (port : Nat)
    (hne : (0 : Nat) ≠ (if port ≥ table.length then 0 else table.getD port 0)) :
    (if table.indexOf (if port ≥ table.length then 0 else table.getD port 0) = table.length
      then (-1 : Int)
      else (table.indexOf (if port ≥ table.length then 0 else table.getD port 0) : Int)) =
      (port : Int) := by
  have hlt : port < table.length := by
    by_contra hge
    apply hne
    rw [if_pos (Nat.le_of_not_lt hge)]
  have hnge : ¬ port ≥ table.length := Nat.not_le_of_lt hlt
  simp only [hnge, if_false]
  rw [indexOf_getD_of_nodup table hnd port hlt]
  simp [Nat.ne_of_lt hlt]

theorem GetPairedLaser_valid (h : ScanHead) (hw : h.m_spec.WellFormed) (camera : jsCamera)
    (hne : JS_LASER_INVALID ≠ h.GetPairedLaser camera) :
    h.IsPairValid camera (h.GetPairedLaser camera) = true := by
  obtain ⟨_, hndl, hports, _, _⟩ := hw
  obtain ⟨grp, hmem, hg1, hg2⟩ := GetPairedLaser_group h camera hne
  rw [hg2] at hne ⊢
  have hL : h.LaserIdToPort (h.LaserPortToId grp.2) = (grp.2 : Int) :=
    idToPort_of_portToId _ hndl grp.2 hne
  have hC : ¬ h.CameraIdToPort camera < 0 :=
    idToPort_not_neg _ camera grp.1 (hports grp hmem).1 hg1
  have hL0 : ¬ ((grp.2 : Int) < 0) := by omega
  have hu2 : u32 (grp.2 : Int) = grp.2 :=
    u32_natCast _ (by have := (hports grp hmem).2; omega)
  unfold ScanHead.IsPairValid
  rw [if_neg hC, hL, if_neg hL0, List.any_eq_true]
  exact ⟨grp, hmem, by simp [hg1, hu2]⟩

theorem GetPairedCamera_valid (h : ScanHead) (hw : h.m_spec.WellFormed) (laser : jsLaser)
    (hne : JS_CAMERA_INVALID ≠ h.GetPairedCamera laser) :
    h.IsPairValid (h.GetPairedCamera laser) laser = true := by
  obtain ⟨hndc, _, hports, _, _⟩ := hw
  obtain ⟨grp, hmem, hg1, hg2⟩ := GetPairedCamera_group h laser hne
  rw [hg2] at hne ⊢
  have hCam : h.CameraIdToPort (h.CameraPortToId grp.1) = (grp.1 : Int) :=
    idToPort_of_portToId _ hndc grp.1 hne
  have hLas : ¬ h.LaserIdToPort laser < 0 :=
    idToPort_not_neg _ laser grp.2 (hports grp hmem).2 hg1
  have hC0 : ¬ ((grp.1 : Int) < 0) := by omega
  have hu1 : u32 (grp.1 : Int) = grp.1 :=
    u32_natCast _ (by have := (hports grp hmem).1; omega)
  unfold ScanHead.IsPairValid
  rw [hCam, if_neg hC0, if_neg hLas, List.any_eq_true]
  exact ⟨grp, hmem, by simp [hg1, hu1]⟩
/-! ### The invariant of the authored phase table -/

theorem headCount_set (p : Nat) (el : PhasedElement) :
    ∀ (table : List (List PhasedElement)) (phase : Nat), phase < table.length →
      headCount (table.set phase (table.getD phase [] ++ [el])) p =
        headCount table p + (if el.scan_head = p then 1 else 0) := by
  intro table
  induction table with
  | nil => intro phase h; exact absurd h (Nat.not_lt_zero _)
  | cons v rest ih =>
    intro phase h
    cases phase with
    | zero =>
      simp only [List.set_cons_zero, List.getD_cons_zero, headCount, List.map_cons,
        List.sum_cons, List.filter_append, List.length_append]
      by_cases hp : el.scan_head = p
      · simp [hp]; omega
      · simp [hp]
    | succ n =>
      have hn : n < rest.length := by simpa using h
      have := ih n hn
      simp only [List.set_cons_succ, List.getD_cons_succ, headCount, List.map_cons,
        List.sum_cons] at this ⊢
      omega

theorem TableOK_count (heap : Heap) (t : PhaseTable) (count : List (Nat × Nat))
    (hok : TableOK heap t)
    (hge : ∀ q, (mapFind t.m_scan_head_count q).getD 0 ≤ (mapFind count q).getD 0)
    (hmax : ∀ q c, mapFind count q = some c → c ≤ (heap q).m_spec.max_configuration_groups) :
    TableOK heap { t with m_scan_head_count := count } := by
  obtain ⟨h1, h2, _⟩ := hok
  exact ⟨h1, fun q => Nat.le_trans (h2 q) (hge q), hmax⟩

theorem TableOK_add (heap : Heap) (table : List (List PhasedElement)) (count : List (Nat × Nat))
    (phase : Nat) (el : PhasedElement) (hok : TableOK heap ⟨table, count⟩)
    (hphase : phase < table.length) (hel : ElementOK heap el)
    (hroom : headCount table el.scan_head + 1 ≤ (mapFind count el.scan_head).getD 0) :
    TableOK heap ⟨table.set phase (table.getD phase [] ++ [el]), count⟩ := by
  obtain ⟨h1, h2, h3⟩ := hok
  refine ⟨?_, ?_, h3⟩
  · intro v hv e he
    rcases List.mem_or_eq_of_mem_set hv with hin | heq
    · exact h1 v hin e he
    · rw [heq] at he
      rcases List.mem_append.mp he with hin | hin
      · have hmem : table.getD phase [] ∈ table := by
          rw [List.getD_eq_getElem _ _ hphase]
          exact List.getElem_mem _
        exact h1 _ hmem e hin
      · rw [List.mem_singleton.mp hin]
        exact hel
  · intro q
    show headCount (table.set phase (table.getD phase [] ++ [el])) q ≤ _
    rw [headCount_set q el table phase hphase]
    by_cases hq : el.scan_head = q
    · rw [if_pos hq, ← hq]
      exact hroom
    · rw [if_neg hq]
      exact h2 q

theorem getD_mapFind_mapSet (count : List (Nat × Nat)) (p q v : Nat) :
    (mapFind (mapSet count p v) q).getD 0 =
      if q = p then v else (mapFind count q).getD 0 := by
  by_cases h : q = p
  · rw [if_pos h, h, mapFind_mapSet_self]
    rfl
  · rw [if_neg h, mapFind_mapSet_other _ _ _ _ h]

theorem mapFind_mapSet_some (count : List (Nat × Nat)) (p q v c : Nat)
    (h : mapFind (mapSet count p v) q = some c) :
    (q = p ∧ c = v) ∨ (q ≠ p ∧ mapFind count q = some c) := by
  by_cases hq : q = p
  · rw [hq, mapFind_mapSet_self] at h
    exact Or.inl ⟨hq, (Option.some.inj h).symm⟩
  · rw [mapFind_mapSet_other _ _ _ _ hq] at h
    exact Or.inr ⟨hq, h⟩

/-- `AddToPhaseEntryCommon` keeps the invariant when it is called with a valid pair. -/
theorem AddToPhaseEntryCommon_ok (heap : Heap) (t : PhaseTable) (phase p : Nat)
    (camera : jsCamera) (laser : jsLaser) (cfg : Option jsScanHeadConfiguration)
    (hok : TableOK heap t) (hw : (heap p).m_spec.WellFormed)
    (hpair : (heap p).IsPairValid camera laser = true) :
    TableOK heap (PhaseTable.AddToPhaseEntryCommon heap t phase p camera laser cfg).1 := by
  obtain ⟨_, _, _, hpos, hlt32⟩ := hw
  unfold PhaseTable.AddToPhaseEntryCommon
  by_cases hph : t.m_table.length ≤ phase
  · rw [if_pos hph]; exact hok
  · rw [if_neg hph]
    have hphase : phase < t.m_table.length := Nat.lt_of_not_le hph
    -- the counter map after the room check, with the value it holds for the head
    have hcount : (∃ c0 count0,
        (match mapFind t.m_scan_head_count p with
          | some c => if c ≥ (heap p).GetMaxScanPairs then none else some t.m_scan_head_count
          | none => some (mapSet t.m_scan_head_count p 0)) = some count0 ∧
        mapFind count0 p = some c0 ∧ c0 < (heap p).m_spec.max_configuration_groups ∧
        headCount t.m_table p ≤ c0 ∧
        (∀ q, q ≠ p → mapFind count0 q = mapFind t.m_scan_head_count q)) ∨
        (match mapFind t.m_scan_head_count p with
          | some c => if c ≥ (heap p).GetMaxScanPairs then none else some t.m_scan_head_count
          | none => some (mapSet t.m_scan_head_count p 0)) = none := by
      cases hfind : mapFind t.m_scan_head_count p with
      | none =>
        left
        refine ⟨0, mapSet t.m_scan_head_count p 0, rfl, mapFind_mapSet_self _ _ _, hpos, ?_,
          fun q hq => mapFind_mapSet_other _ _ _ _ hq⟩
        have := hok.2.1 p
        rw [hfind] at this
        exact this
      | some c =>
        by_cases hc : c ≥ (heap p).GetMaxScanPairs
        · right; simp [hc]
        · left
          refine ⟨c, t.m_scan_head_count, by simp [hc], hfind, ?_, ?_, fun _ _ => rfl⟩
          · exact Nat.lt_of_not_le hc
          · have := hok.2.1 p
            rw [hfind] at this
            exact this
    rcases hcount with ⟨c0, count0, hm, hf, hc0, hhc, hoth⟩ | hnone
    · rw [hm]
      have hge0 : ∀ q, (mapFind t.m_scan_head_count q).getD 0 ≤ (mapFind count0 q).getD 0 := by
        intro q
        by_cases hq : q = p
        · rw [hq, hf]
          exact Nat.le_trans (by
            have := hok.2.1 p
            cases hfind : mapFind t.m_scan_head_count p with
            | none => exact Nat.zero_le _
            | some c =>
              have h2 := hoth
              by_cases hc : c ≥ (heap p).GetMaxScanPairs
              · rw [hfind] at hm; simp [hc] at hm
              · rw [hfind] at hm
                simp only [hc, if_false, Option.some.injEq] at hm
                rw [← hm, hfind] at hf
                have := Option.some.inj hf
                show c ≤ c0
                omega) (Nat.le_refl (Option.getD (some c0) 0))
        · rw [hoth q hq]
      have hmax0 : ∀ q c, mapFind count0 q = some c →
          c ≤ (heap q).m_spec.max_configuration_groups := by
        intro q c hc
        by_cases hq : q = p
        · rw [hq, hf] at hc
          rw [hq, ← Option.some.inj hc]
          exact Nat.le_of_lt hc0
        · rw [hoth q hq] at hc
          exact hok.2.2 q c hc
      have hok0 : TableOK heap { t with m_scan_head_count := count0 } :=
        TableOK_count heap t count0 hok hge0 hmax0
      by_cases hdup : (t.m_table.getD phase []).any
          (fun el => decide (el.scan_head = p ∧ el.camera = camera)) = true
      · simp only [hdup, if_true]
        exact hok0
      · simp only [hdup]
        have hu : u32 ((((mapFind count0 p).getD 0 : Nat) : Int) + 1) = c0 + 1 := by
          rw [hf]
          show u32 (((c0 : Nat) : Int) + 1) = c0 + 1
          unfold u32; omega
        rw [hu]
        have hge1 : ∀ q, (mapFind count0 q).getD 0 ≤
            (mapFind (mapSet count0 p (c0 + 1)) q).getD 0 := by
          intro q
          rw [getD_mapFind_mapSet]
          by_cases hq : q = p
          · rw [if_pos hq, hq, hf]; exact Nat.le_succ _
          · rw [if_neg hq]
        have hmax1 : ∀ q c, mapFind (mapSet count0 p (c0 + 1)) q = some c →
            c ≤ (heap q).m_spec.max_configuration_groups := by
          intro q c hc
          rcases mapFind_mapSet_some _ _ _ _ _ hc with ⟨hq, hv⟩ | ⟨_, hv⟩
          · rw [hq, hv]; exact hc0
          · exact hmax0 q c hv
        have hok1 : TableOK heap ⟨t.m_table, mapSet count0 p (c0 + 1)⟩ :=
          TableOK_count heap { t with m_scan_head_count := count0 } _ hok0 hge1 hmax1
        have hroom : headCount t.m_table p + 1 ≤
            (mapFind (mapSet count0 p (c0 + 1)) p).getD 0 := by
          rw [mapFind_mapSet_self]
          show headCount t.m_table p + 1 ≤ c0 + 1
          omega
        cases cfg with
        | none =>
          exact TableOK_add heap t.m_table _ phase _ hok1 hphase
            ⟨hpair, fun h => absurd h (by simp)⟩ hroom
        | some c =>
          by_cases hv : (heap p).IsConfigurationValid c = false
          · simp only [hv, if_true]
            exact hok1
          · simp only [hv]
            exact TableOK_add heap t.m_table _ phase _ hok1 hphase
              ⟨hpair, fun _ => by simpa using hv⟩ hroom
    · rw [hnone]
      exact hok
theorem AddToPhaseEntryCommon_heads (heap : Heap) (t : PhaseTable) (phase p : Nat)
    (camera : jsCamera) (laser : jsLaser) (cfg : Option jsScanHeadConfiguration)
    (P : Nat → Prop) (hP : P p) (hall : ∀ v ∈ t.m_table, ∀ e ∈ v, P e.scan_head) :
    ∀ v ∈ (PhaseTable.AddToPhaseEntryCommon heap t phase p camera laser cfg).1.m_table,
      ∀ e ∈ v, P e.scan_head := by
  have hset : ∀ el : PhasedElement, el.scan_head = p →
      ∀ v ∈ t.m_table.set phase (t.m_table.getD phase [] ++ [el]), ∀ e ∈ v, P e.scan_head := by
    intro el hel v hv e he
    rcases List.mem_or_eq_of_mem_set hv with hin | heq
    · exact hall v hin e he
    · rw [heq] at he
      rcases List.mem_append.mp he with hin | hin
      · by_cases hph : phase < t.m_table.length
        · have hmem : t.m_table.getD phase [] ∈ t.m_table := by
            rw [List.getD_eq_getElem _ _ hph]
            exact List.getElem_mem _
          exact hall _ hmem e hin
        · rw [List.getD_eq_default _ _ (Nat.le_of_not_lt hph)] at hin
          exact absurd hin (List.not_mem_nil e)
      · rw [List.mem_singleton.mp hin, hel]
        exact hP
  unfold PhaseTable.AddToPhaseEntryCommon
  split
  · exact hall
  · split
    · exact hall
    · split
      · exact hall
      · cases cfg with
        | none => exact hset _ rfl
        | some c =>
          simp only
          split
          · exact hall
          · exact hset _ rfl

/-- Every table built by a script satisfies the invariant, and its elements refer to heads
named by the script. -/
theorem buildPhaseTable_ok (heap : Heap) (P : Nat → Prop)
    (hw : ∀ p, P p → (heap p).m_spec.WellFormed) (ops : List PhaseOp)
    (hops : ∀ op ∈ ops, ∀ p, op.head = some p → P p) :
    TableOK heap (buildPhaseTable heap ops) ∧
    ∀ v ∈ (buildPhaseTable heap ops).m_table, ∀ e ∈ v, P e.scan_head := by
  have hempty : TableOK heap ⟨[], []⟩ :=
    ⟨fun v hv => absurd hv (List.not_mem_nil v), fun _ => Nat.le_refl _,
      fun p c hc => by simp [mapFind] at hc⟩
  have hgen : ∀ (ops : List PhaseOp) (t : PhaseTable),
      (∀ op ∈ ops, ∀ p, op.head = some p → P p) →
      TableOK heap t → (∀ v ∈ t.m_table, ∀ e ∈ v, P e.scan_head) →
      TableOK heap (ops.foldl (PhaseOp.apply heap) t) ∧
      ∀ v ∈ (ops.foldl (PhaseOp.apply heap) t).m_table, ∀ e ∈ v, P e.scan_head := by
    intro ops
    induction ops with
    | nil => intro t _ h1 h2; exact ⟨h1, h2⟩
    | cons op rest ih =>
      intro t hops h1 h2
      rw [List.foldl_cons]
      apply ih _ (fun o ho => hops o (List.mem_cons_of_mem _ ho))
      · cases op with
        | reset => exact hempty
        | createPhase =>
          obtain ⟨a, b, c⟩ := h1
          refine ⟨?_, ?_, c⟩
          · intro v hv e he
            rcases List.mem_append.mp hv with hin | hin
            · exact a v hin e he
            · rw [List.mem_singleton.mp hin] at he
              exact absurd he (List.not_mem_nil e)
          · intro p
            have := b p
            simpa [PhaseOp.apply, PhaseTable.CreatePhase, headCount] using this
        | addCamera h c cfg =>
          have hPh : P h := hops _ (List.mem_cons_self _ _) h rfl
          show TableOK heap (PhaseTable.AddToLastPhaseEntryCamera heap t h c cfg).1
          unfold PhaseTable.AddToLastPhaseEntryCamera
          split
          · exact h1
          · split
            · exact h1
            · rename_i hne
              exact AddToPhaseEntryCommon_ok heap t _ h c _ cfg h1 (hw h hPh)
                (GetPairedLaser_valid _ (hw h hPh) c hne)
        | addLaser h l cfg =>
          have hPh : P h := hops _ (List.mem_cons_self _ _) h rfl
          show TableOK heap (PhaseTable.AddToLastPhaseEntryLaser heap t h l cfg).1
          unfold PhaseTable.AddToLastPhaseEntryLaser
          split
          · exact h1
          · split
            · exact h1
            · rename_i hne
              exact AddToPhaseEntryCommon_ok heap t _ h _ l cfg h1 (hw h hPh)
                (GetPairedCamera_valid _ (hw h hPh) l hne)
      · cases op with
        | reset => intro v hv; exact absurd hv (List.not_mem_nil v)
        | createPhase =>
          intro v hv e he
          rcases List.mem_append.mp hv with hin | hin
          · exact h2 v hin e he
          · rw [List.mem_singleton.mp hin] at he
            exact absurd he (List.not_mem_nil e)
        | addCamera h c cfg =>
          have hPh : P h := hops _ (List.mem_cons_self _ _) h rfl
          show ∀ v ∈ (PhaseTable.AddToLastPhaseEntryCamera heap t h c cfg).1.m_table, _
          unfold PhaseTable.AddToLastPhaseEntryCamera
          split
          · exact h2
          · split
            · exact h2
            · exact AddToPhaseEntryCommon_heads heap t _ h c _ cfg P hPh h2
        | addLaser h l cfg =>
          have hPh : P h := hops _ (List.mem_cons_self _ _) h rfl
          show ∀ v ∈ (PhaseTable.AddToLastPhaseEntryLaser heap t h l cfg).1.m_table, _
          unfold PhaseTable.AddToLastPhaseEntryLaser
          split
          · exact h2
          · split
            · exact h2
            · exact AddToPhaseEntryCommon_heads heap t _ h _ l cfg P hPh h2
  exact hgen ops _ hops hempty (fun v hv => absurd hv (List.not_mem_nil v))

/-! ### The calculation keeps the elements -/

theorem processPhase_elements (heap : Heap) (acc : List ((Nat × jsCamera) × Nat))
    (p : PhaseTableEntry) : (PhaseTable.processPhase heap acc p).1.elements = p.elements := rfl

theorem calculationIteration_elements (heap : Heap) :
    ∀ (ps : List PhaseTableEntry) (acc : List ((Nat × jsCamera) × Nat)),
      (PhaseTable.calculationIteration heap ps acc).1.map (fun p => p.elements) =
        ps.map (fun p => p.elements) := by
  intro ps
  induction ps with
  | nil => intro acc; rfl
  | cons p rest ih =>
    intro acc
    rw [calculationIteration_cons, List.map_cons, List.map_cons, ih, processPhase_elements]

theorem calculationLoop_elements (heap : Heap) :
    ∀ (n : Nat) (ps : List PhaseTableEntry) (acc : List ((Nat × jsCamera) × Nat)),
      (PhaseTable.calculationLoop heap n ps acc).map (fun p => p.elements) =
        ps.map (fun p => p.elements) := by
  intro n
  induction n with
  | zero => intro ps acc; rfl
  | succ n ih =>
    intro ps acc
    show (PhaseTable.calculationLoop heap n _ _).map _ = _
    rw [ih, calculationIteration_elements]

/-- The elements of the calculated table are the loaded elements of the authored table,
phase by phase. -/
theorem calculatePhaseTable_elements (heap : Heap) (t : PhaseTable) :
    (t.CalculatePhaseTable heap).2.phases.map (fun p => p.elements) =
      t.m_table.map (fun v => v.map (PhaseTable.loadElement heap)) := by
  show (PhaseTable.calculationLoop heap _ _ _).map _ = _
  rw [calculationLoop_elements, List.map_map]
  conv_rhs => rw [← List.map_id (t.m_table.map (fun v => v.map (PhaseTable.loadElement heap)))]
  apply List.map_congr_left
  intro v _
  simp [Function.comp, seedEntry_eq]
/-! ### The scan pairs added by `StartScanning` -/

theorem AddScanPair_ok (h : ScanHead) (camera : jsCamera) (laser : jsLaser)
    (cfg : jsScanHeadConfiguration) (end_offset_us : Nat)
    (h1 : h.IsPairValid camera laser = true) (h2 : h.IsConfigurationValid cfg = true)
    (h3 : h.m_scan_pairs.length < h.m_spec.max_configuration_groups) :
    h.AddScanPair camera laser cfg end_offset_us =
      ({ h with m_scan_pairs := h.m_scan_pairs ++
          [{ camera := camera, laser := laser, config := cfg,
             end_offset_us := end_offset_us }] }, 0) := by
  unfold ScanHead.AddScanPair
  simp [h1, h2, Nat.not_le_of_lt h3]

theorem addScanPairsPhase_spec (H0 : Heap) (o : Nat) :
    ∀ (els : List PhasedElement) (H : Heap) (codes : List Int),
      (∀ p, (H p).m_spec = (H0 p).m_spec) →
      (∀ e ∈ els, (H0 e.scan_head).IsPairValid e.camera e.laser = true ∧
        (H0 e.scan_head).IsConfigurationValid e.cfg = true) →
      (∀ e ∈ els, (H e.scan_head).m_scan_pairs.length +
          (els.filter (fun x => decide (x.scan_head = e.scan_head))).length ≤
        (H0 e.scan_head).m_spec.max_configuration_groups) →
      (∀ p, ((ScanManager.addScanPairsPhase o els (H, codes)).1 p).m_spec = (H0 p).m_spec) ∧
      (∀ p, ((ScanManager.addScanPairsPhase o els (H, codes)).1 p).m_scan_pairs =
        (H p).m_scan_pairs ++ (els.filter (fun x => decide (x.scan_head = p))).map (fun e =>
          ({ camera := e.camera, laser := e.laser, config := e.cfg, end_offset_us := o } :
            ScanPair))) ∧
      (ScanManager.addScanPairsPhase o els (H, codes)).2 =
        codes ++ List.replicate els.length 0 := by
  intro els
  induction els with
  | nil =>
    intro H codes hs _ _
    exact ⟨hs, fun p => by simp [ScanManager.addScanPairsPhase],
      by simp [ScanManager.addScanPairsPhase]⟩
  | cons e els ih =>
    intro H codes hs hval hcount
    have hv := hval e (List.mem_cons_self _ _)
    have hc := hcount e (List.mem_cons_self _ _)
    simp only [List.filter_cons, decide_True, if_true, List.length_cons] at hc
    have hadd := AddScanPair_ok (H e.scan_head) e.camera e.laser e.cfg o
      (by rw [IsPairValid_congr _ _ (hs e.scan_head)]; exact hv.1)
      (by rw [IsConfigurationValid_congr _ _ (hs e.scan_head)]; exact hv.2)
      (by rw [hs e.scan_head]; omega)
    have hstep : ScanManager.addScanPairsPhase o (e :: els) (H, codes) =
        ScanManager.addScanPairsPhase o els
          (H.store e.scan_head ((H e.scan_head).AddScanPair e.camera e.laser e.cfg o).1,
            codes ++ [((H e.scan_head).AddScanPair e.camera e.laser e.cfg o).2]) := rfl
    rw [hstep, hadd]
    have hs1 : ∀ p, ((H.store e.scan_head
        { (H e.scan_head) with m_scan_pairs := (H e.scan_head).m_scan_pairs ++
          [{ camera := e.camera, laser := e.laser, config := e.cfg, end_offset_us := o }] })
        p).m_spec = (H0 p).m_spec := by
      intro p
      unfold Heap.store
      by_cases hp : p = e.scan_head
      · simp only [hp, if_true]; exact hs e.scan_head
      · simp only [hp, if_false]; exact hs p
    obtain ⟨i1, i2, i3⟩ := ih _ (codes ++ [0]) hs1
      (fun e' he' => hval e' (List.mem_cons_of_mem _ he'))
      (by
        intro e' he'
        have hc' := hcount e' (List.mem_cons_of_mem _ he')
        unfold Heap.store
        by_cases hp : e'.scan_head = e.scan_head
        · simp only [hp, if_true, List.length_append, List.length_singleton]
          rw [hp] at hc'
          simp only [List.filter_cons, decide_True, if_true, List.length_cons] at hc'
          omega
        · simp only [hp, if_false]
          have hne : ¬ e.scan_head = e'.scan_head := fun h => hp h.symm
          simp only [List.filter_cons, hne, decide_False] at hc'
          exact hc')
    refine ⟨i1, ?_, ?_⟩
    · intro p
      rw [i2 p]
      unfold Heap.store
      by_cases hp : p = e.scan_head
      · simp [hp]
      · have hne : ¬ e.scan_head = p := fun h => hp h.symm
        simp [hp, hne]
    · rw [i3]
      simp [List.replicate_succ]

theorem headCount_cons (v : List PhasedElement) (table : List (List PhasedElement)) (p : Nat) :
    headCount (v :: table) p =
      (v.filter (fun e => decide (e.scan_head = p))).length + headCount table p := by
  simp [headCount]

theorem addScanPairs_spec (H0 : Heap) :
    ∀ (phases : List PhaseTableEntry) (H : Heap) (codes : List Int) (off elapsed : Nat),
      off = (camera_offset_us + elapsed) % 4294967296 →
      (∀ p, (H p).m_spec = (H0 p).m_spec) →
      (∀ ph ∈ phases, ∀ e ∈ ph.elements,
        (H0 e.scan_head).IsPairValid e.camera e.laser = true ∧
        (H0 e.scan_head).IsConfigurationValid e.cfg = true) →
      (∀ ph ∈ phases, ∀ e ∈ ph.elements, (H e.scan_head).m_scan_pairs.length +
          headCount (phases.map (fun p => p.elements)) e.scan_head ≤
        (H0 e.scan_head).m_spec.max_configuration_groups) →
      (∀ p, ((ScanManager.addScanPairs phases off (H, codes)).1 p).m_spec = (H0 p).m_spec) ∧
      (∀ p, ((ScanManager.addScanPairs phases off (H, codes)).1 p).m_scan_pairs =
        (H p).m_scan_pairs ++ expectedScanPairsFrom p elapsed phases) ∧
      (ScanManager.addScanPairs phases off (H, codes)).2 =
        codes ++ List.replicate ((phases.map (fun p => p.elements.length)).sum) 0 := by
  intro phases
  induction phases with
  | nil =>
    intro H codes off elapsed _ hs _ _
    exact ⟨hs, fun p => by simp [ScanManager.addScanPairs, expectedScanPairsFrom],
      by simp [ScanManager.addScanPairs]⟩
  | cons ph rest ih =>
    intro H codes off elapsed hoff hs hval hcount
    have hoff' : (off + ph.duration_us) % 4294967296 =
        (camera_offset_us + (elapsed + ph.duration_us)) % 4294967296 := by
      rw [hoff]; omega
    obtain ⟨p1, p2, p3⟩ := addScanPairsPhase_spec H0 ((off + ph.duration_us) % 4294967296)
      ph.elements H codes hs (hval ph (List.mem_cons_self _ _))
      (by
        intro e he
        have := hcount ph (List.mem_cons_self _ _) e he
        rw [List.map_cons, headCount_cons] at this
        omega)
    have hstep : ScanManager.addScanPairs (ph :: rest) off (H, codes) =
        ScanManager.addScanPairs rest ((off + ph.duration_us) % 4294967296)
          (ScanManager.addScanPairsPhase ((off + ph.duration_us) % 4294967296)
            ph.elements (H, codes)) := rfl
    obtain ⟨i1, i2, i3⟩ := ih
      (ScanManager.addScanPairsPhase ((off + ph.duration_us) % 4294967296)
        ph.elements (H, codes)).1
      (ScanManager.addScanPairsPhase ((off + ph.duration_us) % 4294967296)
        ph.elements (H, codes)).2
      ((off + ph.duration_us) % 4294967296) (elapsed + ph.duration_us) hoff' p1
      (fun ph' hph' => hval ph' (List.mem_cons_of_mem _ hph'))
      (by
        intro ph' hph' e he
        have := hcount ph' (List.mem_cons_of_mem _ hph') e he
        rw [List.map_cons, headCount_cons] at this
        rw [p2 e.scan_head, List.length_append, List.length_map]
        omega)
    rw [hstep]
    refine ⟨i1, ?_, ?_⟩
    · intro p
      rw [i2 p, p2 p, List.append_assoc]
      congr 1
      show _ = _ ++ expectedScanPairsFrom p (elapsed + ph.duration_us) rest
      rw [hoff']
    · rw [i3, p3, List.append_assoc, List.map_cons, List.sum_cons, List.replicate_add]

theorem resetScanPairs_spec :
    ∀ (registry : List (Nat × Nat)) (H : Heap),
      (∀ p, ((ScanManager.resetScanPairs registry H) p).m_spec = (H p).m_spec) ∧
      (∀ p, p ∈ registry.map Prod.snd ∨ (H p).m_scan_pairs = [] →
        ((ScanManager.resetScanPairs registry H) p).m_scan_pairs = []) := by
  intro registry
  induction registry with
  | nil =>
    intro H
    refine ⟨fun _ => rfl, ?_⟩
    intro p hp
    rcases hp with hin | he
    · exact absurd hin (List.not_mem_nil p)
    · exact he
  | cons pair rest ih =>
    intro H
    obtain ⟨i1, i2⟩ := ih (H.store pair.2 (H pair.2).ResetScanPairs)
    have hstep : ScanManager.resetScanPairs (pair :: rest) H =
        ScanManager.resetScanPairs rest (H.store pair.2 (H pair.2).ResetScanPairs) := rfl
    rw [hstep]
    constructor
    · intro p
      rw [i1 p]
      unfold Heap.store ScanHead.ResetScanPairs
      by_cases hp : p = pair.2
      · simp [hp]
      · simp [hp]
    · intro p hp
      apply i2
      by_cases hq : p = pair.2
      · right
        unfold Heap.store ScanHead.ResetScanPairs
        simp [hq]
      · rcases hp with hin | he
        · left
          simp only [List.map_cons, List.mem_cons] at hin
          rcases hin with h | h
          · exact absurd h hq
          · exact h
        · right
          unfold Heap.store
          simp [hq, he]

theorem configureHeads_scan_pairs (net : Network) (period_us : Nat) (fmt : jsDataFormat) :
    ∀ (registry : List (Nat × Nat)) (H : Heap) (p : Nat),
      ((ScanManager.configureHeads net period_us fmt registry H).1 p).m_scan_pairs =
        (H p).m_scan_pairs := by
  intro registry
  induction registry with
  | nil => intro H p; rfl
  | cons pair rest ih =>
    intro H p
    have hA : ((H pair.2).SetScanPeriod period_us).1.m_scan_pairs = (H pair.2).m_scan_pairs := by
      unfold ScanHead.SetScanPeriod
      split <;> rfl
    have hB : ∀ h : ScanHead, (h.SetDataFormat fmt).1.m_scan_pairs = h.m_scan_pairs := by
      intro h
      unfold ScanHead.SetDataFormat
      cases fmt <;> rfl
    have hstore : ∀ h : ScanHead, h.m_scan_pairs = (H pair.2).m_scan_pairs →
        ((H.store pair.2 h) p).m_scan_pairs = (H p).m_scan_pairs := by
      intro h hh
      unfold Heap.store
      by_cases hp : p = pair.2
      · simp [hp, hh]
      · simp [hp]
    unfold ScanManager.configureHeads
    simp only
    split
    · exact hstore _ hA
    · split
      · exact hstore _ (by rw [hB, hA])
      · split
        · exact hstore _ (by rw [hB, hA])
        · rw [ih]
          exact hstore _ (by rw [hB, hA])

theorem startHeads_scan_pairs (net : Network) :
    ∀ (registry : List (Nat × Nat)) (H : Heap) (p : Nat),
      ((ScanManager.startHeads net registry H).1 p).m_scan_pairs = (H p).m_scan_pairs := by
  intro registry
  induction registry with
  | nil => intro H p; rfl
  | cons pair rest ih =>
    intro H p
    have hA : ((H pair.2).StartScanning (net.send_scan_start pair.2)).1.m_scan_pairs =
        (H pair.2).m_scan_pairs := by
      unfold ScanHead.StartScanning
      split <;> rfl
    have hstore : ∀ h : ScanHead, h.m_scan_pairs = (H pair.2).m_scan_pairs →
        ((H.store pair.2 h) p).m_scan_pairs = (H p).m_scan_pairs := by
      intro h hh
      unfold Heap.store
      by_cases hp : p = pair.2
      · simp [hp, hh]
      · simp [hp]
    unfold ScanManager.startHeads
    simp only
    split
    · exact hstore _ hA
    · rw [ih]
      exact hstore _ hA
theorem filter_head_map_loadElement (heap : Heap) (p : Nat) (v : List PhasedElement) :
    ((v.map (PhaseTable.loadElement heap)).filter (fun e => decide (e.scan_head = p))).length =
      (v.filter (fun e => decide (e.scan_head = p))).length := by
  induction v with
  | nil => rfl
  | cons e rest ih =>
    simp only [List.map_cons, List.filter_cons, loadElement_scan_head]
    by_cases h : e.scan_head = p
    · simp [h, ih]
    · simp [h, ih]

theorem headCount_map_loadElement (heap : Heap) (table : List (List PhasedElement)) (p : Nat) :
    headCount (table.map (fun v => v.map (PhaseTable.loadElement heap))) p =
      headCount table p := by
  unfold headCount
  rw [List.map_map]
  congr 1
  apply List.map_congr_left
  intro v _
  exact filter_head_map_loadElement heap p v

/-- A configuration accepted by `SetConfiguration` is valid, so the current configuration
of a head whose default configuration lies within its specification limits stays valid. -/
theorem SetConfiguration_keeps_valid (h : ScanHead) (cfg : jsScanHeadConfiguration)
    (hv : h.IsConfigurationValid h.m_config = true) :
    (h.SetConfiguration cfg).1.IsConfigurationValid (h.SetConfiguration cfg).1.m_config = true := by
  unfold ScanHead.SetConfiguration
  split
  · exact hv
  · split
    · exact hv
    · rename_i hvalid
      have : h.IsConfigurationValid cfg = true := by simpa using hvalid
      show ScanHead.IsConfigurationValid { h with m_config := cfg } cfg = true
      rw [IsConfigurationValid_congr { h with m_config := cfg } h rfl]
      exact this

/-- The loaded elements of a well-built table are accepted by `AddScanPair`. -/
theorem loaded_elements_valid (heap : Heap) (t : PhaseTable) (P : Nat → Prop)
    (hok : TableOK heap t) (hP : ∀ v ∈ t.m_table, ∀ e ∈ v, P e.scan_head)
    (hcfg : ∀ p, P p → (heap p).IsConfigurationValid (heap p).m_config = true) :
    ∀ ph ∈ (t.CalculatePhaseTable heap).2.phases, ∀ e ∈ ph.elements,
      P e.scan_head ∧ (heap e.scan_head).IsPairValid e.camera e.laser = true ∧
      (heap e.scan_head).IsConfigurationValid e.cfg = true := by
  intro ph hph e he
  have hmem : ph.elements ∈ (t.CalculatePhaseTable heap).2.phases.map (fun p => p.elements) :=
    List.mem_map_of_mem _ hph
  rw [calculatePhaseTable_elements] at hmem
  obtain ⟨v, hv, hveq⟩ := List.mem_map.mp hmem
  rw [← hveq] at he
  obtain ⟨e0, he0, rfl⟩ := List.mem_map.mp he
  obtain ⟨hpair, hucfg⟩ := hok.1 v hv e0 he0
  have hPe := hP v hv e0 he0
  unfold PhaseTable.loadElement
  by_cases hu : e0.is_cfg_unique = false
  · simp only [hu, if_true]
    exact ⟨hPe, hpair, hcfg _ hPe⟩
  · simp only [hu, if_false]
    exact ⟨hPe, hpair, hucfg (by simpa using hu)⟩

/-- C7: when StartScanning passes its guards (connected, not scanning, total_duration_us
<= period_us), every AddScanPair call it makes returns 0, one call is made per element of
the calculated table, whose elements are the loaded elements of the authored table, and
every head of the coordinator ends with the scan-pair list the specification describes:
its phase elements (camera, laser, compiled config) in phase-table order, each with
end_offset_us = 10 + the sum of the compiled durations of the phases up to its own (as a
uint32_t). Provisos: the table was built by a script of Reset / CreatePhase /
AddToLastPhaseEntry calls naming heads of this coordinator (with heads of the same
specifications), the specifications are well formed (injective port-to-id tables, no
group on port 2^32 - 1, a positive max_configuration_groups) and the current
configuration of every head is valid for its specification. -/
theorem C7_startScanning_scan_pairs (net : Network) (heap heap0 : Heap) (m : ScanManager)
    (ops : List PhaseOp) (period_us : Nat) (fmt : jsDataFormat)
    (hbuilt : m.m_phase_table = buildPhaseTable heap0 ops)
    (hspec : ∀ p, (heap0 p).m_spec = (heap p).m_spec)
    (hheads : ∀ op ∈ ops, ∀ p, op.head = some p → p ∈ m.m_serial_to_scan_head.map Prod.snd)
    (hwf : ∀ p ∈ m.m_serial_to_scan_head.map Prod.snd, (heap p).m_spec.WellFormed)
    (hcfg : ∀ p ∈ m.m_serial_to_scan_head.map Prod.snd,
      (heap p).IsConfigurationValid (heap p).m_config = true)
    (hconn : m.IsConnected = true) (hscan : m.IsScanning = false)
    (hperiod : (m.m_phase_table.CalculatePhaseTable heap).2.total_duration_us ≤ period_us) :
    (∀ code ∈ (ScanManager.assignScanPairs heap m
        (m.m_phase_table.CalculatePhaseTable heap).2).2, code = 0) ∧
    (ScanManager.assignScanPairs heap m (m.m_phase_table.CalculatePhaseTable heap).2).2.length =
      ((m.m_phase_table.CalculatePhaseTable heap).2.phases.map
        (fun p => p.elements.length)).sum ∧
    (m.m_phase_table.CalculatePhaseTable heap).2.phases.map (fun p => p.elements) =
      m.m_phase_table.m_table.map (fun v => v.map (PhaseTable.loadElement heap)) ∧
    (∀ p ∈ m.m_serial_to_scan_head.map Prod.snd,
      ((ScanManager.StartScanning net heap m period_us fmt).1 p).m_scan_pairs =
        expectedScanPairs (m.m_phase_table.CalculatePhaseTable heap).2.phases p) := by
  obtain ⟨hok0, hPall⟩ := buildPhaseTable_ok heap0
    (fun p => p ∈ m.m_serial_to_scan_head.map Prod.snd)
    (fun p hp => by rw [hspec p]; exact hwf p hp) ops hheads
  rw [← hbuilt] at hok0 hPall
  have hok : TableOK heap m.m_phase_table := TableOK_congr heap0 heap hspec _ hok0
  have hval := loaded_elements_valid heap m.m_phase_table
    (fun p => p ∈ m.m_serial_to_scan_head.map Prod.snd) hok hPall hcfg
  obtain ⟨r1, r2⟩ := resetScanPairs_spec m.m_serial_to_scan_head heap
  obtain ⟨a1, a2, a3⟩ := addScanPairs_spec heap
    (m.m_phase_table.CalculatePhaseTable heap).2.phases
    (ScanManager.resetScanPairs m.m_serial_to_scan_head heap) [] camera_offset_us 0
    (by decide) r1
    (fun ph hph e he => (hval ph hph e he).2)
    (by
      intro ph hph e he
      have hreg := (hval ph hph e he).1
      rw [r2 e.scan_head (Or.inl hreg), calculatePhaseTable_elements,
        headCount_map_loadElement]
      have h2 := hok.2.1 e.scan_head
      have h3 := hok.2.2 e.scan_head
      cases hfind : mapFind m.m_phase_table.m_scan_head_count e.scan_head with
      | none =>
        rw [hfind] at h2
        have : headCount m.m_phase_table.m_table e.scan_head = 0 := Nat.le_zero.mp h2
        simp [this]
      | some c =>
        rw [hfind] at h2
        have := h3 c hfind
        have h2' : headCount m.m_phase_table.m_table e.scan_head ≤ c := h2
        simp only [List.length_nil, Nat.zero_add]
        omega)
  have hassign : ScanManager.assignScanPairs heap m (m.m_phase_table.CalculatePhaseTable heap).2 =
      ScanManager.addScanPairs (m.m_phase_table.CalculatePhaseTable heap).2.phases
        camera_offset_us (ScanManager.resetScanPairs m.m_serial_to_scan_head heap, []) := rfl
  refine ⟨?_, ?_, calculatePhaseTable_elements heap _, ?_⟩
  · intro code hcode
    rw [hassign, a3] at hcode
    simp only [List.nil_append] at hcode
    exact (List.mem_replicate.mp hcode).2
  · rw [hassign, a3]
    simp
  · intro p hp
    have hpairs : ((ScanManager.assignScanPairs heap m
        (m.m_phase_table.CalculatePhaseTable heap).2).1 p).m_scan_pairs =
        expectedScanPairs (m.m_phase_table.CalculatePhaseTable heap).2.phases p := by
      rw [hassign, a2 p, r2 p (Or.inl hp)]
      rfl
    have hnot : ¬ (m.m_phase_table.CalculatePhaseTable heap).2.total_duration_us > period_us :=
      Nat.not_lt_of_le hperiod
    unfold ScanManager.StartScanning
    simp only [hconn, hscan, hnot, if_false, Bool.true_eq_false, Bool.false_eq_true]
    split
    · rw [configureHeads_scan_pairs]
      exact hpairs
    · split
      · rw [startHeads_scan_pairs, configureHeads_scan_pairs]
        exact hpairs
      · rw [startHeads_scan_pairs, configureHeads_scan_pairs]
        exact hpairs

/-- C7 (witness): the connected one-head coordinator, its table built by CreatePhase and
AddToLastPhaseEntry(head 1, camera A), started with period 1500. -/
theorem C7_startScanning_scan_pairs_witness :
    (∀ code ∈ (ScanManager.assignScanPairs heapOneHead managerOneHead
        (managerOneHead.m_phase_table.CalculatePhaseTable heapOneHead).2).2, code = 0) ∧
    (ScanManager.assignScanPairs heapOneHead managerOneHead
        (managerOneHead.m_phase_table.CalculatePhaseTable heapOneHead).2).2.length =
      ((managerOneHead.m_phase_table.CalculatePhaseTable heapOneHead).2.phases.map
        (fun p => p.elements.length)).sum ∧
    (managerOneHead.m_phase_table.CalculatePhaseTable heapOneHead).2.phases.map
        (fun p => p.elements) =
      managerOneHead.m_phase_table.m_table.map
        (fun v => v.map (PhaseTable.loadElement heapOneHead)) ∧
    (∀ p ∈ managerOneHead.m_serial_to_scan_head.map Prod.snd,
      ((ScanManager.StartScanning networkOk heapOneHead managerOneHead 1500
          jsDataFormat.JS_DATA_FORMAT_XY_BRIGHTNESS_FULL).1 p).m_scan_pairs =
        expectedScanPairs
          (managerOneHead.m_phase_table.CalculatePhaseTable heapOneHead).2.phases p) :=
  C7_startScanning_scan_pairs networkOk heapOneHead heapOneHead managerOneHead
    [PhaseOp.createPhase, PhaseOp.addCamera 1 JS_CAMERA_A none] 1500
    jsDataFormat.JS_DATA_FORMAT_XY_BRIGHTNESS_FULL rfl (fun _ => rfl)
    (by
      intro op hop p hp
      simp only [List.mem_cons, List.mem_singleton, List.not_mem_nil, or_false] at hop
      rcases hop with rfl | rfl
      · simp [PhaseOp.head] at hp
      · simp only [PhaseOp.head, Option.some.injEq] at hp
        rw [← hp]
        decide)
    (by
      intro p _
      show exampleSpec.WellFormed
      exact ⟨by decide, by decide, by decide, by decide, by decide⟩)
    (by
      intro p _
      show (exampleHead p 1000 1500).IsConfigurationValid (exampleHead p 1000 1500).m_config = true
      simp [ScanHead.IsConfigurationValid, exampleHead, exampleSpec, defaultConfiguration,
        kMaxLaserDetectionThreshold, kMaxSaturationThreshold, kMaxSaturationPercentage])
    (by decide) (by decide) (by decide)

/-- C8 (evaluation at the failing input): datagrams 0 and 1 of the four-datagram profile
of timestamp 1000, then datagram 0 of the two-datagram profile of timestamp 2000, all of
head 1. The datagrams of the first profile announce number_datagrams = 4 and only two of
them were received, yet the profile pushed to the ring has packets_received = 2 and
packets_expected = 2: an incomplete profile with packets_received = packets_expected. -/
theorem C8_incomplete_profile_reported_complete :
    (DataPacket.parse (exampleDatagram 1 1000 0 4 [(5, 6, 7)])).map
        (fun p => p.m_hdr.number_datagrams) = some 4 ∧
    (DataPacket.parse (exampleDatagram 1 1000 1 4 [(8, 9, 10)])).map
        (fun p => p.m_hdr.number_datagrams) = some 4 ∧
    (processDatagrams (exampleHead 1 1000 1500) identityAlignment
      [exampleDatagram 1 1000 0 4 [(5, 6, 7)], exampleDatagram 1 1000 1 4 [(8, 9, 10)],
       exampleDatagram 1 2000 0 2 [(1, 2, 3), (4, 5, 6)]] receiverStart).map
      (fun r => r.m_circ_buffer.map
        (fun p => (p.timestamp_ns, p.packets_received, p.packets_expected))) =
    some [(1000, 2, 2)] := by
  decide

/-- C9 (evaluation at the failing input): datagrams 0 and 1 of the four-datagram profile
of timestamp 1000 followed by datagram 0 of the three-datagram profile of timestamp 2000.
The key change pushes exactly one profile, the partial one, with packets_received = 2 but
packets_expected = 3, the number_datagrams of the new datagram, not the 4 announced by the
datagrams of the partial profile. -/
theorem C9_partial_profile_expected_from_new_datagram :
    (processDatagrams (exampleHead 1 1000 1500) identityAlignment
      [exampleDatagram 1 1000 0 4 [(5, 6, 7)], exampleDatagram 1 1000 1 4 [(8, 9, 10)]]
      receiverStart).map
      (fun r => (r.m_circ_buffer.length, r.m_packets_received_for_profile,
        r.m_profile.map (fun p => p.timestamp_ns))) = some (0, 2, some 1000) ∧
    (processDatagrams (exampleHead 1 1000 1500) identityAlignment
      [exampleDatagram 1 1000 0 4 [(5, 6, 7)], exampleDatagram 1 1000 1 4 [(8, 9, 10)],
       exampleDatagram 1 2000 0 3 [(1, 2, 3), (4, 5, 6)]] receiverStart).map
      (fun r => (r.m_circ_buffer.map
        (fun p => (p.timestamp_ns, p.packets_received, p.packets_expected)),
        r.m_profile.map (fun p => p.timestamp_ns))) =
    some ([(1000, 2, 3)], some 2000) := by
  decide

/-- C10 (counterexample): the single datagram of a one-datagram profile of head 0 (camera
port 0, laser port 0) with timestamp 0, delivered to a head that has just started
scanning. Its key equals the initial key (0, 0), no builder is started, and the placement
goes through the null builder: no profile is produced. -/
theorem C10_key_zero_no_profile :
    processDatagrams (exampleHead 0 1000 1500) identityAlignment
      [exampleDatagram 0 0 0 1 [(1, 2, 3), (4, 5, 6), (7, 8, 9), (10, 11, 12)]]
      receiverStart = none := by
  decide

/-! ### The layout of a brightness-and-XY datagram -/

theorem layoutStep_clear (bytes : List Nat) (hdr : DatagramHeader)
    (st : Nat × Nat × List (Nat × FragmentLayout)) (b : Nat)
    (hb : hdr.data_type.testBit b = false) : layoutStep bytes hdr st b = some st := by
  unfold layoutStep
  simp [hb]

theorem layoutLoop_clear (bytes : List Nat) (hdr : DatagramHeader) (bs : List Nat)
    (hb : ∀ b ∈ bs, hdr.data_type.testBit b = false)
    (st : Nat × Nat × List (Nat × FragmentLayout)) :
    layoutLoop bytes hdr bs st = some st := by
  induction bs with
  | nil => rfl
  | cons b rest ih =>
    unfold layoutLoop
    rw [layoutStep_clear bytes hdr st b (hb b (List.mem_cons_self _ _))]
    exact ih (fun b hb' => hb b (List.mem_cons_of_mem _ hb'))

theorem layoutStep_set (bytes : List Nat) (hdr : DatagramHeader)
    (st st1 : Nat × Nat × List (Nat × FragmentLayout)) (b : Nat)
    (hb : hdr.data_type.testBit b = true) (h : layoutStep bytes hdr st b = some st1) :
    st1.1 = st.1 + 2 ∧
    st1.2.2 = st.2.2 ++ [(2 ^ b,
      { step := be16 bytes st.1,
        num_vals := numVals hdr (be16 bytes st.1),
        offset := st.2.1,
        payload_size :=
          (GetSizeFor (2 ^ b) * numVals hdr (be16 bytes st.1)) % 4294967296 })] := by
  unfold layoutStep at h
  simp only [hb, if_true] at h
  split at h
  · exact absurd h (by simp)
  · injection h with h
    subst h
    exact ⟨rfl, rfl⟩

theorem parse_layout (buf : List Nat) (pk : DataPacket) (h : DataPacket.parse buf = some pk)
    (hdt : pk.m_hdr.data_type = 3) :
    (pk.GetFragmentLayout 2).num_vals = numVals pk.m_hdr (pk.GetFragmentLayout 2).step := by
  unfold DataPacket.parse at h
  simp only at h
  split at h
  · exact absurd h (by simp)
  · rename_i st hst
    injection h with h
    subst h
    simp only at hdt ⊢
    have hr : List.range 16 = 0 :: 1 :: [2, 3, 4, 5, 6, 7, 8, 9, 10, 11, 12, 13, 14, 15] := by
      decide
    rw [hr] at hst
    unfold layoutLoop at hst
    split at hst
    · exact absurd hst (by simp)
    · rename_i st1 hst1
      unfold layoutLoop at hst
      split at hst
      · exact absurd hst (by simp)
      · rename_i st2 hst2
        rw [layoutLoop_clear] at hst
        · injection hst with hst
          subst hst
          obtain ⟨a1, a2⟩ := layoutStep_set _ _ _ _ 0 (by rw [hdt]; decide) hst1
          obtain ⟨b1, b2⟩ := layoutStep_set _ _ _ _ 1 (by rw [hdt]; decide) hst2
          unfold DataPacket.GetFragmentLayout
          simp only [b2, a2, List.nil_append]
          simp [List.find?]
        · intro b hb
          rw [hdt]
          simp only [List.mem_cons, List.mem_singleton, List.not_mem_nil, or_false] at hb
          rcases hb with rfl | rfl | rfl | rfl | rfl | rfl | rfl | rfl | rfl | rfl | rfl | rfl |
            rfl | rfl <;> decide

theorem numVals_index_lt (hdr : DatagramHeader) (step : Nat)
    (hNs : hdr.number_datagrams * step < 4294967296)
    (hcols : hdr.start_column ≤ hdr.end_column ∧ hdr.end_column ≤ 1455)
    (hpos : hdr.datagram_position < hdr.number_datagrams) (n : Nat)
    (hn : n < numVals hdr step) :
    hdr.datagram_position + n * hdr.number_datagrams <
      (hdr.end_column - hdr.start_column + 1) / step := by
  have hC : u32 ((hdr.end_column : Int) - (hdr.start_column : Int) + 1) =
      hdr.end_column - hdr.start_column + 1 := by
    unfold u32
    omega
  have hD : u32 (Int.tdiv ((hdr.end_column : Int) - (hdr.start_column : Int) + 1) (step : Int)) =
      (hdr.end_column - hdr.start_column + 1) / step := by
    have e : (hdr.end_column : Int) - (hdr.start_column : Int) + 1 =
        ((hdr.end_column - hdr.start_column + 1 : Nat) : Int) := by omega
    rw [e, Int.tdiv_eq_ediv (Int.natCast_nonneg _) (Int.natCast_nonneg _), ← Int.natCast_div]
    have hlt : (hdr.end_column - hdr.start_column + 1) / step < 4294967296 :=
      Nat.lt_of_le_of_lt (Nat.div_le_self _ _) (by omega)
    generalize (hdr.end_column - hdr.start_column + 1) / step = q at hlt ⊢
    unfold u32
    omega
  unfold numVals at hn
  rw [hC, hD, Nat.mod_eq_of_lt hNs, Nat.mul_comm hdr.number_datagrams step,
    ← Nat.div_div_eq_div_mul] at hn
  generalize (hdr.end_column - hdr.start_column + 1) / step = c at hn ⊢
  generalize hdr.number_datagrams = N at hn hpos hNs ⊢
  generalize hdr.datagram_position = pos at hn hpos ⊢
  have hdm := Nat.div_add_mod c N
  have hcomm : N * (c / N) = c / N * N := Nat.mul_comm _ _
  split at hn
  · rename_i hgt
    have hle : n ≤ c / N := by
      have := Nat.mod_le (c / N + 1) 4294967296
      omega
    have : n * N ≤ c / N * N := Nat.mul_le_mul_right N hle
    omega
  · have hle : n + 1 ≤ c / N := hn
    have : (n + 1) * N ≤ c / N * N := Nat.mul_le_mul_right N hle
    have e : (n + 1) * N = n * N + N := Nat.succ_mul n N
    omega

theorem slot_le_end_column (hdr : DatagramHeader) (step : Nat) (hstep : 1 ≤ step)
    (hNs : hdr.number_datagrams * step < 4294967296)
    (hcols : hdr.start_column ≤ hdr.end_column ∧ hdr.end_column ≤ 1455)
    (hpos : hdr.datagram_position < hdr.number_datagrams) (n : Nat)
    (hn : n < numVals hdr step) :
    hdr.start_column + (hdr.datagram_position + n * hdr.number_datagrams) * step ≤
      hdr.end_column := by
  have h1 := numVals_index_lt hdr step hNs hcols hpos n hn
  have h2 : (hdr.datagram_position + n * hdr.number_datagrams + 1) * step ≤
      (hdr.end_column - hdr.start_column + 1) / step * step :=
    Nat.mul_le_mul_right step h1
  have h3 := Nat.div_mul_le_self (hdr.end_column - hdr.start_column + 1) step
  have h4 : (hdr.datagram_position + n * hdr.number_datagrams + 1) * step =
      (hdr.datagram_position + n * hdr.number_datagrams) * step + step := Nat.succ_mul _ _
  omega

/-! ### The placement loop -/

theorem withWrites_nil (p : jsRawProfile) (cx cb : Nat)
    (hx : p.data_valid_xy = cx % 4294967296) (hb : p.data_valid_brightness = cb % 4294967296) :
    p.withWrites [] cx cb = p := by
  cases p
  simp only [jsRawProfile.withWrites, applyWrites, List.foldl_nil, List.length_nil,
    Nat.add_zero] at hx hb ⊢
  simp only [hx, hb]

theorem withWrites_append (p : jsRawProfile) (ws1 ws2 : List (Nat × jsProfileData))
    (cx cb : Nat) :
    (p.withWrites ws1 cx cb).withWrites ws2 (cx + ws1.length) (cb + ws1.length) =
      p.withWrites (ws1 ++ ws2) cx cb := by
  simp only [jsRawProfile.withWrites, applyWrites, List.foldl_append, List.length_append,
    Nat.add_assoc]

theorem loopWrites_succ (valid : Nat → Bool) (pt : Nat → jsProfileData) (inc r n idx : Nat) :
    loopWrites valid pt inc (r + 1) n idx =
      (if valid n then [(idx, pt n)] else []) ++ loopWrites valid pt inc r (n + 1) (idx + inc) :=
  rfl

theorem placeXYBrightness_eq (cm : Int → Int → Int × Int) (pk : DataPacket) (inc : Nat) :
    ∀ (remaining n idx : Nat) (p : jsRawProfile) (cx cb : Nat),
      p.data_valid_xy = cx % 4294967296 → p.data_valid_brightness = cb % 4294967296 →
      (∀ k < remaining, idx + k * inc < 1456) →
      placeXYBrightness cm pk.m_raw (pk.GetFragmentLayout 2).offset
        (pk.GetFragmentLayout 1).offset inc remaining n idx p =
      some (p.withWrites (loopWrites pk.entryValid (pk.point cm) inc remaining n idx) cx cb) := by
  intro remaining
  induction remaining with
  | zero =>
    intro n idx p cx cb hx hb _
    unfold placeXYBrightness loopWrites
    rw [withWrites_nil p cx cb hx hb]
  | succ r ih =>
    intro n idx p cx cb hx hb hidx
    have h0 : idx < 1456 := by simpa using hidx 0 (Nat.succ_pos r)
    have hnext : ∀ (q : jsRawProfile) (dx db : Nat),
        q.data_valid_xy = dx % 4294967296 → q.data_valid_brightness = db % 4294967296 →
        placeXYBrightness cm pk.m_raw (pk.GetFragmentLayout 2).offset
          (pk.GetFragmentLayout 1).offset inc r (n + 1) ((idx + inc) % 4294967296) q =
        some (q.withWrites (loopWrites pk.entryValid (pk.point cm) inc r (n + 1) (idx + inc))
          dx db) := by
      intro q dx db hqx hqb
      cases r with
      | zero =>
        unfold placeXYBrightness loopWrites
        rw [withWrites_nil q dx db hqx hqb]
      | succ r2 =>
        have h1 : idx + inc < 1456 := by simpa using hidx 1 (by omega)
        rw [Nat.mod_eq_of_lt (by omega)]
        refine ih (n + 1) (idx + inc) q dx db hqx hqb ?_
        intro k hk
        have := hidx (k + 1) (by omega)
        rw [Nat.succ_mul] at this
        omega
    unfold placeXYBrightness
    simp only
    by_cases hv : INVALID_XY ≠ i16 (be16 pk.m_raw ((pk.GetFragmentLayout 2).offset + 4 * n)) ∧
        INVALID_XY ≠ i16 (be16 pk.m_raw ((pk.GetFragmentLayout 2).offset + 4 * n + 2))
    · have hvalid : pk.entryValid n = true := by
        unfold DataPacket.entryValid DataPacket.xRaw DataPacket.yRaw
        exact decide_eq_true hv
      rw [if_pos hv]
      unfold jsRawProfile.InsertPointAndBrightness
      rw [if_pos (show idx < JS_RAW_PROFILE_DATA_LEN from h0)]
      simp only
      rw [hnext _ (cx + 1) (cb + 1) (by simp only [hx]; omega) (by simp only [hb]; omega)]
      congr 1
      rw [loopWrites_succ]
      simp only [hvalid, if_true, List.singleton_append]
      simp only [jsRawProfile.withWrites, applyWrites, List.foldl_cons, List.length_cons]
      congr 2 <;> omega
    · have hvalid : pk.entryValid n = false := by
        unfold DataPacket.entryValid DataPacket.xRaw DataPacket.yRaw
        exact decide_eq_false hv
      rw [if_neg hv, hnext p cx cb hx hb]
      congr 1
      rw [loopWrites_succ]
      simp only [hvalid, Bool.false_eq_true, if_false, List.nil_append]

theorem loopWrites_eq (valid : Nat → Bool) (pt : Nat → jsProfileData) (inc : Nat) :
    ∀ (remaining n idx : Nat),
      loopWrites valid pt inc remaining n idx =
        ((List.range remaining).filter (fun k => valid (n + k))).map
          (fun k => (idx + k * inc, pt (n + k))) := by
  intro remaining
  induction remaining with
  | zero => intro n idx; rfl
  | succ r ih =>
    intro n idx
    rw [loopWrites_succ, ih, List.range_succ_eq_map, List.filter_cons, List.filter_map]
    have e1 : ((fun k => valid (n + k)) ∘ Nat.succ) = fun k => valid (n + 1 + k) := by
      funext k
      simp only [Function.comp, Nat.succ_eq_add_one]
      congr 1
      omega
    have e2 : ((fun k => (idx + k * inc, pt (n + k))) ∘ Nat.succ) =
        fun k => (idx + inc + k * inc, pt (n + 1 + k)) := by
      funext k
      simp only [Function.comp, Nat.succ_eq_add_one, Nat.succ_mul]
      have a1 : idx + (k * inc + inc) = idx + inc + k * inc := by omega
      have a2 : n + (k + 1) = n + 1 + k := by omega
      rw [a1, a2]
    rw [e1]
    by_cases hv : valid n = true
    · simp only [Nat.add_zero, hv, if_true, List.map_cons, List.map_map, e2, Nat.zero_mul,
        List.singleton_append]
    · simp only [Nat.add_zero, hv, if_false, List.map_map, e2, List.nil_append,
        Bool.false_eq_true]

theorem loopWrites_packet (pk : DataPacket) (cm : Int → Int → Int × Int) :
    loopWrites pk.entryValid (pk.point cm)
      (pk.m_hdr.number_datagrams * (pk.GetFragmentLayout 2).step)
      (pk.GetFragmentLayout 2).num_vals 0
      (pk.m_hdr.start_column + pk.m_hdr.datagram_position * (pk.GetFragmentLayout 2).step) =
    pk.writes cm := by
  rw [loopWrites_eq]
  unfold DataPacket.writes
  have e1 : (fun k => pk.entryValid (0 + k)) = pk.entryValid := by
    funext k
    rw [Nat.zero_add]
  rw [e1]
  apply List.map_congr_left
  intro k _
  rw [Nat.zero_add]
  unfold DataPacket.slot
  congr 1
  rw [Nat.add_mul, Nat.mul_assoc, Nat.add_assoc]

/-! ### Slot writes on the data array -/

theorem applyWrites_cons (w : Nat × jsProfileData) (ws : List (Nat × jsProfileData))
    (d : List jsProfileData) : applyWrites (w :: ws) d = applyWrites ws (d.set w.1 w.2) := rfl

theorem applyWrites_length (ws : List (Nat × jsProfileData)) :
    ∀ d : List jsProfileData, (applyWrites ws d).length = d.length := by
  induction ws with
  | nil => intro d; rfl
  | cons w ws ih => intro d; rw [applyWrites_cons, ih, List.length_set]

theorem applyWrites_getD_other (ws : List (Nat × jsProfileData)) (i : Nat)
    (hi : i ∉ ws.map Prod.fst) (dflt : jsProfileData) :
    ∀ d : List jsProfileData, (applyWrites ws d).getD i dflt = d.getD i dflt := by
  induction ws with
  | nil => intro d; rfl
  | cons w ws ih =>
    intro d
    simp only [List.map_cons, List.mem_cons, not_or] at hi
    rw [applyWrites_cons, ih hi.2, List.getD_eq_getElem?_getD, List.getD_eq_getElem?_getD,
      List.getElem?_set_ne (fun e => hi.1 e.symm)]

theorem applyWrites_getD_mem (ws : List (Nat × jsProfileData)) (dflt : jsProfileData) :
    ∀ d : List jsProfileData, (ws.map Prod.fst).Nodup → (∀ w ∈ ws, w.1 < d.length) →
      ∀ w ∈ ws, (applyWrites ws d).getD w.1 dflt = w.2 := by
  induction ws with
  | nil => intro d _ _ w hw; exact absurd hw (List.not_mem_nil _)
  | cons v ws ih =>
    intro d hnd hlt w hw
    simp only [List.map_cons, List.nodup_cons] at hnd
    rw [applyWrites_cons]
    rcases List.mem_cons.mp hw with rfl | hw'
    · rw [applyWrites_getD_other ws w.1 hnd.1, List.getD_eq_getElem?_getD, List.getElem?_set]
      simp [hlt w (List.mem_cons_self _ _)]
    · exact ih (d.set v.1 v.2) hnd.2
        (fun u hu => by rw [List.length_set]; exact hlt u (List.mem_cons_of_mem _ hu)) w hw'

/-! ### One datagram -/

theorem slot_eq (pk : DataPacket) (k : Nat) :
    pk.slot k = pk.m_hdr.start_column +
      pk.m_hdr.datagram_position * (pk.GetFragmentLayout 2).step +
      k * (pk.m_hdr.number_datagrams * (pk.GetFragmentLayout 2).step) := by
  unfold DataPacket.slot
  rw [Nat.add_mul, Nat.mul_assoc, Nat.add_assoc]

theorem writes_nil_of_zero (pk : DataPacket) (cm : Int → Int → Int × Int)
    (h : (pk.GetFragmentLayout 2).num_vals = 0) : pk.writes cm = [] := by
  unfold DataPacket.writes
  rw [h]
  rfl

theorem placeData_eq (cm : Int → Int → Int × Int) (pk : DataPacket) (p : jsRawProfile)
    (cx cb : Nat) (hdt : pk.m_hdr.data_type = 3)
    (hNs : pk.m_hdr.number_datagrams * (pk.GetFragmentLayout 2).step < 4294967296)
    (hslot : ∀ n < (pk.GetFragmentLayout 2).num_vals, pk.slot n < 1456)
    (hx : p.data_valid_xy = cx % 4294967296) (hb : p.data_valid_brightness = cb % 4294967296) :
    placeData cm pk p = some (p.withWrites (pk.writes cm) cx cb) := by
  unfold placeData
  rw [if_pos (by rw [hdt]; decide), Nat.mod_eq_of_lt hNs]
  by_cases hnv : (pk.GetFragmentLayout 2).num_vals = 0
  · rw [hnv, writes_nil_of_zero pk cm hnv]
    exact placeXYBrightness_eq cm pk _ 0 0 _ p cx cb hx hb (fun k hk => absurd hk (Nat.not_lt_zero k))
  · have h0 := hslot 0 (Nat.pos_of_ne_zero hnv)
    rw [slot_eq] at h0
    have hps : pk.m_hdr.datagram_position * (pk.GetFragmentLayout 2).step < 4294967296 := by
      omega
    rw [Nat.mod_eq_of_lt hps, Nat.mod_eq_of_lt (by omega), ← loopWrites_packet pk cm]
    refine placeXYBrightness_eq cm pk _ _ 0 _ p cx cb hx hb ?_
    intro k hk
    have := hslot k hk
    rw [slot_eq] at this
    exact this

/-! ### A run of datagrams of one profile -/

theorem startProfile_same_key (h : ScanHead) (r : Receiver) (pk : DataPacket)
    (hs : pk.GetSourceId = r.m_last_profile_source)
    (ht : pk.m_hdr.timestamp_ns = r.m_last_profile_timestamp) :
    startProfile h r pk = some r := by
  unfold startProfile
  rw [if_neg (by simp [hs, ht])]

theorem ProcessProfile_same_key (h : ScanHead)
    (c2m : jsCamera → jsLaser → Int → Int → Int × Int) (r : Receiver) (buf : List Nat)
    (pk : DataPacket) (p placed : jsRawProfile)
    (hparse : DataPacket.parse buf = some pk)
    (hs : pk.GetSourceId = r.m_last_profile_source)
    (ht : pk.m_hdr.timestamp_ns = r.m_last_profile_timestamp)
    (hprof : r.m_profile = some p)
    (hplace : placeData (c2m p.camera p.laser) pk p = some placed) :
    ProcessProfile h c2m r buf =
      if (r.m_packets_received_for_profile + 1) % 4294967296 = pk.m_hdr.number_datagrams then
        some { r with
          m_packets_received := (r.m_packets_received + 1) % 18446744073709551616,
          m_packets_received_for_profile :=
            (r.m_packets_received_for_profile + 1) % 4294967296,
          m_circ_buffer := circPush r.m_circ_buffer
            (placed.SetPacketInfo pk.m_hdr.number_datagrams pk.m_hdr.number_datagrams),
          m_profile := none, m_last_profile_source := 0, m_last_profile_timestamp := 0,
          m_complete_profiles_received :=
            (r.m_complete_profiles_received + 1) % 18446744073709551616 }
      else
        some { r with
          m_packets_received := (r.m_packets_received + 1) % 18446744073709551616,
          m_packets_received_for_profile :=
            (r.m_packets_received_for_profile + 1) % 4294967296,
          m_profile := some placed } := by
  have hsp := startProfile_same_key h
    { r with m_packets_received := (r.m_packets_received + 1) % 18446744073709551616 } pk hs ht
  unfold ProcessProfile
  simp only [hparse, hsp]
  simp only [hprof, hplace]

theorem ProcessProfile_key_change (h : ScanHead)
    (c2m : jsCamera → jsLaser → Int → Int → Int × Int) (r : Receiver) (buf : List Nat)
    (pk : DataPacket) (fresh : jsRawProfile)
    (hparse : DataPacket.parse buf = some pk)
    (hkey : pk.GetSourceId ≠ r.m_last_profile_source ∨
      pk.m_hdr.timestamp_ns ≠ r.m_last_profile_timestamp)
    (hfresh : ProfileBuilder.create (h.CameraPortToId pk.m_hdr.camera_port)
      (h.LaserPortToId pk.m_hdr.laser_port) pk h.m_format = some fresh) :
    ProcessProfile h c2m r buf =
      ProcessProfile h c2m
        { r with
          m_circ_buffer :=
            match r.m_profile with
            | some partialProfile =>
              circPush r.m_circ_buffer
                (partialProfile.SetPacketInfo r.m_packets_received_for_profile
                  pk.m_hdr.number_datagrams)
            | none => r.m_circ_buffer,
          m_last_profile_source := pk.GetSourceId,
          m_last_profile_timestamp := pk.m_hdr.timestamp_ns,
          m_packets_received_for_profile := 0,
          m_profile := some fresh } buf := by
  have hsp := startProfile_same_key h
    { m_profile := some fresh,
      m_packets_received := (r.m_packets_received + 1) % 18446744073709551616,
      m_packets_received_for_profile := 0,
      m_complete_profiles_received := r.m_complete_profiles_received,
      m_last_profile_source := pk.GetSourceId,
      m_last_profile_timestamp := pk.m_hdr.timestamp_ns,
      m_circ_buffer :=
        match r.m_profile with
        | some partialProfile =>
          circPush r.m_circ_buffer
            (partialProfile.SetPacketInfo r.m_packets_received_for_profile
              pk.m_hdr.number_datagrams)
        | none => r.m_circ_buffer } pk rfl rfl
  unfold ProcessProfile
  simp only [hparse, hsp]
  unfold startProfile
  simp only [if_pos hkey, hfresh]

theorem processDatagrams_one_profile (h : ScanHead)
    (c2m : jsCamera → jsLaser → Int → Int → Int × Int) (N src ts : Nat) (cam : jsCamera)
    (las : jsLaser) (hN : N < 4294967296) :
    ∀ (pks : List DataPacket) (bufs : List (List Nat)) (r : Receiver) (p : jsRawProfile)
      (cx cb : Nat),
      bufs.map DataPacket.parse = pks.map some →
      pks ≠ [] →
      r.m_profile = some p → r.m_last_profile_source = src →
      r.m_last_profile_timestamp = ts →
      r.m_packets_received_for_profile + pks.length = N →
      p.camera = cam → p.laser = las →
      p.data_valid_xy = cx % 4294967296 → p.data_valid_brightness = cb % 4294967296 →
      (∀ pk ∈ pks, pk.m_hdr.number_datagrams = N ∧ pk.GetSourceId = src ∧
        pk.m_hdr.timestamp_ns = ts ∧ pk.m_hdr.data_type = 3 ∧
        pk.m_hdr.number_datagrams * (pk.GetFragmentLayout 2).step < 4294967296 ∧
        ∀ n < (pk.GetFragmentLayout 2).num_vals, pk.slot n < 1456) →
      ∃ r', processDatagrams h c2m bufs r = some r' ∧
        r'.m_circ_buffer = circPush r.m_circ_buffer
          ((p.withWrites ((pks.map (fun pk => pk.writes (c2m cam las))).flatten)
            cx cb).SetPacketInfo N N) := by
  intro pks
  induction pks with
  | nil => intro _ _ _ _ _ _ hne; exact absurd rfl hne
  | cons pk rest ih =>
    intro bufs r p cx cb hparse _ hprof hsrc hts hcnt hcam hlas hx hb hall
    cases bufs with
    | nil => simp at hparse
    | cons buf bufs' =>
      simp only [List.map_cons, List.cons.injEq] at hparse
      obtain ⟨hp0, hprest⟩ := hparse
      obtain ⟨h1, h2, h3, h4, h5, h6⟩ := hall pk (List.mem_cons_self _ _)
      have hplace := placeData_eq (c2m p.camera p.laser) pk p cx cb h4 h5 h6 hx hb
      have hstep := ProcessProfile_same_key h c2m r buf pk p _ hp0 (h2.trans hsrc.symm)
        (h3.trans hts.symm) hprof hplace
      unfold processDatagrams
      rw [hstep, h1, hcam, hlas]
      simp only [List.length_cons] at hcnt
      by_cases hrest : rest = []
      · subst hrest
        have hb' : bufs' = [] := by simpa using hprest
        subst hb'
        simp only [List.length_nil] at hcnt
        rw [if_pos (by rw [hcnt]; exact Nat.mod_eq_of_lt hN)]
        refine ⟨_, rfl, ?_⟩
        simp only [List.map_cons, List.map_nil, List.flatten_cons, List.flatten_nil,
          List.append_nil]
      · have hlen : 0 < rest.length := List.length_pos.mpr hrest
        rw [if_neg (by rw [Nat.mod_eq_of_lt (by omega)]; omega)]
        simp only
        obtain ⟨r', hr', hring⟩ := ih bufs'
          { r with
            m_packets_received := (r.m_packets_received + 1) % 18446744073709551616,
            m_packets_received_for_profile :=
              (r.m_packets_received_for_profile + 1) % 4294967296,
            m_profile := some (p.withWrites (pk.writes (c2m cam las)) cx cb) }
          (p.withWrites (pk.writes (c2m cam las)) cx cb)
          (cx + (pk.writes (c2m cam las)).length) (cb + (pk.writes (c2m cam las)).length)
          hprest hrest rfl hsrc hts
          (by
            show (r.m_packets_received_for_profile + 1) % 4294967296 + rest.length = N
            rw [Nat.mod_eq_of_lt (by omega)]
            omega)
          hcam hlas rfl rfl
          (fun q hq => hall q (List.mem_cons_of_mem _ hq))
        refine ⟨r', hr', ?_⟩
        rw [hring, withWrites_append]
        simp only [List.map_cons, List.flatten_cons]

/-! ### The slots of the datagrams of one profile are distinct -/

theorem slot_inj (pk pk' : DataPacket) (N step sc n n' : Nat) (hN : 1 ≤ N) (hstep : 1 ≤ step)
    (h1 : pk.m_hdr.number_datagrams = N ∧ pk.m_hdr.start_column = sc ∧
      (pk.GetFragmentLayout 2).step = step ∧ pk.m_hdr.datagram_position < N)
    (h2 : pk'.m_hdr.number_datagrams = N ∧ pk'.m_hdr.start_column = sc ∧
      (pk'.GetFragmentLayout 2).step = step ∧ pk'.m_hdr.datagram_position < N)
    (he : pk.slot n = pk'.slot n') :
    pk.m_hdr.datagram_position = pk'.m_hdr.datagram_position ∧ n = n' := by
  unfold DataPacket.slot at he
  rw [h1.1, h1.2.1, h1.2.2.1, h2.1, h2.2.1, h2.2.2.1] at he
  have e1 : (pk.m_hdr.datagram_position + n * N) * step =
      (pk'.m_hdr.datagram_position + n' * N) * step := Nat.add_left_cancel he
  have e2 : pk.m_hdr.datagram_position + n * N = pk'.m_hdr.datagram_position + n' * N :=
    Nat.eq_of_mul_eq_mul_right hstep e1
  have e3 : (pk.m_hdr.datagram_position + n * N) % N = pk.m_hdr.datagram_position := by
    rw [Nat.add_mul_mod_self_right, Nat.mod_eq_of_lt h1.2.2.2]
  have e4 : (pk'.m_hdr.datagram_position + n' * N) % N = pk'.m_hdr.datagram_position := by
    rw [Nat.add_mul_mod_self_right, Nat.mod_eq_of_lt h2.2.2.2]
  have e5 : pk.m_hdr.datagram_position = pk'.m_hdr.datagram_position := by
    rw [← e3, ← e4, e2]
  refine ⟨e5, ?_⟩
  rw [e5] at e2
  exact Nat.eq_of_mul_eq_mul_right hN (Nat.add_left_cancel e2)

theorem writes_map_fst (pk : DataPacket) (cm : Int → Int → Int × Int) :
    (pk.writes cm).map Prod.fst =
      ((List.range (pk.GetFragmentLayout 2).num_vals).filter pk.entryValid).map pk.slot := by
  unfold DataPacket.writes
  rw [List.map_map]
  rfl

theorem mem_writes (pk : DataPacket) (cm : Int → Int → Int × Int) (w : Nat × jsProfileData) :
    w ∈ pk.writes cm ↔ ∃ n, n < (pk.GetFragmentLayout 2).num_vals ∧ pk.entryValid n = true ∧
      w = (pk.slot n, pk.point cm n) := by
  unfold DataPacket.writes
  simp only [List.mem_map, List.mem_filter, List.mem_range]
  constructor
  · rintro ⟨n, ⟨h1, h2⟩, h3⟩
    exact ⟨n, h1, h2, h3.symm⟩
  · rintro ⟨n, h1, h2, h3⟩
    exact ⟨n, ⟨h1, h2⟩, h3.symm⟩

theorem writes_length (pk : DataPacket) (cm : Int → Int → Int × Int) :
    (pk.writes cm).length = pk.validCount := by
  unfold DataPacket.writes DataPacket.validCount
  rw [List.length_map]

theorem writes_slots_nodup (cm : Int → Int → Int × Int) (N step sc : Nat) (hN : 1 ≤ N)
    (hstep : 1 ≤ step) (pks : List DataPacket)
    (hall : ∀ pk ∈ pks, pk.m_hdr.number_datagrams = N ∧ pk.m_hdr.start_column = sc ∧
      (pk.GetFragmentLayout 2).step = step ∧ pk.m_hdr.datagram_position < N)
    (hnd : (pks.map (fun pk => pk.m_hdr.datagram_position)).Nodup) :
    (((pks.map (fun pk => pk.writes cm)).flatten).map Prod.fst).Nodup := by
  rw [List.map_flatten, List.map_map, List.nodup_flatten]
  constructor
  · intro l hl
    obtain ⟨pk, hpk, rfl⟩ := List.mem_map.mp hl
    simp only [Function.comp]
    rw [writes_map_fst]
    refine List.Nodup.map_on ?_ ((List.nodup_range _).filter _)
    intro x _ y _ hxy
    exact (slot_inj pk pk N step sc x y hN hstep (hall pk hpk) (hall pk hpk) hxy).2
  · rw [List.pairwise_map]
    have hp : List.Pairwise (fun a b : DataPacket =>
        a.m_hdr.datagram_position ≠ b.m_hdr.datagram_position) pks := by
      unfold List.Nodup at hnd
      rw [List.pairwise_map] at hnd
      exact hnd
    refine List.Pairwise.imp_of_mem ?_ hp
    intro a b ha hb hab
    simp only [Function.comp]
    intro x hxa hxb
    rw [writes_map_fst] at hxa hxb
    obtain ⟨n, _, rfl⟩ := List.mem_map.mp hxa
    obtain ⟨n', _, hn'⟩ := List.mem_map.mp hxb
    exact hab (slot_inj a b N step sc n n' hN hstep (hall a ha) (hall b hb) hn'.symm).1

theorem nodup_length_le (l : List Nat) (m : Nat) (hnd : l.Nodup) (hlt : ∀ x ∈ l, x < m) :
    l.length ≤ m := by
  have hsub : l ⊆ List.range m := fun x hx => List.mem_range.mpr (hlt x hx)
  have := (List.subperm_of_subset hnd hsub).length_le
  rwa [List.length_range] at this

theorem mem_of_map_parse (bufs : List (List Nat)) (pks : List DataPacket)
    (hparse : bufs.map DataPacket.parse = pks.map some) (pk : DataPacket) (hpk : pk ∈ pks) :
    ∃ buf, DataPacket.parse buf = some pk := by
  have : some pk ∈ bufs.map DataPacket.parse := by
    rw [hparse]
    exact List.mem_map_of_mem _ hpk
  obtain ⟨buf, _, hbuf⟩ := List.mem_map.mp this
  exact ⟨buf, hbuf⟩

/-- C10 (amended): N >= 1 datagrams of one profile (same source id and timestamp, positions
0..N-1 each exactly once, data_type = XY|Brightness, the same start and end column with
start_column <= end_column <= 1455, the same step >= 1), delivered consecutively to
ProcessProfile, always produce a result and push one profile P after the partial profile
the receiver may have held, provided that the key of the datagrams differs from the key
the receiver holds (initially (0, 0)), that no datagram carries more than JS_ENCODER_MAX
encoder values and that N * step fits a uint32_t. P has packets_received =
packets_expected = N; at the placement index of every payload entry whose raw x and raw y
both differ from -32768 it holds CameraToMill(x, y) of the alignment of (P.camera,
P.laser) and the brightness of the entry; every other slot of the 1456 holds
(INT_MIN, INT_MIN, 0); and data_valid_xy = data_valid_brightness = the number of valid
entries. -/
theorem C10_placement_of_one_profile (h : ScanHead)
    (c2m : jsCamera → jsLaser → Int → Int → Int × Int) (r : Receiver)
    (bufs : List (List Nat)) (pks : List DataPacket) (N step sc ec src ts : Nat)
    (hparse : bufs.map DataPacket.parse = pks.map some)
    (hpos : List.Perm (pks.map (fun pk => pk.m_hdr.datagram_position)) (List.range N))
    (hN : 1 ≤ N) (hstep : 1 ≤ step) (hNs : N * step < 4294967296)
    (hcols : sc ≤ ec ∧ ec ≤ 1455)
    (hhdr : ∀ pk ∈ pks, pk.m_hdr.number_datagrams = N ∧ pk.GetSourceId = src ∧
      pk.m_hdr.timestamp_ns = ts ∧ pk.m_hdr.data_type = 3 ∧
      pk.m_encoders.length ≤ JS_ENCODER_MAX ∧ pk.m_hdr.start_column = sc ∧
      pk.m_hdr.end_column = ec ∧ (pk.GetFragmentLayout 2).step = step)
    (hkey : src ≠ r.m_last_profile_source ∨ ts ≠ r.m_last_profile_timestamp) :
    ∃ r' P, processDatagrams h c2m bufs r = some r' ∧
      r'.m_circ_buffer = circPush
        (match r.m_profile with
          | some q => circPush r.m_circ_buffer
              (q.SetPacketInfo r.m_packets_received_for_profile N)
          | none => r.m_circ_buffer) P ∧
      P.timestamp_ns = ts ∧ P.packets_received = N ∧ P.packets_expected = N ∧
      P.data.length = JS_RAW_PROFILE_DATA_LEN ∧
      (∀ pk ∈ pks, ∀ n < (pk.GetFragmentLayout 2).num_vals, pk.entryValid n = true →
        pk.slot n < JS_RAW_PROFILE_DATA_LEN ∧
        P.data.getD (pk.slot n) invalidPoint = pk.point (c2m P.camera P.laser) n) ∧
      (∀ i, (∀ pk ∈ pks, ∀ n < (pk.GetFragmentLayout 2).num_vals, pk.entryValid n = true →
          pk.slot n ≠ i) → P.data.getD i invalidPoint = invalidPoint) ∧
      P.data_valid_xy = (pks.map DataPacket.validCount).sum ∧
      P.data_valid_brightness = (pks.map DataPacket.validCount).sum := by
  have hlen : pks.length = N := by
    have := hpos.length_eq
    rwa [List.length_map, List.length_range] at this
  have hposlt : ∀ pk ∈ pks, pk.m_hdr.datagram_position < N := by
    intro pk hpk
    exact List.mem_range.mp ((hpos.mem_iff).mp
      (List.mem_map_of_mem (fun pk : DataPacket => pk.m_hdr.datagram_position) hpk))
  have hnd : (pks.map (fun pk => pk.m_hdr.datagram_position)).Nodup :=
    (hpos.nodup_iff).mpr (List.nodup_range N)
  have hslot : ∀ pk ∈ pks, ∀ n < (pk.GetFragmentLayout 2).num_vals, pk.slot n < 1456 := by
    intro pk hpk n hn
    obtain ⟨h1, _, _, h4, _, h6, h7, h8⟩ := hhdr pk hpk
    obtain ⟨buf, hbuf⟩ := mem_of_map_parse bufs pks hparse pk hpk
    rw [parse_layout buf pk hbuf h4, h8] at hn
    have := slot_le_end_column pk.m_hdr step hstep (by rw [h1]; exact hNs)
      (by rw [h6, h7]; exact hcols) (by rw [h1]; exact hposlt pk hpk) n hn
    unfold DataPacket.slot
    rw [h8]
    omega
  cases pks with
  | nil => simp only [List.length_nil] at hlen; omega
  | cons pk0 rest =>
    cases bufs with
    | nil => simp at hparse
    | cons buf0 bufs' =>
      have hp0 : DataPacket.parse buf0 = some pk0 := by
        simp only [List.map_cons, List.cons.injEq] at hparse
        exact hparse.1
      obtain ⟨g1, g2, g3, _, g5, _, _, _⟩ := hhdr pk0 (List.mem_cons_self _ _)
      obtain ⟨fresh, hfresh, hdata, hfx, hfb, hfts⟩ : ∃ fresh,
          ProfileBuilder.create (h.CameraPortToId pk0.m_hdr.camera_port)
            (h.LaserPortToId pk0.m_hdr.laser_port) pk0 h.m_format = some fresh ∧
          fresh.data = List.replicate JS_RAW_PROFILE_DATA_LEN invalidPoint ∧
          fresh.data_valid_xy = 0 ∧ fresh.data_valid_brightness = 0 ∧
          fresh.timestamp_ns = ts := by
        unfold ProfileBuilder.create
        rw [if_neg (Nat.not_lt_of_le g5)]
        exact ⟨_, rfl, rfl, rfl, rfl, g3⟩
      have hchange := ProcessProfile_key_change h c2m r buf0 pk0 fresh hp0
        (by rw [g2, g3]; exact hkey) hfresh
      obtain ⟨r', hr', hring⟩ := processDatagrams_one_profile h c2m N src ts fresh.camera
        fresh.laser (by
          have : N * 1 ≤ N * step := Nat.mul_le_mul_left N hstep
          omega)
        (pk0 :: rest) (buf0 :: bufs')
        { r with
          m_circ_buffer :=
            match r.m_profile with
            | some partialProfile =>
              circPush r.m_circ_buffer
                (partialProfile.SetPacketInfo r.m_packets_received_for_profile
                  pk0.m_hdr.number_datagrams)
            | none => r.m_circ_buffer,
          m_last_profile_source := pk0.GetSourceId,
          m_last_profile_timestamp := pk0.m_hdr.timestamp_ns,
          m_packets_received_for_profile := 0,
          m_profile := some fresh }
        fresh 0 0 hparse (List.cons_ne_nil _ _) rfl g2 g3
        (by show 0 + (pk0 :: rest).length = N; omega) rfl rfl
        (by rw [hfx]) (by rw [hfb])
        (by
          intro pk hpk
          obtain ⟨h1, h2, h3, h4, _, _, _, h8⟩ := hhdr pk hpk
          exact ⟨h1, h2, h3, h4, by rw [h1, h8]; exact hNs, hslot pk hpk⟩)
      have hrun : processDatagrams h c2m (buf0 :: bufs') r = some r' := by
        rw [← hr']
        unfold processDatagrams
        rw [hchange]
      have hwnd := writes_slots_nodup (c2m fresh.camera fresh.laser) N step sc hN hstep
        (pk0 :: rest)
        (fun pk hpk => by
          obtain ⟨h1, _, _, _, _, h6, _, h8⟩ := hhdr pk hpk
          exact ⟨h1, h6, h8, hposlt pk hpk⟩) hnd
      have hwlt : ∀ w ∈ ((pk0 :: rest).map
          (fun pk => pk.writes (c2m fresh.camera fresh.laser))).flatten, w.1 < 1456 := by
        intro w hw
        obtain ⟨l, hl, hwl⟩ := List.mem_flatten.mp hw
        obtain ⟨pk, hpk, rfl⟩ := List.mem_map.mp hl
        obtain ⟨n, hn, _, rfl⟩ := (mem_writes pk _ w).mp hwl
        exact hslot pk hpk n hn
      have hcount : (((pk0 :: rest).map
          (fun pk => pk.writes (c2m fresh.camera fresh.laser))).flatten).length =
          ((pk0 :: rest).map DataPacket.validCount).sum := by
        rw [List.length_flatten, List.map_map]
        congr 1
        apply List.map_congr_left
        intro pk _
        exact writes_length pk _
      have hcle : (((pk0 :: rest).map
          (fun pk => pk.writes (c2m fresh.camera fresh.laser))).flatten).length ≤ 1456 := by
        have := nodup_length_le _ 1456 hwnd (by
          intro x hx
          obtain ⟨w, hw, rfl⟩ := List.mem_map.mp hx
          exact hwlt w hw)
        rwa [List.length_map] at this
      refine ⟨r', (fresh.withWrites (((pk0 :: rest).map
        (fun pk => pk.writes (c2m fresh.camera fresh.laser))).flatten) 0 0).SetPacketInfo N N,
        hrun, ?_, ?_, rfl, rfl, ?_, ?_, ?_, ?_, ?_⟩
      · rw [hring, g1]
      · exact hfts
      · show (applyWrites _ fresh.data).length = JS_RAW_PROFILE_DATA_LEN
        rw [applyWrites_length, hdata, List.length_replicate]
      · intro pk hpk n hn hv
        refine ⟨hslot pk hpk n hn, ?_⟩
        show (applyWrites _ fresh.data).getD (pk.slot n) invalidPoint =
          pk.point (c2m fresh.camera fresh.laser) n
        exact applyWrites_getD_mem _ invalidPoint fresh.data hwnd
          (by
            intro w hw
            rw [hdata, List.length_replicate]
            exact hwlt w hw)
          (pk.slot n, pk.point (c2m fresh.camera fresh.laser) n)
          (List.mem_flatten.mpr ⟨_, List.mem_map_of_mem _ hpk,
            (mem_writes pk _ _).mpr ⟨n, hn, hv, rfl⟩⟩)
      · intro i hi
        show (applyWrites _ fresh.data).getD i invalidPoint = invalidPoint
        rw [applyWrites_getD_other, hdata, List.getD_eq_getElem?_getD, List.getElem?_replicate]
        · split <;> rfl
        · intro hmem
          obtain ⟨w, hw, hwi⟩ := List.mem_map.mp hmem
          obtain ⟨l, hl, hwl⟩ := List.mem_flatten.mp hw
          obtain ⟨pk, hpk, rfl⟩ := List.mem_map.mp hl
          obtain ⟨n, hn, hv, rfl⟩ := (mem_writes pk _ w).mp hwl
          exact hi pk hpk n hn hv hwi
      · show (0 + _) % 4294967296 = _
        rw [Nat.zero_add, hcount] at *
        exact Nat.mod_eq_of_lt (by omega)
      · show (0 + _) % 4294967296 = _
        rw [Nat.zero_add, hcount] at *
        exact Nat.mod_eq_of_lt (by omega)

/-- C10 (witness): the two datagrams of `exampleProfileDatagrams`, delivered to head 1 just
after it started scanning. -/
theorem C10_placement_of_one_profile_witness :
    ((exampleProfileDatagrams.filterMap DataPacket.parse).map DataPacket.validCount).sum = 3 ∧
    ∃ r' P, processDatagrams (exampleHead 1 1000 1500) identityAlignment
        exampleProfileDatagrams receiverStart = some r' ∧
      r'.m_circ_buffer = circPush
        (match receiverStart.m_profile with
          | some q => circPush receiverStart.m_circ_buffer
              (q.SetPacketInfo receiverStart.m_packets_received_for_profile 2)
          | none => receiverStart.m_circ_buffer) P ∧
      P.timestamp_ns = 1000 ∧ P.packets_received = 2 ∧ P.packets_expected = 2 ∧
      P.data.length = JS_RAW_PROFILE_DATA_LEN ∧
      (∀ pk ∈ exampleProfileDatagrams.filterMap DataPacket.parse,
        ∀ n < (pk.GetFragmentLayout 2).num_vals, pk.entryValid n = true →
        pk.slot n < JS_RAW_PROFILE_DATA_LEN ∧
        P.data.getD (pk.slot n) invalidPoint = pk.point (identityAlignment P.camera P.laser) n) ∧
      (∀ i, (∀ pk ∈ exampleProfileDatagrams.filterMap DataPacket.parse,
          ∀ n < (pk.GetFragmentLayout 2).num_vals, pk.entryValid n = true →
          pk.slot n ≠ i) → P.data.getD i invalidPoint = invalidPoint) ∧
      P.data_valid_xy =
        ((exampleProfileDatagrams.filterMap DataPacket.parse).map DataPacket.validCount).sum ∧
      P.data_valid_brightness =
        ((exampleProfileDatagrams.filterMap DataPacket.parse).map DataPacket.validCount).sum :=
  ⟨by decide,
    C10_placement_of_one_profile (exampleHead 1 1000 1500) identityAlignment receiverStart
      exampleProfileDatagrams (exampleProfileDatagrams.filterMap DataPacket.parse)
      2 1 0 3 65536 1000 (by decide) (by decide) (by decide) (by decide) (by decide)
      (by decide) (by decide) (by decide)⟩

/-! ### The profile ring -/

theorem eq_some_getD_of_isSome {α : Type} (o : Option α) (d : α) (h : o.isSome = true) :
    o = some (o.getD d) := by
  cases o with
  | none => exact absurd h (by simp)
  | some a => rfl

theorem circPush_length_le (ring : List jsRawProfile) (p : jsRawProfile)
    (h : ring.length ≤ JS_SCAN_HEAD_PROFILES_MAX) :
    (circPush ring p).length ≤ JS_SCAN_HEAD_PROFILES_MAX := by
  unfold circPush
  unfold JS_SCAN_HEAD_PROFILES_MAX at h ⊢
  split
  · simp only [List.length_append, List.length_drop, List.length_singleton]
    omega
  · simp only [List.length_append, List.length_singleton]
    omega

theorem getProfilesLoop_eq : ∀ (ring : List jsRawProfile) (count : Nat)
    (profiles : List jsRawProfile),
    getProfilesLoop ring count profiles = (profiles ++ ring.take count, ring.drop count) := by
  intro ring
  induction ring with
  | nil =>
    intro count profiles
    cases count <;> simp [getProfilesLoop]
  | cons p ring ih =>
    intro count profiles
    cases count with
    | zero => simp [getProfilesLoop]
    | succ c =>
      unfold getProfilesLoop
      rw [ih]
      simp

theorem ProcessProfile_ring_le (h : ScanHead)
    (c2m : jsCamera → jsLaser → Int → Int → Int × Int) (r r1 : Receiver) (buf : List Nat)
    (hle : r.m_circ_buffer.length ≤ JS_SCAN_HEAD_PROFILES_MAX)
    (hrun : ProcessProfile h c2m r buf = some r1) :
    r1.m_circ_buffer.length ≤ JS_SCAN_HEAD_PROFILES_MAX := by
  unfold ProcessProfile at hrun
  split at hrun
  · exact absurd hrun (by simp)
  · rename_i packet _
    split at hrun
    · exact absurd hrun (by simp)
    · rename_i r2 hstart
      have h2 : r2.m_circ_buffer.length ≤ JS_SCAN_HEAD_PROFILES_MAX := by
        unfold startProfile at hstart
        split at hstart
        · split at hstart
          · exact absurd hstart (by simp)
          · injection hstart with hstart
            subst hstart
            simp only
            split
            · exact circPush_length_le _ _ hle
            · exact hle
        · injection hstart with hstart
          subst hstart
          exact hle
      split at hrun
      · exact absurd hrun (by simp)
      · split at hrun
        · exact absurd hrun (by simp)
        · split at hrun
          · injection hrun with hrun
            subst hrun
            exact circPush_length_le _ _ h2
          · injection hrun with hrun
            subst hrun
            exact h2

/-- C11: the profile ring of a head never holds more than JS_SCAN_HEAD_PROFILES_MAX = 1000
profiles: along every sequence of datagrams handed to ProcessProfile and of GetProfiles and
ClearProfiles calls, started with at most 1000 profiles in the ring (StartScanning empties
it), the ring holds at most 1000 profiles after every call; and a push onto a full ring
(the push_back of the circular buffer of capacity 1000) drops the oldest profile, keeps the
others in their order and puts the pushed profile last. -/
theorem C11_ring_never_exceeds_capacity (h : ScanHead)
    (c2m : jsCamera → jsLaser → Int → Int → Int × Int) (ops : List ReceiverOp)
    (r r' : Receiver) (hle : r.m_circ_buffer.length ≤ JS_SCAN_HEAD_PROFILES_MAX)
    (hrun : runReceiverOps h c2m ops r = some r') :
    r'.m_circ_buffer.length ≤ JS_SCAN_HEAD_PROFILES_MAX ∧
    (∀ (oldest p : jsRawProfile) (others : List jsRawProfile),
      (oldest :: others).length = JS_SCAN_HEAD_PROFILES_MAX →
      circPush (oldest :: others) p = others ++ [p]) := by
  constructor
  · induction ops generalizing r with
    | nil =>
      unfold runReceiverOps at hrun
      injection hrun with hrun
      subst hrun
      exact hle
    | cons op rest ih =>
      unfold runReceiverOps at hrun
      split at hrun
      · exact absurd hrun (by simp)
      · rename_i r1 hop
        refine ih r1 ?_ hrun
        cases op with
        | datagram buf => exact ProcessProfile_ring_le h c2m r r1 buf hle hop
        | getProfiles count =>
          simp only [ReceiverOp.apply, Option.some.injEq] at hop
          subst hop
          simp only [ScanHead.GetProfiles, getProfilesLoop_eq, List.length_drop]
          omega
        | clearProfiles =>
          simp only [ReceiverOp.apply, Option.some.injEq] at hop
          subst hop
          simp [ScanHead.ClearProfiles]
  · intro oldest p others hfull
    unfold circPush
    rw [if_pos (Nat.le_of_eq hfull.symm)]
    rfl

/-- C11 (witness): two datagrams of a four-datagram profile, the first datagram of the
next profile (which pushes the partial profile), a read of one profile and a clear, from
the state after StartScanning. -/
theorem C11_ring_never_exceeds_capacity_witness :
    ((runReceiverOps (exampleHead 1 1000 1500) identityAlignment
      [ReceiverOp.datagram (exampleDatagram 1 1000 0 4 [(5, 6, 7)]),
       ReceiverOp.datagram (exampleDatagram 1 1000 1 4 [(8, 9, 10)]),
       ReceiverOp.datagram (exampleDatagram 1 2000 0 3 [(1, 2, 3), (4, 5, 6)]),
       ReceiverOp.getProfiles 1, ReceiverOp.clearProfiles] receiverStart).getD
      receiverStart).m_circ_buffer.length ≤ JS_SCAN_HEAD_PROFILES_MAX ∧
    (∀ (oldest p : jsRawProfile) (others : List jsRawProfile),
      (oldest :: others).length = JS_SCAN_HEAD_PROFILES_MAX →
      circPush (oldest :: others) p = others ++ [p]) :=
  C11_ring_never_exceeds_capacity (exampleHead 1 1000 1500) identityAlignment
    [ReceiverOp.datagram (exampleDatagram 1 1000 0 4 [(5, 6, 7)]),
     ReceiverOp.datagram (exampleDatagram 1 1000 1 4 [(8, 9, 10)]),
     ReceiverOp.datagram (exampleDatagram 1 2000 0 3 [(1, 2, 3), (4, 5, 6)]),
     ReceiverOp.getProfiles 1, ReceiverOp.clearProfiles] receiverStart _
    (by decide) (eq_some_getD_of_isSome _ _ (by decide))

/-! ### Reading profiles -/

theorem u32_i32 (n : Nat) (h : n < 4294967296) : u32 (i32 n) = n := by
  unfold u32 i32
  split <;> omega

theorem i32_small (n : Nat) (h : n < 2147483648) : i32 n = (n : Int) := by
  unfold i32
  split <;> omega

theorem copyValidPoints_returns (raw : jsRawProfile) (stride : Nat) (hs : 1 ≤ stride)
    (hs4 : stride ≤ 4) (hlen : raw.data_len ≤ JS_RAW_PROFILE_DATA_LEN) :
    ∀ (fuel n : Nat) (out : List jsProfileData), raw.data_len < n + fuel →
      n ≤ raw.data_len + 4 →
      ∃ res, copyValidPoints raw stride fuel n out = some res := by
  unfold JS_RAW_PROFILE_DATA_LEN at hlen
  intro fuel
  induction fuel with
  | zero =>
    intro n out hn _
    unfold copyValidPoints
    rw [if_neg (by omega)]
    exact ⟨out, rfl⟩
  | succ f ih =>
    intro n out hn hn4
    unfold copyValidPoints
    by_cases hlt : n < raw.data_len
    · rw [if_pos hlt, Nat.mod_eq_of_lt (by omega)]
      exact ih (n + stride) _ (by omega) (by omega)
    · rw [if_neg hlt]
      exact ⟨out, rfl⟩

theorem convertProfiles_returns (l : List jsRawProfile)
    (hfmt : ∀ p ∈ l, p.format ≠ jsDataFormat.JS_DATA_FORMAT_INVALID ∧
      p.data_len ≤ JS_RAW_PROFILE_DATA_LEN) :
    ∃ out, convertProfiles l = some out ∧ out.length = l.length := by
  induction l with
  | nil => exact ⟨[], rfl, rfl⟩
  | cons raw rest ih =>
    obtain ⟨hf, hl⟩ := hfmt raw (List.mem_cons_self _ _)
    obtain ⟨out, hout, hlen⟩ := ih (fun p hp => hfmt p (List.mem_cons_of_mem _ hp))
    have hstride : 1 ≤ _data_format_to_stride raw.format ∧
        _data_format_to_stride raw.format ≤ 4 := by
      cases hfm : raw.format <;> simp [_data_format_to_stride]
      exact absurd hfm hf
    obtain ⟨res, hres⟩ := copyValidPoints_returns raw _ hstride.1 hstride.2 hl
      (raw.data_len + 1) 0 [] (by omega) (by omega)
    unfold convertProfiles convertProfile
    simp only [hres, hout]
    exact ⟨_, rfl, by simp [hlen]⟩

/-- C12: GetProfiles(n) on a ring holding p_1..p_m (oldest first) returns the first
min(n, m) profiles in that order and leaves the others in the ring in their order;
jsScanHeadGetRawProfiles and jsScanHeadGetProfiles, called with a profile buffer and the
handle of an existing head, return min(max_profiles, m), copy that many profiles, oldest
first, and leave the others in the ring. The ring holds at most
JS_SCAN_HEAD_PROFILES_MAX profiles; for jsScanHeadGetProfiles the profiles in the ring
have one of the six data formats a head accepts and data_len at most 1456, as the profiles
built by ProcessProfile have. -/
theorem C12_getProfiles_fifo (r : Receiver) (n max_profiles : Nat)
    (hmax : max_profiles < 4294967296)
    (hring : r.m_circ_buffer.length ≤ JS_SCAN_HEAD_PROFILES_MAX)
    (hfmt : ∀ p ∈ r.m_circ_buffer, p.format ≠ jsDataFormat.JS_DATA_FORMAT_INVALID ∧
      p.data_len ≤ JS_RAW_PROFILE_DATA_LEN) :
    (ScanHead.GetProfiles r n).1 = r.m_circ_buffer.take n ∧
    (ScanHead.GetProfiles r n).2.m_circ_buffer = r.m_circ_buffer.drop n ∧
    jsScanHeadGetRawProfiles false (some r) max_profiles =
      (((min max_profiles r.m_circ_buffer.length : Nat) : Int),
        r.m_circ_buffer.take max_profiles,
        some { r with m_circ_buffer := r.m_circ_buffer.drop max_profiles }) ∧
    ∃ out, jsScanHeadGetProfiles false (some r) max_profiles =
        some (((min max_profiles r.m_circ_buffer.length : Nat) : Int), out,
          some { r with m_circ_buffer := r.m_circ_buffer.drop max_profiles }) ∧
      out.length = min max_profiles r.m_circ_buffer.length := by
  unfold JS_SCAN_HEAD_PROFILES_MAX at hring
  have hg : ∀ k, ScanHead.GetProfiles r k =
      (r.m_circ_buffer.take k, { r with m_circ_buffer := r.m_circ_buffer.drop k }) := by
    intro k
    unfold ScanHead.GetProfiles
    rw [getProfilesLoop_eq]
    rfl
  have hlen : (r.m_circ_buffer.take max_profiles).length =
      min max_profiles r.m_circ_buffer.length := List.length_take _ _
  have htotal : (if max_profiles < (r.m_circ_buffer.take max_profiles).length % 4294967296
      then max_profiles else (r.m_circ_buffer.take max_profiles).length % 4294967296) =
      min max_profiles r.m_circ_buffer.length := by
    rw [hlen]
    split <;> omega
  have htake : (r.m_circ_buffer.take max_profiles).take
      (min max_profiles r.m_circ_buffer.length) = r.m_circ_buffer.take max_profiles :=
    List.take_of_length_le (Nat.le_of_eq hlen)
  refine ⟨by rw [hg], by rw [hg], ?_, ?_⟩
  · unfold jsScanHeadGetRawProfiles
    simp only [Bool.false_eq_true, if_false, u32_i32 max_profiles hmax, hg, htotal, htake]
    rw [i32_small _ (by omega)]
  · obtain ⟨out, hout, hol⟩ := convertProfiles_returns (r.m_circ_buffer.take max_profiles)
      (fun p hp => hfmt p (List.mem_of_mem_take hp))
    refine ⟨out, ?_, by rw [hol, hlen]⟩
    unfold jsScanHeadGetProfiles
    simp only [Bool.false_eq_true, if_false, u32_i32 max_profiles hmax, hg, htotal, htake,
      hout]
    rw [i32_small _ (by omega)]

/-- C12 (witness): the ring of `exampleReceiver`, which holds the profiles of timestamps
1000 and 2000; one profile is read, respectively up to five are requested. -/
theorem C12_getProfiles_fifo_witness :
    exampleReceiver.m_circ_buffer.map (fun p => p.timestamp_ns) = [1000, 2000] ∧
    ((ScanHead.GetProfiles exampleReceiver 1).1 = exampleReceiver.m_circ_buffer.take 1 ∧
    (ScanHead.GetProfiles exampleReceiver 1).2.m_circ_buffer =
      exampleReceiver.m_circ_buffer.drop 1 ∧
    jsScanHeadGetRawProfiles false (some exampleReceiver) 5 =
      (((min 5 exampleReceiver.m_circ_buffer.length : Nat) : Int),
        exampleReceiver.m_circ_buffer.take 5,
        some { exampleReceiver with m_circ_buffer := exampleReceiver.m_circ_buffer.drop 5 }) ∧
    ∃ out, jsScanHeadGetProfiles false (some exampleReceiver) 5 =
        some (((min 5 exampleReceiver.m_circ_buffer.length : Nat) : Int), out,
          some { exampleReceiver with
            m_circ_buffer := exampleReceiver.m_circ_buffer.drop 5 }) ∧
      out.length = min 5 exampleReceiver.m_circ_buffer.length) :=
  ⟨by decide, C12_getProfiles_fifo exampleReceiver 1 5 (by decide) (by decide) (by decide)⟩

/-- C13: IsConfigurationValid(cfg) returns true if and only if min <= def <= max holds for
the camera exposure times and for the laser on times, both ranges lie within the limits of
the head specification, laser_detection_threshold <= 1023, saturation_threshold <= 1023
and saturation_percentage <= 100. -/
theorem C13_isConfigurationValid_iff (h : ScanHead) (cfg : jsScanHeadConfiguration) :
    h.IsConfigurationValid cfg = true ↔
      (cfg.camera_exposure_time_min_us ≤ cfg.camera_exposure_time_def_us ∧
       cfg.camera_exposure_time_def_us ≤ cfg.camera_exposure_time_max_us ∧
       cfg.laser_on_time_min_us ≤ cfg.laser_on_time_def_us ∧
       cfg.laser_on_time_def_us ≤ cfg.laser_on_time_max_us ∧
       h.m_spec.min_camera_exposure_us ≤ cfg.camera_exposure_time_min_us ∧
       cfg.camera_exposure_time_max_us ≤ h.m_spec.max_camera_exposure_us ∧
       h.m_spec.min_laser_on_time_us ≤ cfg.laser_on_time_min_us ∧
       cfg.laser_on_time_max_us ≤ h.m_spec.max_laser_on_time_us ∧
       cfg.laser_detection_threshold ≤ 1023 ∧ cfg.saturation_threshold ≤ 1023 ∧
       cfg.saturation_percentage ≤ 100) := by
  unfold ScanHead.IsConfigurationValid kMaxLaserDetectionThreshold kMaxSaturationThreshold
    kMaxSaturationPercentage
  constructor
  · intro hv
    split at hv
    · exact absurd hv (by simp)
    · split at hv
      · exact absurd hv (by simp)
      · split at hv
        · exact absurd hv (by simp)
        · split at hv
          · exact absurd hv (by simp)
          · split at hv
            · exact absurd hv (by simp)
            · omega
  · intro hv
    rw [if_neg (by omega), if_neg (by omega), if_neg (by omega), if_neg (by omega),
      if_neg (by omega)]

/-- C14: SetConfiguration(cfg) returns 0 if and only if the head is not scanning and cfg is
valid, and GetConfiguration() then returns cfg; it returns JS_ERROR_SCANNING when the head
is scanning, whatever cfg is, and JS_ERROR_INVALID_ARGUMENT when the head is not scanning
and cfg is invalid, and in both error cases the head, its stored configuration included,
is unchanged. -/
theorem C14_setConfiguration (h : ScanHead) (cfg : jsScanHeadConfiguration) :
    ((h.SetConfiguration cfg).2 = 0 ↔
      (h.m_is_scanning = false ∧ h.IsConfigurationValid cfg = true)) ∧
    ((h.SetConfiguration cfg).2 = 0 → (h.SetConfiguration cfg).1.GetConfiguration = cfg) ∧
    (h.m_is_scanning = true → h.SetConfiguration cfg = (h, JS_ERROR_SCANNING)) ∧
    (h.m_is_scanning = false → h.IsConfigurationValid cfg = false →
      h.SetConfiguration cfg = (h, JS_ERROR_INVALID_ARGUMENT)) := by
  unfold ScanHead.SetConfiguration
  cases hs : h.m_is_scanning <;> cases hv : h.IsConfigurationValid cfg <;>
    simp [JS_ERROR_SCANNING, JS_ERROR_INVALID_ARGUMENT, ScanHead.GetConfiguration]

/-- C14 (witness): the example head, not scanning, given its default configuration with
laser_on_time_max_us = 2000. -/
theorem C14_setConfiguration_witness :
    (exampleHead 1 1000 1500).SetConfiguration
        { defaultConfiguration with laser_on_time_max_us := 2000 } =
      ({ exampleHead 1 1000 1500 with
          m_config := { defaultConfiguration with laser_on_time_max_us := 2000 } }, 0) ∧
    ((exampleHead 1 1000 1500).SetConfiguration
        { defaultConfiguration with laser_on_time_max_us := 2000 }).1.GetConfiguration =
      { defaultConfiguration with laser_on_time_max_us := 2000 } :=
  ⟨by decide,
    (C14_setConfiguration (exampleHead 1 1000 1500)
      { defaultConfiguration with laser_on_time_max_us := 2000 }).2.1 (by decide)⟩

/-- C15 (evaluation at the failing input): on the table with one empty phase, inserting
camera A of head 1 (max_configuration_groups = 8) without a configuration is accepted. The
same insertion with an invalid configuration returns JS_ERROR_INVALID_ARGUMENT and leaves
the phases unchanged, but the element counter of head 1 goes from absent to 1. After
eight such rejected calls the phases are still empty and the insertion that was accepted
before is refused with JS_ERROR_NO_MORE_ROOM. -/
theorem C15_rejected_insertion_counts :
    ((buildPhaseTable heapOneHead [PhaseOp.createPhase]).AddToLastPhaseEntryCamera
      heapOneHead 1 JS_CAMERA_A none).2 = 0 ∧
    ((buildPhaseTable heapOneHead [PhaseOp.createPhase]).AddToLastPhaseEntryCamera
      heapOneHead 1 JS_CAMERA_A (some invalidConfiguration)).2 = JS_ERROR_INVALID_ARGUMENT ∧
    ((buildPhaseTable heapOneHead [PhaseOp.createPhase]).AddToLastPhaseEntryCamera
      heapOneHead 1 JS_CAMERA_A (some invalidConfiguration)).1.m_table = [[]] ∧
    (buildPhaseTable heapOneHead [PhaseOp.createPhase]).m_scan_head_count = [] ∧
    ((buildPhaseTable heapOneHead [PhaseOp.createPhase]).AddToLastPhaseEntryCamera
      heapOneHead 1 JS_CAMERA_A (some invalidConfiguration)).1.m_scan_head_count = [(1, 1)] ∧
    (buildPhaseTable heapOneHead (PhaseOp.createPhase ::
      List.replicate 8 (PhaseOp.addCamera 1 JS_CAMERA_A (some invalidConfiguration)))).m_table =
      [[]] ∧
    (buildPhaseTable heapOneHead (PhaseOp.createPhase ::
      List.replicate 8 (PhaseOp.addCamera 1 JS_CAMERA_A
        (some invalidConfiguration)))).m_scan_head_count = [(1, 8)] ∧
    ((buildPhaseTable heapOneHead (PhaseOp.createPhase ::
      List.replicate 8 (PhaseOp.addCamera 1 JS_CAMERA_A
        (some invalidConfiguration)))).AddToLastPhaseEntryCamera
      heapOneHead 1 JS_CAMERA_A none).2 = JS_ERROR_NO_MORE_ROOM := by
  decide

/-! ### Authored phase tables are well formed -/

theorem wellFormed_count (heap : Heap) (t : PhaseTable) (count : List (Nat × Nat))
    (hok : t.WellFormed heap)
    (hge : ∀ q, (mapFind t.m_scan_head_count q).getD 0 ≤ (mapFind count q).getD 0)
    (hmax : ∀ q c, mapFind count q = some c → c ≤ (heap q).GetMaxScanPairs) :
    PhaseTable.WellFormed heap { t with m_scan_head_count := count } :=
  ⟨fun q => Nat.le_trans (hok.1 q) (hge q), hmax, hok.2.2⟩

theorem wellFormed_add (heap : Heap) (table : List (List PhasedElement))
    (count : List (Nat × Nat)) (phase : Nat) (el : PhasedElement)
    (hok : PhaseTable.WellFormed heap ⟨table, count⟩) (hphase : phase < table.length)
    (hnew : (table.getD phase []).any
      (fun e => decide (e.scan_head = el.scan_head ∧ e.camera = el.camera)) = false)
    (hroom : headCount table el.scan_head + 1 ≤ (mapFind count el.scan_head).getD 0) :
    PhaseTable.WellFormed heap ⟨table.set phase (table.getD phase [] ++ [el]), count⟩ := by
  obtain ⟨h1, h2, h3⟩ := hok
  refine ⟨?_, h2, ?_⟩
  · intro q
    show headCount (table.set phase (table.getD phase [] ++ [el])) q ≤ _
    rw [headCount_set q el table phase hphase]
    have := h1 q
    by_cases hq : el.scan_head = q
    · rw [if_pos hq]
      rw [hq] at hroom
      exact hroom
    · rw [if_neg hq]
      exact this
  · intro v hv
    rcases List.mem_or_eq_of_mem_set hv with hin | heq
    · exact h3 v hin
    · rw [heq, List.map_append, List.map_singleton]
      have hmem : table.getD phase [] ∈ table := by
        rw [List.getD_eq_getElem _ _ hphase]
        exact List.getElem_mem _
      refine List.Nodup.append (h3 _ hmem) (List.nodup_singleton _) ?_
      intro k hk hk'
      rw [List.mem_singleton] at hk'
      obtain ⟨e, he, hek⟩ := List.mem_map.mp hk
      have hall := List.any_eq_false.mp hnew e he
      apply hall
      rw [hk'] at hek
      unfold elementKey at hek
      simp only [Prod.mk.injEq] at hek
      exact decide_eq_true hek

theorem AddToPhaseEntryCommon_wellFormed (heap : Heap) (t : PhaseTable) (phase p : Nat)
    (camera : jsCamera) (laser : jsLaser) (cfg : Option jsScanHeadConfiguration)
    (hok : t.WellFormed heap) (hpos : 1 ≤ (heap p).GetMaxScanPairs)
    (hlt32 : (heap p).GetMaxScanPairs < 4294967296) :
    (PhaseTable.AddToPhaseEntryCommon heap t phase p camera laser cfg).1.WellFormed heap := by
  unfold PhaseTable.AddToPhaseEntryCommon
  by_cases hph : t.m_table.length ≤ phase
  · rw [if_pos hph]; exact hok
  · rw [if_neg hph]
    have hphase : phase < t.m_table.length := Nat.lt_of_not_le hph
    have hcount : (∃ c0 count0,
        (match mapFind t.m_scan_head_count p with
          | some c => if c ≥ (heap p).GetMaxScanPairs then none else some t.m_scan_head_count
          | none => some (mapSet t.m_scan_head_count p 0)) = some count0 ∧
        mapFind count0 p = some c0 ∧ c0 < (heap p).GetMaxScanPairs ∧
        headCount t.m_table p ≤ c0 ∧
        (mapFind t.m_scan_head_count p).getD 0 ≤ c0 ∧
        (∀ q, q ≠ p → mapFind count0 q = mapFind t.m_scan_head_count q)) ∨
        (match mapFind t.m_scan_head_count p with
          | some c => if c ≥ (heap p).GetMaxScanPairs then none else some t.m_scan_head_count
          | none => some (mapSet t.m_scan_head_count p 0)) = none := by
      have hcp := hok.1 p
      cases hfind : mapFind t.m_scan_head_count p with
      | none =>
        left
        rw [hfind] at hcp
        exact ⟨0, mapSet t.m_scan_head_count p 0, rfl, mapFind_mapSet_self _ _ _, hpos, hcp,
          Nat.le_refl _, fun q hq => mapFind_mapSet_other _ _ _ _ hq⟩
      | some c =>
        rw [hfind] at hcp
        by_cases hc : c ≥ (heap p).GetMaxScanPairs
        · right; simp [hc]
        · left
          exact ⟨c, t.m_scan_head_count, by simp [hc], hfind, Nat.lt_of_not_le hc, hcp,
            Nat.le_refl _, fun _ _ => rfl⟩
    rcases hcount with ⟨c0, count0, hm, hf, hc0, hhc, hold, hoth⟩ | hnone
    · rw [hm]
      have hge0 : ∀ q, (mapFind t.m_scan_head_count q).getD 0 ≤ (mapFind count0 q).getD 0 := by
        intro q
        by_cases hq : q = p
        · rw [hq, hf]
          exact hold
        · rw [hoth q hq]
      have hmax0 : ∀ q c, mapFind count0 q = some c → c ≤ (heap q).GetMaxScanPairs := by
        intro q c hc
        by_cases hq : q = p
        · rw [hq, hf] at hc
          rw [hq, ← Option.some.inj hc]
          exact Nat.le_of_lt hc0
        · rw [hoth q hq] at hc
          exact hok.2.1 q c hc
      have hok0 : PhaseTable.WellFormed heap { t with m_scan_head_count := count0 } :=
        wellFormed_count heap t count0 hok hge0 hmax0
      by_cases hdup : (t.m_table.getD phase []).any
          (fun el => decide (el.scan_head = p ∧ el.camera = camera)) = true
      · simp only [hdup, if_true]
        exact hok0
      · simp only [hdup]
        have hu : u32 ((((mapFind count0 p).getD 0 : Nat) : Int) + 1) = c0 + 1 := by
          rw [hf]
          show u32 (((c0 : Nat) : Int) + 1) = c0 + 1
          unfold u32; omega
        rw [hu]
        have hge1 : ∀ q, (mapFind count0 q).getD 0 ≤
            (mapFind (mapSet count0 p (c0 + 1)) q).getD 0 := by
          intro q
          rw [getD_mapFind_mapSet]
          by_cases hq : q = p
          · rw [if_pos hq, hq, hf]; exact Nat.le_succ _
          · rw [if_neg hq]
        have hmax1 : ∀ q c, mapFind (mapSet count0 p (c0 + 1)) q = some c →
            c ≤ (heap q).GetMaxScanPairs := by
          intro q c hc
          rcases mapFind_mapSet_some _ _ _ _ _ hc with ⟨hq, hv⟩ | ⟨_, hv⟩
          · rw [hq, hv]; exact hc0
          · exact hmax0 q c hv
        have hok1 : PhaseTable.WellFormed heap ⟨t.m_table, mapSet count0 p (c0 + 1)⟩ :=
          wellFormed_count heap { t with m_scan_head_count := count0 } _ hok0 hge1 hmax1
        have hroom : headCount t.m_table p + 1 ≤
            (mapFind (mapSet count0 p (c0 + 1)) p).getD 0 := by
          rw [mapFind_mapSet_self]
          show headCount t.m_table p + 1 ≤ c0 + 1
          omega
        have hnew : (t.m_table.getD phase []).any
            (fun el => decide (el.scan_head = p ∧ el.camera = camera)) = false := by
          simpa using hdup
        cases cfg with
        | none =>
          exact wellFormed_add heap t.m_table _ phase _ hok1 hphase hnew hroom
        | some c =>
          by_cases hv : (heap p).IsConfigurationValid c = false
          · simp only [hv, if_true]
            exact hok1
          · simp only [hv]
            exact wellFormed_add heap t.m_table _ phase _ hok1 hphase hnew hroom
    · rw [hnone]
      exact hok

/-- C16: every phase table reached from the empty table by Reset, CreatePhase and
AddToLastPhaseEntry calls (by camera or by laser, accepted or rejected) is well formed: for
every head the number of its elements over the whole table is at most
head.GetMaxScanPairs() = max_configuration_groups, and no phase contains two elements with
the same (head, camera). The heads named by the calls have a max_configuration_groups of
at least 1 (a uint32_t). -/
theorem C16_reachable_tables_well_formed (heap : Heap) (ops : List PhaseOp)
    (hmax : ∀ op ∈ ops, ∀ p, op.head = some p →
      1 ≤ (heap p).GetMaxScanPairs ∧ (heap p).GetMaxScanPairs < 4294967296) :
    (∀ p, headCount (buildPhaseTable heap ops).m_table p ≤ (heap p).GetMaxScanPairs) ∧
    (∀ v ∈ (buildPhaseTable heap ops).m_table, (v.map elementKey).Nodup) := by
  have hgen : ∀ (ops : List PhaseOp) (t : PhaseTable),
      (∀ op ∈ ops, ∀ p, op.head = some p →
        1 ≤ (heap p).GetMaxScanPairs ∧ (heap p).GetMaxScanPairs < 4294967296) →
      t.WellFormed heap → (ops.foldl (PhaseOp.apply heap) t).WellFormed heap := by
    intro ops
    induction ops with
    | nil => intro t _ h1; exact h1
    | cons op rest ih =>
      intro t hops h1
      rw [List.foldl_cons]
      apply ih _ (fun o ho => hops o (List.mem_cons_of_mem _ ho))
      cases op with
      | reset =>
        exact ⟨fun _ => Nat.le_refl _, fun p c hc => by simp [mapFind] at hc,
          fun v hv => absurd hv (List.not_mem_nil v)⟩
      | createPhase =>
        obtain ⟨a, b, c⟩ := h1
        refine ⟨?_, b, ?_⟩
        · intro p
          have := a p
          simpa [PhaseOp.apply, PhaseTable.CreatePhase, headCount] using this
        · intro v hv
          rcases List.mem_append.mp hv with hin | hin
          · exact c v hin
          · rw [List.mem_singleton.mp hin]
            exact List.nodup_nil
      | addCamera h c cfg =>
        obtain ⟨hp1, hp2⟩ := hops _ (List.mem_cons_self _ _) h rfl
        show (PhaseTable.AddToLastPhaseEntryCamera heap t h c cfg).1.WellFormed heap
        unfold PhaseTable.AddToLastPhaseEntryCamera
        split
        · exact h1
        · split
          · exact h1
          · exact AddToPhaseEntryCommon_wellFormed heap t _ h c _ cfg h1 hp1 hp2
      | addLaser h l cfg =>
        obtain ⟨hp1, hp2⟩ := hops _ (List.mem_cons_self _ _) h rfl
        show (PhaseTable.AddToLastPhaseEntryLaser heap t h l cfg).1.WellFormed heap
        unfold PhaseTable.AddToLastPhaseEntryLaser
        split
        · exact h1
        · split
          · exact h1
          · exact AddToPhaseEntryCommon_wellFormed heap t _ h _ l cfg h1 hp1 hp2
  have hw := hgen ops { m_table := [], m_scan_head_count := [] } hmax
    ⟨fun _ => Nat.le_refl _, fun p c hc => by simp [mapFind] at hc,
      fun v hv => absurd hv (List.not_mem_nil v)⟩
  refine ⟨?_, hw.2.2⟩
  intro p
  have h1 := hw.1 p
  cases hfind : mapFind (buildPhaseTable heap ops).m_scan_head_count p with
  | none =>
    have h1' : headCount (buildPhaseTable heap ops).m_table p ≤
        (mapFind (buildPhaseTable heap ops).m_scan_head_count p).getD 0 := h1
    rw [hfind] at h1'
    exact Nat.le_trans h1' (Nat.zero_le _)
  | some c =>
    have h1' : headCount (buildPhaseTable heap ops).m_table p ≤
        (mapFind (buildPhaseTable heap ops).m_scan_head_count p).getD 0 := h1
    rw [hfind] at h1'
    exact Nat.le_trans h1' (hw.2.1 p c hfind)

/-- C16 (witness): two phases on head 1, with a repeated insertion (rejected as a
duplicate), an insertion with an invalid configuration (rejected) and a Reset in between. -/
theorem C16_reachable_tables_well_formed_witness :
    (∀ p, headCount (buildPhaseTable heapOneHead
        [PhaseOp.createPhase, PhaseOp.addCamera 1 JS_CAMERA_A none, PhaseOp.reset,
         PhaseOp.createPhase, PhaseOp.addCamera 1 JS_CAMERA_A none,
         PhaseOp.addCamera 1 JS_CAMERA_A none,
         PhaseOp.addCamera 1 JS_CAMERA_B (some invalidConfiguration),
         PhaseOp.createPhase, PhaseOp.addLaser 1 JS_LASER_1 none]).m_table p ≤
      (heapOneHead p).GetMaxScanPairs) ∧
    (∀ v ∈ (buildPhaseTable heapOneHead
        [PhaseOp.createPhase, PhaseOp.addCamera 1 JS_CAMERA_A none, PhaseOp.reset,
         PhaseOp.createPhase, PhaseOp.addCamera 1 JS_CAMERA_A none,
         PhaseOp.addCamera 1 JS_CAMERA_A none,
         PhaseOp.addCamera 1 JS_CAMERA_B (some invalidConfiguration),
         PhaseOp.createPhase, PhaseOp.addLaser 1 JS_LASER_1 none]).m_table,
      (v.map elementKey).Nodup) :=
  C16_reachable_tables_well_formed heapOneHead
    [PhaseOp.createPhase, PhaseOp.addCamera 1 JS_CAMERA_A none, PhaseOp.reset,
     PhaseOp.createPhase, PhaseOp.addCamera 1 JS_CAMERA_A none,
     PhaseOp.addCamera 1 JS_CAMERA_A none,
     PhaseOp.addCamera 1 JS_CAMERA_B (some invalidConfiguration),
     PhaseOp.createPhase, PhaseOp.addLaser 1 JS_LASER_1 none]
    (fun _ _ _ _ => ⟨show 1 ≤ 8 by decide, show 8 < 4294967296 by decide⟩)

/-- C17 (evaluation at the failing input): jsScanSystemCreate accepts JS_UNITS_MILLIMETER
and creates a coordinator with these units, but for them the scale computation reaches its
last branch: the constructor of ScanHead throws, and SetAlignment on a valid, non-scanning
(camera, laser) of a head with these units returns JS_ERROR_INTERNAL and stores nothing.
The scale is 1.0 for JS_UNITS_INCHES; the branch that assigns 25.4 is taken only when the
units are neither inches nor millimetres. -/
theorem C17_millimeter_units_rejected :
    (jsScanSystemCreate jsUnits.JS_UNITS_MILLIMETER).map (fun m => m.m_units) =
      some jsUnits.JS_UNITS_MILLIMETER ∧
    alignmentScale jsUnits.JS_UNITS_MILLIMETER = none ∧
    ScanHead.construct jsUnits.JS_UNITS_MILLIMETER (some exampleSpec) 1 0 = none ∧
    ({ exampleHead 1 1000 1500 with m_units := jsUnits.JS_UNITS_MILLIMETER }).SetAlignment
      JS_CAMERA_A JS_LASER_1 = (JS_ERROR_INTERNAL, none) ∧
    alignmentScale jsUnits.JS_UNITS_INCHES = some 1 ∧
    (ScanHead.construct jsUnits.JS_UNITS_INCHES (some exampleSpec) 1 0).isSome = true ∧
    (exampleHead 1 1000 1500).SetAlignment JS_CAMERA_A JS_LASER_1 = (0, some 1) ∧
    alignmentScale jsUnits.JS_UNITS_INVALID = some (254 / 10) := by
  refine ⟨by decide, rfl, rfl, rfl, rfl, rfl, rfl, rfl⟩

/-! ### Creating heads -/

theorem mapFind_registryInsert_self (l : List (Nat × Nat)) (k v : Nat) :
    mapFind (registryInsert l k v) k = some v := by
  induction l with
  | nil => simp [registryInsert, mapFind]
  | cons kv rest ih =>
    unfold registryInsert
    by_cases h1 : k < kv.1
    · rw [if_pos h1]
      simp [mapFind]
    · rw [if_neg h1]
      by_cases h2 : k = kv.1
      · rw [if_pos h2]
        simp [mapFind]
      · rw [if_neg h2]
        unfold mapFind
        rw [if_neg (fun e => h2 e.symm)]
        exact ih

theorem CreateScanHead_error_or_zero (heap : Heap) (m : ScanManager)
    (discovered : List (Nat × jsDiscovered)) (replies : Option (List jsDiscovered))
    (loadSpec : Nat → Option ScanHeadSpec) (fresh serial id : Nat) :
    ((ScanManager.CreateScanHead heap m discovered replies loadSpec fresh serial id).1 = heap ∧
      (ScanManager.CreateScanHead heap m discovered replies loadSpec fresh serial id).2.1 = m) ∨
    (ScanManager.CreateScanHead heap m discovered replies loadSpec fresh serial id).2.2.2 =
      Outcome.returned 0 := by
  unfold ScanManager.CreateScanHead
  dsimp only
  repeat' split
  all_goals first | exact Or.inl ⟨rfl, rfl⟩ | exact Or.inr rfl

/-- C18 (counterexample): on a coordinator that already holds serial 1 (and id 1),
CreateScanHead(1, 2147483648) returns JS_ERROR_INVALID_ARGUMENT, not
JS_ERROR_ALREADY_EXISTS: the id is compared with INT_MAX before the registries are
searched. -/
theorem C18_registered_serial_with_large_id :
    (mapFind managerOneHead.m_serial_to_scan_head 1).isSome = true ∧
    managerOneHead.IsScanning = false ∧
    (ScanManager.CreateScanHead heapOneHead managerOneHead [] none (fun _ => some exampleSpec)
      2 1 2147483648).2.2.2 = Outcome.returned JS_ERROR_INVALID_ARGUMENT := by
  decide

/-- C18 (amended): on a non-scanning coordinator and for id <= INT_MAX,
CreateScanHead(serial, id) returns JS_ERROR_ALREADY_EXISTS when serial or id is already
registered; when both are unused and serial is in the discovery map, it returns
JS_ERROR_VERSION_COMPATIBILITY if and only if the discovered major firmware version
differs from API_VERSION_MAJOR = 16, and it returns 0 when the version matches, the
coordinator's units are inches and the head type has a specification (the entry of the
discovery map carrying the serial it is stored under): the new head is then found under
its serial and under its id. Whenever the call does not return 0, no head is created and
the heap and both registries are unchanged. -/
theorem C18_createScanHead (heap : Heap) (m : ScanManager)
    (discovered : List (Nat × jsDiscovered)) (replies : Option (List jsDiscovered))
    (loadSpec : Nat → Option ScanHeadSpec) (fresh serial id : Nat)
    (hscan : m.IsScanning = false) (hid : id ≤ INT_MAX) :
    (((mapFind m.m_serial_to_scan_head serial).isSome = true ∨
        (mapFind m.m_id_to_scan_head id).isSome = true) →
      ScanManager.CreateScanHead heap m discovered replies loadSpec fresh serial id =
        (heap, m, discovered, Outcome.returned JS_ERROR_ALREADY_EXISTS)) ∧
    (∀ d, mapFind m.m_serial_to_scan_head serial = none →
      mapFind m.m_id_to_scan_head id = none → discoveredFind discovered serial = some d →
      (((ScanManager.CreateScanHead heap m discovered replies loadSpec fresh serial id).2.2.2 =
          Outcome.returned JS_ERROR_VERSION_COMPATIBILITY ↔
        d.firmware_version_major ≠ API_VERSION_MAJOR) ∧
      (d.firmware_version_major = API_VERSION_MAJOR → m.m_units = jsUnits.JS_UNITS_INCHES →
        d.serial_number = serial → (loadSpec d.type).isSome = true →
        (ScanManager.CreateScanHead heap m discovered replies loadSpec fresh serial id).2.2.2 =
          Outcome.returned 0 ∧
        mapFind (ScanManager.CreateScanHead heap m discovered replies loadSpec fresh serial
          id).2.1.m_serial_to_scan_head serial = some fresh ∧
        mapFind (ScanManager.CreateScanHead heap m discovered replies loadSpec fresh serial
          id).2.1.m_id_to_scan_head id = some fresh ∧
        ScanHead.construct m.m_units (loadSpec d.type) serial id =
          some ((ScanManager.CreateScanHead heap m discovered replies loadSpec fresh serial
            id).1 fresh)))) ∧
    ((ScanManager.CreateScanHead heap m discovered replies loadSpec fresh serial id).2.2.2 ≠
        Outcome.returned 0 →
      (ScanManager.CreateScanHead heap m discovered replies loadSpec fresh serial id).1 = heap ∧
      (ScanManager.CreateScanHead heap m discovered replies loadSpec fresh serial id).2.1 =
        m) := by
  have hid' : ¬ INT_MAX < id := Nat.not_lt_of_le hid
  refine ⟨?_, ?_, ?_⟩
  · intro hreg
    unfold ScanManager.CreateScanHead
    rw [hscan]
    simp only [Bool.false_eq_true, if_false, hid']
    by_cases hs : (mapFind m.m_serial_to_scan_head serial).isSome = true
    · rw [if_pos hs]
    · rw [if_neg hs]
      rcases hreg with h | h
      · exact absurd h hs
      · rw [if_pos h]
  · intro d hs hi hd
    have hs' : ¬ (mapFind m.m_serial_to_scan_head serial).isSome = true := by simp [hs]
    have hi' : ¬ (mapFind m.m_id_to_scan_head id).isSome = true := by simp [hi]
    have hd' : ¬ (discoveredFind discovered serial).isNone = true := by simp [hd]
    have hunf : ScanManager.CreateScanHead heap m discovered replies loadSpec fresh serial id =
        if API_VERSION_MAJOR ≠ d.firmware_version_major then
          (heap, m, discovered, Outcome.returned JS_ERROR_VERSION_COMPATIBILITY)
        else
          match ScanHead.construct m.m_units (loadSpec d.type) d.serial_number id with
          | none => (heap, m, discovered, Outcome.thrown)
          | some sh =>
            (heap.store fresh sh,
              { m with
                m_serial_to_scan_head :=
                  registryInsert m.m_serial_to_scan_head d.serial_number fresh,
                m_id_to_scan_head := registryInsert m.m_id_to_scan_head id fresh },
              discovered, Outcome.returned 0) := by
      unfold ScanManager.CreateScanHead
      rw [hscan]
      simp only [Bool.false_eq_true, if_false, hid', hs', hi', hd']
      simp only [hd]
    rw [hunf]
    constructor
    · by_cases hv : API_VERSION_MAJOR ≠ d.firmware_version_major
      · rw [if_pos hv]
        exact ⟨fun _ => fun e => hv e.symm, fun _ => rfl⟩
      · rw [if_neg hv]
        constructor
        · intro h
          exfalso
          split at h
          · exact absurd h (by simp)
          · simp only [Outcome.returned.injEq] at h
            exact absurd h (by decide)
        · intro h
          exact absurd (fun e => h e.symm) hv
    · intro hmaj hunits hser hspec
      rw [if_neg (by rw [hmaj]; simp), hser]
      obtain ⟨s, hs2⟩ := Option.isSome_iff_exists.mp hspec
      have hc : ScanHead.construct m.m_units (loadSpec d.type) serial id ≠ none := by
        rw [hs2, hunits]
        simp [ScanHead.construct, alignmentScale]
      cases hcon : ScanHead.construct m.m_units (loadSpec d.type) serial id with
      | none => exact absurd hcon hc
      | some sh =>
        refine ⟨rfl, mapFind_registryInsert_self _ _ _, mapFind_registryInsert_self _ _ _, ?_⟩
        simp [Heap.store]
  · intro hne
    rcases CreateScanHead_error_or_zero heap m discovered replies loadSpec fresh serial id
      with h | h
    · exact h
    · exact absurd h hne

/-- C18 (witness): on the empty coordinator in inches, with head 12345 in the discovery
map, CreateScanHead(12345, 0) returns 0 and registers the new head when the discovered
major version is 16, and returns JS_ERROR_VERSION_COMPATIBILITY when it is 17. -/
theorem C18_createScanHead_witness :
    ((ScanManager.CreateScanHead heapOneHead managerEmpty [(12345, exampleDiscovered 16)] none
        (fun _ => some exampleSpec) 7 12345 0).2.2.2 = Outcome.returned 0 ∧
      mapFind (ScanManager.CreateScanHead heapOneHead managerEmpty
        [(12345, exampleDiscovered 16)] none (fun _ => some exampleSpec) 7 12345
        0).2.1.m_serial_to_scan_head 12345 = some 7 ∧
      mapFind (ScanManager.CreateScanHead heapOneHead managerEmpty
        [(12345, exampleDiscovered 16)] none (fun _ => some exampleSpec) 7 12345
        0).2.1.m_id_to_scan_head 0 = some 7 ∧
      ScanHead.construct managerEmpty.m_units (some exampleSpec) 12345 0 =
        some ((ScanManager.CreateScanHead heapOneHead managerEmpty
          [(12345, exampleDiscovered 16)] none (fun _ => some exampleSpec) 7 12345 0).1 7)) ∧
    (ScanManager.CreateScanHead heapOneHead managerEmpty [(12345, exampleDiscovered 17)] none
      (fun _ => some exampleSpec) 7 12345 0).2.2.2 =
        Outcome.returned JS_ERROR_VERSION_COMPATIBILITY :=
  ⟨((C18_createScanHead heapOneHead managerEmpty [(12345, exampleDiscovered 16)] none
      (fun _ => some exampleSpec) 7 12345 0 (by decide) (by decide)).2.1
        (exampleDiscovered 16) (by decide) (by decide) (by decide)).2
        (by decide) (by decide) (by decide) (by decide),
    ((C18_createScanHead heapOneHead managerEmpty [(12345, exampleDiscovered 17)] none
      (fun _ => some exampleSpec) 7 12345 0 (by decide) (by decide)).2.1
        (exampleDiscovered 17) (by decide) (by decide) (by decide)).1.mpr (by decide)⟩

/-! ### The state of the coordinator -/

theorem Connect_state (cn : ConnectNetwork) (heap : Heap) (m : ScanManager) :
    ((ScanManager.Connect cn heap m).2.1.m_state = m.m_state) ∨
    (m.m_state = SystemState.Disconnected ∧
      (ScanManager.Connect cn heap m).2.1.m_state = SystemState.Connected ∧
      (ScanManager.Connect cn heap m).2.2 =
        Outcome.returned (i32 m.m_serial_to_scan_head.length)) := by
  unfold ScanManager.Connect
  dsimp only
  split
  · exact Or.inl rfl
  · split
    · exact Or.inl rfl
    · rename_i hs hc
      split
      · exact Or.inl rfl
      · split
        · exact Or.inl rfl
        · split
          · split
            · rename_i hlen
              right
              refine ⟨?_, rfl, by rw [hlen]⟩
              cases hst : m.m_state <;>
                simp [ScanManager.IsConnected, ScanManager.IsScanning, hst] at hs hc ⊢
            · exact Or.inl rfl
          · exact Or.inl rfl

theorem Disconnect_state (heap : Heap) (m : ScanManager) :
    ((ScanManager.Disconnect heap m).2.1.m_state = m.m_state ∧
      (ScanManager.Disconnect heap m).2.2 = Outcome.thrown) ∨
    (m.m_state = SystemState.Connected ∧
      (ScanManager.Disconnect heap m).2.1.m_state = SystemState.Disconnected ∧
      (ScanManager.Disconnect heap m).2.2 = Outcome.returned 0) := by
  unfold ScanManager.Disconnect
  cases hst : m.m_state <;> simp [ScanManager.IsConnected, ScanManager.IsScanning, hst]

theorem StartScanning_state (net : Network) (heap : Heap) (m : ScanManager) (period_us : Nat)
    (fmt : jsDataFormat) :
    (((ScanManager.StartScanning net heap m period_us fmt).2.1.m_state = m.m_state ∧
        (ScanManager.StartScanning net heap m period_us fmt).2.2 ≠ 0) ∨
      (m.m_state = SystemState.Connected ∧
        (ScanManager.StartScanning net heap m period_us fmt).2.1.m_state =
          SystemState.Scanning ∧
        (ScanManager.StartScanning net heap m period_us fmt).2.2 = 0)) ∧
    (m.m_state = SystemState.Disconnected →
      (ScanManager.StartScanning net heap m period_us fmt).2.2 = JS_ERROR_NOT_CONNECTED) ∧
    (m.m_state = SystemState.Scanning →
      (ScanManager.StartScanning net heap m period_us fmt).2.2 = JS_ERROR_SCANNING) := by
  unfold ScanManager.StartScanning
  dsimp only
  cases hst : m.m_state
  · simp [ScanManager.IsConnected, hst, JS_ERROR_NOT_CONNECTED]
  · simp only [ScanManager.IsConnected, ScanManager.IsScanning, hst]
    refine ⟨?_, fun h => absurd h (by simp), fun h => absurd h (by simp)⟩
    simp only [reduceCtorEq, or_false, decide_True, Bool.true_eq_false, if_false,
      decide_False, Bool.false_eq_true]
    split
    · left; exact ⟨rfl, by show JS_ERROR_INVALID_ARGUMENT ≠ 0; decide⟩
    · split
      · rename_i h2
        left; exact ⟨rfl, h2⟩
      · split
        · rename_i h3
          left; exact ⟨rfl, h3⟩
        · right; exact ⟨trivial, rfl, rfl⟩
  · simp [ScanManager.IsConnected, ScanManager.IsScanning, hst, JS_ERROR_SCANNING]

theorem StopScanning_state (net : Network) (heap : Heap) (m : ScanManager) :
    (m.m_state = SystemState.Scanning ∧
      (ScanManager.StopScanning net heap m).2.1.m_state = SystemState.Connected ∧
      (ScanManager.StopScanning net heap m).2.2 = 0) ∨
    (m.m_state ≠ SystemState.Scanning ∧
      (ScanManager.StopScanning net heap m).2.1.m_state = m.m_state ∧
      (ScanManager.StopScanning net heap m).2.2 < 0) := by
  unfold ScanManager.StopScanning
  cases hst : m.m_state <;>
    simp [ScanManager.IsConnected, ScanManager.IsScanning, hst, JS_ERROR_NOT_CONNECTED,
      JS_ERROR_NOT_SCANNING]

/-- One call: Scanning is entered only from Connected and left only to Connected. -/
theorem run_state_step (cn : ConnectNetwork) (net : Network) (heap : Heap) (m : ScanManager)
    (c : ManagerCall) :
    ((c.run cn net heap m).2.1.m_state = SystemState.Scanning →
      m.m_state ≠ SystemState.Scanning →
      m.m_state = SystemState.Connected ∧ (∃ period_us fmt, c = ManagerCall.startScanning
        period_us fmt) ∧ (c.run cn net heap m).2.2 = Outcome.returned 0) ∧
    (m.m_state = SystemState.Scanning →
      (c.run cn net heap m).2.1.m_state ≠ SystemState.Scanning →
      (c.run cn net heap m).2.1.m_state = SystemState.Connected ∧
        c = ManagerCall.stopScanning ∧ (c.run cn net heap m).2.2 = Outcome.returned 0) := by
  cases c with
  | connect =>
    have h := Connect_state cn heap m
    simp only [ManagerCall.run]
    rcases h with h | ⟨h1, h2, _⟩
    · rw [h]
      exact ⟨fun a b => absurd a b, fun a b => absurd a b⟩
    · rw [h2, h1]
      exact ⟨fun a => absurd a (by simp), fun a => absurd a (by simp)⟩
  | disconnect =>
    have h := Disconnect_state heap m
    simp only [ManagerCall.run]
    rcases h with ⟨h, _⟩ | ⟨h1, h2, _⟩
    · rw [h]
      exact ⟨fun a b => absurd a b, fun a b => absurd a b⟩
    · rw [h2, h1]
      exact ⟨fun a => absurd a (by simp), fun a => absurd a (by simp)⟩
  | startScanning period_us fmt =>
    have h := (StartScanning_state net heap m period_us fmt).1
    simp only [ManagerCall.run]
    rcases h with ⟨h, _⟩ | ⟨h1, h2, h3⟩
    · rw [h]
      exact ⟨fun a b => absurd a b, fun a b => absurd a b⟩
    · rw [h2, h1, h3]
      exact ⟨fun _ _ => ⟨rfl, ⟨period_us, fmt, rfl⟩, rfl⟩, fun a => absurd a (by simp)⟩
  | stopScanning =>
    have h := StopScanning_state net heap m
    simp only [ManagerCall.run]
    rcases h with ⟨h1, h2, h3⟩ | ⟨_, h2, _⟩
    · rw [h2, h1, h3]
      exact ⟨fun a => absurd a (by simp), fun _ _ => ⟨rfl, trivial, rfl⟩⟩
    · rw [h2]
      exact ⟨fun a b => absurd a b, fun a b => absurd a b⟩

/-- C19: along every sequence of Connect, Disconnect, StartScanning and StopScanning calls
(whatever the sockets return), each state that is Scanning follows a state that is
Scanning or Connected, and each state that follows Scanning is Scanning or Connected; for
every single call from every state: Scanning is entered from another state only from
Connected, by a StartScanning that returns 0, and left only to Connected, by a
StopScanning that returns 0; StartScanning returns JS_ERROR_NOT_CONNECTED when
Disconnected and JS_ERROR_SCANNING when Scanning; StopScanning returns a negative code
whenever the state is not Scanning; Disconnect throws while Scanning; and every rejected
call (an exception or a negative return value; for Connect with fewer than 2^31 heads, so
that its count is not negative) leaves the state unchanged. -/
theorem C19_scanning_only_from_and_to_connected
    (steps : List (ConnectNetwork × Network × ManagerCall)) (heap : Heap) (m : ScanManager) :
    List.Chain'
      (fun s s' : ScanManager =>
        (s'.m_state = SystemState.Scanning → s.m_state ≠ SystemState.Scanning →
          s.m_state = SystemState.Connected) ∧
        (s.m_state = SystemState.Scanning → s'.m_state ≠ SystemState.Scanning →
          s'.m_state = SystemState.Connected))
      (managerTrace steps heap m) ∧
    ∀ (cn : ConnectNetwork) (net : Network) (heap : Heap) (m : ScanManager) (c : ManagerCall),
      ((c.run cn net heap m).2.1.m_state = SystemState.Scanning →
        m.m_state ≠ SystemState.Scanning →
        m.m_state = SystemState.Connected ∧ (∃ period_us fmt, c = ManagerCall.startScanning
          period_us fmt) ∧ (c.run cn net heap m).2.2 = Outcome.returned 0) ∧
      (m.m_state = SystemState.Scanning →
        (c.run cn net heap m).2.1.m_state ≠ SystemState.Scanning →
        (c.run cn net heap m).2.1.m_state = SystemState.Connected ∧
          c = ManagerCall.stopScanning ∧ (c.run cn net heap m).2.2 = Outcome.returned 0) ∧
      (∀ period_us fmt, c = ManagerCall.startScanning period_us fmt →
        (m.m_state = SystemState.Disconnected →
          (c.run cn net heap m).2.2 = Outcome.returned JS_ERROR_NOT_CONNECTED) ∧
        (m.m_state = SystemState.Scanning →
          (c.run cn net heap m).2.2 = Outcome.returned JS_ERROR_SCANNING)) ∧
      (c = ManagerCall.stopScanning → m.m_state ≠ SystemState.Scanning →
        (c.run cn net heap m).2.2.rejected = true) ∧
      (c = ManagerCall.disconnect → m.m_state = SystemState.Scanning →
        (c.run cn net heap m).2.2 = Outcome.thrown) ∧
      ((c.run cn net heap m).2.2.rejected = true →
        m.m_serial_to_scan_head.length < 2147483648 →
        (c.run cn net heap m).2.1.m_state = m.m_state) := by
  constructor
  · induction steps generalizing heap m with
    | nil => exact List.chain'_singleton m
    | cons step rest ih =>
      unfold managerTrace
      have hrest := ih (step.2.2.run step.1 step.2.1 heap m).1
        (step.2.2.run step.1 step.2.1 heap m).2.1
      have hstep := run_state_step step.1 step.2.1 heap m step.2.2
      refine List.Chain'.cons' hrest ?_
      intro s' hs'
      have hhead : s' = (step.2.2.run step.1 step.2.1 heap m).2.1 := by
        cases rest with
        | nil =>
          simp only [managerTrace, List.head?_cons, Option.mem_def, Option.some.injEq] at hs'
          exact hs'.symm
        | cons step2 rest2 =>
          simp only [managerTrace, List.head?_cons, Option.mem_def, Option.some.injEq] at hs'
          exact hs'.symm
      rw [hhead]
      exact ⟨fun a b => (hstep.1 a b).1, fun a b => (hstep.2 a b).1⟩
  · intro cn net heap m c
    have hstep := run_state_step cn net heap m c
    refine ⟨hstep.1, hstep.2, ?_, ?_, ?_, ?_⟩
    · intro period_us fmt hc
      subst hc
      have h := StartScanning_state net heap m period_us fmt
      simp only [ManagerCall.run]
      exact ⟨fun a => by rw [h.2.1 a], fun a => by rw [h.2.2 a]⟩
    · intro hc hns
      subst hc
      simp only [ManagerCall.run, Outcome.rejected]
      rcases StopScanning_state net heap m with ⟨h1, _, _⟩ | ⟨_, _, h3⟩
      · exact absurd h1 hns
      · exact decide_eq_true h3
    · intro hc hs
      subst hc
      simp only [ManagerCall.run]
      rcases Disconnect_state heap m with ⟨_, h⟩ | ⟨h1, _, _⟩
      · exact h
      · rw [hs] at h1
        exact absurd h1 (by simp)
    · intro hrej hlen
      cases c with
      | connect =>
        simp only [ManagerCall.run] at hrej ⊢
        rcases Connect_state cn heap m with h | ⟨_, _, h3⟩
        · exact h
        · rw [h3, i32_small _ hlen] at hrej
          simp only [Outcome.rejected, decide_eq_true_eq] at hrej
          omega
      | disconnect =>
        simp only [ManagerCall.run] at hrej ⊢
        rcases Disconnect_state heap m with ⟨h, _⟩ | ⟨_, _, h3⟩
        · exact h
        · rw [h3] at hrej
          simp [Outcome.rejected] at hrej
      | startScanning period_us fmt =>
        simp only [ManagerCall.run] at hrej ⊢
        rcases (StartScanning_state net heap m period_us fmt).1 with ⟨h, _⟩ | ⟨_, _, h3⟩
        · exact h
        · rw [h3] at hrej
          simp [Outcome.rejected] at hrej
      | stopScanning =>
        simp only [ManagerCall.run] at hrej ⊢
        rcases StopScanning_state net heap m with ⟨_, _, h3⟩ | ⟨_, h, _⟩
        · rw [h3] at hrej
          simp [Outcome.rejected] at hrej
        · exact h

/-! ### Connecting the heads -/

/-- C20 (counterexample): Connect on a Disconnected coordinator without heads returns 0,
which equals the number of created heads, and the coordinator stays Disconnected. -/
theorem C20_connect_without_heads :
    managerEmpty.m_state = SystemState.Disconnected ∧
    managerEmpty.m_serial_to_scan_head.length = 0 ∧
    (ScanManager.Connect connectNetworkOk heapOneHead managerEmpty).2.2 = Outcome.returned 0 ∧
    (ScanManager.Connect connectNetworkOk heapOneHead managerEmpty).2.1.m_state =
      SystemState.Disconnected := by
  decide

theorem GetStatusMessage_frame (h : ScanHead) (reply : Option Nat) :
    (h.GetStatusMessage reply).1.m_serial_number = h.m_serial_number ∧
    (h.GetStatusMessage reply).1.IsConnected = h.IsConnected ∧
    ((h.GetStatusMessage reply).2 = 0 ↔ (h.IsConnected = true ∧ reply.isSome = true)) := by
  unfold ScanHead.GetStatusMessage
  cases hc : h.IsConnected <;> cases reply <;>
    simp [hc, ScanHead.IsConnected, JS_ERROR_NOT_CONNECTED, JS_ERROR_INTERNAL] <;>
    simpa [ScanHead.IsConnected] using hc

theorem Connect_some (h : ScanHead) (fd dfd tcp : Int) (reply : Option Nat) :
    h.Connect (some fd) (some dfd) tcp reply =
      if tcp ≠ 0 then ({ h with m_control_tcp_fd := fd }, Outcome.returned tcp)
      else
        ((ScanHead.GetStatusMessage { h with m_control_tcp_fd := fd } reply).1,
          Outcome.returned (ScanHead.GetStatusMessage { h with m_control_tcp_fd := fd } reply).2) :=
  rfl

theorem GetStatusMessage_code (h h' : ScanHead) (reply : Option Nat)
    (hfd : h'.m_control_tcp_fd = h.m_control_tcp_fd) :
    (h'.GetStatusMessage reply).2 = (h.GetStatusMessage reply).2 := by
  unfold ScanHead.GetStatusMessage ScanHead.IsConnected
  rw [hfd]
  cases reply <;> split <;> rfl

theorem Connect_frame (h : ScanHead) (control data : Option Int) (tcp : Int)
    (reply : Option Nat) :
    (h.Connect control data tcp reply).1.m_serial_number = h.m_serial_number ∧
    ((h.Connect control data tcp reply).2 = Outcome.returned 0 →
      (h.Connect control data tcp reply).1.IsConnected = true) ∧
    (control.isSome = true → data.isSome = true →
      (h.Connect control data tcp reply).2 ≠ Outcome.thrown) ∧
    ∀ h' : ScanHead, (h'.Connect control data tcp reply).2 =
      (h.Connect control data tcp reply).2 := by
  cases control with
  | none => simp [ScanHead.Connect]
  | some fd =>
    cases data with
    | none => simp [ScanHead.Connect]
    | some dfd =>
      by_cases ht : tcp ≠ 0
      · refine ⟨?_, ?_, ?_, ?_⟩
        · rw [Connect_some, if_pos ht]
        · rw [Connect_some, if_pos ht]
          intro h0
          simp only [Outcome.returned.injEq] at h0
          exact absurd h0 ht
        · rw [Connect_some, if_pos ht]
          intro _ _
          simp
        · intro h'
          rw [Connect_some, Connect_some, if_pos ht, if_pos ht]
      · have g1 := GetStatusMessage_frame { h with m_control_tcp_fd := fd } reply
        refine ⟨?_, ?_, ?_, ?_⟩
        · rw [Connect_some, if_neg ht]
          exact g1.1
        · rw [Connect_some, if_neg ht]
          intro h0
          simp only [Outcome.returned.injEq] at h0
          show (ScanHead.GetStatusMessage _ reply).1.IsConnected = true
          rw [g1.2.1]
          exact (g1.2.2.mp h0).1
        · rw [Connect_some, if_neg ht]
          intro _ _
          simp
        · intro h'
          rw [Connect_some, Connect_some, if_neg ht, if_neg ht]
          show Outcome.returned _ = Outcome.returned _
          rw [GetStatusMessage_code { h with m_control_tcp_fd := fd }
            { h' with m_control_tcp_fd := fd } reply rfl]

theorem mapSet_of_not_mem (l : List (Nat × Nat)) (k v : Nat) (h : k ∉ l.map Prod.fst) :
    mapSet l k v = l ++ [(k, v)] := by
  induction l with
  | nil => rfl
  | cons kv rest ih =>
    simp only [List.map_cons, List.mem_cons, not_or] at h
    unfold mapSet
    rw [if_neg (fun e => h.1 e.symm), ih h.2]
    rfl

theorem mapErase_eq_filter (l : List (Nat × Nat)) (k : Nat) (h : (l.map Prod.fst).Nodup) :
    mapErase l k = l.filter (fun kv => decide (kv.1 ≠ k)) := by
  induction l with
  | nil => rfl
  | cons kv rest ih =>
    simp only [List.map_cons, List.nodup_cons] at h
    unfold mapErase
    by_cases hk : kv.1 = k
    · rw [if_pos hk, List.filter_cons_of_neg (by simp [hk])]
      symm
      rw [List.filter_eq_self]
      intro a ha
      have : a.1 ≠ k := by
        intro e
        apply h.1
        rw [hk, ← e]
        exact List.mem_map_of_mem Prod.fst ha
      simpa using this
    · rw [if_neg hk, List.filter_cons_of_pos (by simpa using hk), ih h.2]

theorem connectHeads_spec (cn : ConnectNetwork) (ok : Nat × Nat → Bool)
    (hok : ∀ (h : ScanHead) (pair : Nat × Nat),
      (h.Connect (cn.control_socket pair.2) (cn.data_socket pair.2) (cn.send_connect pair.2)
        (cn.status_reply pair.2)).2 = Outcome.returned 0 ↔ ok pair = true) :
    ∀ (l : List (Nat × Nat)) (heap : Heap) (conn : List (Nat × Nat)),
      (∀ pair ∈ l, (cn.control_socket pair.2).isSome = true ∧
        (cn.data_socket pair.2).isSome = true) →
      (l.map Prod.fst).Nodup → (∀ pair ∈ l, pair.1 ∉ conn.map Prod.fst) →
      (ScanManager.connectHeads cn l heap conn).2.2 = false ∧
      (ScanManager.connectHeads cn l heap conn).2.1 = conn ++ l.filter ok ∧
      (∀ p, ((ScanManager.connectHeads cn l heap conn).1 p).m_serial_number =
        (heap p).m_serial_number) ∧
      (∀ p, p ∉ l.map Prod.snd → (ScanManager.connectHeads cn l heap conn).1 p = heap p) ∧
      ((∀ pair ∈ l, ok pair = true) →
        ∀ pair ∈ l, ((ScanManager.connectHeads cn l heap conn).1 pair.2).IsConnected = true) := by
  intro l
  induction l with
  | nil =>
    intro heap conn _ _ _
    refine ⟨rfl, by simp [ScanManager.connectHeads], fun _ => rfl, fun _ _ => rfl, ?_⟩
    intro _ pair hp
    exact absurd hp (List.not_mem_nil _)
  | cons pair rest ih =>
    intro heap conn hsock hnd hdis
    simp only [List.map_cons, List.nodup_cons] at hnd
    obtain ⟨hs1, hs2⟩ := hsock pair (List.mem_cons_self _ _)
    obtain ⟨f1, f2, f3, _⟩ := Connect_frame (heap pair.2) (cn.control_socket pair.2)
      (cn.data_socket pair.2) (cn.send_connect pair.2) (cn.status_reply pair.2)
    have hok1 := hok (heap pair.2) pair
    have hstore_serial : ∀ (h1 : ScanHead), h1.m_serial_number = (heap pair.2).m_serial_number →
        ∀ p, ((heap.store pair.2 h1) p).m_serial_number = (heap p).m_serial_number := by
      intro h1 he p
      unfold Heap.store
      by_cases hp : p = pair.2
      · rw [if_pos hp, he, hp]
      · rw [if_neg hp]
    have hstore_other : ∀ (h1 : ScanHead) p, p ≠ pair.2 → (heap.store pair.2 h1) p = heap p := by
      intro h1 p hp
      unfold Heap.store
      rw [if_neg hp]
    unfold ScanManager.connectHeads
    split
    · rename_i h1 heq
      exact absurd (congrArg Prod.snd heq) (f3 hs1 hs2)
    · rename_i h1 r heq
      have hfst : h1 = ((heap pair.2).Connect (cn.control_socket pair.2) (cn.data_socket pair.2)
          (cn.send_connect pair.2) (cn.status_reply pair.2)).1 := (congrArg Prod.fst heq).symm
      have hsnd : ((heap pair.2).Connect (cn.control_socket pair.2) (cn.data_socket pair.2)
          (cn.send_connect pair.2) (cn.status_reply pair.2)).2 = Outcome.returned r :=
        congrArg Prod.snd heq
      have hser1 : h1.m_serial_number = (heap pair.2).m_serial_number := by rw [hfst]; exact f1
      by_cases hr : 0 ≠ r
      · rw [if_pos hr]
        have hokf : ok pair = false := by
          cases hb : ok pair with
          | false => rfl
          | true =>
            have := hok1.mpr hb
            rw [hsnd] at this
            simp only [Outcome.returned.injEq] at this
            exact absurd this.symm hr
        obtain ⟨a1, a2, a3, a4, a5⟩ := ih (heap.store pair.2 h1) conn
          (fun q hq => hsock q (List.mem_cons_of_mem _ hq)) hnd.2
          (fun q hq => hdis q (List.mem_cons_of_mem _ hq))
        refine ⟨a1, ?_, ?_, ?_, ?_⟩
        · rw [a2, List.filter_cons_of_neg (by simp [hokf])]
        · intro p
          rw [a3 p, hstore_serial h1 hser1 p]
        · intro p hp
          simp only [List.map_cons, List.mem_cons, not_or] at hp
          rw [a4 p hp.2, hstore_other h1 p hp.1]
        · intro hall
          have := hall pair (List.mem_cons_self _ _)
          rw [hokf] at this
          exact absurd this (by simp)
      · rw [if_neg hr]
        have hr0 : r = 0 := by
          by_contra hne
          exact hr (fun e => hne e.symm)
        have hokt : ok pair = true := hok1.mp (by rw [hsnd, hr0])
        have hconn1 : mapSet conn pair.1 pair.2 = conn ++ [pair] :=
          mapSet_of_not_mem conn pair.1 pair.2 (hdis pair (List.mem_cons_self _ _))
        obtain ⟨a1, a2, a3, a4, a5⟩ := ih (heap.store pair.2 h1) (mapSet conn pair.1 pair.2)
          (fun q hq => hsock q (List.mem_cons_of_mem _ hq)) hnd.2
          (by
            intro q hq
            rw [hconn1, List.map_append, List.mem_append]
            rintro (h | h)
            · exact hdis q (List.mem_cons_of_mem _ hq) h
            · simp only [List.map_cons, List.map_nil, List.mem_singleton] at h
              apply hnd.1
              rw [← h]
              exact List.mem_map_of_mem Prod.fst hq)
        refine ⟨a1, ?_, ?_, ?_, ?_⟩
        · rw [a2, hconn1, List.filter_cons_of_pos hokt, List.append_assoc]
          rfl
        · intro p
          rw [a3 p, hstore_serial h1 hser1 p]
        · intro p hp
          simp only [List.map_cons, List.mem_cons, not_or] at hp
          rw [a4 p hp.2, hstore_other h1 p hp.1]
        · intro hall q hq
          rcases List.mem_cons.mp hq with rfl | hq'
          · by_cases hin : q.2 ∈ rest.map Prod.snd
            · obtain ⟨q', hq', he⟩ := List.mem_map.mp hin
              have := a5 (fun x hx => hall x (List.mem_cons_of_mem _ hx)) q' hq'
              rw [he] at this
              exact this
            · rw [a4 q.2 hin]
              unfold Heap.store
              rw [if_pos rfl, hfst]
              exact f2 (by rw [hsnd, hr0])
          · exact a5 (fun x hx => hall x (List.mem_cons_of_mem _ hx)) q hq'

theorem refreshConnected_spec (cn : ConnectNetwork) :
    ∀ (l : List (Nat × Nat)) (heap : Heap) (conn : List (Nat × Nat)),
      (∀ pair ∈ l, (heap pair.2).IsConnected = true) →
      (∀ pair ∈ l, (heap pair.2).m_serial_number = pair.1) →
      (conn.map Prod.fst).Nodup →
      (ScanManager.refreshConnected cn l heap conn).2 =
        conn.filter (fun kv => l.all
          (fun pair => decide (kv.1 ≠ pair.1) || (cn.status_refresh pair.2).isSome)) := by
  intro l
  induction l with
  | nil =>
    intro heap conn _ _ _
    simp [ScanManager.refreshConnected]
  | cons pair rest ih =>
    intro heap conn hcon hser hnd
    obtain ⟨g1, g2, g3⟩ := GetStatusMessage_frame (heap pair.2) (cn.status_refresh pair.2)
    have hc0 := hcon pair (List.mem_cons_self _ _)
    have hs0 := hser pair (List.mem_cons_self _ _)
    have hcon1 : ∀ q ∈ rest, ((heap.store pair.2
        ((heap pair.2).GetStatusMessage (cn.status_refresh pair.2)).1) q.2).IsConnected = true := by
      intro q hq
      unfold Heap.store
      by_cases hp : q.2 = pair.2
      · rw [if_pos hp, g2]
        exact hc0
      · rw [if_neg hp]
        exact hcon q (List.mem_cons_of_mem _ hq)
    have hser1 : ∀ q ∈ rest, ((heap.store pair.2
        ((heap pair.2).GetStatusMessage (cn.status_refresh pair.2)).1) q.2).m_serial_number =
        q.1 := by
      intro q hq
      unfold Heap.store
      by_cases hp : q.2 = pair.2
      · rw [if_pos hp, g1, ← hp]
        exact hser q (List.mem_cons_of_mem _ hq)
      · rw [if_neg hp]
        exact hser q (List.mem_cons_of_mem _ hq)
    unfold ScanManager.refreshConnected
    by_cases hfail : 0 ≠ ((heap pair.2).GetStatusMessage (cn.status_refresh pair.2)).2
    · rw [if_pos hfail, hs0, mapErase_eq_filter conn pair.1 hnd]
      have hnone : (cn.status_refresh pair.2).isSome = false := by
        cases hb : (cn.status_refresh pair.2).isSome with
        | false => rfl
        | true => exact absurd (g3.mpr ⟨hc0, hb⟩).symm hfail
      rw [ih _ _ hcon1 hser1 (List.Nodup.sublist ((List.filter_sublist conn).map Prod.fst) hnd),
        List.filter_filter]
      apply List.filter_congr
      intro kv _
      simp only [List.all_cons, hnone, Bool.or_false, Bool.and_comm]
    · rw [if_neg hfail]
      have hcode : ((heap pair.2).GetStatusMessage (cn.status_refresh pair.2)).2 = 0 := by
        by_contra hne
        exact hfail (fun e => hne e.symm)
      have hsome : (cn.status_refresh pair.2).isSome = true := (g3.mp hcode).2
      rw [ih _ _ hcon1 hser1 hnd]
      apply List.filter_congr
      intro kv _
      simp only [List.all_cons, hsome, Bool.or_true, Bool.true_and]

/-- C20 (amended): Connect on a Disconnected coordinator that has at least one head (fewer
than 2^31, registered under distinct serials, each head carrying the serial it is
registered under) and whose sockets all open (otherwise InitTCPSocket throws and Connect
does not return) returns a count c: the number of heads whose ScanHead::Connect returned
0 or, when that is every head, the number of heads that also answered the status request
sent after the windows. c is at most the number of heads, the coordinator is Connected
afterwards exactly when c equals the number of heads, and it stays Disconnected whenever c
is smaller. -/
theorem C20_connect_count (cn : ConnectNetwork) (heap : Heap) (m : ScanManager)
    (hstate : m.m_state = SystemState.Disconnected)
    (hne : m.m_serial_to_scan_head ≠ [])
    (hlen : m.m_serial_to_scan_head.length < 2147483648)
    (hkeys : (m.m_serial_to_scan_head.map Prod.fst).Nodup)
    (hser : ∀ pair ∈ m.m_serial_to_scan_head, (heap pair.2).m_serial_number = pair.1)
    (hsock : ∀ pair ∈ m.m_serial_to_scan_head, (cn.control_socket pair.2).isSome = true ∧
      (cn.data_socket pair.2).isSome = true) :
    ∃ c : Nat,
      (ScanManager.Connect cn heap m).2.2 = Outcome.returned (c : Int) ∧
      c = (if (m.m_serial_to_scan_head.filter (fun pair => decide
              (((heap pair.2).Connect (cn.control_socket pair.2) (cn.data_socket pair.2)
                (cn.send_connect pair.2) (cn.status_reply pair.2)).2 =
                  Outcome.returned 0))).length = m.m_serial_to_scan_head.length then
            (m.m_serial_to_scan_head.filter
              (fun pair => (cn.status_refresh pair.2).isSome)).length
          else
            (m.m_serial_to_scan_head.filter (fun pair => decide
              (((heap pair.2).Connect (cn.control_socket pair.2) (cn.data_socket pair.2)
                (cn.send_connect pair.2) (cn.status_reply pair.2)).2 =
                  Outcome.returned 0))).length) ∧
      c ≤ m.m_serial_to_scan_head.length ∧
      ((ScanManager.Connect cn heap m).2.1.m_state = SystemState.Connected ↔
        c = m.m_serial_to_scan_head.length) ∧
      (c < m.m_serial_to_scan_head.length →
        (ScanManager.Connect cn heap m).2.1.m_state = SystemState.Disconnected) := by
  have hok : ∀ (h : ScanHead) (pair : Nat × Nat),
      (h.Connect (cn.control_socket pair.2) (cn.data_socket pair.2) (cn.send_connect pair.2)
        (cn.status_reply pair.2)).2 = Outcome.returned 0 ↔
      (fun pair : Nat × Nat => decide
        (((heap pair.2).Connect (cn.control_socket pair.2) (cn.data_socket pair.2)
          (cn.send_connect pair.2) (cn.status_reply pair.2)).2 = Outcome.returned 0)) pair =
        true := by
    intro h pair
    simp only [decide_eq_true_eq]
    rw [(Connect_frame (heap pair.2) (cn.control_socket pair.2) (cn.data_socket pair.2)
      (cn.send_connect pair.2) (cn.status_reply pair.2)).2.2.2 h]
  obtain ⟨a1, a2, a3, _, a5⟩ := connectHeads_spec cn _ hok m.m_serial_to_scan_head heap []
    hsock hkeys (fun _ _ h => absurd h (List.not_mem_nil _))
  rw [List.nil_append] at a2
  have hscan : m.IsScanning = false := by simp [ScanManager.IsScanning, hstate]
  have hconn : m.IsConnected = false := by simp [ScanManager.IsConnected, hstate]
  have hemp : m.m_serial_to_scan_head.isEmpty = false := by
    cases hl : m.m_serial_to_scan_head with
    | nil => exact absurd hl hne
    | cons _ _ => rfl
  unfold ScanManager.Connect
  simp only [hscan, hconn, hemp, a1, Bool.false_eq_true, if_false]
  rw [a2]
  by_cases hall : (m.m_serial_to_scan_head.filter (fun pair => decide
      (((heap pair.2).Connect (cn.control_socket pair.2) (cn.data_socket pair.2)
        (cn.send_connect pair.2) (cn.status_reply pair.2)).2 =
          Outcome.returned 0))).length = m.m_serial_to_scan_head.length
  · rw [if_pos hall, if_pos hall]
    have hallok := List.filter_length_eq_length.mp hall
    have hfeq := List.filter_eq_self.mpr hallok
    have hrefresh := refreshConnected_spec cn m.m_serial_to_scan_head
      (ScanManager.connectHeads cn m.m_serial_to_scan_head heap []).1
      m.m_serial_to_scan_head (a5 hallok)
      (fun pair hp => by rw [a3 pair.2]; exact hser pair hp) hkeys
    have hfilter : m.m_serial_to_scan_head.filter (fun kv => m.m_serial_to_scan_head.all
        (fun pair => decide (kv.1 ≠ pair.1) || (cn.status_refresh pair.2).isSome)) =
        m.m_serial_to_scan_head.filter (fun pair => (cn.status_refresh pair.2).isSome) := by
      apply List.filter_congr
      intro kv hkv
      cases hb : (cn.status_refresh kv.2).isSome with
      | true =>
        rw [List.all_eq_true]
        intro pair hp
        by_cases he : kv.1 = pair.1
        · have hpe : pair = kv := by
            have := List.inj_on_of_nodup_map hkeys hp hkv he.symm
            exact this
          rw [hpe, hb]
          simp
        · simp [he]
      | false =>
        cases hall2 : m.m_serial_to_scan_head.all
            (fun pair => decide (kv.1 ≠ pair.1) || (cn.status_refresh pair.2).isSome) with
        | false => rfl
        | true =>
          have := List.all_eq_true.mp hall2 kv hkv
          simp [hb] at this
    rw [hfeq, hrefresh, hfilter]
    have hle := List.length_filter_le (fun pair : Nat × Nat => (cn.status_refresh pair.2).isSome)
      m.m_serial_to_scan_head
    refine ⟨_, ?_, rfl, hle, ?_, ?_⟩
    · split
      · exact congrArg Outcome.returned (i32_small _ (by omega))
      · exact congrArg Outcome.returned (i32_small _ (by omega))
    · split
      · rename_i heq
        exact ⟨fun _ => heq, fun _ => rfl⟩
      · rename_i hneq
        constructor
        · intro hc
          rw [hstate] at hc
          exact absurd hc (by simp)
        · intro hc
          exact absurd hc hneq
    · intro hlt
      rw [if_neg (by omega)]
      exact hstate
  · rw [if_neg hall, if_neg hall]
    have hle := List.length_filter_le (fun pair : Nat × Nat => decide
      (((heap pair.2).Connect (cn.control_socket pair.2) (cn.data_socket pair.2)
        (cn.send_connect pair.2) (cn.status_reply pair.2)).2 = Outcome.returned 0))
      m.m_serial_to_scan_head
    refine ⟨_, congrArg Outcome.returned (i32_small _ (by omega)), rfl, hle, ?_, fun _ => hstate⟩
    constructor
    · intro hc
      rw [hstate] at hc
      exact absurd hc (by simp)
    · intro hc
      exact absurd hc hall

/-- C20 (witness): the coordinator with head 1, Disconnected, on a network on which the
head connects; the count is 1 and the coordinator becomes Connected. On a network on which
the head connects but does not answer the status request that follows the windows the
count is 0 and the coordinator stays Disconnected. -/
theorem C20_connect_count_witness :
    ((ScanManager.Connect connectNetworkOk heapOneHead managerDisconnected).2.2 =
        Outcome.returned 1 ∧
      (ScanManager.Connect connectNetworkOk heapOneHead managerDisconnected).2.1.m_state =
        SystemState.Connected ∧
      (ScanManager.Connect connectNetworkNoRefresh heapOneHead managerDisconnected).2.2 =
        Outcome.returned 0 ∧
      (ScanManager.Connect connectNetworkNoRefresh heapOneHead managerDisconnected).2.1.m_state =
        SystemState.Disconnected) ∧
    ∃ c : Nat,
      (ScanManager.Connect connectNetworkOk heapOneHead managerDisconnected).2.2 =
        Outcome.returned (c : Int) ∧
      c = (if (managerDisconnected.m_serial_to_scan_head.filter (fun pair => decide
              (((heapOneHead pair.2).Connect (connectNetworkOk.control_socket pair.2)
                (connectNetworkOk.data_socket pair.2) (connectNetworkOk.send_connect pair.2)
                (connectNetworkOk.status_reply pair.2)).2 =
                  Outcome.returned 0))).length =
              managerDisconnected.m_serial_to_scan_head.length then
            (managerDisconnected.m_serial_to_scan_head.filter
              (fun pair => (connectNetworkOk.status_refresh pair.2).isSome)).length
          else
            (managerDisconnected.m_serial_to_scan_head.filter (fun pair => decide
              (((heapOneHead pair.2).Connect (connectNetworkOk.control_socket pair.2)
                (connectNetworkOk.data_socket pair.2) (connectNetworkOk.send_connect pair.2)
                (connectNetworkOk.status_reply pair.2)).2 =
                  Outcome.returned 0))).length) ∧
      c ≤ managerDisconnected.m_serial_to_scan_head.length ∧
      ((ScanManager.Connect connectNetworkOk heapOneHead managerDisconnected).2.1.m_state =
          SystemState.Connected ↔
        c = managerDisconnected.m_serial_to_scan_head.length) ∧
      (c < managerDisconnected.m_serial_to_scan_head.length →
        (ScanManager.Connect connectNetworkOk heapOneHead managerDisconnected).2.1.m_state =
          SystemState.Disconnected) :=
  ⟨by decide,
    C20_connect_count connectNetworkOk heapOneHead managerDisconnected (by decide) (by decide)
      (by decide) (by decide) (by decide) (by decide)⟩

/-! ### Partial connect -/

/-- C21 (evaluation at the failing input): a Disconnected coordinator with the heads 1 and
2, neither connected; both sockets of both heads open, head 1 connects, and the connect
message of head 2 cannot be sent, so that ScanHead::Connect of head 2 returns
JS_ERROR_INTERNAL. Connect returns the count 1 and the coordinator stays Disconnected, yet
IsConnected() is true for head 2 as it is for head 1: the descriptor stored before the
send is kept. -/
theorem C21_failed_head_reports_connected :
    (heapUnconnected 1).IsConnected = false ∧ (heapUnconnected 2).IsConnected = false ∧
    ((heapUnconnected 2).Connect (connectNetworkSecondFails.control_socket 2)
      (connectNetworkSecondFails.data_socket 2) (connectNetworkSecondFails.send_connect 2)
      (connectNetworkSecondFails.status_reply 2)).2 = Outcome.returned JS_ERROR_INTERNAL ∧
    (ScanManager.Connect connectNetworkSecondFails heapUnconnected managerTwoHeads).2.2 =
      Outcome.returned 1 ∧
    (ScanManager.Connect connectNetworkSecondFails heapUnconnected managerTwoHeads).2.1.m_state =
      SystemState.Disconnected ∧
    ((ScanManager.Connect connectNetworkSecondFails heapUnconnected managerTwoHeads).1
      1).IsConnected = true ∧
    ((ScanManager.Connect connectNetworkSecondFails heapUnconnected managerTwoHeads).1
      2).IsConnected = true := by
  decide

/-! ### Scanning flags of the heads -/

/-- C29 (evaluation at the failing input): the connected one-head coordinator starts
scanning (StartScanning returns 0, state Scanning, the head has m_is_scanning set); then
StopScanning is called while the scan stop message of the head cannot be sent.
StopScanning returns 0 and the state is Connected, but the head still has m_is_scanning
set, and SetConfiguration on it returns JS_ERROR_SCANNING. Likewise, when StartScanning on
a connected two-head coordinator fails at the start message of head 2, it returns
JS_ERROR_INTERNAL and the state stays Connected while head 1 has m_is_scanning set. -/
theorem C29_head_scanning_while_state_connected :
    (ScanManager.StartScanning networkOk heapOneHead managerOneHead 1500
      jsDataFormat.JS_DATA_FORMAT_XY_BRIGHTNESS_FULL).2.2 = 0 ∧
    (ScanManager.StartScanning networkOk heapOneHead managerOneHead 1500
      jsDataFormat.JS_DATA_FORMAT_XY_BRIGHTNESS_FULL).2.1.m_state = SystemState.Scanning ∧
    (ScanManager.StopScanning networkStopFails
      (ScanManager.StartScanning networkOk heapOneHead managerOneHead 1500
        jsDataFormat.JS_DATA_FORMAT_XY_BRIGHTNESS_FULL).1
      (ScanManager.StartScanning networkOk heapOneHead managerOneHead 1500
        jsDataFormat.JS_DATA_FORMAT_XY_BRIGHTNESS_FULL).2.1).2.2 = 0 ∧
    (ScanManager.StopScanning networkStopFails
      (ScanManager.StartScanning networkOk heapOneHead managerOneHead 1500
        jsDataFormat.JS_DATA_FORMAT_XY_BRIGHTNESS_FULL).1
      (ScanManager.StartScanning networkOk heapOneHead managerOneHead 1500
        jsDataFormat.JS_DATA_FORMAT_XY_BRIGHTNESS_FULL).2.1).2.1.m_state =
      SystemState.Connected ∧
    ((ScanManager.StopScanning networkStopFails
      (ScanManager.StartScanning networkOk heapOneHead managerOneHead 1500
        jsDataFormat.JS_DATA_FORMAT_XY_BRIGHTNESS_FULL).1
      (ScanManager.StartScanning networkOk heapOneHead managerOneHead 1500
        jsDataFormat.JS_DATA_FORMAT_XY_BRIGHTNESS_FULL).2.1).1 1).m_is_scanning = true ∧
    (((ScanManager.StopScanning networkStopFails
      (ScanManager.StartScanning networkOk heapOneHead managerOneHead 1500
        jsDataFormat.JS_DATA_FORMAT_XY_BRIGHTNESS_FULL).1
      (ScanManager.StartScanning networkOk heapOneHead managerOneHead 1500
        jsDataFormat.JS_DATA_FORMAT_XY_BRIGHTNESS_FULL).2.1).1 1).SetConfiguration
      defaultConfiguration).2 = JS_ERROR_SCANNING ∧
    (ScanManager.StartScanning networkSecondStartFails heapTwoHeads
      { managerTwoHeads with m_state := SystemState.Connected } 3000
      jsDataFormat.JS_DATA_FORMAT_XY_BRIGHTNESS_FULL).2.2 = JS_ERROR_INTERNAL ∧
    (ScanManager.StartScanning networkSecondStartFails heapTwoHeads
      { managerTwoHeads with m_state := SystemState.Connected } 3000
      jsDataFormat.JS_DATA_FORMAT_XY_BRIGHTNESS_FULL).2.1.m_state = SystemState.Connected ∧
    ((ScanManager.StartScanning networkSecondStartFails heapTwoHeads
      { managerTwoHeads with m_state := SystemState.Connected } 3000
      jsDataFormat.JS_DATA_FORMAT_XY_BRIGHTNESS_FULL).1 1).m_is_scanning = true := by
  decide

/-! ### Distribution of the values over the datagrams -/

theorem numVals_eq (hdr : DatagramHeader) (step : Nat)
    (hNs : hdr.number_datagrams * step < 4294967296)
    (hcols : hdr.start_column ≤ hdr.end_column) (hec : hdr.end_column < 65536) :
    numVals hdr step =
      if hdr.datagram_position <
          (hdr.end_column - hdr.start_column + 1) / step % hdr.number_datagrams then
        (hdr.end_column - hdr.start_column + 1) / step / hdr.number_datagrams + 1
      else (hdr.end_column - hdr.start_column + 1) / step / hdr.number_datagrams := by
  have hC : u32 ((hdr.end_column : Int) - (hdr.start_column : Int) + 1) =
      hdr.end_column - hdr.start_column + 1 := by
    unfold u32
    omega
  have hD : u32 (Int.tdiv ((hdr.end_column : Int) - (hdr.start_column : Int) + 1) (step : Int)) =
      (hdr.end_column - hdr.start_column + 1) / step := by
    have e : (hdr.end_column : Int) - (hdr.start_column : Int) + 1 =
        ((hdr.end_column - hdr.start_column + 1 : Nat) : Int) := by omega
    rw [e, Int.tdiv_eq_ediv (Int.natCast_nonneg _) (Int.natCast_nonneg _), ← Int.natCast_div]
    have hlt : (hdr.end_column - hdr.start_column + 1) / step < 4294967296 :=
      Nat.lt_of_le_of_lt (Nat.div_le_self _ _) (by omega)
    generalize (hdr.end_column - hdr.start_column + 1) / step = q at hlt ⊢
    unfold u32
    omega
  unfold numVals
  rw [hC, hD, Nat.mod_eq_of_lt hNs, Nat.mul_comm hdr.number_datagrams step,
    ← Nat.div_div_eq_div_mul]
  have hq : (hdr.end_column - hdr.start_column + 1) / step / hdr.number_datagrams + 1 <
      4294967296 := by
    have h1 := Nat.div_le_self ((hdr.end_column - hdr.start_column + 1) / step)
      hdr.number_datagrams
    have h2 := Nat.div_le_self (hdr.end_column - hdr.start_column + 1) step
    omega
  rw [Nat.mod_eq_of_lt hq]

theorem sum_range_remainder (q r : Nat) :
    ∀ n : Nat, ((List.range n).map (fun k => if k < r then q + 1 else q)).sum =
      n * q + min n r := by
  intro n
  induction n with
  | zero => simp
  | succ n ih =>
    rw [List.range_succ, List.map_append, List.sum_append, ih]
    simp only [List.map_cons, List.map_nil, List.sum_cons, List.sum_nil, Nat.add_zero]
    have e : (n + 1) * q = n * q + q := Nat.succ_mul n q
    split <;> omega

/-- C27: for a header with number_datagrams N >= 1, a step s >= 1 with N * s below 2^32
and start_column <= end_column (16-bit columns), the value counts that the constructor of
DataPacket computes for the datagram positions k = 0..N-1 are non-increasing in k, any two
of them differ by at most 1, and they sum to floor(num_cols / s), where
num_cols = end_column - start_column + 1. -/
theorem C27_num_vals_distribution (hdr : DatagramHeader) (step : Nat)
    (hN : 1 ≤ hdr.number_datagrams) (_hstep : 1 ≤ step)
    (hNs : hdr.number_datagrams * step < 4294967296)
    (hcols : hdr.start_column ≤ hdr.end_column) (hec : hdr.end_column < 65536) :
    (∀ j k : Nat, j ≤ k → k < hdr.number_datagrams →
      numVals { hdr with datagram_position := k } step ≤
        numVals { hdr with datagram_position := j } step) ∧
    (∀ j k : Nat, j < hdr.number_datagrams → k < hdr.number_datagrams →
      numVals { hdr with datagram_position := k } step ≤
        numVals { hdr with datagram_position := j } step + 1) ∧
    ((List.range hdr.number_datagrams).map
      (fun k => numVals { hdr with datagram_position := k } step)).sum =
      (hdr.end_column - hdr.start_column + 1) / step := by
  have hnv : ∀ k : Nat, numVals { hdr with datagram_position := k } step =
      if k < (hdr.end_column - hdr.start_column + 1) / step % hdr.number_datagrams then
        (hdr.end_column - hdr.start_column + 1) / step / hdr.number_datagrams + 1
      else (hdr.end_column - hdr.start_column + 1) / step / hdr.number_datagrams :=
    fun k => numVals_eq { hdr with datagram_position := k } step hNs hcols hec
  refine ⟨?_, ?_, ?_⟩
  · intro j k hjk _
    rw [hnv j, hnv k]
    split <;> split <;> omega
  · intro j k _ _
    rw [hnv j, hnv k]
    split <;> split <;> omega
  · have hfun : (fun k => numVals { hdr with datagram_position := k } step) =
        (fun k => if k < (hdr.end_column - hdr.start_column + 1) / step % hdr.number_datagrams
          then (hdr.end_column - hdr.start_column + 1) / step / hdr.number_datagrams + 1
          else (hdr.end_column - hdr.start_column + 1) / step / hdr.number_datagrams) :=
      funext hnv
    rw [hfun, sum_range_remainder]
    have hr : (hdr.end_column - hdr.start_column + 1) / step % hdr.number_datagrams <
        hdr.number_datagrams := Nat.mod_lt _ hN
    have hdm := Nat.div_add_mod ((hdr.end_column - hdr.start_column + 1) / step)
      hdr.number_datagrams
    rw [Nat.min_eq_right (Nat.le_of_lt hr)]
    omega

/-- C27 (witness): four datagrams with step 1 for the columns 0 to 1455 carry 364 values
each, which sum to 1456. -/
theorem C27_num_vals_distribution_witness :
    ((List.range 4).map (fun k => numVals (fullWidthHeader k) 1) = [364, 364, 364, 364]) ∧
    ((∀ j k : Nat, j ≤ k → k < (fullWidthHeader 0).number_datagrams →
      numVals { fullWidthHeader 0 with datagram_position := k } 1 ≤
        numVals { fullWidthHeader 0 with datagram_position := j } 1) ∧
    (∀ j k : Nat, j < (fullWidthHeader 0).number_datagrams →
      k < (fullWidthHeader 0).number_datagrams →
      numVals { fullWidthHeader 0 with datagram_position := k } 1 ≤
        numVals { fullWidthHeader 0 with datagram_position := j } 1 + 1) ∧
    ((List.range (fullWidthHeader 0).number_datagrams).map
      (fun k => numVals { fullWidthHeader 0 with datagram_position := k } 1)).sum =
      ((fullWidthHeader 0).end_column - (fullWidthHeader 0).start_column + 1) / 1) :=
  ⟨by decide,
    C27_num_vals_distribution (fullWidthHeader 0) 1 (by decide) (by decide) (by decide)
      (by decide) (by decide)⟩

/-! ### The slots written by the datagrams of one profile -/

/-- C28 (counterexample): two datagrams, positions 0 and 1, of head 1 that announce
number_datagrams = 2147483649 for the columns 0 to 3 with step 2, so that
number_datagrams * step wraps to 2 in 32 bits. The constructor of DataPacket computes
num_vals = 3 for each of them; ProcessProfile writes the slots 0, 2, 4 for position 0 and
2, 4, 6 for position 1: slots 4 and 6 lie beyond end_column = 3, and the slots 2 and 4 are
written by both datagrams (six points are counted, four slots are filled). -/
theorem C28_increment_wraps :
    (wrapHeader 0).start_column ≤ (wrapHeader 0).end_column ∧
    (wrapHeader 0).end_column ≤ 1455 ∧
    (wrapHeader 1).datagram_position < (wrapHeader 1).number_datagrams ∧
    (DataPacket.parse (wrapDatagram 0 [(1, 1, 11), (2, 2, 12), (3, 3, 13)])).map
      (fun p => (decide (p.m_hdr = wrapHeader 0), (p.GetFragmentLayout 2).step,
        (p.GetFragmentLayout 2).num_vals)) = some (true, 2, 3) ∧
    (DataPacket.parse (wrapDatagram 1 [(4, 4, 21), (5, 5, 22), (6, 6, 23)])).map
      (fun p => (decide (p.m_hdr = wrapHeader 1), (p.GetFragmentLayout 2).step,
        (p.GetFragmentLayout 2).num_vals)) = some (true, 2, 3) ∧
    numVals (wrapHeader 0) 2 = 3 ∧ numVals (wrapHeader 1) 2 = 3 ∧
    (List.range 3).map (placementIndex (wrapHeader 0) 2) = [0, 2, 4] ∧
    (List.range 3).map (placementIndex (wrapHeader 1) 2) = [2, 4, 6] ∧
    (processDatagrams (exampleHead 1 1000 1500) identityAlignment
      [wrapDatagram 0 [(1, 1, 11), (2, 2, 12), (3, 3, 13)],
       wrapDatagram 1 [(4, 4, 21), (5, 5, 22), (6, 6, 23)]] receiverStart).map
      (fun r => r.m_profile.map
        (fun P => ((P.data.take 8).map (fun d => d.brightness), P.data_valid_xy))) =
    some (some ([11, 0, 21, 0, 22, 0, 23, 0], 6)) := by
  decide

theorem placementIndex_eq (hdr : DatagramHeader) (step : Nat) :
    ∀ j : Nat,
      hdr.start_column + hdr.datagram_position * step +
        j * (hdr.number_datagrams * step) < 4294967296 →
      placementIndex hdr step j =
        hdr.start_column + hdr.datagram_position * step + j * (hdr.number_datagrams * step) := by
  intro j
  induction j with
  | zero =>
    intro h
    unfold placementIndex
    rw [Nat.zero_mul, Nat.add_zero] at h ⊢
    rw [Nat.mod_eq_of_lt (show hdr.datagram_position * step < 4294967296 by omega),
      Nat.mod_eq_of_lt h]
  | succ j ih =>
    intro h
    have e : (j + 1) * (hdr.number_datagrams * step) =
        j * (hdr.number_datagrams * step) + hdr.number_datagrams * step := Nat.succ_mul _ _
    unfold placementIndex
    rw [ih (by omega), e, Nat.mod_eq_of_lt (by omega), Nat.mod_eq_of_lt (by omega)]
    omega

/-- C28 (amended): for a header with number_datagrams N >= 1, a step s >= 1 with N * s
below 2^32 and start_column <= end_column <= 1455, and every position k < N: the slot
index of round j < num_vals(k) of the placement loop of ProcessProfile is
start_column + k*s + j*N*s, it lies in [start_column, end_column] and below the capacity
1456, and the indices of different pairs (k, j) are different. -/
theorem C28_placement_indices (hdr : DatagramHeader) (step : Nat)
    (hN : 1 ≤ hdr.number_datagrams) (hstep : 1 ≤ step)
    (hNs : hdr.number_datagrams * step < 4294967296)
    (hcols : hdr.start_column ≤ hdr.end_column ∧ hdr.end_column ≤ 1455) :
    (∀ k j : Nat, k < hdr.number_datagrams →
      j < numVals { hdr with datagram_position := k } step →
      placementIndex { hdr with datagram_position := k } step j =
        hdr.start_column + k * step + j * hdr.number_datagrams * step ∧
      hdr.start_column ≤ placementIndex { hdr with datagram_position := k } step j ∧
      placementIndex { hdr with datagram_position := k } step j ≤ hdr.end_column ∧
      placementIndex { hdr with datagram_position := k } step j < JS_RAW_PROFILE_DATA_LEN) ∧
    (∀ k j k' j' : Nat, k < hdr.number_datagrams → k' < hdr.number_datagrams →
      j < numVals { hdr with datagram_position := k } step →
      j' < numVals { hdr with datagram_position := k' } step →
      placementIndex { hdr with datagram_position := k } step j =
        placementIndex { hdr with datagram_position := k' } step j' →
      k = k' ∧ j = j') := by
  have hidx : ∀ k j : Nat, k < hdr.number_datagrams →
      j < numVals { hdr with datagram_position := k } step →
      placementIndex { hdr with datagram_position := k } step j =
        hdr.start_column + (k + j * hdr.number_datagrams) * step ∧
      hdr.start_column + (k + j * hdr.number_datagrams) * step ≤ hdr.end_column := by
    intro k j hk hj
    have hle := slot_le_end_column { hdr with datagram_position := k } step hstep hNs hcols hk
      j hj
    have e : hdr.start_column + (k + j * hdr.number_datagrams) * step =
        hdr.start_column + k * step + j * (hdr.number_datagrams * step) := by
      rw [Nat.add_mul, Nat.mul_assoc, Nat.add_assoc]
    refine ⟨?_, hle⟩
    rw [e]
    apply placementIndex_eq { hdr with datagram_position := k } step j
    show hdr.start_column + k * step + j * (hdr.number_datagrams * step) < 4294967296
    rw [← e]
    exact Nat.lt_of_le_of_lt hle (show hdr.end_column < 4294967296 by omega)
  refine ⟨?_, ?_⟩
  · intro k j hk hj
    obtain ⟨h1, h2⟩ := hidx k j hk hj
    have e : hdr.start_column + (k + j * hdr.number_datagrams) * step =
        hdr.start_column + k * step + j * hdr.number_datagrams * step := by
      rw [Nat.add_mul, Nat.add_assoc]
    rw [h1]
    refine ⟨e, Nat.le_add_right _ _, h2, ?_⟩
    unfold JS_RAW_PROFILE_DATA_LEN
    omega
  · intro k j k' j' hk hk' hj hj' he
    rw [(hidx k j hk hj).1, (hidx k' j' hk' hj').1] at he
    have e2 : k + j * hdr.number_datagrams = k' + j' * hdr.number_datagrams :=
      Nat.eq_of_mul_eq_mul_right hstep (Nat.add_left_cancel he)
    have e3 : (k + j * hdr.number_datagrams) % hdr.number_datagrams = k := by
      rw [Nat.add_mul_mod_self_right, Nat.mod_eq_of_lt hk]
    have e4 : (k' + j' * hdr.number_datagrams) % hdr.number_datagrams = k' := by
      rw [Nat.add_mul_mod_self_right, Nat.mod_eq_of_lt hk']
    have e5 : k = k' := by rw [← e3, ← e4, e2]
    refine ⟨e5, ?_⟩
    rw [e5] at e2
    exact Nat.eq_of_mul_eq_mul_right hN (Nat.add_left_cancel e2)

/-- C28 (witness): four datagrams with step 1 for the columns 0 to 1455; datagram 3 writes
the value of round 2 to slot 11. -/
theorem C28_placement_indices_witness :
    placementIndex (fullWidthHeader 3) 1 2 = 11 ∧
    ((∀ k j : Nat, k < (fullWidthHeader 0).number_datagrams →
      j < numVals { fullWidthHeader 0 with datagram_position := k } 1 →
      placementIndex { fullWidthHeader 0 with datagram_position := k } 1 j =
        (fullWidthHeader 0).start_column + k * 1 +
          j * (fullWidthHeader 0).number_datagrams * 1 ∧
      (fullWidthHeader 0).start_column ≤
        placementIndex { fullWidthHeader 0 with datagram_position := k } 1 j ∧
      placementIndex { fullWidthHeader 0 with datagram_position := k } 1 j ≤
        (fullWidthHeader 0).end_column ∧
      placementIndex { fullWidthHeader 0 with datagram_position := k } 1 j <
        JS_RAW_PROFILE_DATA_LEN) ∧
    (∀ k j k' j' : Nat, k < (fullWidthHeader 0).number_datagrams →
      k' < (fullWidthHeader 0).number_datagrams →
      j < numVals { fullWidthHeader 0 with datagram_position := k } 1 →
      j' < numVals { fullWidthHeader 0 with datagram_position := k' } 1 →
      placementIndex { fullWidthHeader 0 with datagram_position := k } 1 j =
        placementIndex { fullWidthHeader 0 with datagram_position := k' } 1 j' →
      k = k' ∧ j = j')) :=
  ⟨by decide,
    C28_placement_indices (fullWidthHeader 0) 1 (by decide) (by decide) (by decide)
      (by decide)⟩

/-! ### Formats of the profiles in the ring -/

theorem placeXYBrightness_format (cm : Int → Int → Int × Int) (raw : List Nat)
    (xy_offset b_offset inc : Nat) :
    ∀ (remaining n idx : Nat) (p q : jsRawProfile),
      placeXYBrightness cm raw xy_offset b_offset inc remaining n idx p = some q →
      q.format = p.format ∧ q.data_len = p.data_len := by
  intro remaining
  induction remaining with
  | zero =>
    intro n idx p q h
    unfold placeXYBrightness at h
    injection h with h
    subst h
    exact ⟨rfl, rfl⟩
  | succ r ih =>
    intro n idx p q h
    unfold placeXYBrightness at h
    dsimp only at h
    split at h
    · split at h
      · exact absurd h (by simp)
      · rename_i p1 hins
        obtain ⟨a1, a2⟩ := ih _ _ _ _ h
        unfold jsRawProfile.InsertPointAndBrightness at hins
        split at hins
        · injection hins with hins
          subst hins
          exact ⟨a1, a2⟩
        · exact absurd hins (by simp)
    · exact ih _ _ _ _ h

theorem placeXY_format (cm : Int → Int → Int × Int) (raw : List Nat)
    (xy_offset inc : Nat) :
    ∀ (remaining n idx : Nat) (p q : jsRawProfile),
      placeXY cm raw xy_offset inc remaining n idx p = some q →
      q.format = p.format ∧ q.data_len = p.data_len := by
  intro remaining
  induction remaining with
  | zero =>
    intro n idx p q h
    unfold placeXY at h
    injection h with h
    subst h
    exact ⟨rfl, rfl⟩
  | succ r ih =>
    intro n idx p q h
    unfold placeXY at h
    dsimp only at h
    split at h
    · split at h
      · exact absurd h (by simp)
      · rename_i p1 hins
        obtain ⟨a1, a2⟩ := ih _ _ _ _ h
        unfold jsRawProfile.InsertPoint at hins
        split at hins
        · injection hins with hins
          subst hins
          exact ⟨a1, a2⟩
        · exact absurd hins (by simp)
    · exact ih _ _ _ _ h

theorem placeData_format (cm : Int → Int → Int × Int) (pk : DataPacket) (p q : jsRawProfile)
    (h : placeData cm pk p = some q) : q.format = p.format ∧ q.data_len = p.data_len := by
  unfold placeData at h
  split at h
  · exact placeXYBrightness_format _ _ _ _ _ _ _ _ _ _ h
  · split at h
    · exact placeXY_format _ _ _ _ _ _ _ _ _ h
    · injection h with h
      subst h
      exact ⟨rfl, rfl⟩

theorem mem_circPush (ring : List jsRawProfile) (p q : jsRawProfile)
    (h : q ∈ circPush ring p) : q ∈ ring ∨ q = p := by
  unfold circPush at h
  split at h
  · rcases List.mem_append.mp h with h1 | h1
    · exact Or.inl (List.mem_of_mem_drop h1)
    · exact Or.inr (List.mem_singleton.mp h1)
  · rcases List.mem_append.mp h with h1 | h1
    · exact Or.inl h1
    · exact Or.inr (List.mem_singleton.mp h1)

theorem ProcessProfile_formats (A : jsDataFormat → Prop) (h : ScanHead)
    (c2m : jsCamera → jsLaser → Int → Int → Int × Int) (r r1 : Receiver) (buf : List Nat)
    (hA : A h.m_format) (hinv : r.FormatsIn A)
    (hrun : ProcessProfile h c2m r buf = some r1) : r1.FormatsIn A := by
  unfold ProcessProfile at hrun
  split at hrun
  · exact absurd hrun (by simp)
  · rename_i packet _
    split at hrun
    · exact absurd hrun (by simp)
    · rename_i r2 hstart
      have h2 : r2.FormatsIn A := by
        unfold startProfile at hstart
        split at hstart
        · split at hstart
          · exact absurd hstart (by simp)
          · rename_i fresh hfresh
            have hf : A fresh.format ∧ fresh.data_len = JS_RAW_PROFILE_DATA_LEN := by
              unfold ProfileBuilder.create at hfresh
              split at hfresh
              · exact absurd hfresh (by simp)
              · injection hfresh with hfresh
                subst hfresh
                exact ⟨hA, rfl⟩
            injection hstart with hstart
            subst hstart
            constructor
            · intro p hp
              simp only at hp
              split at hp
              · rename_i q hq
                rcases mem_circPush _ _ _ hp with h1 | h1
                · exact hinv.1 p h1
                · rw [h1]
                  exact hinv.2 q hq
              · exact hinv.1 p hp
            · intro p hp
              simp only [Option.some.injEq] at hp
              rw [← hp]
              exact hf
        · injection hstart with hstart
          subst hstart
          exact hinv
      split at hrun
      · exact absurd hrun (by simp)
      · rename_i profile hprofile
        split at hrun
        · exact absurd hrun (by simp)
        · rename_i placed hplaced
          obtain ⟨b1, b2⟩ := placeData_format _ _ _ _ hplaced
          have hp0 := h2.2 profile hprofile
          have hpl : A placed.format ∧ placed.data_len = JS_RAW_PROFILE_DATA_LEN := by
            rw [b1, b2]
            exact hp0
          split at hrun
          · injection hrun with hrun
            subst hrun
            constructor
            · intro p hp
              rcases mem_circPush _ _ _ hp with h1 | h1
              · exact h2.1 p h1
              · rw [h1]
                exact hpl
            · intro p hp
              exact absurd hp (by simp)
          · injection hrun with hrun
            subst hrun
            constructor
            · intro p hp
              exact h2.1 p hp
            · intro p hp
              simp only [Option.some.injEq] at hp
              rw [← hp]
              exact hpl

theorem SetDataFormat_format (h : ScanHead) (format : jsDataFormat) :
    ((h.SetDataFormat format).2 = 0 ∧ (h.SetDataFormat format).1.m_format = format ∧
      format ≠ jsDataFormat.JS_DATA_FORMAT_INVALID ∧
      (h.SetDataFormat format).1.m_data_stride = _data_format_to_stride format) ∨
    ((h.SetDataFormat format).2 = JS_ERROR_INVALID_ARGUMENT ∧ (h.SetDataFormat format).1 = h ∧
      format = jsDataFormat.JS_DATA_FORMAT_INVALID) := by
  cases format <;> simp [ScanHead.SetDataFormat, _data_format_to_stride]

theorem runHeadOps_formats (A : jsDataFormat → Prop)
    (c2m : jsCamera → jsLaser → Int → Int → Int × Int) :
    ∀ (ops : List HeadOp) (s s1 : ScanHead × Receiver),
      (∀ format, HeadOp.setDataFormat format ∈ ops →
        format ≠ jsDataFormat.JS_DATA_FORMAT_INVALID → A format) →
      A s.1.m_format → s.2.FormatsIn A → runHeadOps c2m ops s = some s1 →
      A s1.1.m_format ∧ s1.2.FormatsIn A := by
  intro ops
  induction ops with
  | nil =>
    intro s s1 _ hA hinv hrun
    unfold runHeadOps at hrun
    injection hrun with hrun
    subst hrun
    exact ⟨hA, hinv⟩
  | cons op rest ih =>
    intro s s1 hset hA hinv hrun
    unfold runHeadOps at hrun
    split at hrun
    · exact absurd hrun (by simp)
    · rename_i s2 hop
      refine ih s2 s1 (fun f hf => hset f (List.mem_cons_of_mem _ hf)) ?_ ?_ hrun
      · cases op with
        | setDataFormat format =>
          simp only [HeadOp.apply, Option.some.injEq] at hop
          subst hop
          rcases SetDataFormat_format s.1 format with ⟨_, h2, h3, _⟩ | ⟨_, h2, _⟩
          · show A (s.1.SetDataFormat format).1.m_format
            rw [h2]
            exact hset format (List.mem_cons_self _ _) h3
          · show A (s.1.SetDataFormat format).1.m_format
            rw [h2]
            exact hA
        | receiver rop =>
          simp only [HeadOp.apply] at hop
          split at hop
          · exact absurd hop (by simp)
          · injection hop with hop
            subst hop
            exact hA
      · cases op with
        | setDataFormat format =>
          simp only [HeadOp.apply, Option.some.injEq] at hop
          subst hop
          exact hinv
        | receiver rop =>
          simp only [HeadOp.apply] at hop
          split at hop
          · exact absurd hop (by simp)
          · rename_i r1 hr1
            injection hop with hop
            subst hop
            cases rop with
            | datagram buf => exact ProcessProfile_formats A s.1 c2m s.2 r1 buf hA hinv hr1
            | getProfiles count =>
              simp only [ReceiverOp.apply, Option.some.injEq] at hr1
              subst hr1
              constructor
              · intro p hp
                simp only [ScanHead.GetProfiles, getProfilesLoop_eq] at hp
                exact hinv.1 p (List.mem_of_mem_drop hp)
              · intro p hp
                exact hinv.2 p hp
            | clearProfiles =>
              simp only [ReceiverOp.apply, Option.some.injEq] at hr1
              subst hr1
              constructor
              · intro p hp
                exact absurd hp (List.not_mem_nil _)
              · intro p hp
                exact hinv.2 p hp

/-- C30: a head whose m_format is XY_BRIGHTNESS_FULL (as the constructor sets it) and
whose receiver holds no profile goes through any sequence of SetDataFormat calls,
datagrams handed to ProcessProfile, GetProfiles and ClearProfiles calls. Every profile p in
the ring afterwards carries XY_BRIGHTNESS_FULL or a format passed to SetDataFormat in the
sequence, and none carries JS_DATA_FORMAT_INVALID; _data_format_to_stride of p.format is 1,
2 or 4 and equals the m_data_stride that SetDataFormat stores for that format; the
point-copy loop of jsScanHeadGetProfiles on p ends within data_len + 1 rounds; and
jsScanHeadGetProfiles on the head returns. -/
theorem C30_copy_loop_terminates (c2m : jsCamera → jsLaser → Int → Int → Int × Int)
    (h : ScanHead) (r : Receiver) (ops : List HeadOp) (s : ScanHead × Receiver)
    (hfmt : h.m_format = jsDataFormat.JS_DATA_FORMAT_XY_BRIGHTNESS_FULL)
    (hring : r.m_circ_buffer = []) (hprofile : r.m_profile = none)
    (hrun : runHeadOps c2m ops (h, r) = some s) :
    (∀ p ∈ s.2.m_circ_buffer,
      (p.format = jsDataFormat.JS_DATA_FORMAT_XY_BRIGHTNESS_FULL ∨
        HeadOp.setDataFormat p.format ∈ ops) ∧
      p.format ≠ jsDataFormat.JS_DATA_FORMAT_INVALID ∧
      (_data_format_to_stride p.format = 1 ∨ _data_format_to_stride p.format = 2 ∨
        _data_format_to_stride p.format = 4) ∧
      (∀ h1 : ScanHead, (h1.SetDataFormat p.format).2 = 0 ∧
        (h1.SetDataFormat p.format).1.m_data_stride = _data_format_to_stride p.format) ∧
      ∃ out, copyValidPoints p (_data_format_to_stride p.format) (p.data_len + 1) 0 [] =
        some out) ∧
    (∀ max_profiles : Nat, max_profiles < 4294967296 →
      (jsScanHeadGetProfiles false (some s.2) max_profiles).isSome = true) := by
  obtain ⟨_, hinv⟩ := runHeadOps_formats
    (fun f => (f = jsDataFormat.JS_DATA_FORMAT_XY_BRIGHTNESS_FULL ∨
      HeadOp.setDataFormat f ∈ ops) ∧ f ≠ jsDataFormat.JS_DATA_FORMAT_INVALID)
    c2m ops (h, r) s (fun f hf hne => ⟨Or.inr hf, hne⟩)
    ⟨Or.inl hfmt, by rw [hfmt]; simp⟩
    ⟨fun p hp => by rw [hring] at hp; exact absurd hp (List.not_mem_nil _),
      fun p hp => by rw [hprofile] at hp; exact absurd hp (by simp)⟩ hrun
  constructor
  · intro p hp
    obtain ⟨⟨h1, h2⟩, h3⟩ := hinv.1 p hp
    have hstride : _data_format_to_stride p.format = 1 ∨ _data_format_to_stride p.format = 2 ∨
        _data_format_to_stride p.format = 4 := by
      cases hfm : p.format <;> simp [_data_format_to_stride]
      exact absurd hfm h2
    refine ⟨h1, h2, hstride, ?_, ?_⟩
    · intro h1
      rcases SetDataFormat_format h1 p.format with ⟨a1, _, _, a4⟩ | ⟨_, _, a3⟩
      · exact ⟨a1, a4⟩
      · exact absurd a3 h2
    · exact copyValidPoints_returns p _ (by omega) (by omega) (Nat.le_of_eq h3)
        (p.data_len + 1) 0 [] (by omega) (by omega)
  · intro max_profiles _
    unfold jsScanHeadGetProfiles
    simp only [Bool.false_eq_true, if_false]
    obtain ⟨out, hout, _⟩ := convertProfiles_returns
      (List.take
        (if max_profiles < (ScanHead.GetProfiles s.2 (u32 (i32 max_profiles))).1.length %
            4294967296 then max_profiles
          else (ScanHead.GetProfiles s.2 (u32 (i32 max_profiles))).1.length % 4294967296)
        (ScanHead.GetProfiles s.2 (u32 (i32 max_profiles))).1)
      (by
        intro p hp
        have hp1 := List.mem_of_mem_take hp
        simp only [ScanHead.GetProfiles, getProfilesLoop_eq, List.nil_append] at hp1
        have hp2 := hinv.1 p (List.mem_of_mem_take hp1)
        exact ⟨hp2.1.2, Nat.le_of_eq hp2.2⟩)
    simp only [hout, Option.isSome_some]

/-- C30 (witness): head 1 as constructed is set to XY_BRIGHTNESS_HALF, receives the single
datagram of a profile, and rejects a change to JS_DATA_FORMAT_INVALID; the ring then holds
one profile of format XY_BRIGHTNESS_HALF. -/
theorem C30_copy_loop_terminates_witness :
    (((runHeadOps identityAlignment exampleHeadOps
        (exampleHead 1 1000 1500, receiverStart)).getD
      (exampleHead 1 1000 1500, receiverStart)).2.m_circ_buffer.map (fun p => p.format) =
      [jsDataFormat.JS_DATA_FORMAT_XY_BRIGHTNESS_HALF]) ∧
    ((∀ p ∈ ((runHeadOps identityAlignment exampleHeadOps
        (exampleHead 1 1000 1500, receiverStart)).getD
        (exampleHead 1 1000 1500, receiverStart)).2.m_circ_buffer,
      (p.format = jsDataFormat.JS_DATA_FORMAT_XY_BRIGHTNESS_FULL ∨
        HeadOp.setDataFormat p.format ∈ exampleHeadOps) ∧
      p.format ≠ jsDataFormat.JS_DATA_FORMAT_INVALID ∧
      (_data_format_to_stride p.format = 1 ∨ _data_format_to_stride p.format = 2 ∨
        _data_format_to_stride p.format = 4) ∧
      (∀ h1 : ScanHead, (h1.SetDataFormat p.format).2 = 0 ∧
        (h1.SetDataFormat p.format).1.m_data_stride = _data_format_to_stride p.format) ∧
      ∃ out, copyValidPoints p (_data_format_to_stride p.format) (p.data_len + 1) 0 [] =
        some out) ∧
    (∀ max_profiles : Nat, max_profiles < 4294967296 →
      (jsScanHeadGetProfiles false
        (some ((runHeadOps identityAlignment exampleHeadOps
          (exampleHead 1 1000 1500, receiverStart)).getD
          (exampleHead 1 1000 1500, receiverStart)).2) max_profiles).isSome = true)) :=
  ⟨by decide,
    C30_copy_loop_terminates identityAlignment (exampleHead 1 1000 1500) receiverStart
      exampleHeadOps _ (by decide) (by decide) (by decide)
      (eq_some_getD_of_isSome _ _ (by decide))⟩

/-! ### The point-copy loop -/

theorem copyValidPoints_eq (raw : jsRawProfile) (stride : Nat) (hs : 1 ≤ stride)
    (hs4 : stride ≤ 4) (hlen : raw.data_len ≤ JS_RAW_PROFILE_DATA_LEN) :
    ∀ (fuel n : Nat) (out : List jsProfileData), raw.data_len ≤ n + fuel * stride →
      n ≤ raw.data_len + 4 →
      copyValidPoints raw stride fuel n out =
        some (out ++ (((List.range fuel).map (fun i => n + i * stride)).filter
          (fun m => decide (m < raw.data_len) && raw.slotValid m)).map
            (fun m => raw.data.getD m invalidPoint)) := by
  unfold JS_RAW_PROFILE_DATA_LEN at hlen
  intro fuel
  induction fuel with
  | zero =>
    intro n out hn _
    unfold copyValidPoints
    rw [if_neg (by omega)]
    simp
  | succ f ih =>
    intro n out hn hn4
    have e : (f + 1) * stride = f * stride + stride := Nat.succ_mul f stride
    have hmap : (List.range (f + 1)).map (fun i => n + i * stride) =
        n :: (List.range f).map (fun i => n + stride + i * stride) := by
      rw [List.range_succ_eq_map, List.map_cons, List.map_map]
      congr 1
      · simp
      · apply List.map_congr_left
        intro i _
        simp only [Function.comp, Nat.succ_eq_add_one, Nat.succ_mul]
        omega
    unfold copyValidPoints
    by_cases hlt : n < raw.data_len
    · rw [if_pos hlt, Nat.mod_eq_of_lt (by omega), ih (n + stride) _ (by omega) (by omega),
        hmap, List.filter_cons]
      by_cases hv : raw.slotValid n = true
      · have hc : JS_PROFILE_DATA_INVALID_XY ≠ (raw.data.getD n invalidPoint).x ∨
            JS_PROFILE_DATA_INVALID_XY ≠ (raw.data.getD n invalidPoint).y := by
          simpa [jsRawProfile.slotValid] using hv
        rw [if_pos hc]
        simp [hlt, hv]
      · have hc : ¬ (JS_PROFILE_DATA_INVALID_XY ≠ (raw.data.getD n invalidPoint).x ∨
            JS_PROFILE_DATA_INVALID_XY ≠ (raw.data.getD n invalidPoint).y) := by
          intro hc
          apply hv
          simpa [jsRawProfile.slotValid] using hc
        rw [if_neg hc]
        simp [hv]
    · rw [if_neg hlt]
      have hnil : ((List.range (f + 1)).map (fun i => n + i * stride)).filter
          (fun m => decide (m < raw.data_len) && raw.slotValid m) = [] := by
        rw [List.filter_eq_nil_iff]
        intro m hm
        obtain ⟨i, _, rfl⟩ := List.mem_map.mp hm
        have : ¬ (n + i * stride < raw.data_len) := by omega
        simp [this]
      rw [hnil]
      simp

theorem visited_eq_filter (v : Nat → Bool) (stride len : Nat) (hs : 1 ≤ stride) :
    ((List.range (len + 1)).map (fun i => 0 + i * stride)).filter
      (fun m => decide (m < len) && v m) =
    (List.range len).filter (fun m => decide (m % stride = 0) && v m) := by
  have hsorted1 : List.Sorted (fun a b : Nat => a < b)
      (((List.range (len + 1)).map (fun i => 0 + i * stride)).filter
        (fun m => decide (m < len) && v m)) := by
    apply List.Sorted.filter
    rw [List.Sorted, List.pairwise_map]
    refine (List.pairwise_lt_range (len + 1)).imp ?_
    intro a b hab
    have : a * stride < b * stride := Nat.mul_lt_mul_of_pos_right hab hs
    omega
  have hsorted2 : List.Sorted (fun a b : Nat => a < b)
      ((List.range len).filter (fun m => decide (m % stride = 0) && v m)) :=
    List.Sorted.filter _ (List.pairwise_lt_range len)
  refine List.eq_of_perm_of_sorted ?_ hsorted1 hsorted2
  rw [List.perm_ext_iff_of_nodup hsorted1.nodup hsorted2.nodup]
  intro m
  simp only [List.mem_filter, List.mem_map, List.mem_range, Bool.and_eq_true,
    decide_eq_true_eq]
  constructor
  · rintro ⟨⟨i, _, rfl⟩, hm, hvm⟩
    refine ⟨hm, ?_, hvm⟩
    rw [Nat.zero_add, Nat.mul_mod_left]
  · rintro ⟨hm, h0, hvm⟩
    refine ⟨⟨m / stride, ?_, ?_⟩, hm, hvm⟩
    · have := Nat.div_le_self m stride
      omega
    · have := Nat.div_add_mod m stride
      rw [h0, Nat.add_zero, Nat.mul_comm] at this
      omega

theorem convertProfile_general (raw : jsRawProfile)
    (hfmt : raw.format ≠ jsDataFormat.JS_DATA_FORMAT_INVALID)
    (hlen : raw.data_len ≤ JS_RAW_PROFILE_DATA_LEN) :
    ∃ J, convertProfile raw = some J ∧
      J.data = ((List.range raw.data_len).filter
        (fun m => decide (m % _data_format_to_stride raw.format = 0) && raw.slotValid m)).map
          (fun m => raw.data.getD m invalidPoint) ∧
      J.data_len = J.data.length ∧ J.format = raw.format ∧
      J.timestamp_ns = raw.timestamp_ns := by
  have hstride : 1 ≤ _data_format_to_stride raw.format ∧
      _data_format_to_stride raw.format ≤ 4 := by
    cases hfm : raw.format <;> simp [_data_format_to_stride]
    exact absurd hfm hfmt
  have hcopy := copyValidPoints_eq raw _ hstride.1 hstride.2 hlen (raw.data_len + 1) 0 []
    (by
      have : (raw.data_len + 1) * 1 ≤ (raw.data_len + 1) * _data_format_to_stride raw.format :=
        Nat.mul_le_mul_left _ hstride.1
      omega) (by omega)
  rw [visited_eq_filter raw.slotValid _ raw.data_len hstride.1, List.nil_append] at hcopy
  unfold convertProfile
  simp only [hcopy]
  exact ⟨_, rfl, rfl, rfl, rfl, rfl⟩

theorem convertProfile_eq (raw : jsRawProfile)
    (hfmt : raw.format ≠ jsDataFormat.JS_DATA_FORMAT_INVALID)
    (hlen : raw.data_len ≤ JS_RAW_PROFILE_DATA_LEN)
    (hv : ∀ i < raw.data_len, raw.slotValid i = true →
      i % _data_format_to_stride raw.format = 0) :
    ∃ J, convertProfile raw = some J ∧
      J.data = ((List.range raw.data_len).filter raw.slotValid).map
        (fun m => raw.data.getD m invalidPoint) ∧
      J.data_len = J.data.length ∧ J.format = raw.format ∧
      J.timestamp_ns = raw.timestamp_ns := by
  obtain ⟨J, h1, h2, h3⟩ := convertProfile_general raw hfmt hlen
  refine ⟨J, h1, ?_, h3⟩
  rw [h2]
  congr 1
  apply List.filter_congr
  intro m hm
  cases hvm : raw.slotValid m with
  | false => simp
  | true => simp [hv m (List.mem_range.mp hm) hvm]

/-! ### The profile assembled from the datagrams of one profile -/

theorem one_profile_assembled (h : ScanHead)
    (c2m : jsCamera → jsLaser → Int → Int → Int × Int) (r : Receiver)
    (bufs : List (List Nat)) (pks : List DataPacket) (N step sc ec src ts : Nat)
    (hparse : bufs.map DataPacket.parse = pks.map some)
    (hpos : List.Perm (pks.map (fun pk => pk.m_hdr.datagram_position)) (List.range N))
    (hN : 1 ≤ N) (hstep : 1 ≤ step) (hNs : N * step < 4294967296)
    (hcols : sc ≤ ec ∧ ec ≤ 1455)
    (hhdr : ∀ pk ∈ pks, pk.m_hdr.number_datagrams = N ∧ pk.GetSourceId = src ∧
      pk.m_hdr.timestamp_ns = ts ∧ pk.m_hdr.data_type = 3 ∧
      pk.m_encoders.length ≤ JS_ENCODER_MAX ∧ pk.m_hdr.start_column = sc ∧
      pk.m_hdr.end_column = ec ∧ (pk.GetFragmentLayout 2).step = step)
    (hkey : src ≠ r.m_last_profile_source ∨ ts ≠ r.m_last_profile_timestamp) :
    ∃ (r' : Receiver) (fresh : jsRawProfile), processDatagrams h c2m bufs r = some r' ∧
      r'.m_circ_buffer = circPush
        (match r.m_profile with
          | some q => circPush r.m_circ_buffer
              (q.SetPacketInfo r.m_packets_received_for_profile N)
          | none => r.m_circ_buffer)
        ((fresh.withWrites ((pks.map
          (fun pk => pk.writes (c2m fresh.camera fresh.laser))).flatten) 0 0).SetPacketInfo
            N N) ∧
      fresh.data = List.replicate JS_RAW_PROFILE_DATA_LEN invalidPoint ∧
      fresh.format = h.m_format ∧ fresh.data_len = JS_RAW_PROFILE_DATA_LEN ∧
      fresh.timestamp_ns = ts ∧
      (((pks.map (fun pk => pk.writes (c2m fresh.camera fresh.laser))).flatten).map
        Prod.fst).Nodup ∧
      (∀ w ∈ (pks.map (fun pk => pk.writes (c2m fresh.camera fresh.laser))).flatten,
        w.1 < 1456 ∧ ∃ k j : Nat, w.1 = sc + (k + j * N) * step) := by
  have hlen : pks.length = N := by
    have := hpos.length_eq
    rwa [List.length_map, List.length_range] at this
  have hposlt : ∀ pk ∈ pks, pk.m_hdr.datagram_position < N := by
    intro pk hpk
    exact List.mem_range.mp ((hpos.mem_iff).mp
      (List.mem_map_of_mem (fun pk : DataPacket => pk.m_hdr.datagram_position) hpk))
  have hnd : (pks.map (fun pk => pk.m_hdr.datagram_position)).Nodup :=
    (hpos.nodup_iff).mpr (List.nodup_range N)
  have hslot : ∀ pk ∈ pks, ∀ n < (pk.GetFragmentLayout 2).num_vals, pk.slot n < 1456 := by
    intro pk hpk n hn
    obtain ⟨h1, _, _, h4, _, h6, h7, h8⟩ := hhdr pk hpk
    obtain ⟨buf, hbuf⟩ := mem_of_map_parse bufs pks hparse pk hpk
    rw [parse_layout buf pk hbuf h4, h8] at hn
    have := slot_le_end_column pk.m_hdr step hstep (by rw [h1]; exact hNs)
      (by rw [h6, h7]; exact hcols) (by rw [h1]; exact hposlt pk hpk) n hn
    unfold DataPacket.slot
    rw [h8]
    omega
  cases pks with
  | nil => simp only [List.length_nil] at hlen; omega
  | cons pk0 rest =>
    cases bufs with
    | nil => simp at hparse
    | cons buf0 bufs' =>
      have hp0 : DataPacket.parse buf0 = some pk0 := by
        simp only [List.map_cons, List.cons.injEq] at hparse
        exact hparse.1
      obtain ⟨g1, g2, g3, _, g5, _, _, _⟩ := hhdr pk0 (List.mem_cons_self _ _)
      obtain ⟨fresh, hfresh, hdata, hfx, hfb, hfts, hffmt, hflen⟩ : ∃ fresh,
          ProfileBuilder.create (h.CameraPortToId pk0.m_hdr.camera_port)
            (h.LaserPortToId pk0.m_hdr.laser_port) pk0 h.m_format = some fresh ∧
          fresh.data = List.replicate JS_RAW_PROFILE_DATA_LEN invalidPoint ∧
          fresh.data_valid_xy = 0 ∧ fresh.data_valid_brightness = 0 ∧
          fresh.timestamp_ns = ts ∧ fresh.format = h.m_format ∧
          fresh.data_len = JS_RAW_PROFILE_DATA_LEN := by
        unfold ProfileBuilder.create
        rw [if_neg (Nat.not_lt_of_le g5)]
        exact ⟨_, rfl, rfl, rfl, rfl, g3, rfl, rfl⟩
      have hchange := ProcessProfile_key_change h c2m r buf0 pk0 fresh hp0
        (by rw [g2, g3]; exact hkey) hfresh
      obtain ⟨r', hr', hring⟩ := processDatagrams_one_profile h c2m N src ts fresh.camera
        fresh.laser (by
          have : N * 1 ≤ N * step := Nat.mul_le_mul_left N hstep
          omega)
        (pk0 :: rest) (buf0 :: bufs')
        { r with
          m_circ_buffer :=
            match r.m_profile with
            | some partialProfile =>
              circPush r.m_circ_buffer
                (partialProfile.SetPacketInfo r.m_packets_received_for_profile
                  pk0.m_hdr.number_datagrams)
            | none => r.m_circ_buffer,
          m_last_profile_source := pk0.GetSourceId,
          m_last_profile_timestamp := pk0.m_hdr.timestamp_ns,
          m_packets_received_for_profile := 0,
          m_profile := some fresh }
        fresh 0 0 hparse (List.cons_ne_nil _ _) rfl g2 g3
        (by show 0 + (pk0 :: rest).length = N; omega) rfl rfl
        (by rw [hfx]) (by rw [hfb])
        (by
          intro pk hpk
          obtain ⟨h1, h2, h3, h4, _, _, _, h8⟩ := hhdr pk hpk
          exact ⟨h1, h2, h3, h4, by rw [h1, h8]; exact hNs, hslot pk hpk⟩)
      have hrun : processDatagrams h c2m (buf0 :: bufs') r = some r' := by
        rw [← hr']
        unfold processDatagrams
        rw [hchange]
      have hwnd := writes_slots_nodup (c2m fresh.camera fresh.laser) N step sc hN hstep
        (pk0 :: rest)
        (fun pk hpk => by
          obtain ⟨h1, _, _, _, _, h6, _, h8⟩ := hhdr pk hpk
          exact ⟨h1, h6, h8, hposlt pk hpk⟩) hnd
      refine ⟨r', fresh, hrun, ?_, hdata, hffmt, hflen, hfts, hwnd, ?_⟩
      · rw [hring, g1]
      · intro w hw
        obtain ⟨l, hl, hwl⟩ := List.mem_flatten.mp hw
        obtain ⟨pk, hpk, rfl⟩ := List.mem_map.mp hl
        obtain ⟨n, hn, _, rfl⟩ := (mem_writes pk _ w).mp hwl
        obtain ⟨h1, _, _, _, _, h6, _, h8⟩ := hhdr pk hpk
        refine ⟨hslot pk hpk n hn, pk.m_hdr.datagram_position, n, ?_⟩
        show pk.slot n = _
        unfold DataPacket.slot
        rw [h1, h6, h8]

theorem i16_range (n : Nat) : -32768 ≤ i16 n ∧ i16 n ≤ 32767 := by
  unfold i16
  split <;> omega

/-- C26 (amended): N >= 1 datagrams of one profile (the hypotheses of C10: positions
0..N-1 each exactly once, data_type = XY|Brightness, common columns with
start_column <= end_column <= 1455, common step >= 1, N * step below 2^32, a key that
differs from the one the receiver holds) are delivered to a head whose format is valid and
has the stride t = _data_format_to_stride(m_format), where start_column and step are
multiples of t (always so for the full-resolution formats) and the alignment maps no
16-bit point to (INT_MIN, INT_MIN). Then for the profile P pushed to the ring, the jsProfile J written
by the loop body of jsScanHeadGetProfiles has data_len = P.data_valid_xy = the number of
valid payload entries, J.data holds exactly the slots of P whose x or y differs from the
sentinel, in ascending slot order, every point placed by ProcessProfile is among them, and
no entry of J.data has both x and y equal to the sentinel. -/
theorem C26_compacted_profile (h : ScanHead)
    (c2m : jsCamera → jsLaser → Int → Int → Int × Int) (r : Receiver)
    (bufs : List (List Nat)) (pks : List DataPacket) (N step sc ec src ts : Nat)
    (hparse : bufs.map DataPacket.parse = pks.map some)
    (hpos : List.Perm (pks.map (fun pk => pk.m_hdr.datagram_position)) (List.range N))
    (hN : 1 ≤ N) (hstep : 1 ≤ step) (hNs : N * step < 4294967296)
    (hcols : sc ≤ ec ∧ ec ≤ 1455)
    (hhdr : ∀ pk ∈ pks, pk.m_hdr.number_datagrams = N ∧ pk.GetSourceId = src ∧
      pk.m_hdr.timestamp_ns = ts ∧ pk.m_hdr.data_type = 3 ∧
      pk.m_encoders.length ≤ JS_ENCODER_MAX ∧ pk.m_hdr.start_column = sc ∧
      pk.m_hdr.end_column = ec ∧ (pk.GetFragmentLayout 2).step = step)
    (hkey : src ≠ r.m_last_profile_source ∨ ts ≠ r.m_last_profile_timestamp)
    (hfmt : h.m_format ≠ jsDataFormat.JS_DATA_FORMAT_INVALID)
    (hsc : sc % _data_format_to_stride h.m_format = 0)
    (hst : step % _data_format_to_stride h.m_format = 0)
    (hc2m : ∀ (camera : jsCamera) (laser : jsLaser) (x y : Int),
      -32768 ≤ x → x ≤ 32767 → -32768 ≤ y → y ≤ 32767 →
      (JS_PROFILE_DATA_INVALID_XY ≠ (c2m camera laser x y).1 ∨
        JS_PROFILE_DATA_INVALID_XY ≠ (c2m camera laser x y).2)) :
    ∃ (r' : Receiver) (P : jsRawProfile) (J : jsProfile),
      processDatagrams h c2m bufs r = some r' ∧
      r'.m_circ_buffer = circPush
        (match r.m_profile with
          | some q => circPush r.m_circ_buffer
              (q.SetPacketInfo r.m_packets_received_for_profile N)
          | none => r.m_circ_buffer) P ∧
      P.timestamp_ns = ts ∧ P.format = h.m_format ∧
      convertProfile P = some J ∧
      J.data_len = P.data_valid_xy ∧
      P.data_valid_xy = (pks.map DataPacket.validCount).sum ∧
      J.data.length = J.data_len ∧
      J.data = ((List.range JS_RAW_PROFILE_DATA_LEN).filter P.slotValid).map
        (fun m => P.data.getD m invalidPoint) ∧
      (∀ pk ∈ pks, ∀ n < (pk.GetFragmentLayout 2).num_vals, pk.entryValid n = true →
        pk.point (c2m P.camera P.laser) n ∈ J.data) ∧
      (∀ d ∈ J.data, JS_PROFILE_DATA_INVALID_XY ≠ d.x ∨ JS_PROFILE_DATA_INVALID_XY ≠ d.y) := by
  obtain ⟨r', fresh, hrun, hring, hdata, hffmt, hflen, hfts, hwnd, hw⟩ :=
    one_profile_assembled h c2m r bufs pks N step sc ec src ts hparse hpos hN hstep hNs hcols
      hhdr hkey
  generalize hW : (pks.map (fun pk => pk.writes (c2m fresh.camera fresh.laser))).flatten = W
    at hring hwnd hw
  have hPdata : ((fresh.withWrites W 0 0).SetPacketInfo N N).data = applyWrites W fresh.data :=
    rfl
  have hget : ∀ w ∈ W, ((fresh.withWrites W 0 0).SetPacketInfo N N).data.getD w.1
      invalidPoint = w.2 := by
    intro w hwm
    rw [hPdata]
    exact applyWrites_getD_mem W invalidPoint fresh.data hwnd
      (by
        intro u hu
        rw [hdata, List.length_replicate]
        exact (hw u hu).1) w hwm
  have hother : ∀ i, i ∉ W.map Prod.fst →
      ((fresh.withWrites W 0 0).SetPacketInfo N N).data.getD i invalidPoint = invalidPoint := by
    intro i hi
    rw [hPdata, applyWrites_getD_other W i hi, hdata, List.getD_eq_getElem?_getD,
      List.getElem?_replicate]
    split <;> rfl
  have hpoint : ∀ w ∈ W, ∃ pk ∈ pks, ∃ n, n < (pk.GetFragmentLayout 2).num_vals ∧
      pk.entryValid n = true ∧ w = (pk.slot n, pk.point (c2m fresh.camera fresh.laser) n) := by
    intro w hwm
    rw [← hW] at hwm
    obtain ⟨l, hl, hwl⟩ := List.mem_flatten.mp hwm
    obtain ⟨pk, hpk, rfl⟩ := List.mem_map.mp hl
    obtain ⟨n, hn, hv, he⟩ := (mem_writes pk _ w).mp hwl
    exact ⟨pk, hpk, n, hn, hv, he⟩
  have hvalid : ∀ i, ((fresh.withWrites W 0 0).SetPacketInfo N N).slotValid i = true ↔
      i ∈ W.map Prod.fst := by
    intro i
    constructor
    · intro hv
      by_contra hni
      unfold jsRawProfile.slotValid at hv
      rw [hother i hni] at hv
      revert hv
      decide
    · intro hi
      obtain ⟨w, hwm, rfl⟩ := List.mem_map.mp hi
      unfold jsRawProfile.slotValid
      rw [hget w hwm]
      obtain ⟨pk, _, n, _, _, he⟩ := hpoint w hwm
      rw [he]
      simp only [DataPacket.point, decide_eq_true_eq]
      exact hc2m _ _ _ _ (i16_range _).1 (i16_range _).2 (i16_range _).1 (i16_range _).2
  have hperm : List.Perm ((List.range JS_RAW_PROFILE_DATA_LEN).filter
      ((fresh.withWrites W 0 0).SetPacketInfo N N).slotValid) (W.map Prod.fst) := by
    rw [List.perm_ext_iff_of_nodup ((List.nodup_range _).filter _) hwnd]
    intro i
    rw [List.mem_filter, hvalid i, List.mem_range]
    constructor
    · exact fun hi => hi.2
    · intro hi
      refine ⟨?_, hi⟩
      obtain ⟨w, hwm, rfl⟩ := List.mem_map.mp hi
      exact (hw w hwm).1
  have hWlen : W.length ≤ 1456 := by
    have := nodup_length_le _ 1456 hwnd (by
      intro x hx
      obtain ⟨w, hwm, rfl⟩ := List.mem_map.mp hx
      exact (hw w hwm).1)
    rwa [List.length_map] at this
  have hcount : W.length = (pks.map DataPacket.validCount).sum := by
    rw [← hW, List.length_flatten, List.map_map]
    congr 1
    apply List.map_congr_left
    intro pk _
    exact writes_length pk _
  have hxy : ((fresh.withWrites W 0 0).SetPacketInfo N N).data_valid_xy = W.length := by
    show (0 + W.length) % 4294967296 = W.length
    rw [Nat.zero_add]
    exact Nat.mod_eq_of_lt (by omega)
  have hPfmt : ((fresh.withWrites W 0 0).SetPacketInfo N N).format = h.m_format := hffmt
  have hPlen : ((fresh.withWrites W 0 0).SetPacketInfo N N).data_len =
      JS_RAW_PROFILE_DATA_LEN := hflen
  obtain ⟨J, hJ, hJdata, hJlen, _, _⟩ := convertProfile_eq
    ((fresh.withWrites W 0 0).SetPacketInfo N N) (by rw [hPfmt]; exact hfmt)
    (Nat.le_of_eq hPlen)
    (by
      intro i _ hv
      rw [hPfmt]
      obtain ⟨w, hwm, rfl⟩ := List.mem_map.mp ((hvalid i).mp hv)
      obtain ⟨_, k, j, he⟩ := hw w hwm
      rw [he, Nat.add_mod, hsc, Nat.mul_mod, hst]
      simp)
  rw [hPlen] at hJdata
  refine ⟨r', (fresh.withWrites W 0 0).SetPacketInfo N N, J, hrun, hring, hfts, hPfmt, hJ,
    ?_, ?_, hJlen.symm, hJdata, ?_, ?_⟩
  · rw [hJlen, hJdata, List.length_map, hperm.length_eq, List.length_map, hxy]
  · rw [hxy, hcount]
  · intro pk hpk n hn hv
    have hwm : (pk.slot n, pk.point (c2m fresh.camera fresh.laser) n) ∈ W := by
      rw [← hW]
      exact List.mem_flatten.mpr ⟨_, List.mem_map_of_mem _ hpk,
        (mem_writes pk _ _).mpr ⟨n, hn, hv, rfl⟩⟩
    rw [hJdata, List.mem_map]
    refine ⟨pk.slot n, ?_, ?_⟩
    · exact hperm.mem_iff.mpr (List.mem_map_of_mem Prod.fst hwm)
    · exact hget _ hwm
  · intro d hd
    rw [hJdata] at hd
    obtain ⟨m, hm, rfl⟩ := List.mem_map.mp hd
    have := (List.mem_filter.mp hm).2
    simpa [jsRawProfile.slotValid] using this


/-- C26 (witness): the two datagrams of `exampleProfileDatagrams` (columns 0 to 3, step 1),
delivered to head 1, whose format is XY_BRIGHTNESS_FULL, just after it started scanning;
three of the four payload entries are valid. -/
theorem C26_compacted_profile_witness :
    ((exampleProfileDatagrams.filterMap DataPacket.parse).map DataPacket.validCount).sum = 3 ∧
    ∃ (r' : Receiver) (P : jsRawProfile) (J : jsProfile),
      processDatagrams (exampleHead 1 1000 1500) identityAlignment exampleProfileDatagrams
        receiverStart = some r' ∧
      r'.m_circ_buffer = circPush
        (match receiverStart.m_profile with
          | some q => circPush receiverStart.m_circ_buffer
              (q.SetPacketInfo receiverStart.m_packets_received_for_profile 2)
          | none => receiverStart.m_circ_buffer) P ∧
      P.timestamp_ns = 1000 ∧ P.format = (exampleHead 1 1000 1500).m_format ∧
      convertProfile P = some J ∧
      J.data_len = P.data_valid_xy ∧
      P.data_valid_xy =
        ((exampleProfileDatagrams.filterMap DataPacket.parse).map DataPacket.validCount).sum ∧
      J.data.length = J.data_len ∧
      J.data = ((List.range JS_RAW_PROFILE_DATA_LEN).filter P.slotValid).map
        (fun m => P.data.getD m invalidPoint) ∧
      (∀ pk ∈ exampleProfileDatagrams.filterMap DataPacket.parse,
        ∀ n < (pk.GetFragmentLayout 2).num_vals, pk.entryValid n = true →
        pk.point (identityAlignment P.camera P.laser) n ∈ J.data) ∧
      (∀ d ∈ J.data, JS_PROFILE_DATA_INVALID_XY ≠ d.x ∨ JS_PROFILE_DATA_INVALID_XY ≠ d.y) :=
  ⟨by decide,
    C26_compacted_profile (exampleHead 1 1000 1500) identityAlignment receiverStart
      exampleProfileDatagrams (exampleProfileDatagrams.filterMap DataPacket.parse)
      2 1 0 3 65536 1000 (by decide) (by decide) (by decide) (by decide) (by decide)
      (by decide) (by decide) (by decide) (by decide) (by decide) (by decide)
      (fun _ _ x _ hx _ _ _ => Or.inl (by
        show JS_PROFILE_DATA_INVALID_XY ≠ x
        unfold JS_PROFILE_DATA_INVALID_XY
        omega))⟩

/-- C26 (counterexample): head 1 is set to XY_BRIGHTNESS_HALF (stride 2) and receives the
single datagram of a profile for the columns 1 to 4 with step 2, whose two valid points
ProcessProfile places in the slots 1 and 3. The profile in the ring has data_valid_xy = 2,
but the point-copy loop of jsScanHeadGetProfiles inspects the slots 0, 2, 4, ... only:
the jsProfile it writes has data_len = 0 and no point. -/
theorem C26_strided_copy_misses_points :
    headHalf.m_format = jsDataFormat.JS_DATA_FORMAT_XY_BRIGHTNESS_HALF ∧
    (DataPacket.parse (steppedDatagram 1 4 2 [(5, 6, 7), (8, 9, 10)])).map
      (fun p => (p.m_hdr.start_column, p.m_hdr.end_column, (p.GetFragmentLayout 2).step,
        (p.GetFragmentLayout 2).num_vals)) = some (1, 4, 2, 2) ∧
    (processDatagrams headHalf identityAlignment
      [steppedDatagram 1 4 2 [(5, 6, 7), (8, 9, 10)]] receiverStart).isSome = true ∧
    oddColumnReceiver.m_circ_buffer.map
      (fun p => (p.format, p.data_valid_xy, (p.data.take 5).map (fun d => d.x))) =
      [(jsDataFormat.JS_DATA_FORMAT_XY_BRIGHTNESS_HALF, 2,
        [JS_PROFILE_DATA_INVALID_XY, 5, JS_PROFILE_DATA_INVALID_XY, 8,
          JS_PROFILE_DATA_INVALID_XY])] ∧
    (jsScanHeadGetProfiles false (some oddColumnReceiver) 1).map
      (fun res => (res.1, res.2.1.map (fun j => (j.data_len, j.data)))) =
      some (1, [(0, [])]) := by
  refine ⟨by decide, by decide, by decide, by decide, ?_⟩
  obtain ⟨r', fresh, hrun, hring, hdata, hffmt, hflen, _, _, hw⟩ :=
    one_profile_assembled headHalf identityAlignment receiverStart
      [steppedDatagram 1 4 2 [(5, 6, 7), (8, 9, 10)]]
      ([steppedDatagram 1 4 2 [(5, 6, 7), (8, 9, 10)]].filterMap DataPacket.parse)
      1 2 1 4 65536 1000 (by decide) (by decide) (by decide) (by decide) (by decide)
      (by decide) (by decide) (by decide)
  generalize hW : (([steppedDatagram 1 4 2 [(5, 6, 7), (8, 9, 10)]].filterMap
    DataPacket.parse).map (fun pk => pk.writes (identityAlignment fresh.camera
      fresh.laser))).flatten = W at hring hw
  have hr : oddColumnReceiver = r' := by
    unfold oddColumnReceiver
    rw [hrun]
    rfl
  have hring1 : r'.m_circ_buffer = [(fresh.withWrites W 0 0).SetPacketInfo 1 1] := by
    rw [hring]
    rfl
  have hPfmt : ((fresh.withWrites W 0 0).SetPacketInfo 1 1).format =
      jsDataFormat.JS_DATA_FORMAT_XY_BRIGHTNESS_HALF := hffmt
  have hPlen : ((fresh.withWrites W 0 0).SetPacketInfo 1 1).data_len =
      JS_RAW_PROFILE_DATA_LEN := hflen
  have hother : ∀ i, i ∉ W.map Prod.fst →
      ((fresh.withWrites W 0 0).SetPacketInfo 1 1).data.getD i invalidPoint = invalidPoint := by
    intro i hi
    show (applyWrites W fresh.data).getD i invalidPoint = invalidPoint
    rw [applyWrites_getD_other W i hi, hdata, List.getD_eq_getElem?_getD,
      List.getElem?_replicate]
    split <;> rfl
  obtain ⟨J, hJ, hJdata, hJlen, _, _⟩ := convertProfile_general
    ((fresh.withWrites W 0 0).SetPacketInfo 1 1) (by rw [hPfmt]; decide) (Nat.le_of_eq hPlen)
  have hempty : J.data = [] := by
    rw [hJdata, List.map_eq_nil_iff, List.filter_eq_nil_iff]
    intro m _
    rw [hPfmt]
    intro hm
    simp only [Bool.and_eq_true, decide_eq_true_eq] at hm
    obtain ⟨hm0, hv⟩ := hm
    have hmem : m ∈ W.map Prod.fst := by
      by_contra hni
      unfold jsRawProfile.slotValid at hv
      rw [hother m hni] at hv
      revert hv
      decide
    obtain ⟨w, hwm, rfl⟩ := List.mem_map.mp hmem
    obtain ⟨_, k, j, he⟩ := hw w hwm
    rw [he] at hm0
    have : _data_format_to_stride jsDataFormat.JS_DATA_FORMAT_XY_BRIGHTNESS_HALF = 2 := rfl
    rw [this] at hm0
    omega
  rw [hr]
  unfold jsScanHeadGetProfiles
  simp only [Bool.false_eq_true, if_false, ScanHead.GetProfiles, getProfilesLoop_eq, hring1,
    u32_i32 1 (by decide), List.nil_append, List.take_succ_cons, List.take_zero,
    List.length_singleton]
  have hconv : convertProfiles [(fresh.withWrites W 0 0).SetPacketInfo 1 1] = some [J] := by
    unfold convertProfiles
    simp only [hJ]
    rfl
  have htotal : (if 1 < 1 % 4294967296 then 1 else 1 % 4294967296) = 1 := by decide
  simp only [htotal, List.take_succ_cons, List.take_zero, hconv, Option.map_some',
    List.map_cons, List.map_nil, hJlen, hempty, List.length_nil]
  rfl

/-! ### The alignment transform -/

theorem truncate_intCast (n : Int) : truncate (n : ℚ) = n := by
  unfold truncate
  split
  · exact Int.floor_intCast n
  · exact Int.ceil_intCast n

theorem doubleToInt32_intCast (n : Int) (h1 : -2147483648 ≤ n) (h2 : n ≤ 2147483647) :
    doubleToInt32 (n : ℚ) = some n := by
  unfold doubleToInt32
  rw [truncate_intCast, if_pos ⟨h1, h2⟩]

theorem CameraToMill_roll_zero (sinDeg cosDeg : ℚ → ℚ) (h0 : sinDeg 0 = 0)
    (h1 : cosDeg 0 = 1) (scale shift_x shift_y : ℚ) (cable : jsCableOrientation)
    (x y : Int) :
    (AlignmentParams.create sinDeg cosDeg scale 0 shift_x shift_y cable).CameraToMill x y =
      match doubleToInt32 ((x : ℚ) *
          (cosDeg (if jsCableOrientation.JS_CABLE_ORIENTATION_DOWNSTREAM = cable then 0
            else 180) * scale) + shift_x * 1000),
        doubleToInt32 ((y : ℚ) * scale + shift_y * 1000) with
      | some xi, some yi => some (xi, yi)
      | _, _ => none := by
  have hx : (x : ℚ) * (cosDeg (if jsCableOrientation.JS_CABLE_ORIENTATION_DOWNSTREAM = cable
        then 0 else 180) * cosDeg 0 * scale) - (y : ℚ) * (sinDeg 0 * scale) + shift_x * 1000 =
      (x : ℚ) * (cosDeg (if jsCableOrientation.JS_CABLE_ORIENTATION_DOWNSTREAM = cable then 0
        else 180) * scale) + shift_x * 1000 := by
    rw [h0, h1]
    ring
  have hy : (x : ℚ) * (cosDeg (if jsCableOrientation.JS_CABLE_ORIENTATION_DOWNSTREAM = cable
        then 0 else 180) * sinDeg 0 * scale) + (y : ℚ) * (cosDeg 0 * scale) + shift_y * 1000 =
      (y : ℚ) * scale + shift_y * 1000 := by
    rw [h0, h1]
    ring
  rw [← hx, ← hy]
  rfl

theorem MillToCamera_roll_zero (sinDeg cosDeg : ℚ → ℚ) (h0 : sinDeg 0 = 0)
    (h1 : cosDeg 0 = 1) (scale shift_x shift_y : ℚ) (cable : jsCableOrientation)
    (x y : Int) :
    (AlignmentParams.create sinDeg cosDeg scale 0 shift_x shift_y cable).MillToCamera x y =
      match doubleToInt32 (((x : ℚ) - shift_x * 1000) *
          (cosDeg (-1 * (if jsCableOrientation.JS_CABLE_ORIENTATION_DOWNSTREAM = cable then 0
            else 180)) / scale)),
        doubleToInt32 (((y : ℚ) - shift_y * 1000) / scale) with
      | some xi, some yi => some (xi, yi)
      | _, _ => none := by
  have e0 : (-1 : ℚ) * 0 = 0 := by norm_num
  have hx : ((x : ℚ) - shift_x * 1000) *
        (cosDeg (-1 * (if jsCableOrientation.JS_CABLE_ORIENTATION_DOWNSTREAM = cable then 0
          else 180)) * cosDeg (-1 * 0) / scale) -
        ((y : ℚ) - shift_y * 1000) *
        (cosDeg (-1 * (if jsCableOrientation.JS_CABLE_ORIENTATION_DOWNSTREAM = cable then 0
          else 180)) * sinDeg (-1 * 0) / scale) =
      ((x : ℚ) - shift_x * 1000) *
        (cosDeg (-1 * (if jsCableOrientation.JS_CABLE_ORIENTATION_DOWNSTREAM = cable then 0
          else 180)) / scale) := by
    rw [e0, h0, h1]
    ring
  have hy : ((x : ℚ) - shift_x * 1000) * (sinDeg (-1 * 0) / scale) +
        ((y : ℚ) - shift_y * 1000) * (cosDeg (-1 * 0) / scale) =
      ((y : ℚ) - shift_y * 1000) / scale := by
    rw [e0, h0, h1]
    ring
  rw [← hx, ← hy]
  rfl

theorem cosQuarterTurns_values :
    sinQuarterTurns 0 = 0 ∧ cosQuarterTurns 0 = 1 ∧ cosQuarterTurns 180 = -1 ∧
    cosQuarterTurns (-1 * 180) = -1 ∧ cosQuarterTurns (-1 * 0) = 1 := by
  unfold sinQuarterTurns cosQuarterTurns
  norm_num

/-- C24 (counterexample): with roll 0, zero shift and scale 1, CameraToMill(5, 7) is
(5, 7) for the DOWNSTREAM orientation, whose matrix entry m_xx is 1, and (-5, 7) for the
UPSTREAM orientation, whose m_xx is -1: it is UPSTREAM that carries the 180 degree yaw. -/
theorem C24_downstream_is_not_rotated :
    (AlignmentParams.create sinQuarterTurns cosQuarterTurns 1 0 0 0
      jsCableOrientation.JS_CABLE_ORIENTATION_DOWNSTREAM).m_camera_to_mill_xx = 1 ∧
    (AlignmentParams.create sinQuarterTurns cosQuarterTurns 1 0 0 0
      jsCableOrientation.JS_CABLE_ORIENTATION_UPSTREAM).m_camera_to_mill_xx = -1 ∧
    (AlignmentParams.create sinQuarterTurns cosQuarterTurns 1 0 0 0
      jsCableOrientation.JS_CABLE_ORIENTATION_DOWNSTREAM).CameraToMill 5 7 = some (5, 7) ∧
    (AlignmentParams.create sinQuarterTurns cosQuarterTurns 1 0 0 0
      jsCableOrientation.JS_CABLE_ORIENTATION_UPSTREAM).CameraToMill 5 7 = some (-5, 7) := by
  obtain ⟨s0, c0, c180, _, _⟩ := cosQuarterTurns_values
  have e1 : doubleToInt32 (5 : ℚ) = some 5 := by
    have := doubleToInt32_intCast 5 (by decide) (by decide)
    simpa using this
  have e2 : doubleToInt32 (7 : ℚ) = some 7 := by
    have := doubleToInt32_intCast 7 (by decide) (by decide)
    simpa using this
  have e3 : doubleToInt32 (-5 : ℚ) = some (-5) := by
    have := doubleToInt32_intCast (-5) (by decide) (by decide)
    simpa using this
  refine ⟨?_, ?_, ?_, ?_⟩
  · show cosQuarterTurns 0 * cosQuarterTurns 0 * 1 = 1
    rw [c0]
    norm_num
  · show cosQuarterTurns 180 * cosQuarterTurns 0 * 1 = -1
    rw [c0, c180]
    norm_num
  · rw [CameraToMill_roll_zero _ _ s0 c0, if_pos rfl, c0]
    have a1 : ((5 : Int) : ℚ) * (1 * 1) + 0 * 1000 = 5 := by norm_num
    have a2 : ((7 : Int) : ℚ) * 1 + 0 * 1000 = 7 := by norm_num
    rw [a1, a2, e1, e2]
  · rw [CameraToMill_roll_zero _ _ s0 c0, if_neg (by decide), c180]
    have a1 : ((5 : Int) : ℚ) * (-1 * 1) + 0 * 1000 = -5 := by norm_num
    have a2 : ((7 : Int) : ℚ) * 1 + 0 * 1000 = 7 := by norm_num
    rw [a1, a2, e3, e2]

/-- C24 (amended): in the camera-to-mill transform computed by CalculateTransform it is the
UPSTREAM orientation that applies the 180 degree yaw (cos_yaw = -1, negating the
x-dependent terms m_xx and m_yx), and the DOWNSTREAM orientation applies none
(cos_yaw = +1), for every roll, scale and shift; with roll 0, zero shift and scale 1,
CameraToMill(x, y) = (x, y) for DOWNSTREAM and (-x, y) for UPSTREAM, for every int32_t x
and y with x above INT_MIN. The values sin(0) = 0, cos(0) = 1 and cos(180 degrees) = -1 of
the library functions are hypotheses. -/
theorem C24_upstream_applies_yaw (sinDeg cosDeg : ℚ → ℚ) (h0 : sinDeg 0 = 0)
    (h1 : cosDeg 0 = 1) (h180 : cosDeg 180 = -1) (scale roll shift_x shift_y : ℚ) (x y : Int)
    (hx : -2147483648 < x ∧ x ≤ 2147483647) (hy : -2147483648 ≤ y ∧ y ≤ 2147483647) :
    ((AlignmentParams.create sinDeg cosDeg scale roll shift_x shift_y
        jsCableOrientation.JS_CABLE_ORIENTATION_DOWNSTREAM).m_camera_to_mill_xx =
      cosDeg roll * scale ∧
     (AlignmentParams.create sinDeg cosDeg scale roll shift_x shift_y
        jsCableOrientation.JS_CABLE_ORIENTATION_DOWNSTREAM).m_camera_to_mill_yx =
      sinDeg roll * scale ∧
     (AlignmentParams.create sinDeg cosDeg scale roll shift_x shift_y
        jsCableOrientation.JS_CABLE_ORIENTATION_UPSTREAM).m_camera_to_mill_xx =
      -(cosDeg roll * scale) ∧
     (AlignmentParams.create sinDeg cosDeg scale roll shift_x shift_y
        jsCableOrientation.JS_CABLE_ORIENTATION_UPSTREAM).m_camera_to_mill_yx =
      -(sinDeg roll * scale)) ∧
    (∀ cable : jsCableOrientation,
      (AlignmentParams.create sinDeg cosDeg scale roll shift_x shift_y
        cable).m_camera_to_mill_xy = sinDeg roll * scale ∧
      (AlignmentParams.create sinDeg cosDeg scale roll shift_x shift_y
        cable).m_camera_to_mill_yy = cosDeg roll * scale) ∧
    (AlignmentParams.create sinDeg cosDeg 1 0 0 0
      jsCableOrientation.JS_CABLE_ORIENTATION_DOWNSTREAM).CameraToMill x y = some (x, y) ∧
    (AlignmentParams.create sinDeg cosDeg 1 0 0 0
      jsCableOrientation.JS_CABLE_ORIENTATION_UPSTREAM).CameraToMill x y = some (-x, y) := by
  refine ⟨⟨?_, ?_, ?_, ?_⟩, fun cable => ⟨rfl, rfl⟩, ?_, ?_⟩
  · show cosDeg 0 * cosDeg roll * scale = _
    rw [h1]
    ring
  · show cosDeg 0 * sinDeg roll * scale = _
    rw [h1]
    ring
  · show cosDeg 180 * cosDeg roll * scale = _
    rw [h180]
    ring
  · show cosDeg 180 * sinDeg roll * scale = _
    rw [h180]
    ring
  · rw [CameraToMill_roll_zero _ _ h0 h1, if_pos rfl, h1]
    have a1 : (x : ℚ) * (1 * 1) + 0 * 1000 = ((x : Int) : ℚ) := by ring
    have a2 : (y : ℚ) * 1 + 0 * 1000 = ((y : Int) : ℚ) := by ring
    rw [a1, a2, doubleToInt32_intCast x (by omega) hx.2, doubleToInt32_intCast y hy.1 hy.2]
  · rw [CameraToMill_roll_zero _ _ h0 h1, if_neg (by decide), h180]
    have a1 : (x : ℚ) * (-1 * 1) + 0 * 1000 = ((-x : Int) : ℚ) := by
      push_cast
      ring
    have a2 : (y : ℚ) * 1 + 0 * 1000 = ((y : Int) : ℚ) := by ring
    rw [a1, a2, doubleToInt32_intCast (-x) (by omega) (by omega),
      doubleToInt32_intCast y hy.1 hy.2]

/-- C24 (witness): the transform of the point (5, 7) with the exact values of sine and
cosine at 0 and 180 degrees. -/
theorem C24_upstream_applies_yaw_witness :
    ((AlignmentParams.create sinQuarterTurns cosQuarterTurns 1 0 0 0
        jsCableOrientation.JS_CABLE_ORIENTATION_DOWNSTREAM).m_camera_to_mill_xx =
      cosQuarterTurns 0 * 1 ∧
     (AlignmentParams.create sinQuarterTurns cosQuarterTurns 1 0 0 0
        jsCableOrientation.JS_CABLE_ORIENTATION_DOWNSTREAM).m_camera_to_mill_yx =
      sinQuarterTurns 0 * 1 ∧
     (AlignmentParams.create sinQuarterTurns cosQuarterTurns 1 0 0 0
        jsCableOrientation.JS_CABLE_ORIENTATION_UPSTREAM).m_camera_to_mill_xx =
      -(cosQuarterTurns 0 * 1) ∧
     (AlignmentParams.create sinQuarterTurns cosQuarterTurns 1 0 0 0
        jsCableOrientation.JS_CABLE_ORIENTATION_UPSTREAM).m_camera_to_mill_yx =
      -(sinQuarterTurns 0 * 1)) ∧
    (∀ cable : jsCableOrientation,
      (AlignmentParams.create sinQuarterTurns cosQuarterTurns 1 0 0 0
        cable).m_camera_to_mill_xy = sinQuarterTurns 0 * 1 ∧
      (AlignmentParams.create sinQuarterTurns cosQuarterTurns 1 0 0 0
        cable).m_camera_to_mill_yy = cosQuarterTurns 0 * 1) ∧
    (AlignmentParams.create sinQuarterTurns cosQuarterTurns 1 0 0 0
      jsCableOrientation.JS_CABLE_ORIENTATION_DOWNSTREAM).CameraToMill 5 7 = some (5, 7) ∧
    (AlignmentParams.create sinQuarterTurns cosQuarterTurns 1 0 0 0
      jsCableOrientation.JS_CABLE_ORIENTATION_UPSTREAM).CameraToMill 5 7 = some (-5, 7) :=
  C24_upstream_applies_yaw sinQuarterTurns cosQuarterTurns cosQuarterTurns_values.1
    cosQuarterTurns_values.2.1 cosQuarterTurns_values.2.2.1 1 0 0 0 5 7
    (by decide) (by decide)

/-! ### Round trip through the camera coordinates -/

theorem truncate_neg (q : ℚ) : truncate (-q) = -truncate q := by
  unfold truncate
  rcases lt_trichotomy q 0 with h | h | h
  · rw [if_pos (by linarith), if_neg (by linarith), Int.floor_neg]
  · subst h
    simp
  · rw [if_neg (by linarith), if_pos (by linarith), Int.ceil_neg]

theorem truncate_between (q : ℚ) :
    (0 ≤ q → 0 ≤ truncate q ∧ (truncate q : ℚ) ≤ q ∧ q < truncate q + 1) ∧
    (q < 0 → truncate q ≤ 0 ∧ q ≤ (truncate q : ℚ) ∧ (truncate q : ℚ) - 1 < q) := by
  unfold truncate
  constructor
  · intro h
    rw [if_pos h]
    exact ⟨Int.floor_nonneg.mpr h, Int.floor_le q, Int.lt_floor_add_one q⟩
  · intro h
    rw [if_neg (by linarith)]
    refine ⟨?_, Int.le_ceil q, ?_⟩
    · exact Int.ceil_le.mpr (by simpa using le_of_lt h)
    · have := Int.ceil_lt_add_one q
      linarith

theorem truncate_near (v : ℚ) (n : Int) (h1 : (n : ℚ) - 1 < v) (h2 : v < n + 1) :
    n - 1 ≤ truncate v ∧ truncate v ≤ n + 1 := by
  obtain ⟨hp, hn⟩ := truncate_between v
  by_cases h : 0 ≤ v
  · obtain ⟨_, a2, a3⟩ := hp h
    have b1 : ((n : ℚ) - 1) < (truncate v : ℚ) + 1 := by linarith
    have b2 : (truncate v : ℚ) < (n : ℚ) + 1 := by linarith
    have c1 : n - 1 < truncate v + 1 := by exact_mod_cast b1
    have c2 : truncate v < n + 1 := by exact_mod_cast b2
    omega
  · obtain ⟨_, a2, a3⟩ := hn (by linarith)
    have b1 : ((n : ℚ) - 1) < (truncate v : ℚ) := by linarith
    have b2 : (truncate v : ℚ) - 1 < (n : ℚ) + 1 := by linarith
    have c1 : n - 1 < truncate v := by exact_mod_cast b1
    have c2 : truncate v - 1 < n + 1 := by exact_mod_cast b2
    omega

theorem truncate_range (q : ℚ) (m : Int) (h1 : -(m : ℚ) ≤ q) (h2 : q ≤ m) :
    -m ≤ truncate q ∧ truncate q ≤ m := by
  obtain ⟨hp, hn⟩ := truncate_between q
  by_cases h : 0 ≤ q
  · obtain ⟨a1, a2, _⟩ := hp h
    have b : (truncate q : ℚ) ≤ m := by linarith
    have c : truncate q ≤ m := by exact_mod_cast b
    omega
  · obtain ⟨a1, a2, _⟩ := hn (by linarith)
    have b : -(m : ℚ) ≤ (truncate q : ℚ) := by linarith
    have c : -m ≤ truncate q := by exact_mod_cast b
    omega

theorem round_trip_axis (x : Int) (s : ℚ) (hx : -2147483647 ≤ x ∧ x ≤ 2147483646)
    (hs : -2147483647 ≤ (x : ℚ) - s ∧ (x : ℚ) - s ≤ 2147483647) :
    doubleToInt32 ((x : ℚ) - s) = some (truncate ((x : ℚ) - s)) ∧
    doubleToInt32 (-((x : ℚ) - s)) = some (-truncate ((x : ℚ) - s)) ∧
    doubleToInt32 ((truncate ((x : ℚ) - s) : ℚ) + s) =
      some (truncate ((truncate ((x : ℚ) - s) : ℚ) + s)) ∧
    x - 1 ≤ truncate ((truncate ((x : ℚ) - s) : ℚ) + s) ∧
    truncate ((truncate ((x : ℚ) - s) : ℚ) + s) ≤ x + 1 ∧
    (s = 0 → truncate ((truncate ((x : ℚ) - s) : ℚ) + s) = x) := by
  have hr := truncate_range ((x : ℚ) - s) 2147483647 (by push_cast; linarith [hs.1])
    (by push_cast; linarith [hs.2])
  have hnear : x - 1 ≤ truncate ((truncate ((x : ℚ) - s) : ℚ) + s) ∧
      truncate ((truncate ((x : ℚ) - s) : ℚ) + s) ≤ x + 1 := by
    obtain ⟨hp, hn⟩ := truncate_between ((x : ℚ) - s)
    apply truncate_near
    · by_cases h : 0 ≤ (x : ℚ) - s
      · obtain ⟨_, a2, a3⟩ := hp h
        linarith
      · obtain ⟨_, a2, a3⟩ := hn (by linarith)
        linarith
    · by_cases h : 0 ≤ (x : ℚ) - s
      · obtain ⟨_, a2, a3⟩ := hp h
        linarith
      · obtain ⟨_, a2, a3⟩ := hn (by linarith)
        linarith
  refine ⟨?_, ?_, ?_, hnear.1, hnear.2, ?_⟩
  · unfold doubleToInt32
    rw [if_pos ⟨by omega, by omega⟩]
  · unfold doubleToInt32
    rw [truncate_neg, if_pos ⟨by omega, by omega⟩]
  · unfold doubleToInt32
    rw [if_pos ⟨by omega, by omega⟩]
  · intro h
    subst h
    rw [sub_zero, add_zero, truncate_intCast, truncate_intCast]

theorem doubleToInt32_eq (q : ℚ) (n : Int)
    (h : (0 ≤ q ∧ (n : ℚ) ≤ q ∧ q < n + 1) ∨ (q < 0 ∧ (n : ℚ) - 1 < q ∧ q ≤ n))
    (hn : -2147483648 ≤ n ∧ n ≤ 2147483647) : doubleToInt32 q = some n := by
  have ht : truncate q = n := by
    unfold truncate
    rcases h with ⟨a0, a1, a2⟩ | ⟨a0, a1, a2⟩
    · rw [if_pos a0, Int.floor_eq_iff]
      exact ⟨a1, a2⟩
    · rw [if_neg (not_le.mpr a0), Int.ceil_eq_iff]
      exact ⟨a1, a2⟩
  unfold doubleToInt32
  rw [ht, if_pos hn]

theorem MillToCamera_create (sinDeg cosDeg : ℚ → ℚ) (scale roll shift_x shift_y : ℚ)
    (cable : jsCableOrientation) (x y : Int) :
    (AlignmentParams.create sinDeg cosDeg scale roll shift_x shift_y cable).MillToCamera x y =
      match doubleToInt32 (((x : ℚ) - shift_x * 1000) *
          (cosDeg (-1 * (if jsCableOrientation.JS_CABLE_ORIENTATION_DOWNSTREAM = cable then 0
            else 180)) * cosDeg (-1 * roll) / scale) -
          ((y : ℚ) - shift_y * 1000) *
          (cosDeg (-1 * (if jsCableOrientation.JS_CABLE_ORIENTATION_DOWNSTREAM = cable then 0
            else 180)) * sinDeg (-1 * roll) / scale)),
        doubleToInt32 (((x : ℚ) - shift_x * 1000) * (sinDeg (-1 * roll) / scale) +
          ((y : ℚ) - shift_y * 1000) * (cosDeg (-1 * roll) / scale)) with
      | some xi, some yi => some (xi, yi)
      | _, _ => none :=
  rfl

theorem CameraToMill_create (sinDeg cosDeg : ℚ → ℚ) (scale roll shift_x shift_y : ℚ)
    (cable : jsCableOrientation) (x y : Int) :
    (AlignmentParams.create sinDeg cosDeg scale roll shift_x shift_y cable).CameraToMill x y =
      match doubleToInt32 ((x : ℚ) *
          (cosDeg (if jsCableOrientation.JS_CABLE_ORIENTATION_DOWNSTREAM = cable then 0
            else 180) * cosDeg roll * scale) - (y : ℚ) * (sinDeg roll * scale) +
          shift_x * 1000),
        doubleToInt32 ((x : ℚ) *
          (cosDeg (if jsCableOrientation.JS_CABLE_ORIENTATION_DOWNSTREAM = cable then 0
            else 180) * sinDeg roll * scale) + (y : ℚ) * (cosDeg roll * scale) +
          shift_y * 1000) with
      | some xi, some yi => some (xi, yi)
      | _, _ => none :=
  rfl

theorem eighthTurns_values :
    sinEighthTurns 45 = 1592262918131443 / 2251799813685248 ∧
    sinEighthTurns (-1 * 45) = -1592262918131443 / 2251799813685248 ∧
    cosEighthTurns 45 = 6369051672525773 / 9007199254740992 ∧
    cosEighthTurns (-1 * 45) = 6369051672525773 / 9007199254740992 ∧
    cosEighthTurns 0 = 1 ∧ cosEighthTurns (-1 * 0) = 1 := by
  unfold sinEighthTurns cosEighthTurns
  norm_num

/-- C25 (counterexample): an alignment with scale 25.4, roll 0, zero shift and UPSTREAM
cable. MillToCamera(100, 0) is (-3, 0), since -100 / 25.4 = -3.93... is cut to -3, and
CameraToMill(-3, 0) is (76, 0), since 76.2 is cut to 76: the round trip moves x by 24
units. And an alignment with scale 1, roll 45 degrees, zero shift and DOWNSTREAM cable:
MillToCamera(40, 2) is (29, -26) and CameraToMill(29, -26) is (38, 2), so that the round
trip moves x by 2 units. -/
theorem C25_round_trip_exceeds_one_unit :
    (AlignmentParams.create sinQuarterTurns cosQuarterTurns (254 / 10) 0 0 0
      jsCableOrientation.JS_CABLE_ORIENTATION_UPSTREAM).MillToCamera 100 0 = some (-3, 0) ∧
    (AlignmentParams.create sinQuarterTurns cosQuarterTurns (254 / 10) 0 0 0
      jsCableOrientation.JS_CABLE_ORIENTATION_UPSTREAM).CameraToMill (-3) 0 = some (76, 0) ∧
    ¬ ((100 : Int) - 76 ≤ 1) ∧
    (AlignmentParams.create sinEighthTurns cosEighthTurns 1 45 0 0
      jsCableOrientation.JS_CABLE_ORIENTATION_DOWNSTREAM).MillToCamera 40 2 =
      some (29, -26) ∧
    (AlignmentParams.create sinEighthTurns cosEighthTurns 1 45 0 0
      jsCableOrientation.JS_CABLE_ORIENTATION_DOWNSTREAM).CameraToMill 29 (-26) =
      some (38, 2) ∧
    ¬ ((40 : Int) - 38 ≤ 1) := by
  obtain ⟨s0, c0, c180, cn180, _⟩ := cosQuarterTurns_values
  obtain ⟨t1, t2, t3, t4, t5, t6⟩ := eighthTurns_values
  refine ⟨?_, ?_, by decide, ?_, ?_, by decide⟩
  · rw [MillToCamera_roll_zero _ _ s0 c0, if_neg (by decide), cn180,
      doubleToInt32_eq _ (-3) (Or.inr (by norm_num)) (by decide),
      doubleToInt32_eq _ 0 (Or.inl (by norm_num)) (by decide)]
  · rw [CameraToMill_roll_zero _ _ s0 c0, if_neg (by decide), c180,
      doubleToInt32_eq _ 76 (Or.inl (by norm_num)) (by decide),
      doubleToInt32_eq _ 0 (Or.inl (by norm_num)) (by decide)]
  · rw [MillToCamera_create, if_pos rfl, t6, t4, t2,
      doubleToInt32_eq _ 29 (Or.inl (by norm_num)) (by decide),
      doubleToInt32_eq _ (-26) (Or.inr (by norm_num)) (by decide)]
  · rw [CameraToMill_create, if_pos rfl, t5, t3, t1,
      doubleToInt32_eq _ 38 (Or.inl (by norm_num)) (by decide),
      doubleToInt32_eq _ 2 (Or.inl (by norm_num)) (by decide)]

/-- C25 (amended): for every alignment with scale 1.0 and roll 0 (any shift, any cable
orientation) and every integer point (x, y) in 1/1000 units for which the conversions
stay within int32_t, MillToCamera(x, y) and CameraToMill of its result are defined and
CameraToMill(MillToCamera(x, y)) differs from (x, y) by at most 1 on each axis; an axis
with zero shift comes back exactly. The values sin(0) = 0, cos(0) = 1 and
cos(180 degrees) = cos(-180 degrees) = -1 of the library functions are hypotheses. -/
theorem C25_round_trip_unit_scale (sinDeg cosDeg : ℚ → ℚ) (h0 : sinDeg 0 = 0)
    (h1 : cosDeg 0 = 1) (h180 : cosDeg 180 = -1) (hn180 : cosDeg (-1 * 180) = -1)
    (shift_x shift_y : ℚ) (cable : jsCableOrientation) (x y : Int)
    (hx : -2147483647 ≤ x ∧ x ≤ 2147483646) (hy : -2147483647 ≤ y ∧ y ≤ 2147483646)
    (hsx : -2147483647 ≤ (x : ℚ) - shift_x * 1000 ∧ (x : ℚ) - shift_x * 1000 ≤ 2147483647)
    (hsy : -2147483647 ≤ (y : ℚ) - shift_y * 1000 ∧ (y : ℚ) - shift_y * 1000 ≤ 2147483647) :
    ∃ c m : Int × Int,
      (AlignmentParams.create sinDeg cosDeg 1 0 shift_x shift_y cable).MillToCamera x y =
        some c ∧
      (AlignmentParams.create sinDeg cosDeg 1 0 shift_x shift_y cable).CameraToMill c.1 c.2 =
        some m ∧
      x - 1 ≤ m.1 ∧ m.1 ≤ x + 1 ∧ y - 1 ≤ m.2 ∧ m.2 ≤ y + 1 ∧
      (shift_x = 0 → m.1 = x) ∧ (shift_y = 0 → m.2 = y) := by
  obtain ⟨ax1, ax2, ax3, ax4, ax5, ax6⟩ := round_trip_axis x (shift_x * 1000) hx hsx
  obtain ⟨ay1, _, ay3, ay4, ay5, ay6⟩ := round_trip_axis y (shift_y * 1000) hy hsy
  have e0 : (-1 : ℚ) * 0 = 0 := by norm_num
  have hyc : ((y : ℚ) - shift_y * 1000) / 1 = (y : ℚ) - shift_y * 1000 := by ring
  have hym : ((truncate ((y : ℚ) - shift_y * 1000) : Int) : ℚ) * 1 + shift_y * 1000 =
      (truncate ((y : ℚ) - shift_y * 1000) : ℚ) + shift_y * 1000 := by ring
  have hzx : shift_x = 0 → shift_x * 1000 = 0 := fun h => by rw [h]; ring
  have hzy : shift_y = 0 → shift_y * 1000 = 0 := fun h => by rw [h]; ring
  by_cases hc : jsCableOrientation.JS_CABLE_ORIENTATION_DOWNSTREAM = cable
  · have hxc : ((x : ℚ) - shift_x * 1000) * (1 / 1) = (x : ℚ) - shift_x * 1000 := by ring
    have hxm : ((truncate ((x : ℚ) - shift_x * 1000) : Int) : ℚ) * (1 * 1) + shift_x * 1000 =
        (truncate ((x : ℚ) - shift_x * 1000) : ℚ) + shift_x * 1000 := by ring
    refine ⟨(truncate ((x : ℚ) - shift_x * 1000), truncate ((y : ℚ) - shift_y * 1000)),
      (truncate ((truncate ((x : ℚ) - shift_x * 1000) : ℚ) + shift_x * 1000),
        truncate ((truncate ((y : ℚ) - shift_y * 1000) : ℚ) + shift_y * 1000)),
      ?_, ?_, ax4, ax5, ay4, ay5, fun h => ax6 (hzx h), fun h => ay6 (hzy h)⟩
    · rw [MillToCamera_roll_zero _ _ h0 h1, if_pos hc, e0, h1, hxc, hyc, ax1, ay1]
    · rw [CameraToMill_roll_zero _ _ h0 h1, if_pos hc, h1, hxm, hym, ax3, ay3]
  · have hxc : ((x : ℚ) - shift_x * 1000) * (-1 / 1) = -((x : ℚ) - shift_x * 1000) := by ring
    have hxm : ((-truncate ((x : ℚ) - shift_x * 1000) : Int) : ℚ) * (-1 * 1) +
        shift_x * 1000 = (truncate ((x : ℚ) - shift_x * 1000) : ℚ) + shift_x * 1000 := by
      push_cast
      ring
    refine ⟨(-truncate ((x : ℚ) - shift_x * 1000), truncate ((y : ℚ) - shift_y * 1000)),
      (truncate ((truncate ((x : ℚ) - shift_x * 1000) : ℚ) + shift_x * 1000),
        truncate ((truncate ((y : ℚ) - shift_y * 1000) : ℚ) + shift_y * 1000)),
      ?_, ?_, ax4, ax5, ay4, ay5, fun h => ax6 (hzx h), fun h => ay6 (hzy h)⟩
    · rw [MillToCamera_roll_zero _ _ h0 h1, if_neg hc, hn180, hxc, hyc, ax2, ay1]
    · rw [CameraToMill_roll_zero _ _ h0 h1, if_neg hc, h180, hxm, hym, ax3, ay3]

/-- C25 (witness): the corner (-30000, 30000) of the rectangle top = 30, bottom = -30,
left = -30, right = 30 inches, with roll 0, zero shift and UPSTREAM cable. -/
theorem C25_round_trip_unit_scale_witness :
    ∃ c m : Int × Int,
      (AlignmentParams.create sinQuarterTurns cosQuarterTurns 1 0 0 0
        jsCableOrientation.JS_CABLE_ORIENTATION_UPSTREAM).MillToCamera (-30000) 30000 =
        some c ∧
      (AlignmentParams.create sinQuarterTurns cosQuarterTurns 1 0 0 0
        jsCableOrientation.JS_CABLE_ORIENTATION_UPSTREAM).CameraToMill c.1 c.2 = some m ∧
      -30000 - 1 ≤ m.1 ∧ m.1 ≤ -30000 + 1 ∧ 30000 - 1 ≤ m.2 ∧ m.2 ≤ 30000 + 1 ∧
      ((0 : ℚ) = 0 → m.1 = -30000) ∧ ((0 : ℚ) = 0 → m.2 = 30000) :=
  C25_round_trip_unit_scale sinQuarterTurns cosQuarterTurns cosQuarterTurns_values.1
    cosQuarterTurns_values.2.1 cosQuarterTurns_values.2.2.1 cosQuarterTurns_values.2.2.2.1
    0 0 jsCableOrientation.JS_CABLE_ORIENTATION_UPSTREAM (-30000) 30000
    (by decide) (by decide) (by norm_num) (by norm_num)

/-! ### The datagram header codec -/

/-- C22: for every header whose fields fit their C++ types, the 40 bytes written by
SerializeToBytes, parsed by the constructor of DataPacket (whatever follows them in the
buffer), yield the same magic, exposure_time_us, scan_head_id, camera_port, laser_port,
flags, timestamp_ns, laser_on_time_us, data_type, data_length, number_encoders,
datagram_position, number_datagrams, start_column, end_column and sequence_number; the
parser reads the multi-byte fields big-endian at the offsets 0, 2, 8, 16, 18, 20, 24, 28,
32, 34 and 36 and the single bytes at 4, 5, 6, 7 and 22. The byte at offset 23 is not
parsed. -/
theorem C22_header_round_trip (h : DatagramHeader) (rest : List Nat)
    (h16 : h.magic < 65536 ∧ h.exposure_time_us < 65536 ∧ h.laser_on_time_us < 65536 ∧
      h.data_type < 65536 ∧ h.data_length < 65536 ∧ h.start_column < 65536 ∧
      h.end_column < 65536)
    (h8 : h.scan_head_id < 256 ∧ h.camera_port < 256 ∧ h.laser_port < 256 ∧ h.flags < 256 ∧
      h.number_encoders < 256)
    (h32 : h.datagram_position < 4294967296 ∧ h.number_datagrams < 4294967296 ∧
      h.sequence_number < 4294967296)
    (h64 : h.timestamp_ns < 18446744073709551616) :
    h.SerializeToBytes.length = 40 ∧
    parseHeader (h.SerializeToBytes ++ rest) = { h with DEPRECATED_DO_NOT_USE := 0 } := by
  obtain ⟨a1, a2, a3, a4, a5, a6, a7⟩ := h16
  obtain ⟨b1, b2, b3, b4, b5⟩ := h8
  obtain ⟨c1, c2, c3⟩ := h32
  cases h
  simp only at a1 a2 a3 a4 a5 a6 a7 b1 b2 b3 b4 b5 c1 c2 c3 h64
  constructor
  · simp [DatagramHeader.SerializeToBytes, bytes64, bytes32, bytes16]
  · simp only [parseHeader, DatagramHeader.SerializeToBytes, bytes64, bytes32, bytes16,
      List.cons_append, List.nil_append, List.append_assoc, be64, be32, be16, byteAt,
      List.getD_cons_succ, List.getD_cons_zero, DatagramHeader.mk.injEq,
      List.getD_eq_getElem?_getD, List.getElem?_cons_succ, List.getElem?_cons_zero,
      Option.getD_some]
    refine ⟨?_, ?_, ?_, ?_, ?_, ?_, ?_, ?_, ?_, ?_, ?_, ?_, ?_, ?_, ?_, ?_, ?_⟩
    all_goals first | omega | trivial


/-- C22 (witness): the header of the first datagram of a four-datagram profile for the
columns 0 to 1455, followed by two bytes. -/
theorem C22_header_round_trip_witness :
    (fullWidthHeader 0).SerializeToBytes.length = 40 ∧
    parseHeader ((fullWidthHeader 0).SerializeToBytes ++ [0, 1]) =
      { fullWidthHeader 0 with DEPRECATED_DO_NOT_USE := 0 } :=
  C22_header_round_trip (fullWidthHeader 0) [0, 1] (by decide) (by decide) (by decide)
    (by decide)

/-! ### Handles -/

/-- C23: for a coordinator registered under a uid in [1, 2^31) and a 32-bit serial of a
head it owns, the handle built by _get_jsScanHead equals uid * 2^32 + serial (uid in the
upper 32 bits, serial in the lower 32), is strictly positive, and _get_scan_head_object
applied to it finds exactly the head registered under that serial in the coordinator
registered under that uid. -/
theorem C23_handle_round_trip (uid_to_scan_manager : List (Nat × ScanManager))
    (m : ScanManager) (uid serial p : Nat) (huid : 1 ≤ uid ∧ uid < 2147483648)
    (hserial : serial < 4294967296)
    (hm : managerFind uid_to_scan_manager uid = some m)
    (hp : m.GetScanHeadBySerial serial = some p) :
    _get_jsScanHead uid serial = (uid : Int) * 4294967296 + (serial : Int) ∧
    0 < _get_jsScanHead uid serial ∧
    u32 ((_get_jsScanHead uid serial / 4294967296) % 4294967296) = uid ∧
    u32 (_get_jsScanHead uid serial) = serial ∧
    _get_scan_head_object uid_to_scan_manager (_get_jsScanHead uid serial) = some p := by
  have hor : uid * 4294967296 ||| serial = uid * 4294967296 + serial := by
    have h := Nat.mul_add_lt_is_or (show serial < 2 ^ 32 by norm_num; exact hserial) uid
    have e : (2 : Nat) ^ 32 = 4294967296 := by norm_num
    rw [e] at h
    rw [Nat.mul_comm uid, ← h]
  have hval : _get_jsScanHead uid serial = (uid : Int) * 4294967296 + (serial : Int) := by
    unfold _get_jsScanHead _get_jsScanSystem
    rw [Nat.mod_eq_of_lt (show uid < 4294967296 by omega), Int.toNat_ofNat,
      Nat.mod_eq_of_lt (show uid * 4294967296 < 18446744073709551616 by omega),
      Nat.mod_eq_of_lt hserial, hor]
    unfold i64
    rw [Nat.mod_eq_of_lt (show uid * 4294967296 + serial < 18446744073709551616 by omega),
      if_pos (by omega)]
    push_cast
    rfl
  have hhi : u32 ((_get_jsScanHead uid serial / 4294967296) % 4294967296) = uid := by
    rw [hval]
    unfold u32
    omega
  have hlo : u32 (_get_jsScanHead uid serial) = serial := by
    rw [hval]
    unfold u32
    omega
  refine ⟨hval, by rw [hval]; omega, hhi, hlo, ?_⟩
  unfold _get_scan_head_object _get_scan_manager_object
  rw [hhi, hm]
  simp only [hlo, hp]

/-- C23 (witness): the coordinator with head 1 (serial 1), registered under the uid 1. -/
theorem C23_handle_round_trip_witness :
    _get_jsScanHead 1 1 = ((1 : Nat) : Int) * 4294967296 + ((1 : Nat) : Int) ∧
    0 < _get_jsScanHead 1 1 ∧
    u32 ((_get_jsScanHead 1 1 / 4294967296) % 4294967296) = 1 ∧
    u32 (_get_jsScanHead 1 1) = 1 ∧
    _get_scan_head_object [(1, managerOneHead)] (_get_jsScanHead 1 1) = some 1 :=
  C23_handle_round_trip [(1, managerOneHead)] managerOneHead 1 1 1 (by decide) (by decide)
    (by decide) (by decide)

end joescan
